import Mathlib

/-!
# Verification of the dead-code-elimination pass (V3Dead.cpp)

Shallow embedding of the DCE engine of `src/src/V3Dead.cpp`:
a reference-counting traversal (`DeadVisitor`'s `visit` overloads,
`checkAll`, `checkDType`), the four sweepers (`deadCheckVar`,
`deadCheckScope`, `deadCheckCells`, `deadCheckMod` with
`DeadModVisitor`), and the five public entry points.

AST nodes are modelled the way `V3Ast` lays them out: every node has
child-list slots and a `nextp()` sibling link, so a `Tree` is either
the null pointer or a node carrying an integer id (standing for the
C++ object address), its kind with the kind-specific fields the pass
reads, the two generic dtype links that `checkAll` reads (`dtypep()`
and `getChildDTypep()`), a first child-list slot `sub`, a second
child-list slot `sub2`, and the `nextp()` chain.  Only two child
slots are needed by this pass: an `AstNodeAssign` keeps `rhsp()` in
`sub` and `lhsp()` in `sub2` (they are separate operand slots in C++,
so iterating one never reaches the other), and the netlist keeps
`modulesp()` in `sub` and the type table in `sub2`; every other node
keeps all children in `sub`.

The per-node `user1()` scratch counter is an external map
`Nat → Int`; pointer dereference is id lookup in the tree;
`unlinkFrBack()->deleteTree()` removes the node with the given id
(splicing its `nextp()` chain) together with its child subtrees.
Every deletion is logged: `delEvents` records each direct deletion
target with its counter value at that moment, `deletedIds` records
every id that left the tree (targets and their subtree collateral).
-/

namespace V3Dead

/-- Kind of an AST node, with the kind-specific fields that
`V3Dead.cpp` reads.  Cross references (`modp`, `scopep`, `varScopep`,
`varp`, `packagep`, `aboveScopep`, `virtRefDTypep`) are node ids. -/
inductive Kind where
  /-- `AstNetlist`: the root; handled by the generic visitor. -/
  | netlist
  /-- `AstNodeModule` (plain module or package): `level()`,
  `internal()`, `castPackage()`. -/
  | module (level : Int) (internal : Bool) (isPackage : Bool)
  /-- `AstCell`: `modp()` target module. -/
  | cell (modTarget : Nat)
  /-- `AstScope`: `aboveScopep()`, `isTop()`, and emptiness of the
  `varsp()`/`blocksp()`/`finalClksp()` lists at visit time. -/
  | scope (abovep : Option Nat) (isTop hasVars hasBlocks hasFinalClks : Bool)
  /-- `AstVarScope`: `scopep()`, `varp()`. -/
  | varScope (scopep : Option Nat) (varp : Nat)
  /-- `AstVar`: the flags read by `mightElimVar` and the package pin. -/
  | var (sigPublic isIo isTemp isParam isTrace : Bool)
  /-- `AstNodeDType` (generic data type): `generic()`,
  `castMemberDType()`, `castNodeClassDType()`, `virtRefDTypep()`. -/
  | dtype (generic isMember isClass : Bool) (virtRefp : Option Nat)
  /-- `AstRefDType`: a dtype that also carries `packagep()`. -/
  | refDType (generic : Bool) (virtRefp : Option Nat) (packagep : Option Nat)
  /-- `AstEnumItemRef`: carries `packagep()`; an `AstNodeMath`. -/
  | enumItemRef (packagep : Option Nat)
  /-- `AstNodeVarRef`: `varp()`, `varScopep()`, `packagep()`; an
  `AstNodeMath`. -/
  | varRef (varp : Option Nat) (varScopep : Option Nat) (packagep : Option Nat)
  /-- `AstNodeFTaskRef`: carries `packagep()`. -/
  | ftaskRef (packagep : Option Nat)
  /-- `AstTypedef`: `attrPublic()`. -/
  | typedefD (attrPublic : Bool)
  /-- `AstModport`: emptiness of its `varsp()` list. -/
  | modport (hasVars : Bool)
  /-- `AstCFunc`: `scopep()`. -/
  | cfunc (scopep : Option Nat)
  /-- `AstNodeAssign`: `rhsp()` in `sub`, `lhsp()` in `sub2`. -/
  | assign
  /-- Any other node: `isOutputter()` flag and whether the node is an
  `AstNodeMath` (for the `DeadModVisitor` accelerator). -/
  | other (outputter : Bool) (isMath : Bool)
  deriving Repr, DecidableEq

/-- An AST child list: the null pointer, or a node with its id, kind,
the generic `dtypep()`/`getChildDTypep()` links, two child-list
slots, and the `nextp()` sibling chain. -/
inductive Tree where
  | nil
  | node (id : Nat) (k : Kind) (dtypep childp : Option Nat)
      (sub sub2 next : Tree)
  deriving Repr, DecidableEq

namespace Tree

def id : Tree → Nat
  | .nil => 0
  | .node i _ _ _ _ _ _ => i

def kind : Tree → Kind
  | .nil => .netlist
  | .node _ k _ _ _ _ _ => k

def dtypep : Tree → Option Nat
  | .nil => none
  | .node _ _ d _ _ _ _ => d

def childp : Tree → Option Nat
  | .nil => none
  | .node _ _ _ c _ _ _ => c

def sub : Tree → Tree
  | .nil => .nil
  | .node _ _ _ _ s _ _ => s

def sub2 : Tree → Tree
  | .nil => .nil
  | .node _ _ _ _ _ s _ => s

def next : Tree → Tree
  | .nil => .nil
  | .node _ _ _ _ _ _ n => n

/-- All ids in a child list: the nodes of the whole `nextp()` chain
and everything below them. -/
def ids : Tree → List Nat
  | .nil => []
  | .node i _ _ _ s s2 n => i :: (ids s ++ ids s2 ++ ids n)

/-- The ids that `deleteTree` disposes of when this node is deleted:
the node itself and its child subtrees, not its `nextp()` chain. -/
def subIds : Tree → List Nat
  | .nil => []
  | .node i _ _ _ s s2 _ => i :: (ids s ++ ids s2)

/-- Pointer dereference: find the node with a given id. -/
def lookup : Tree → Nat → Option Tree
  | .nil, _ => none
  | t@(.node i _ _ _ s s2 n), j =>
    if i = j then some t
    else
      match lookup s j with
      | some r => some r
      | none =>
        match lookup s2 j with
        | some r => some r
        | none => lookup n j

/-- `unlinkFrBack()->deleteTree()` on the node with id `j`: splice it
out of whatever list holds it, dropping its child subtrees. -/
def removeSub : Tree → Nat → Tree
  | .nil, _ => .nil
  | .node i k d c s s2 n, j =>
    if i = j then n
    else .node i k d c (removeSub s j) (removeSub s2 j) (removeSub n j)

/-- Null test on a child-list pointer (e.g. `!...->stmtsp()`). -/
def isNil : Tree → Bool
  | .nil => true
  | .node _ _ _ _ _ _ _ => false

/-- Length of a `nextp()` chain. -/
def chainLen : Tree → Nat
  | .nil => 0
  | .node _ _ _ _ _ _ n => chainLen n + 1

end Tree

/-- The four mode flags of `DeadVisitor`'s constructor. -/
structure Flags where
  elimUserVars : Bool
  elimDTypes : Bool
  elimScopes : Bool
  elimCells : Bool
  deriving Repr, DecidableEq

/-- A logged direct deletion: the deleted node's id, its `user1()`
counter at the moment of deletion, and its kind. -/
structure DelEvent where
  id : Nat
  u : Int
  k : Kind
  deriving Repr, DecidableEq

/-- The transient state of one DCE invocation: the `user1()` counters,
the candidate lists, the assignment multimap, the side-effect flag,
the current module, and the deletion logs. -/
structure St where
  uses : Nat → Int
  varsp : List Nat
  dtypesp : List Nat
  vscsp : List Nat
  scopesp : List Nat
  cellsp : List Nat
  assignMap : List (Nat × Nat)
  sideEffect : Bool
  modp : Option (Nat × Bool)
  delEvents : List DelEvent
  deletedIds : List Nat

/-- The state at the start of an invocation: all counters zero. -/
def initSt : St :=
  { uses := fun _ => 0, varsp := [], dtypesp := [], vscsp := [],
    scopesp := [], cellsp := [], assignMap := [], sideEffect := false,
    modp := none, delEvents := [], deletedIds := [] }

/-- `user1Inc(d)` on the node with id `y`. -/
def bump (u : Nat → Int) (y : Nat) (d : Int) : Nat → Int :=
  fun z => if z = y then u z + d else u z

/-- `user1Inc(d)` guarded by a null check on the pointer. -/
def bumpO (u : Nat → Int) (y : Option Nat) (d : Int) : Nat → Int :=
  match y with
  | none => u
  | some y => bump u y d

/-- `checkAll(nodep)`: count the node's own `dtypep()` edge (skipping
the self loop of dtype nodes) and its `getChildDTypep()` edge. -/
def checkAll (i : Nat) (dt cd : Option Nat) (u : Nat → Int) : Nat → Int :=
  let u1 := match dt with
    | some s => if i = s then u else bump u s 1
    | none => u
  bumpO u1 cd 1

/-- `mightElimVar(nodep)` on an `AstVar`'s flags. -/
def mightElimVar (f : Flags) (sigPublic isIo isTemp isParam isTrace : Bool) : Bool :=
  !sigPublic && !isIo && (isTemp || (isParam && !isTrace) || f.elimUserVars)

/-- `mightElimVar` applied through an `AstVarScope`'s `varp()` pointer
(dereferenced in the pristine input tree `orig`). -/
def mightElimVarAt (f : Flags) (orig : Tree) (vid : Nat) : Bool :=
  match orig.lookup vid with
  | some (.node _ (.var sp io tm pa tr) _ _ _ _ _) => mightElimVar f sp io tm pa tr
  | _ => false

/-- `checkDType(nodep)`: collect the dtype as a candidate when
eligible and count the `virtRefDTypep()` edge. -/
def checkDType (f : Flags) (i : Nat) (generic isMember : Bool)
    (virtRefp : Option Nat) (s : St) : St :=
  let s :=
    if !generic && f.elimDTypes && !isMember then
      { s with dtypesp := s.dtypesp ++ [i] }
    else s
  { s with uses := bumpO s.uses virtRefp 1 }

/-- Log that the node `t` was unlinked and its subtree deleted. -/
def logDel (t : Tree) (s : St) : St :=
  { s with delEvents := s.delEvents ++ [⟨t.id, s.uses t.id, t.kind⟩],
           deletedIds := s.deletedIds ++ t.subIds }

/-- The lhs test of `visit(AstNodeAssign*)`:
`nodep->lhsp()->castVarRef()` combined with the `varScopep()` check.
Returns the varref's id, its `varScopep()`, and its `dtypep()` /
`getChildDTypep()` links (for `checkAll(varrefp)`). -/
def lhsRec : Tree → Option (Nat × Nat × Option Nat × Option Nat)
  | .node li (.varRef _ (some lvs) _) ld lc _ _ _ => some (li, lvs, ld, lc)
  | _ => none

/-- The package pin applied by `visit(AstVar*)` and
`visit(AstTypedef*)`: increment the enclosing module's counter when
the node is public and the current module is a package. -/
def pinUses (isPub : Bool) (mp : Option (Nat × Bool)) (u : Nat → Int) : Nat → Int :=
  match mp with
  | some (m, true) => if isPub then bump u m 1 else u
  | _ => u

/-- The varscope part of `visit(AstNodeVarRef*)`: when `varScopep()`
is set, increment the varscope's counter and, through it, its
`varp()`'s counter (dereferenced in the pristine input `orig`). -/
def vsUses (orig : Tree) (vsp : Option Nat) (u : Nat → Int) : Nat → Int :=
  match vsp with
  | some vs =>
    let u := bump u vs 1
    match orig.lookup vs with
    | some (.node _ (.varScope _ vvar) _ _ _ _ _) => bump u vvar 1
    | _ => u
  | none => u

/-- Package handling shared by `AstNodeVarRef`, `AstNodeFTaskRef`,
`AstRefDType` and `AstEnumItemRef`: under `m_elimCells` the
`packagep()` back pointer is nulled, otherwise the package's counter
is incremented.  Returns the new `packagep()` field value. -/
def pkgHandle (f : Flags) (pp : Option Nat) (s : St) : Option Nat × St :=
  match pp with
  | none => (none, s)
  | some p =>
    if f.elimCells then (none, s)
    else (some p, { s with uses := bump s.uses p 1 })

/-- The reference-counting traversal: `DeadVisitor`'s `visit`
overloads, over a child list (`iterateAndNext`: visit the node, then
its `nextp()` chain).  `orig` is the pristine input tree, used to
dereference cross pointers (`varScopep()->varp()`,
`mightElimVar(nodep->varp())`).  An `AstModport` / `AstTypedef` that
unlinks itself under `m_elimCells` disappears from the rebuilt
list. -/
def rcC (f : Flags) (orig : Tree) : Tree → St → Tree × St
  | .nil, s => (.nil, s)
  | .node i k d c sb sb2 nx, s =>
    match k with
    | .module _ _ pkg =>
      -- visit(AstNodeModule*)
      let s := { s with modp := some (i, pkg) }
      let (sb', s) := rcC f orig sb s
      let (sb2', s) := rcC f orig sb2 s
      let s := { s with uses := checkAll i d c s.uses }
      let s := { s with modp := none }
      let (nx', s) := rcC f orig nx s
      (.node i k d c sb' sb2' nx', s)
    | .cfunc scp =>
      -- visit(AstCFunc*)
      let (sb', s) := rcC f orig sb s
      let (sb2', s) := rcC f orig sb2 s
      let s := { s with uses := bumpO (checkAll i d c s.uses) scp 1 }
      let (nx', s) := rcC f orig nx s
      (.node i k d c sb' sb2' nx', s)
    | .scope abv top hv hb hf =>
      -- visit(AstScope*)
      let (sb', s) := rcC f orig sb s
      let (sb2', s) := rcC f orig sb2 s
      let s := { s with uses := bumpO (checkAll i d c s.uses) abv 1 }
      let s :=
        if !top && !hv && !hb && !hf then { s with scopesp := s.scopesp ++ [i] }
        else s
      let (nx', s) := rcC f orig nx s
      (.node i k d c sb' sb2' nx', s)
    | .cell mt =>
      -- visit(AstCell*)
      let (sb', s) := rcC f orig sb s
      let (sb2', s) := rcC f orig sb2 s
      let s := { s with uses := checkAll i d c s.uses }
      let s := { s with cellsp := s.cellsp ++ [i],
                        uses := bump s.uses mt 1 }
      let (nx', s) := rcC f orig nx s
      (.node i k d c sb' sb2' nx', s)
    | .varRef vp vsp pp =>
      -- visit(AstNodeVarRef*)
      let (sb', s) := rcC f orig sb s
      let (sb2', s) := rcC f orig sb2 s
      let s := { s with uses := bumpO (vsUses orig vsp (checkAll i d c s.uses)) vp 1 }
      let (pp', s) := pkgHandle f pp s
      let (nx', s) := rcC f orig nx s
      (.node i (.varRef vp vsp pp') d c sb' sb2' nx', s)
    | .ftaskRef pp =>
      -- visit(AstNodeFTaskRef*)
      let (sb', s) := rcC f orig sb s
      let (sb2', s) := rcC f orig sb2 s
      let s := { s with uses := checkAll i d c s.uses }
      let (pp', s) := pkgHandle f pp s
      let (nx', s) := rcC f orig nx s
      (.node i (.ftaskRef pp') d c sb' sb2' nx', s)
    | .refDType g vr pp =>
      -- visit(AstRefDType*)
      let (sb', s) := rcC f orig sb s
      let (sb2', s) := rcC f orig sb2 s
      let s := checkDType f i g false vr s
      let s := { s with uses := checkAll i d c s.uses }
      let (pp', s) := pkgHandle f pp s
      let (nx', s) := rcC f orig nx s
      (.node i (.refDType g vr pp') d c sb' sb2' nx', s)
    | .dtype g mem _ vr =>
      -- visit(AstNodeDType*)
      let (sb', s) := rcC f orig sb s
      let (sb2', s) := rcC f orig sb2 s
      let s := checkDType f i g mem vr s
      let s := { s with uses := checkAll i d c s.uses }
      let (nx', s) := rcC f orig nx s
      (.node i k d c sb' sb2' nx', s)
    | .enumItemRef pp =>
      -- visit(AstEnumItemRef*): note checkAll is applied twice
      let (sb', s) := rcC f orig sb s
      let (sb2', s) := rcC f orig sb2 s
      let s := { s with uses := checkAll i d c s.uses }
      let (pp', s) := pkgHandle f pp s
      let s := { s with uses := checkAll i d c s.uses }
      let (nx', s) := rcC f orig nx s
      (.node i (.enumItemRef pp') d c sb' sb2' nx', s)
    | .modport hv =>
      -- visit(AstModport*)
      let (sb', s) := rcC f orig sb s
      let (sb2', s) := rcC f orig sb2 s
      if f.elimCells && !hv then
        let s := logDel (.node i k d c sb' sb2' nx) s
        rcC f orig nx s
      else
        let s := { s with uses := checkAll i d c s.uses }
        let (nx', s) := rcC f orig nx s
        (.node i k d c sb' sb2' nx', s)
    | .typedefD pub =>
      -- visit(AstTypedef*)
      let (sb', s) := rcC f orig sb s
      let (sb2', s) := rcC f orig sb2 s
      if f.elimCells && !pub then
        let s := logDel (.node i k d c sb' sb2' nx) s
        rcC f orig nx s
      else
        let s := { s with uses := pinUses pub s.modp (checkAll i d c s.uses) }
        let (nx', s) := rcC f orig nx s
        (.node i k d c sb' sb2' nx', s)
    | .varScope scp vvar =>
      -- visit(AstVarScope*)
      let (sb', s) := rcC f orig sb s
      let (sb2', s) := rcC f orig sb2 s
      let s := { s with uses := bumpO (checkAll i d c s.uses) scp 1 }
      let s :=
        if mightElimVarAt f orig vvar then { s with vscsp := s.vscsp ++ [i] }
        else s
      let (nx', s) := rcC f orig nx s
      (.node i k d c sb' sb2' nx', s)
    | .var sp io tm pa tr =>
      -- visit(AstVar*)
      let (sb', s) := rcC f orig sb s
      let (sb2', s) := rcC f orig sb2 s
      let s := { s with uses := pinUses sp s.modp (checkAll i d c s.uses) }
      let s :=
        if mightElimVar f sp io tm pa tr then { s with varsp := s.varsp ++ [i] }
        else s
      let (nx', s) := rcC f orig nx s
      (.node i k d c sb' sb2' nx', s)
    | .assign =>
      -- visit(AstNodeAssign*): rhsp() is sub, lhsp() is sub2
      let s := { s with sideEffect := false }
      let (sb', s) := rcC f orig sb s
      let s := { s with uses := checkAll i d c s.uses }
      match lhsRec sb2 with
      | some (li, lvs, ld, lc) =>
        if !s.sideEffect then
          -- record in m_assignMap; checkAll(varrefp) tracks the dtype
          let s := { s with assignMap := s.assignMap ++ [(lvs, i)] }
          let s := { s with uses := checkAll li ld lc s.uses }
          let s := { s with uses := checkAll i d c s.uses }
          let (nx', s) := rcC f orig nx s
          (.node i k d c sb' sb2 nx', s)
        else
          let (sb2', s) := rcC f orig sb2 s
          let s := { s with uses := checkAll i d c s.uses }
          let (nx', s) := rcC f orig nx s
          (.node i k d c sb' sb2' nx', s)
      | none =>
        let (sb2', s) := rcC f orig sb2 s
        let s := { s with uses := checkAll i d c s.uses }
        let (nx', s) := rcC f orig nx s
        (.node i k d c sb' sb2' nx', s)
    | .netlist =>
      -- handled by visit(AstNode*); a netlist is not an outputter
      let (sb', s) := rcC f orig sb s
      let (sb2', s) := rcC f orig sb2 s
      let s := { s with uses := checkAll i d c s.uses }
      let (nx', s) := rcC f orig nx s
      (.node i k d c sb' sb2' nx', s)
    | .other outp _ =>
      -- visit(AstNode*)
      let s := if outp then { s with sideEffect := true } else s
      let (sb', s) := rcC f orig sb s
      let (sb2', s) := rcC f orig sb2 s
      let s := { s with uses := checkAll i d c s.uses }
      let (nx', s) := rcC f orig nx s
      (.node i k d c sb' sb2' nx', s)

/-- The reference-counting stage: the whole-netlist traversal
(`nodep->accept(*this)` in the constructor), before any sweeper. -/
def rcRun (f : Flags) (t : Tree) : Tree × St :=
  rcC f t t initSt

end V3Dead

namespace V3Dead

/-- One step of the assign cleanup inside `deadCheckVar`: decrement
the assign's `dtypep()` counter, then unlink and delete the assign. -/
def delAssign (t : Tree) (s : St) (aid : Nat) : Tree × St :=
  match t.lookup aid with
  | some a =>
    let s := { s with uses := bumpO s.uses a.dtypep (-1) }
    let s := logDel a s
    (t.removeSub aid, s)
  | none => (t, s)

/-- Deletion of one dead `AstVarScope` in `deadCheckVar`: delete the
assigns recorded for it in `m_assignMap` (in insertion order), then
decrement its `scopep()` and `dtypep()` counters and delete it. -/
def vscDead (t : Tree) (s : St) (v : Nat) : Tree × St :=
  let aids := (s.assignMap.filter (fun p => p.1 = v)).map (·.2)
  let (t, s) := aids.foldl (fun ts aid => delAssign ts.1 ts.2 aid) (t, s)
  match t.lookup v with
  | some vn =>
    match vn.kind with
    | .varScope scp _ =>
      let s := { s with uses := bumpO s.uses scp (-1) }
      let s := { s with uses := bumpO s.uses vn.dtypep (-1) }
      let s := logDel vn s
      (t.removeSub v, s)
    | _ => (t, s)
  | none => (t, s)

/-- First loop of `deadCheckVar`: sweep the `m_vscsp` candidates. -/
def vscPhase : List Nat → Tree → St → Tree × St
  | [], t, s => (t, s)
  | v :: rest, t, s =>
    if s.uses v = 0 then
      let (t, s) := vscDead t s v
      vscPhase rest t s
    else vscPhase rest t s

/-- One pass of the retry loop over the `m_varsp` candidates
(`none` marks a slot already consumed, `*it = NULL` in the source).
The returned flag is the pass's `retry`. -/
def varPass : List (Option Nat) → Tree → St → List (Option Nat) × Tree × St × Bool
  | [], t, s => ([], t, s, false)
  | none :: rest, t, s =>
    let (rest', t, s, r) := varPass rest t s
    (none :: rest', t, s, r)
  | some v :: rest, t, s =>
    if s.uses v = 0 then
      match t.lookup v with
      | some vn =>
        let s := { s with uses := bumpO s.uses vn.dtypep (-1) }
        let s := logDel vn s
        let t := t.removeSub v
        let (rest', t, s, _) := varPass rest t s
        (none :: rest', t, s, true)
      | none =>
        let (rest', t, s, r) := varPass rest t s
        (some v :: rest', t, s, r)
    else
      let (rest', t, s, r) := varPass rest t s
      (some v :: rest', t, s, r)

/-- The `for (bool retry...)` loop over the `m_varsp` candidates.  The
returned flag tells whether the loop exited because a full pass
deleted nothing (always true when enough fuel is supplied). -/
def varLoop : Nat → List (Option Nat) → Tree → St → List (Option Nat) × Tree × St × Bool
  | 0, slots, t, s => (slots, t, s, false)
  | fuel + 1, slots, t, s =>
    let (slots', t', s', retry) := varPass slots t s
    if retry then varLoop fuel slots' t' s' else (slots', t', s', true)

/-- Class/struct test (`castNodeClassDType`). -/
def isClassK : Kind → Bool
  | .dtype _ _ true _ => true
  | _ => false

/-- The member-survival guard of `deadCheckVar`: walk the member
chain (`membersp()`, stopping at the first node that is not an
`AstMemberDType`, as the `castMemberDType` iteration does) and report
whether any member is still referenced. -/
def classKeep (s : St) : Tree → Bool
  | .node mi (.dtype _ true _ _) _ _ _ _ mnx =>
    s.uses mi != 0 || classKeep s mnx
  | _ => false

/-- Third loop of `deadCheckVar`: sweep the `m_dtypesp` candidates.
No counter is decremented when a dtype is deleted. -/
def dtypePhase : List Nat → Tree → St → Tree × St
  | [], t, s => (t, s)
  | dId :: rest, t, s =>
    if s.uses dId = 0 then
      match t.lookup dId with
      | some dn =>
        if isClassK dn.kind && classKeep s dn.sub then dtypePhase rest t s
        else
          let s := logDel dn s
          dtypePhase rest (t.removeSub dId) s
      | none => dtypePhase rest t s
    else dtypePhase rest t s

/-- `deadCheckVar()`: varscopes (with their recorded assigns), then
the var retry loop, then the dtypes. -/
def deadCheckVarF (t : Tree) (s : St) : Tree × St :=
  let (t, s) := vscPhase s.vscsp t s
  let slots := s.varsp.map some
  let (_, t, s, _) := varLoop (slots.length + 1) slots t s
  dtypePhase s.dtypesp t s

/-- One pass of the retry loop of `deadCheckScope()`. -/
def scopePass : List (Option Nat) → Tree → St → List (Option Nat) × Tree × St × Bool
  | [], t, s => ([], t, s, false)
  | none :: rest, t, s =>
    let (rest', t, s, r) := scopePass rest t s
    (none :: rest', t, s, r)
  | some v :: rest, t, s =>
    if s.uses v = 0 then
      match t.lookup v with
      | some sn =>
        match sn.kind with
        | .scope abv _ _ _ _ =>
          let s := { s with uses := bumpO s.uses abv (-1) }
          let s := { s with uses := bumpO s.uses sn.dtypep (-1) }
          let s := logDel sn s
          let t := t.removeSub v
          let (rest', t, s, _) := scopePass rest t s
          (none :: rest', t, s, true)
        | _ =>
          let (rest', t, s, r) := scopePass rest t s
          (some v :: rest', t, s, r)
      | none =>
        let (rest', t, s, r) := scopePass rest t s
        (some v :: rest', t, s, r)
    else
      let (rest', t, s, r) := scopePass rest t s
      (some v :: rest', t, s, r)

/-- The retry loop of `deadCheckScope()`. -/
def scopeLoop : Nat → List (Option Nat) → Tree → St → List (Option Nat) × Tree × St × Bool
  | 0, slots, t, s => (slots, t, s, false)
  | fuel + 1, slots, t, s =>
    let (slots', t', s', retry) := scopePass slots t s
    if retry then scopeLoop fuel slots' t' s' else (slots', t', s', true)

/-- `deadCheckScope()`. -/
def deadCheckScopeF (t : Tree) (s : St) : Tree × St :=
  let slots := s.scopesp.map some
  let (_, t, s, _) := scopeLoop (slots.length + 1) slots t s
  (t, s)

/-- `deadCheckCells()`: a single pass over the `m_cellsp` candidates;
a cell dies when unreferenced and its target module has no statements
left; the target module's counter is decremented. -/
def cellPhase : List Nat → Tree → St → Tree × St
  | [], t, s => (t, s)
  | cId :: rest, t, s =>
    match t.lookup cId with
    | some cn =>
      match cn.kind with
      | .cell mt =>
        let tgtEmpty :=
          match t.lookup mt with
          | some mn => (mn.sub).isNil
          | none => false
        if s.uses cId = 0 && tgtEmpty then
          let s := { s with uses := bump s.uses mt (-1) }
          let s := logDel cn s
          cellPhase rest (t.removeSub cId) s
        else cellPhase rest t s
      | _ => cellPhase rest t s
    | none => cellPhase rest t s

/-- `deadCheckCells()` on the recorded candidate list. -/
def deadCheckCellsF (t : Tree) (s : St) : Tree × St :=
  cellPhase s.cellsp t s

/-- `DeadModVisitor`: traverse a dying module's child list and
decrement the target-module counter of every cell found; the
`visit(AstNodeMath*)` accelerator skips math subtrees
(`AstNodeVarRef` and `AstEnumItemRef` are math nodes). -/
def dmC : Tree → (Nat → Int) → Nat → Int
  | .nil, u => u
  | .node _ k _ _ sb sb2 nx, u =>
    match k with
    | .cell mt => dmC nx (bump (dmC sb2 (dmC sb u)) mt (-1))
    | .varRef _ _ _ => dmC nx u
    | .enumItemRef _ => dmC nx u
    | .other _ true => dmC nx u
    | _ => dmC nx (dmC sb2 (dmC sb u))

/-- One pass of `deadCheckMod()` over the netlist's module list.  The
deletion event is logged with the counter value that the guard tested,
before `DeadModVisitor` runs (`DeadModVisitor` does not change the
dying module's own counter unless the module instantiates itself). -/
def modPass : Tree → St → Tree × St × Bool
  | .nil, s => (.nil, s, false)
  | .node i k d c sb sb2 nx, s =>
    match k with
    | .module lvl intl _ =>
      if lvl > 2 ∧ s.uses i = 0 ∧ ¬intl then
        let s := logDel (.node i k d c sb sb2 nx) s
        let s := { s with uses := dmC (.node i k d c sb sb2 .nil) s.uses }
        let (nx', s, _) := modPass nx s
        (nx', s, true)
      else
        let (nx', s, r) := modPass nx s
        (.node i k d c sb sb2 nx', s, r)
    | _ =>
      let (nx', s, r) := modPass nx s
      (.node i k d c sb sb2 nx', s, r)

/-- The retry loop of `deadCheckMod()`.  The returned flag tells
whether the loop exited because a full pass deleted nothing. -/
def modLoop : Nat → Tree → St → Tree × St × Bool
  | 0, ms, s => (ms, s, false)
  | fuel + 1, ms, s =>
    let (ms', s', retry) := modPass ms s
    if retry then modLoop fuel ms' s' else (ms', s', true)

/-- `deadCheckMod()` on the netlist root (the module list is the
netlist's first child slot). -/
def deadCheckModF (t : Tree) (s : St) : Tree × St :=
  match t with
  | .nil => (.nil, s)
  | .node i k d c sb sb2 nx =>
    let (sb', s, _) := modLoop (sb.chainLen + 1) sb s
    (.node i k d c sb' sb2 nx, s)

/-- The `DeadVisitor` constructor body: traverse the whole netlist,
then run the sweepers in their fixed order (`deadCheckVar`, optional
`deadCheckScope`, optional `deadCheckCells`, `deadCheckMod`).  The
type-table `clearCache`/`repairCache` calls concern a collaborator
outside this pass and have no effect on the modelled state. -/
def runDead (f : Flags) (t0 : Tree) : Tree × St :=
  let (t1, s) := rcRun f t0
  let (t2, s) := deadCheckVarF t1 s
  let (t3, s) := if f.elimScopes then deadCheckScopeF t2 s else (t2, s)
  let (t4, s) := if f.elimCells then deadCheckCellsF t3 s else (t3, s)
  deadCheckModF t4 s

/-- `V3Dead::deadifyModules`. -/
def deadifyModules (t : Tree) : Tree × St :=
  runDead ⟨false, false, false, false⟩ t

/-- `V3Dead::deadifyDTypes`. -/
def deadifyDTypes (t : Tree) : Tree × St :=
  runDead ⟨false, true, false, false⟩ t

/-- `V3Dead::deadifyDTypesScoped`. -/
def deadifyDTypesScoped (t : Tree) : Tree × St :=
  runDead ⟨false, true, true, false⟩ t

/-- `V3Dead::deadifyAll`. -/
def deadifyAll (t : Tree) : Tree × St :=
  runDead ⟨true, true, false, true⟩ t

/-- `V3Dead::deadifyAllScoped`. -/
def deadifyAllScoped (t : Tree) : Tree × St :=
  runDead ⟨true, true, true, true⟩ t

end V3Dead

namespace V3Dead

/-- Transient state of the spec-modelled reference counter of §4.1:
the counters, the side-effect flag and the current module. -/
structure CSt where
  uses : Nat → Int
  sideEffect : Bool
  modp : Option (Nat × Bool)

/-- Package handling of the §4.1 model, counting side only. -/
def cntPkg (f : Flags) (pp : Option Nat) (u : Nat → Int) : Nat → Int :=
  match pp with
  | none => u
  | some p => if f.elimCells then u else bump u p 1

/-- Modelled from the spec: the reference counter of §4.1 as a pure
edge counter.  Each handler applies the increments the specification
lists; with `dbl = false` the default edge-count is applied exactly
once per handler, which is what §4.1 requires of the Assign and
Enum-item-ref handlers ("spec requires it applied once"); with
`dbl = true` those two handlers apply it twice, as the source does. -/
def cntC (dbl : Bool) (f : Flags) (orig : Tree) : Tree → CSt → CSt
  | .nil, s => s
  | .node i k d c sb sb2 nx, s =>
    match k with
    | .module _ _ pkg =>
      let s := { s with modp := some (i, pkg) }
      let s := cntC dbl f orig sb2 (cntC dbl f orig sb s)
      let s := { s with uses := checkAll i d c s.uses, modp := none }
      cntC dbl f orig nx s
    | .cfunc scp =>
      let s := cntC dbl f orig sb2 (cntC dbl f orig sb s)
      let s := { s with uses := bumpO (checkAll i d c s.uses) scp 1 }
      cntC dbl f orig nx s
    | .scope abv _ _ _ _ =>
      let s := cntC dbl f orig sb2 (cntC dbl f orig sb s)
      let s := { s with uses := bumpO (checkAll i d c s.uses) abv 1 }
      cntC dbl f orig nx s
    | .cell mt =>
      let s := cntC dbl f orig sb2 (cntC dbl f orig sb s)
      let s := { s with uses := bump (checkAll i d c s.uses) mt 1 }
      cntC dbl f orig nx s
    | .varRef vp vsp pp =>
      let s := cntC dbl f orig sb2 (cntC dbl f orig sb s)
      let s := { s with uses := cntPkg f pp (bumpO (vsUses orig vsp (checkAll i d c s.uses)) vp 1) }
      cntC dbl f orig nx s
    | .ftaskRef pp =>
      let s := cntC dbl f orig sb2 (cntC dbl f orig sb s)
      let s := { s with uses := cntPkg f pp (checkAll i d c s.uses) }
      cntC dbl f orig nx s
    | .refDType _ vr pp =>
      let s := cntC dbl f orig sb2 (cntC dbl f orig sb s)
      let s := { s with uses := cntPkg f pp (checkAll i d c (bumpO s.uses vr 1)) }
      cntC dbl f orig nx s
    | .dtype _ _ _ vr =>
      let s := cntC dbl f orig sb2 (cntC dbl f orig sb s)
      let s := { s with uses := checkAll i d c (bumpO s.uses vr 1) }
      cntC dbl f orig nx s
    | .enumItemRef pp =>
      let s := cntC dbl f orig sb2 (cntC dbl f orig sb s)
      let s := { s with uses := cntPkg f pp (checkAll i d c s.uses) }
      let s := if dbl then { s with uses := checkAll i d c s.uses } else s
      cntC dbl f orig nx s
    | .modport hv =>
      let s := cntC dbl f orig sb2 (cntC dbl f orig sb s)
      if f.elimCells && !hv then cntC dbl f orig nx s
      else cntC dbl f orig nx { s with uses := checkAll i d c s.uses }
    | .typedefD pub =>
      let s := cntC dbl f orig sb2 (cntC dbl f orig sb s)
      if f.elimCells && !pub then cntC dbl f orig nx s
      else
        let s := { s with uses := pinUses pub s.modp (checkAll i d c s.uses) }
        cntC dbl f orig nx s
    | .varScope scp _ =>
      let s := cntC dbl f orig sb2 (cntC dbl f orig sb s)
      let s := { s with uses := bumpO (checkAll i d c s.uses) scp 1 }
      cntC dbl f orig nx s
    | .var sp _ _ _ _ =>
      let s := cntC dbl f orig sb2 (cntC dbl f orig sb s)
      let s := { s with uses := pinUses sp s.modp (checkAll i d c s.uses) }
      cntC dbl f orig nx s
    | .assign =>
      let s := { s with sideEffect := false }
      let s := cntC dbl f orig sb s
      let s := { s with uses := checkAll i d c s.uses }
      match lhsRec sb2 with
      | some (li, _, ld, lc) =>
        if !s.sideEffect then
          let s := { s with uses := checkAll li ld lc s.uses }
          let s := if dbl then { s with uses := checkAll i d c s.uses } else s
          cntC dbl f orig nx s
        else
          let s := cntC dbl f orig sb2 s
          let s := if dbl then { s with uses := checkAll i d c s.uses } else s
          cntC dbl f orig nx s
      | none =>
        let s := cntC dbl f orig sb2 s
        let s := if dbl then { s with uses := checkAll i d c s.uses } else s
        cntC dbl f orig nx s
    | .netlist =>
      let s := cntC dbl f orig sb2 (cntC dbl f orig sb s)
      cntC dbl f orig nx { s with uses := checkAll i d c s.uses }
    | .other outp _ =>
      let s := if outp then { s with sideEffect := true } else s
      let s := cntC dbl f orig sb2 (cntC dbl f orig sb s)
      cntC dbl f orig nx { s with uses := checkAll i d c s.uses }

/-- Projection of the full traversal state onto the counting state. -/
def St.toC (s : St) : CSt := ⟨s.uses, s.sideEffect, s.modp⟩

end V3Dead
namespace V3Dead

/-- The traversal's counters coincide with the doubled edge-count
model: at every state, running `DeadVisitor`'s visit over a child
list changes `uses`, `m_sideEffect` and `m_modp` exactly as the §4.1
edge counter with the Assign / Enum-item-ref double application
(`dbl = true`) does. -/
theorem rcC_toC (f : Flags) (orig : Tree) : (t : Tree) → (s : St) →
    (rcC f orig t s).2.toC = cntC true f orig t s.toC
  | .nil, _ => rfl
  | .node i k d c sb sb2 nx, s => by
    cases k with
    | netlist =>
      simp only [rcC, cntC]
      rcases h1 : rcC f orig sb s with ⟨sb1, s1⟩
      have ih1 := rcC_toC f orig sb s
      rw [h1] at ih1; dsimp only
      rcases h2 : rcC f orig sb2 s1 with ⟨sb2', s2⟩
      have ih2 := rcC_toC f orig sb2 s1
      rw [h2] at ih2; dsimp only
      dsimp only [St.toC] at ih1 ih2 ⊢
      rw [← ih1, ← ih2]
      dsimp only
      exact rcC_toC f orig nx _
    | module lvl intl pkg =>
      simp only [rcC, cntC]
      rcases h1 : rcC f orig sb { s with modp := some (i, pkg) } with ⟨sb1, s1⟩
      have ih1 := rcC_toC f orig sb { s with modp := some (i, pkg) }
      rw [h1] at ih1; dsimp only
      rcases h2 : rcC f orig sb2 s1 with ⟨sb2', s2⟩
      have ih2 := rcC_toC f orig sb2 s1
      rw [h2] at ih2; dsimp only
      dsimp only [St.toC] at ih1 ih2 ⊢
      rw [← ih1, ← ih2]
      dsimp only
      exact rcC_toC f orig nx _
    | cfunc scp =>
      simp only [rcC, cntC]
      rcases h1 : rcC f orig sb s with ⟨sb1, s1⟩
      have ih1 := rcC_toC f orig sb s
      rw [h1] at ih1; dsimp only
      rcases h2 : rcC f orig sb2 s1 with ⟨sb2', s2⟩
      have ih2 := rcC_toC f orig sb2 s1
      rw [h2] at ih2; dsimp only
      dsimp only [St.toC] at ih1 ih2 ⊢
      rw [← ih1, ← ih2]
      dsimp only
      exact rcC_toC f orig nx _
    | scope abv top hv hb hf =>
      simp only [rcC, cntC]
      rcases h1 : rcC f orig sb s with ⟨sb1, s1⟩
      have ih1 := rcC_toC f orig sb s
      rw [h1] at ih1; dsimp only
      rcases h2 : rcC f orig sb2 s1 with ⟨sb2', s2⟩
      have ih2 := rcC_toC f orig sb2 s1
      rw [h2] at ih2; dsimp only
      dsimp only [St.toC] at ih1 ih2 ⊢
      rw [← ih1, ← ih2]
      dsimp only
      by_cases hc : (!top && !hv && !hb && !hf) = true
      · rw [if_pos hc]; exact rcC_toC f orig nx _
      · rw [if_neg hc]; exact rcC_toC f orig nx _
    | cell mt =>
      simp only [rcC, cntC]
      rcases h1 : rcC f orig sb s with ⟨sb1, s1⟩
      have ih1 := rcC_toC f orig sb s
      rw [h1] at ih1; dsimp only
      rcases h2 : rcC f orig sb2 s1 with ⟨sb2', s2⟩
      have ih2 := rcC_toC f orig sb2 s1
      rw [h2] at ih2; dsimp only
      dsimp only [St.toC] at ih1 ih2 ⊢
      rw [← ih1, ← ih2]
      dsimp only
      exact rcC_toC f orig nx _
    | varScope scp vvar =>
      simp only [rcC, cntC]
      rcases h1 : rcC f orig sb s with ⟨sb1, s1⟩
      have ih1 := rcC_toC f orig sb s
      rw [h1] at ih1; dsimp only
      rcases h2 : rcC f orig sb2 s1 with ⟨sb2', s2⟩
      have ih2 := rcC_toC f orig sb2 s1
      rw [h2] at ih2; dsimp only
      dsimp only [St.toC] at ih1 ih2 ⊢
      rw [← ih1, ← ih2]
      dsimp only
      by_cases hc : mightElimVarAt f orig vvar = true
      · rw [if_pos hc]; exact rcC_toC f orig nx _
      · rw [if_neg hc]; exact rcC_toC f orig nx _
    | dtype g mem cl vr =>
      simp only [rcC, cntC, checkDType]
      rcases h1 : rcC f orig sb s with ⟨sb1, s1⟩
      have ih1 := rcC_toC f orig sb s
      rw [h1] at ih1; dsimp only
      rcases h2 : rcC f orig sb2 s1 with ⟨sb2', s2⟩
      have ih2 := rcC_toC f orig sb2 s1
      rw [h2] at ih2; dsimp only
      dsimp only [St.toC] at ih1 ih2 ⊢
      rw [← ih1, ← ih2]
      dsimp only
      by_cases hc : (!g && f.elimDTypes && !mem) = true
      · rw [if_pos hc]; exact rcC_toC f orig nx _
      · rw [if_neg hc]; exact rcC_toC f orig nx _
    | var sp io tm pa tr =>
      simp only [rcC, cntC]
      rcases h1 : rcC f orig sb s with ⟨sb1, s1⟩
      have ih1 := rcC_toC f orig sb s
      rw [h1] at ih1; dsimp only
      rcases h2 : rcC f orig sb2 s1 with ⟨sb2', s2⟩
      have ih2 := rcC_toC f orig sb2 s1
      rw [h2] at ih2; dsimp only
      dsimp only [St.toC] at ih1 ih2 ⊢
      rw [← ih1, ← ih2]
      dsimp only
      by_cases hc : mightElimVar f sp io tm pa tr = true
      · rw [if_pos hc]; exact rcC_toC f orig nx _
      · rw [if_neg hc]; exact rcC_toC f orig nx _
    | varRef vp vsp pp =>
      simp only [rcC, cntC]
      rcases h1 : rcC f orig sb s with ⟨sb1, s1⟩
      have ih1 := rcC_toC f orig sb s
      rw [h1] at ih1; dsimp only
      rcases h2 : rcC f orig sb2 s1 with ⟨sb2', s2⟩
      have ih2 := rcC_toC f orig sb2 s1
      rw [h2] at ih2; dsimp only
      dsimp only [St.toC] at ih1 ih2 ⊢
      rw [← ih1, ← ih2]
      dsimp only
      cases pp with
      | none => exact rcC_toC f orig nx _
      | some p =>
        by_cases hc : f.elimCells = true
        · simp only [pkgHandle, cntPkg, if_pos hc]; exact rcC_toC f orig nx _
        · simp only [pkgHandle, cntPkg, if_neg hc]; exact rcC_toC f orig nx _
    | ftaskRef pp =>
      simp only [rcC, cntC]
      rcases h1 : rcC f orig sb s with ⟨sb1, s1⟩
      have ih1 := rcC_toC f orig sb s
      rw [h1] at ih1; dsimp only
      rcases h2 : rcC f orig sb2 s1 with ⟨sb2', s2⟩
      have ih2 := rcC_toC f orig sb2 s1
      rw [h2] at ih2; dsimp only
      dsimp only [St.toC] at ih1 ih2 ⊢
      rw [← ih1, ← ih2]
      dsimp only
      cases pp with
      | none => exact rcC_toC f orig nx _
      | some p =>
        by_cases hc : f.elimCells = true
        · simp only [pkgHandle, cntPkg, if_pos hc]; exact rcC_toC f orig nx _
        · simp only [pkgHandle, cntPkg, if_neg hc]; exact rcC_toC f orig nx _
    | refDType g vr pp =>
      simp only [rcC, cntC, checkDType]
      rcases h1 : rcC f orig sb s with ⟨sb1, s1⟩
      have ih1 := rcC_toC f orig sb s
      rw [h1] at ih1; dsimp only
      rcases h2 : rcC f orig sb2 s1 with ⟨sb2', s2⟩
      have ih2 := rcC_toC f orig sb2 s1
      rw [h2] at ih2; dsimp only
      dsimp only [St.toC] at ih1 ih2 ⊢
      rw [← ih1, ← ih2]
      dsimp only
      by_cases hd : (!g && f.elimDTypes && !false) = true
      · rw [if_pos hd]
        cases pp with
        | none => exact rcC_toC f orig nx _
        | some p =>
          by_cases hc : f.elimCells = true
          · simp only [pkgHandle, cntPkg, if_pos hc]; exact rcC_toC f orig nx _
          · simp only [pkgHandle, cntPkg, if_neg hc]; exact rcC_toC f orig nx _
      · rw [if_neg hd]
        cases pp with
        | none => exact rcC_toC f orig nx _
        | some p =>
          by_cases hc : f.elimCells = true
          · simp only [pkgHandle, cntPkg, if_pos hc]; exact rcC_toC f orig nx _
          · simp only [pkgHandle, cntPkg, if_neg hc]; exact rcC_toC f orig nx _
    | enumItemRef pp =>
      simp only [rcC, cntC, reduceIte]
      rcases h1 : rcC f orig sb s with ⟨sb1, s1⟩
      have ih1 := rcC_toC f orig sb s
      rw [h1] at ih1; dsimp only
      rcases h2 : rcC f orig sb2 s1 with ⟨sb2', s2⟩
      have ih2 := rcC_toC f orig sb2 s1
      rw [h2] at ih2; dsimp only
      dsimp only [St.toC] at ih1 ih2 ⊢
      rw [← ih1, ← ih2]
      dsimp only
      cases pp with
      | none => exact rcC_toC f orig nx _
      | some p =>
        by_cases hc : f.elimCells = true
        · simp only [pkgHandle, cntPkg, if_pos hc]; exact rcC_toC f orig nx _
        · simp only [pkgHandle, cntPkg, if_neg hc]; exact rcC_toC f orig nx _
    | modport hv =>
      simp only [rcC, cntC]
      rcases h1 : rcC f orig sb s with ⟨sb1, s1⟩
      have ih1 := rcC_toC f orig sb s
      rw [h1] at ih1; dsimp only
      rcases h2 : rcC f orig sb2 s1 with ⟨sb2', s2⟩
      have ih2 := rcC_toC f orig sb2 s1
      rw [h2] at ih2; dsimp only
      dsimp only [St.toC] at ih1 ih2 ⊢
      rw [← ih1, ← ih2]
      dsimp only
      by_cases hc : (f.elimCells && !hv) = true
      · simp only [if_pos hc]; exact rcC_toC f orig nx _
      · simp only [if_neg hc]; exact rcC_toC f orig nx _
    | typedefD pub =>
      simp only [rcC, cntC]
      rcases h1 : rcC f orig sb s with ⟨sb1, s1⟩
      have ih1 := rcC_toC f orig sb s
      rw [h1] at ih1; dsimp only
      rcases h2 : rcC f orig sb2 s1 with ⟨sb2', s2⟩
      have ih2 := rcC_toC f orig sb2 s1
      rw [h2] at ih2; dsimp only
      dsimp only [St.toC] at ih1 ih2 ⊢
      rw [← ih1, ← ih2]
      dsimp only
      by_cases hc : (f.elimCells && !pub) = true
      · simp only [if_pos hc]; exact rcC_toC f orig nx _
      · simp only [if_neg hc]; exact rcC_toC f orig nx _
    | other outp mth =>
      simp only [rcC, cntC]
      by_cases ho : outp = true
      · simp only [if_pos ho]
        rcases h1 : rcC f orig sb { s with sideEffect := true } with ⟨sb1, s1⟩
        have ih1 := rcC_toC f orig sb { s with sideEffect := true }
        rw [h1] at ih1; dsimp only
        rcases h2 : rcC f orig sb2 s1 with ⟨sb2', s2⟩
        have ih2 := rcC_toC f orig sb2 s1
        rw [h2] at ih2; dsimp only
        dsimp only [St.toC] at ih1 ih2 ⊢
        rw [← ih1, ← ih2]
        dsimp only
        exact rcC_toC f orig nx _
      · simp only [if_neg ho]
        rcases h1 : rcC f orig sb s with ⟨sb1, s1⟩
        have ih1 := rcC_toC f orig sb s
        rw [h1] at ih1; dsimp only
        rcases h2 : rcC f orig sb2 s1 with ⟨sb2', s2⟩
        have ih2 := rcC_toC f orig sb2 s1
        rw [h2] at ih2; dsimp only
        dsimp only [St.toC] at ih1 ih2 ⊢
        rw [← ih1, ← ih2]
        dsimp only
        exact rcC_toC f orig nx _
    | assign =>
      simp only [rcC, cntC, reduceIte]
      rcases h1 : rcC f orig sb { s with sideEffect := false } with ⟨sb1, s1⟩
      have ih1 := rcC_toC f orig sb { s with sideEffect := false }
      rw [h1] at ih1; dsimp only
      dsimp only [St.toC] at ih1 ⊢
      rw [← ih1]
      dsimp only
      rcases hL : lhsRec sb2 with _ | ⟨li, lvs, ld, lc⟩
      · dsimp only
        rcases h2 : rcC f orig sb2 { s1 with uses := checkAll i d c s1.uses } with ⟨sb2', s2⟩
        have ih2 := rcC_toC f orig sb2 { s1 with uses := checkAll i d c s1.uses }
        rw [h2] at ih2; dsimp only
        dsimp only [St.toC] at ih2 ⊢
        rw [← ih2]
        dsimp only
        exact rcC_toC f orig nx _
      · dsimp only
        by_cases hse : (!s1.sideEffect) = true
        · simp only [if_pos hse]
          exact rcC_toC f orig nx _
        · simp only [if_neg hse]
          rcases h2 : rcC f orig sb2 { s1 with uses := checkAll i d c s1.uses } with ⟨sb2', s2⟩
          have ih2 := rcC_toC f orig sb2 { s1 with uses := checkAll i d c s1.uses }
          rw [h2] at ih2; dsimp only
          dsimp only [St.toC] at ih2 ⊢
          rw [← ih2]
          dsimp only
          exact rcC_toC f orig nx _

end V3Dead

namespace V3Dead

/-- Flags of `deadifyModules` (all eliminations off). -/
def flagsModules : Flags := ⟨false, false, false, false⟩

/-- Flags of `deadifyDTypes`. -/
def flagsDTypes : Flags := ⟨false, true, false, false⟩

/-- The counting state at the start of an invocation. -/
def initC : CSt := ⟨fun _ => 0, false, none⟩

/-- Example netlist for the C1 counterexample: an `AstEnumItemRef`
(id 1) whose `dtypep()` is the dtype node with id 2; the one counted
edge into node 2 is that dtype edge. -/
def exC1 : Tree :=
  .node 0 .netlist none none .nil
    (.node 1 (.enumItemRef none) (some 2) none .nil .nil
      (.node 2 (.dtype false false false none) (some 2) none .nil .nil .nil))
    .nil

/-- C1, counterexample: after the reference-counting traversal of
`exC1`, `uses[2]` is 2, while the number of counted incoming edges of
node 2 under the §4.1 once-per-edge rule is 1: the Enum-item-ref
handler applied the default edge-count twice, so the claim "uses[y]
is incremented exactly once per observed edge, the double application
contributing only one increment per dtype edge" is false here. -/
theorem C1_counterexample :
    (rcRun flagsModules exC1).2.uses 2 = 2 ∧
      (cntC false flagsModules exC1 exC1 initC).uses 2 = 1 ∧
      (rcRun flagsModules exC1).2.uses 2 ≠
        (cntC false flagsModules exC1 exC1 initC).uses 2 := by
  refine ⟨by decide, by decide, by decide⟩

/-- C1, amended: after the reference-counting traversal, `uses[y]`
equals the §4.1 edge count in which every handler applies its
increments once per edge, except that the Assign and Enum-item-ref
handlers apply the default edge-count twice, contributing two
increments per `dtypep()` / child-dtype edge of the node (the
increments are not idempotent). -/
theorem C1_amended_rc_counts (f : Flags) (t : Tree) :
    (rcRun f t).2.uses = (cntC true f t t initC).uses := by
  have h := rcC_toC f t t initSt
  exact congrArg CSt.uses h

end V3Dead

namespace V3Dead

/-- Example netlist for the C2 counterexample: in the type table, a
dtype chain in which dtype 1 references dtype 2 through
`virtRefDTypep()`, and nothing references dtype 1. -/
def exC2 : Tree :=
  .node 0 .netlist none none .nil
    (.node 1 (.dtype false false false (some 2)) (some 1) none .nil .nil
      (.node 2 (.dtype false false false none) (some 2) none .nil .nil .nil))
    .nil

/-- C2, counterexample: `deadifyDTypes` on `exC2` deletes dtype 1
(and nothing else); running the same entry point a second time on the
resulting tree deletes dtype 2, a node the first run left in place —
the dtype sweep performs no counter fix-up, so dtype 2 only becomes
unreferenced when the second run recounts from scratch.  The second
run does not leave the tree unchanged. -/
theorem C2_counterexample :
    (deadifyDTypes exC2).2.deletedIds = [1] ∧
      ((deadifyDTypes exC2).1.lookup 2).isSome = true ∧
      (deadifyDTypes (deadifyDTypes exC2).1).2.deletedIds = [2] ∧
      (deadifyDTypes (deadifyDTypes exC2).1).1 ≠ (deadifyDTypes exC2).1 := by
  refine ⟨by decide, by decide, by decide, by decide⟩

/-- C2, amended: the pass is not idempotent — a second run may delete
nodes the first run left alone.  What does hold is that the pass is a
deterministic function of the tree: whenever a run returns its input
tree unchanged, running the same entry point again returns that tree
unchanged as well. -/
theorem C2_amended_fixpoint (f : Flags) (t : Tree)
    (h : (runDead f t).1 = t) :
    (runDead f (runDead f t).1).1 = (runDead f t).1 := by
  simp only [h]

/-- A netlist that `deadifyModules` leaves unchanged: one top user
module (level 2) with no eliminable content. -/
def exFix : Tree :=
  .node 0 .netlist none none
    (.node 1 (.module 2 false false) none none .nil .nil .nil) .nil .nil

/-- Witness for the C2 amended theorem at `exFix`. -/
theorem C2_amended_witness :
    (runDead flagsModules (runDead flagsModules exFix).1).1
      = (runDead flagsModules exFix).1 :=
  C2_amended_fixpoint flagsModules exFix (by decide)

/-- Example netlist for the C10 counterexample: dtype 1 owns dtype 2
as its child dtype (`getChildDTypep()`), so the only counted edge
into dtype 2 is the child-dtype edge from dtype 1. -/
def exC10 : Tree :=
  .node 0 .netlist none none .nil
    (.node 1 (.dtype false false false none) (some 1) (some 2)
      (.node 2 (.dtype false false false none) (some 2) none .nil .nil .nil)
      .nil .nil)
    .nil

/-- C10, counterexample: in `deadifyDTypes` on `exC10`, dtype 2's
counter stays at 1 (no fix-up happens), yet dtype 2 is removed in the
same invocation: it sits inside dtype 1's subtree, and `deleteTree`
on dtype 1 disposes of it.  The claim's conclusion "…and is not
removed in the same invocation" is false here. -/
theorem C10_counterexample :
    (deadifyDTypes exC10).2.uses 2 = 1 ∧
      (deadifyDTypes exC10).2.deletedIds = [1, 2] := by
  refine ⟨by decide, by decide⟩

/-- The node returned by `lookup` carries the id that was looked
up. -/
theorem lookup_id : (t : Tree) → (j : Nat) → (a : Tree) →
    t.lookup j = some a → a.id = j
  | .nil, _, _, h => by simp [Tree.lookup] at h
  | .node i k d c sb sb2 nx, j, a, h => by
    simp only [Tree.lookup] at h
    by_cases hij : i = j
    · simp only [if_pos hij] at h
      cases h
      exact hij
    · simp only [if_neg hij] at h
      cases hs : sb.lookup j with
      | some r =>
        rw [hs] at h
        cases h
        exact lookup_id sb j _ hs
      | none =>
        rw [hs] at h
        cases hs2 : sb2.lookup j with
        | some r =>
          rw [hs2] at h
          cases h
          exact lookup_id sb2 j _ hs2
        | none =>
          rw [hs2] at h
          exact lookup_id nx j a h

/-- The dtype sweep changes no counter. -/
theorem dtypePhase_uses (ds : List Nat) (t : Tree) (s : St) :
    (dtypePhase ds t s).2.uses = s.uses := by
  induction ds generalizing t s with
  | nil => rfl
  | cons dId rest ih =>
    by_cases h0 : s.uses dId = 0
    · simp only [dtypePhase, if_pos h0]
      cases hl : t.lookup dId with
      | none => exact ih t s
      | some dn =>
        by_cases hk : (isClassK dn.kind && classKeep s dn.sub) = true
        · simp only [if_pos hk]; exact ih t s
        · simp only [if_neg hk]
          rw [ih (t.removeSub dId) (logDel dn s)]
          rfl
    · simp only [dtypePhase, if_neg h0]; exact ih t s

/-- Every deletion event logged by the dtype sweep records a counter
value of zero, tested on the unchanged counters. -/
theorem dtypePhase_events (ds : List Nat) (t : Tree) (s : St)
    (ev : DelEvent) (hev : ev ∈ (dtypePhase ds t s).2.delEvents)
    (hnew : ev ∉ s.delEvents) : ev.u = 0 ∧ s.uses ev.id = 0 := by
  induction ds generalizing t s with
  | nil => exact absurd hev hnew
  | cons dId rest ih =>
    by_cases h0 : s.uses dId = 0
    · simp only [dtypePhase, if_pos h0] at hev
      cases hl : t.lookup dId with
      | none => rw [hl] at hev; exact ih t s hev hnew
      | some dn =>
        rw [hl] at hev
        by_cases hk : (isClassK dn.kind && classKeep s dn.sub) = true
        · simp only [if_pos hk] at hev; exact ih t s hev hnew
        · simp only [if_neg hk] at hev
          by_cases hin : ev ∈ (logDel dn s).delEvents
          · simp only [logDel, List.mem_append, List.mem_singleton] at hin
            rcases hin with h | h
            · exact absurd h hnew
            · subst h
              have hid := lookup_id t dId dn hl
              refine ⟨?_, ?_⟩ <;> simp only [hid, h0]
          · have := ih (t.removeSub dId) (logDel dn s) hev hin
            exact ⟨this.1, this.2⟩
    · simp only [dtypePhase, if_neg h0] at hev; exact ih t s hev hnew

/-- C10, amended: deleting a dtype candidate performs no counter
fix-up — the dtype sweep never changes any `uses` counter — and every
event it logs records a counter of zero, so a dtype whose only
counted reference came from a deleted dtype keeps its positive count
and can leave the tree only as collateral of the deleted dtype's own
subtree, never as a direct target of the sweep. -/
theorem C10_amended_dtype_sweep (ds : List Nat) (t : Tree) (s : St)
    (ev : DelEvent) (hev : ev ∈ (dtypePhase ds t s).2.delEvents)
    (hnew : ev ∉ s.delEvents) :
    (dtypePhase ds t s).2.uses = s.uses ∧ ev.u = 0 ∧ s.uses ev.id = 0 :=
  ⟨dtypePhase_uses ds t s, (dtypePhase_events ds t s ev hev hnew).1,
    (dtypePhase_events ds t s ev hev hnew).2⟩

/-- Witness for the C10 amended theorem: the dtype sweep of the
`deadifyDTypes` run on `exC10` deletes dtype 1, whose counter is
zero, and changes no counter. -/
theorem C10_amended_witness :
    (dtypePhase [2, 1] (rcRun flagsDTypes exC10).1 (rcRun flagsDTypes exC10).2).2.uses
        = (rcRun flagsDTypes exC10).2.uses ∧
      (⟨1, 0, .dtype false false false none⟩ : DelEvent).u = 0 ∧
      (rcRun flagsDTypes exC10).2.uses
        (⟨1, 0, .dtype false false false none⟩ : DelEvent).id = 0 :=
  C10_amended_dtype_sweep [2, 1] (rcRun flagsDTypes exC10).1
    (rcRun flagsDTypes exC10).2 ⟨1, 0, .dtype false false false none⟩
    (by decide) (by decide)

end V3Dead

namespace V3Dead

/-- Number of slots not yet consumed in a candidate list. -/
def nsome : List (Option Nat) → Nat
  | [] => 0
  | none :: rest => nsome rest
  | some _ :: rest => nsome rest + 1

theorem nsome_le_length : (l : List (Option Nat)) → nsome l ≤ l.length
  | [] => Nat.le_refl 0
  | none :: rest => Nat.le_succ_of_le (nsome_le_length rest)
  | some _ :: rest => Nat.succ_le_succ (nsome_le_length rest)

/-- A pass of the var retry loop never grows the slot count. -/
theorem varPass_nsome_le : (slots : List (Option Nat)) → (t : Tree) → (s : St) →
    nsome (varPass slots t s).1 ≤ nsome slots
  | [], _, _ => Nat.le_refl 0
  | none :: rest, t, s => varPass_nsome_le rest t s
  | some v :: rest, t, s => by
    by_cases h0 : s.uses v = 0
    · simp only [varPass, if_pos h0]
      cases hl : t.lookup v with
      | some vn =>
        simp only [nsome]
        exact Nat.le_succ_of_le (varPass_nsome_le rest _ _)
      | none =>
        simp only [nsome]
        exact Nat.succ_le_succ (varPass_nsome_le rest t s)
    · simp only [varPass, if_neg h0, nsome]
      exact Nat.succ_le_succ (varPass_nsome_le rest t s)

/-- A pass of the var retry loop that sets `retry` consumed a slot:
it deleted at least one var. -/
theorem varPass_retry_lt : (slots : List (Option Nat)) → (t : Tree) → (s : St) →
    (varPass slots t s).2.2.2 = true →
    nsome (varPass slots t s).1 < nsome slots
  | [], _, _, h => by simp [varPass] at h
  | none :: rest, t, s, h => by
    simp only [varPass] at h ⊢
    exact varPass_retry_lt rest t s h
  | some v :: rest, t, s, h => by
    by_cases h0 : s.uses v = 0
    · simp only [varPass, if_pos h0] at h ⊢
      cases hl : t.lookup v with
      | some vn =>
        simp only [nsome]
        exact Nat.lt_succ_of_le (varPass_nsome_le rest _ _)
      | none =>
        rw [hl] at h
        simp only at h
        simp only [nsome]
        exact Nat.succ_lt_succ (varPass_retry_lt rest t s h)
    · simp only [varPass, if_neg h0] at h ⊢
      simp only [nsome]
      exact Nat.succ_lt_succ (varPass_retry_lt rest t s h)

/-- With fuel exceeding the live slot count, the var retry loop exits
through a pass that deleted nothing. -/
theorem varLoop_done : (fuel : Nat) → (slots : List (Option Nat)) →
    (t : Tree) → (s : St) → nsome slots < fuel →
    (varLoop fuel slots t s).2.2.2 = true
  | 0, _, _, _, h => absurd h (Nat.not_lt_zero _)
  | fuel + 1, slots, t, s, h => by
    simp only [varLoop]
    by_cases hr : (varPass slots t s).2.2.2 = true
    · rcases hp : varPass slots t s with ⟨slots', t', s', retry⟩
      rw [hp] at hr
      simp only at hr
      subst hr
      simp only [if_pos rfl]
      have hlt := varPass_retry_lt slots t s (by rw [hp])
      rw [hp] at hlt
      exact varLoop_done fuel slots' t' s'
        (Nat.lt_of_lt_of_le hlt (Nat.le_of_lt_succ h))
    · rcases hp : varPass slots t s with ⟨slots', t', s', retry⟩
      rw [hp] at hr
      simp only at hr
      cases retry with
      | true => exact absurd rfl hr
      | false => simp

end V3Dead

namespace V3Dead

theorem scopePass_nsome_le : (slots : List (Option Nat)) → (t : Tree) → (s : St) →
    nsome (scopePass slots t s).1 ≤ nsome slots
  | [], _, _ => Nat.le_refl 0
  | none :: rest, t, s => scopePass_nsome_le rest t s
  | some v :: rest, t, s => by
    by_cases h0 : s.uses v = 0
    · simp only [scopePass, if_pos h0]
      cases hl : t.lookup v with
      | some sn =>
        rcases sn with _ | ⟨si, sk, sd, sc, ssb, ssb2, snx⟩
        · simp only [Tree.kind, nsome]
          exact Nat.succ_le_succ (scopePass_nsome_le rest t s)
        · simp only [Tree.kind]
          cases sk with
          | scope abv top hv hb hf =>
            simp only [nsome]
            exact Nat.le_succ_of_le (scopePass_nsome_le rest _ _)
          | _ =>
            simp only [nsome]
            exact Nat.succ_le_succ (scopePass_nsome_le rest t s)
      | none =>
        simp only [nsome]
        exact Nat.succ_le_succ (scopePass_nsome_le rest t s)
    · simp only [scopePass, if_neg h0, nsome]
      exact Nat.succ_le_succ (scopePass_nsome_le rest t s)

theorem scopePass_retry_lt : (slots : List (Option Nat)) → (t : Tree) → (s : St) →
    (scopePass slots t s).2.2.2 = true →
    nsome (scopePass slots t s).1 < nsome slots
  | [], _, _, h => by simp [scopePass] at h
  | none :: rest, t, s, h => by
    simp only [scopePass] at h ⊢
    exact scopePass_retry_lt rest t s h
  | some v :: rest, t, s, h => by
    by_cases h0 : s.uses v = 0
    · simp only [scopePass, if_pos h0] at h ⊢
      cases hl : t.lookup v with
      | some sn =>
        rw [hl] at h
        rcases sn with _ | ⟨si, sk, sd, sc, ssb, ssb2, snx⟩
        · simp only [Tree.kind] at h ⊢
          simp only [nsome]
          exact Nat.succ_lt_succ (scopePass_retry_lt rest t s h)
        · simp only [Tree.kind] at h ⊢
          cases sk with
          | scope abv top hv hb hf =>
            simp only [nsome]
            exact Nat.lt_succ_of_le (scopePass_nsome_le rest _ _)
          | _ =>
            simp only at h
            simp only [nsome]
            exact Nat.succ_lt_succ (scopePass_retry_lt rest t s h)
      | none =>
        rw [hl] at h
        simp only at h
        simp only [nsome]
        exact Nat.succ_lt_succ (scopePass_retry_lt rest t s h)
    · simp only [scopePass, if_neg h0] at h ⊢
      simp only [nsome]
      exact Nat.succ_lt_succ (scopePass_retry_lt rest t s h)

theorem scopeLoop_done : (fuel : Nat) → (slots : List (Option Nat)) →
    (t : Tree) → (s : St) → nsome slots < fuel →
    (scopeLoop fuel slots t s).2.2.2 = true
  | 0, _, _, _, h => absurd h (Nat.not_lt_zero _)
  | fuel + 1, slots, t, s, h => by
    simp only [scopeLoop]
    rcases hp : scopePass slots t s with ⟨slots', t', s', retry⟩
    cases retry with
    | true =>
      simp only [if_pos rfl]
      have hlt := scopePass_retry_lt slots t s (by rw [hp])
      rw [hp] at hlt
      exact scopeLoop_done fuel slots' t' s'
        (Nat.lt_of_lt_of_le hlt (Nat.le_of_lt_succ h))
    | false => simp

theorem modPass_len_le : (ms : Tree) → (s : St) →
    (modPass ms s).1.chainLen ≤ ms.chainLen
  | .nil, _ => Nat.le_refl 0
  | .node i k d c sb sb2 nx, s => by
    cases k with
    | module lvl intl pkg =>
      by_cases hg : lvl > 2 ∧ s.uses i = 0 ∧ ¬intl
      · simp only [modPass, if_pos hg]
        simp only [Tree.chainLen]
        exact Nat.le_succ_of_le (modPass_len_le nx _)
      · simp only [modPass, if_neg hg, Tree.chainLen]
        exact Nat.succ_le_succ (modPass_len_le nx s)
    | _ =>
      simp only [modPass, Tree.chainLen]
      exact Nat.succ_le_succ (modPass_len_le nx s)

theorem modPass_retry_lt : (ms : Tree) → (s : St) →
    (modPass ms s).2.2 = true →
    (modPass ms s).1.chainLen < ms.chainLen
  | .nil, _, h => by simp [modPass] at h
  | .node i k d c sb sb2 nx, s, h => by
    cases k with
    | module lvl intl pkg =>
      by_cases hg : lvl > 2 ∧ s.uses i = 0 ∧ ¬intl
      · simp only [modPass, if_pos hg]
        simp only [Tree.chainLen]
        exact Nat.lt_succ_of_le (modPass_len_le nx _)
      · simp only [modPass, if_neg hg] at h ⊢
        simp only [Tree.chainLen]
        exact Nat.succ_lt_succ (modPass_retry_lt nx s h)
    | _ =>
      simp only [modPass] at h ⊢
      simp only [Tree.chainLen]
      exact Nat.succ_lt_succ (modPass_retry_lt nx s h)

theorem modLoop_done : (fuel : Nat) → (ms : Tree) → (s : St) →
    ms.chainLen < fuel → (modLoop fuel ms s).2.2 = true
  | 0, _, _, h => absurd h (Nat.not_lt_zero _)
  | fuel + 1, ms, s, h => by
    simp only [modLoop]
    rcases hp : modPass ms s with ⟨ms', s', retry⟩
    cases retry with
    | true =>
      simp only [if_pos rfl]
      have hlt := modPass_retry_lt ms s (by rw [hp])
      rw [hp] at hlt
      exact modLoop_done fuel ms' s'
        (Nat.lt_of_lt_of_le hlt (Nat.le_of_lt_succ h))
    | false => simp

/-- C8: every fixed-point loop of the pass terminates with the fuel
the pass supplies (one more than the candidate count): the var retry
loop, the scope retry loop and the module retry loop all exit through
a full pass that deleted nothing, because a pass that sets `retry`
has deleted at least one candidate, strictly decreasing the live
candidate count (`varPass_retry_lt`, `scopePass_retry_lt`,
`modPass_retry_lt`); the remaining phases are single passes over
finite candidate lists, so every DCE invocation terminates. -/
theorem C8_loops_terminate :
    (∀ (slots : List (Option Nat)) (t : Tree) (s : St),
      (varLoop (slots.length + 1) slots t s).2.2.2 = true) ∧
    (∀ (slots : List (Option Nat)) (t : Tree) (s : St),
      (scopeLoop (slots.length + 1) slots t s).2.2.2 = true) ∧
    (∀ (ms : Tree) (s : St), (modLoop (ms.chainLen + 1) ms s).2.2 = true) := by
  refine ⟨fun slots t s => ?_, fun slots t s => ?_, fun ms s => ?_⟩
  · exact varLoop_done _ slots t s (Nat.lt_succ_of_le (nsome_le_length slots))
  · exact scopeLoop_done _ slots t s (Nat.lt_succ_of_le (nsome_le_length slots))
  · exact modLoop_done _ ms s (Nat.lt_succ_of_le (Nat.le_refl _))

end V3Dead

namespace V3Dead

/-- Module-sweep eligibility of a node kind, as `deadCheckMod` tests
it: a module with `level() > 2` that is not `internal()`. -/
def modElig : Kind → Bool
  | .module lvl intl _ => decide (lvl > 2) && !intl
  | _ => false

/-- Find a node by id in a top-level `nextp()` chain. -/
def findTop : Tree → Nat → Option Kind
  | .nil, _ => none
  | .node i k _ _ _ _ n, j => if i = j then some k else findTop n j

/-- Every event a module-sweep pass logs tested a zero counter on an
eligible module. -/
theorem modPass_events : (ms : Tree) → (s : St) → (ev : DelEvent) →
    ev ∈ (modPass ms s).2.1.delEvents →
    ev ∈ s.delEvents ∨ (ev.u = 0 ∧ modElig ev.k = true)
  | .nil, s, ev, h => Or.inl h
  | .node i k d c sb sb2 nx, s, ev, h => by
    cases k with
    | module lvl intl pkg =>
      by_cases hg : lvl > 2 ∧ s.uses i = 0 ∧ ¬intl
      · simp only [modPass, if_pos hg] at h
        have := modPass_events nx _ ev h
        rcases this with hin | hgood
        · simp only [logDel, List.mem_append, List.mem_singleton] at hin
          rcases hin with hin | hin
          · exact Or.inl hin
          · subst hin
            refine Or.inr ⟨hg.2.1, ?_⟩
            simp only [Tree.kind, modElig, Bool.and_eq_true, decide_eq_true_eq,
              Bool.not_eq_true']
            exact ⟨hg.1, by simpa using hg.2.2⟩
        · exact Or.inr hgood
      · simp only [modPass, if_neg hg] at h
        exact modPass_events nx s ev h
    | _ =>
      simp only [modPass] at h
      exact modPass_events nx s ev h

/-- Same, through the retry loop. -/
theorem modLoop_events : (fuel : Nat) → (ms : Tree) → (s : St) → (ev : DelEvent) →
    ev ∈ (modLoop fuel ms s).2.1.delEvents →
    ev ∈ s.delEvents ∨ (ev.u = 0 ∧ modElig ev.k = true)
  | 0, _, _, _, h => Or.inl h
  | fuel + 1, ms, s, ev, h => by
    simp only [modLoop] at h
    rcases hp : modPass ms s with ⟨ms', s', retry⟩
    rw [hp] at h
    cases retry with
    | true =>
      simp only [if_pos rfl] at h
      rcases modLoop_events fuel ms' s' ev h with hin | hgood
      · have := modPass_events ms s ev (by rw [hp]; exact hin)
        exact this
      · exact Or.inr hgood
    | false =>
      simp only at h
      exact modPass_events ms s ev (by rw [hp]; exact h)

/-- A module-sweep pass keeps any ineligible module in place. -/
theorem modPass_keeps : (ms : Tree) → (s : St) → (j : Nat) → (k0 : Kind) →
    findTop ms j = some k0 → modElig k0 = false →
    findTop (modPass ms s).1 j = some k0
  | .nil, _, _, _, h, _ => by simp [findTop] at h
  | .node i k d c sb sb2 nx, s, j, k0, h, hne => by
    simp only [findTop] at h
    by_cases hij : i = j
    · simp only [if_pos hij] at h
      cases h
      cases k with
      | module lvl intl pkg =>
        have hg : ¬(lvl > 2 ∧ s.uses i = 0 ∧ ¬intl) := by
          intro hg
          have : modElig (.module lvl intl pkg) = true := by
            simp only [modElig, Bool.and_eq_true, decide_eq_true_eq,
              Bool.not_eq_true']
            exact ⟨hg.1, by simpa using hg.2.2⟩
          rw [hne] at this
          exact Bool.noConfusion this
        simp only [modPass, if_neg hg, findTop, if_pos hij]
      | netlist => simp only [modPass, findTop, if_pos hij]
      | cell mt => simp only [modPass, findTop, if_pos hij]
      | scope a b e g q => simp only [modPass, findTop, if_pos hij]
      | varScope a b => simp only [modPass, findTop, if_pos hij]
      | var a b e g q => simp only [modPass, findTop, if_pos hij]
      | dtype a b e g => simp only [modPass, findTop, if_pos hij]
      | refDType a b e => simp only [modPass, findTop, if_pos hij]
      | enumItemRef a => simp only [modPass, findTop, if_pos hij]
      | varRef a b e => simp only [modPass, findTop, if_pos hij]
      | ftaskRef a => simp only [modPass, findTop, if_pos hij]
      | typedefD a => simp only [modPass, findTop, if_pos hij]
      | modport a => simp only [modPass, findTop, if_pos hij]
      | cfunc a => simp only [modPass, findTop, if_pos hij]
      | assign => simp only [modPass, findTop, if_pos hij]
      | other a b => simp only [modPass, findTop, if_pos hij]
    · simp only [if_neg hij] at h
      cases k with
      | module lvl intl pkg =>
        by_cases hg : lvl > 2 ∧ s.uses i = 0 ∧ ¬intl
        · simp only [modPass, if_pos hg]
          exact modPass_keeps nx _ j k0 h hne
        · simp only [modPass, if_neg hg, findTop, if_neg hij]
          exact modPass_keeps nx s j k0 h hne
      | _ =>
        simp only [modPass, findTop, if_neg hij]
        exact modPass_keeps nx s j k0 h hne

/-- Same, through the retry loop. -/
theorem modLoop_keeps : (fuel : Nat) → (ms : Tree) → (s : St) → (j : Nat) → (k0 : Kind) →
    findTop ms j = some k0 → modElig k0 = false →
    findTop (modLoop fuel ms s).1 j = some k0
  | 0, _, _, _, _, h, _ => h
  | fuel + 1, ms, s, j, k0, h, hne => by
    simp only [modLoop]
    rcases hp : modPass ms s with ⟨ms', s', retry⟩
    have hkeep := modPass_keeps ms s j k0 h hne
    rw [hp] at hkeep
    cases retry with
    | true =>
      simp only [if_pos rfl]
      exact modLoop_keeps fuel ms' s' j k0 hkeep hne
    | false => simpa using hkeep

/-- A pass that reports no deletion changed nothing. -/
theorem modPass_noretry : (ms : Tree) → (s : St) →
    (modPass ms s).2.2 = false → (modPass ms s).1 = ms ∧ (modPass ms s).2.1 = s
  | .nil, s, _ => ⟨rfl, rfl⟩
  | .node i k d c sb sb2 nx, s, h => by
    cases k with
    | module lvl intl pkg =>
      by_cases hg : lvl > 2 ∧ s.uses i = 0 ∧ ¬intl
      · simp only [modPass, if_pos hg] at h
        exact absurd h (by decide)
      · simp only [modPass, if_neg hg] at h ⊢
        have := modPass_noretry nx s h
        rw [this.1, this.2]
        exact ⟨rfl, rfl⟩
    | _ =>
      simp only [modPass] at h ⊢
      have := modPass_noretry nx s h
      rw [this.1, this.2]
      exact ⟨rfl, rfl⟩

/-- With enough fuel, the retry loop reaches a fixed point of the
pass: one more pass over its result deletes nothing. -/
theorem modLoop_fix : (fuel : Nat) → (ms : Tree) → (s : St) →
    ms.chainLen < fuel →
    (modPass (modLoop fuel ms s).1 (modLoop fuel ms s).2.1).2.2 = false
  | 0, _, _, h => absurd h (Nat.not_lt_zero _)
  | fuel + 1, ms, s, h => by
    simp only [modLoop]
    rcases hp : modPass ms s with ⟨ms', s', retry⟩
    cases retry with
    | true =>
      simp only [if_pos rfl]
      have hlt := modPass_retry_lt ms s (by rw [hp])
      rw [hp] at hlt
      exact modLoop_fix fuel ms' s' (Nat.lt_of_lt_of_le hlt (Nat.le_of_lt_succ h))
    | false =>
      have h2 := modPass_noretry ms s (by rw [hp])
      rw [hp] at h2
      simp only at h2
      simp only [Bool.false_eq_true, if_false]
      rw [h2.1, h2.2, hp]

end V3Dead

namespace V3Dead

/-- C6: the module sweep deletes a module only when, at the moment it
is examined, its `level()` is greater than 2, its counter is zero,
and it is not `internal()` (every deletion event it logs records a
zero counter and an eligible module kind); consequently a top-level
module with level ≤ 2, or an internal one, is never deleted — it is
still in the module list afterwards — and the retry loop repeats
until a full pass deletes nothing: one further pass over the sweep's
result performs no deletion. -/
theorem C6_module_sweep (t : Tree) (s : St) :
    (∀ ev, ev ∈ (deadCheckModF t s).2.delEvents → ev ∉ s.delEvents →
      ev.u = 0 ∧ modElig ev.k = true) ∧
    (∀ j k0, findTop t.sub j = some k0 → modElig k0 = false →
      findTop (deadCheckModF t s).1.sub j = some k0) ∧
    (modPass (deadCheckModF t s).1.sub (deadCheckModF t s).2).2.2 = false := by
  cases t with
  | nil =>
    refine ⟨fun ev hev hnew => absurd hev hnew, fun j k0 h _ => ?_, rfl⟩
    simp [Tree.sub, findTop] at h
  | node i k d c sb sb2 nx =>
    simp only [deadCheckModF, Tree.sub]
    rcases hp : modLoop (sb.chainLen + 1) sb s with ⟨sb', s', done⟩
    refine ⟨fun ev hev hnew => ?_, fun j k0 h hne => ?_, ?_⟩
    · have := modLoop_events (sb.chainLen + 1) sb s ev (by rw [hp]; exact hev)
      rcases this with hin | hgood
      · exact absurd hin hnew
      · exact hgood
    · have := modLoop_keeps (sb.chainLen + 1) sb s j k0 h hne
      rw [hp] at this
      exact this
    · have := modLoop_fix (sb.chainLen + 1) sb s (Nat.lt_succ_of_le (Nat.le_refl _))
      rw [hp] at this
      exact this

/-- Example netlist for the C6 witness: a top user module (level 2)
and an unreferenced nested module (level 3). -/
def exC6 : Tree :=
  .node 0 .netlist none none
    (.node 1 (.module 2 false false) none none .nil .nil
      (.node 2 (.module 3 false false) none none .nil .nil .nil))
    .nil .nil

/-- Witness for C6 on `exC6`: the sweep deletes module 2 with a zero
counter and an eligible kind, keeps the level-2 module 1 in the list,
and reaches a fixed point. -/
theorem C6_witness :
    ((⟨2, 0, Kind.module 3 false false⟩ : DelEvent).u = 0 ∧
        modElig (⟨2, 0, Kind.module 3 false false⟩ : DelEvent).k = true) ∧
      findTop (deadCheckModF (rcRun flagsModules exC6).1
          (rcRun flagsModules exC6).2).1.sub 1 = some (.module 2 false false) :=
  ⟨(C6_module_sweep (rcRun flagsModules exC6).1 (rcRun flagsModules exC6).2).1
      ⟨2, 0, .module 3 false false⟩ (by decide) (by decide),
    (C6_module_sweep (rcRun flagsModules exC6).1 (rcRun flagsModules exC6).2).2.1
      1 (.module 2 false false) (by decide) (by decide)⟩

end V3Dead

namespace V3Dead

/-- The immutable per-node facts — id, kind, `dtypep()`,
`getChildDTypep()` — of every node in a tree. -/
def nodeFacts : Tree → List (Nat × Kind × Option Nat × Option Nat)
  | .nil => []
  | .node i k d c sb sb2 nx =>
    (i, k, d, c) :: (nodeFacts sb ++ nodeFacts sb2 ++ nodeFacts nx)

/-- A successful lookup returns a node of the tree. -/
theorem lookup_facts : (t : Tree) → (j : Nat) → (a : Tree) →
    t.lookup j = some a → (a.id, a.kind, a.dtypep, a.childp) ∈ nodeFacts t
  | .nil, _, _, h => by simp [Tree.lookup] at h
  | .node i k d c sb sb2 nx, j, a, h => by
    simp only [Tree.lookup] at h
    simp only [nodeFacts, List.mem_cons, List.mem_append]
    by_cases hij : i = j
    · simp only [if_pos hij] at h
      cases h
      exact Or.inl rfl
    · simp only [if_neg hij] at h
      cases hs : sb.lookup j with
      | some r =>
        rw [hs] at h
        cases h
        exact Or.inr (Or.inl (Or.inl (lookup_facts sb j _ hs)))
      | none =>
        rw [hs] at h
        cases hs2 : sb2.lookup j with
        | some r =>
          rw [hs2] at h
          cases h
          exact Or.inr (Or.inl (Or.inr (lookup_facts sb2 j _ hs2)))
        | none =>
          rw [hs2] at h
          exact Or.inr (Or.inr (lookup_facts nx j a h))

/-- Removal only discards nodes: the facts of the remaining nodes
were facts of the original tree. -/
theorem removeSub_facts : (t : Tree) → (j : Nat) →
    ∀ x ∈ nodeFacts (t.removeSub j), x ∈ nodeFacts t
  | .nil, _, x, hx => hx
  | .node i k d c sb sb2 nx, j, x, hx => by
    simp only [Tree.removeSub] at hx
    by_cases hij : i = j
    · simp only [if_pos hij] at hx
      simp only [nodeFacts, List.mem_cons, List.mem_append]
      exact Or.inr (Or.inr hx)
    · simp only [if_neg hij] at hx
      simp only [nodeFacts, List.mem_cons, List.mem_append] at hx ⊢
      rcases hx with h | ⟨h | h⟩ | h
      · exact Or.inl h
      · exact Or.inr (Or.inl (Or.inl (removeSub_facts sb j x h)))
      · exact Or.inr (Or.inl (Or.inr (removeSub_facts sb2 j x h)))
      · exact Or.inr (Or.inr (removeSub_facts nx j x h))

theorem bump_other (u : Nat → Int) (z : Nat) (d : Int) (y : Nat) (h : y ≠ z) :
    bump u z d y = u y := by
  simp only [bump, if_neg h]

theorem bumpO_other (u : Nat → Int) (o : Option Nat) (d : Int) (y : Nat)
    (h : ∀ z, o = some z → y ≠ z) : bumpO u o d y = u y := by
  cases o with
  | none => rfl
  | some z => exact bump_other u z d y (h z rfl)

end V3Dead

namespace V3Dead

/-- Deleting one recorded assign decrements only the assign's own
`dtypep()` target: any id that is not the dtype of the assign node is
untouched. -/
theorem delAssign_frame (t : Tree) (s : St) (aid y : Nat)
    (h : ∀ k dt cd, (aid, k, dt, cd) ∈ nodeFacts t → dt ≠ some y) :
    (delAssign t s aid).2.uses y = s.uses y := by
  unfold delAssign
  cases hl : t.lookup aid with
  | none => rfl
  | some a =>
    simp only [logDel]
    have hfact := lookup_facts t aid a hl
    have hid := lookup_id t aid a hl
    rw [hid] at hfact
    have hdt := h a.kind a.dtypep a.childp hfact
    exact bumpO_other s.uses a.dtypep (-1) y
      (fun z hz => fun hyz => hdt (by rw [hz, hyz]))

/-- Deleting one recorded assign only removes nodes from the tree. -/
theorem delAssign_facts (t : Tree) (s : St) (aid : Nat) :
    ∀ x ∈ nodeFacts (delAssign t s aid).1, x ∈ nodeFacts t := by
  unfold delAssign
  cases hl : t.lookup aid with
  | none => exact fun x hx => hx
  | some a => exact removeSub_facts t aid

/-- The assign cleanup of a dead varscope, over the whole recorded
list: only assign dtypes are decremented. -/
theorem delAssigns_fold_frame (aids : List Nat) (t : Tree) (s : St) (y : Nat)
    (h : ∀ aid ∈ aids, ∀ k dt cd, (aid, k, dt, cd) ∈ nodeFacts t → dt ≠ some y) :
    (aids.foldl (fun ts aid => delAssign ts.1 ts.2 aid) (t, s)).2.uses y = s.uses y ∧
    (∀ x ∈ nodeFacts (aids.foldl (fun ts aid => delAssign ts.1 ts.2 aid) (t, s)).1,
      x ∈ nodeFacts t) := by
  induction aids generalizing t s with
  | nil => exact ⟨rfl, fun x hx => hx⟩
  | cons aid rest ih =>
    simp only [List.foldl_cons]
    rcases hd : delAssign t s aid with ⟨t1, s1⟩
    have hframe := delAssign_frame t s aid y
      (fun k dt cd hm => h aid (List.mem_cons_self aid rest) k dt cd hm)
    have hfacts := delAssign_facts t s aid
    rw [hd] at hframe hfacts
    simp only at hframe hfacts
    have hrest : ∀ aid2 ∈ rest, ∀ k dt cd,
        (aid2, k, dt, cd) ∈ nodeFacts t1 → dt ≠ some y :=
      fun aid2 hm k dt cd hf =>
        h aid2 (List.mem_cons_of_mem aid hm) k dt cd (hfacts _ hf)
    have := ih t1 s1 hrest
    exact ⟨by rw [this.1, hframe], fun x hx => hfacts x (this.2 x hx)⟩

/-- C9 (amended): deleting a dead VarScope together with the Assigns
recorded for it in the assignment index decrements only the assigns'
own `dtypep()` targets, the varscope's `scopep()` and the varscope's
`dtypep()`: the counter of any id `y` that is none of these — in
particular an entity referenced only from inside a deleted assign's
right-hand side — is left unchanged, and if it was positive it stays
positive through the deletion.  The claim's further conclusion that
such an entity survives the invocation is false: `deleteTree` on a
recorded assign disposes of everything owned by its right-hand-side
subtree regardless of counters (see `C9_counterexample`). -/
theorem C9_varscope_delete_frame (t : Tree) (s : St) (v y : Nat)
    (hassign : ∀ p ∈ s.assignMap, p.1 = v →
      ∀ k dt cd, (p.2, k, dt, cd) ∈ nodeFacts t → dt ≠ some y)
    (hvsc : ∀ scp vv dt cd, (v, .varScope scp vv, dt, cd) ∈ nodeFacts t →
      scp ≠ some y ∧ dt ≠ some y) :
    (vscDead t s v).2.uses y = s.uses y ∧
      (0 < s.uses y → 0 < (vscDead t s v).2.uses y) := by
  have main : (vscDead t s v).2.uses y = s.uses y := by
    unfold vscDead
    dsimp only
    have haids : ∀ aid ∈ (s.assignMap.filter (fun p => p.1 = v)).map (·.2),
        ∀ k dt cd, (aid, k, dt, cd) ∈ nodeFacts t → dt ≠ some y := by
      intro aid hm k dt cd hf
      simp only [List.mem_map, List.mem_filter] at hm
      rcases hm with ⟨p, ⟨hp, hpv⟩, hp2⟩
      subst hp2
      exact hassign p hp (by simpa using hpv) k dt cd hf
    have hfold := delAssigns_fold_frame
      ((s.assignMap.filter (fun p => p.1 = v)).map (·.2)) t s y haids
    rcases hf : (((s.assignMap.filter (fun p => p.1 = v)).map (·.2)).foldl
        (fun ts aid => delAssign ts.1 ts.2 aid) (t, s)) with ⟨t1, s1⟩
    rw [hf] at hfold
    simp only at hfold
    rw [hf]
    dsimp only
    cases hl : t1.lookup v with
    | none => exact hfold.1
    | some vn =>
      have hid := lookup_id t1 v vn hl
      have hfact := lookup_facts t1 v vn hl
      rw [hid] at hfact
      have hfact0 := hfold.2 _ hfact
      rcases vn with _ | ⟨vi, vk, vd, vc, vsb, vsb2, vnx⟩
      · dsimp only [Tree.kind]
        exact hfold.1
      · dsimp only [Tree.kind, Tree.dtypep, Tree.childp] at hfact0 ⊢
        cases vk with
        | varScope scp vv =>
          have hv := hvsc scp vv vd vc hfact0
          simp only [logDel]
          rw [bumpO_other _ vd (-1) y
            (fun z hz hyz => hv.2 (by rw [hz, hyz]))]
          rw [bumpO_other _ scp (-1) y
            (fun z hz hyz => hv.1 (by rw [hz, hyz]))]
          exact hfold.1
        | netlist => exact hfold.1
        | module a b e => exact hfold.1
        | cell a => exact hfold.1
        | scope a b e g q => exact hfold.1
        | var a b e g q => exact hfold.1
        | dtype a b e g => exact hfold.1
        | refDType a b e => exact hfold.1
        | enumItemRef a => exact hfold.1
        | varRef a b e => exact hfold.1
        | ftaskRef a => exact hfold.1
        | typedefD a => exact hfold.1
        | modport a => exact hfold.1
        | cfunc a => exact hfold.1
        | assign => exact hfold.1
        | other a b => exact hfold.1
  exact ⟨main, fun hpos => by rw [main]; exact hpos⟩

end V3Dead

namespace V3Dead

/-- Example for the C9 witness: a netlist holding one varscope
(id 4, no `scopep()`, no dtype links) and nothing else. -/
def exC9t : Tree :=
  .node 0 .netlist none none
    (.node 4 (.varScope none 5) none none .nil .nil .nil) .nil .nil

/-- Witness for C9 on `exC9t` with the empty assignment index and the
unrelated id 9: deleting varscope 4 leaves `uses[9]` unchanged. -/
theorem C9_witness :
    (vscDead exC9t initSt 4).2.uses 9 = initSt.uses 9 ∧
      (0 < initSt.uses 9 → 0 < (vscDead exC9t initSt 4).2.uses 9) :=
  C9_varscope_delete_frame exC9t initSt 4 9
    (fun p hp => absurd hp (List.not_mem_nil p))
    (by
      intro scp vv dt cd hm
      simp only [exC9t, nodeFacts, List.mem_cons, List.not_mem_nil, or_false,
        List.append_nil, List.nil_append, Prod.mk.injEq] at hm
      rcases hm with ⟨h0, _⟩ | ⟨_, hk, hdt, _⟩
      · exact absurd h0 (by decide)
      · have hscp : scp = none := by
          cases hk
          rfl
        subst hscp
        subst hdt
        exact ⟨by simp, by simp⟩)

end V3Dead

namespace V3Dead

/-- Erase the `packagep()` field of a kind: the only node field the
traversal mutates (the package-link scrubber nulls it). -/
def scrubK : Kind → Kind
  | .varRef vp vsp _ => .varRef vp vsp none
  | .ftaskRef _ => .ftaskRef none
  | .refDType g vr _ => .refDType g vr none
  | .enumItemRef _ => .enumItemRef none
  | k => k

/-- Node facts with the package link erased: these are invariant
under everything the pass does except node deletion. -/
def sFacts (t : Tree) : List (Nat × Kind × Option Nat × Option Nat) :=
  (nodeFacts t).map (fun x => (x.1, scrubK x.2.1, x.2.2))

theorem sfacts_lookup (t : Tree) (j : Nat) (a : Tree) (h : t.lookup j = some a) :
    (a.id, scrubK a.kind, a.dtypep, a.childp) ∈ sFacts t := by
  have := lookup_facts t j a h
  simp only [sFacts, List.mem_map]
  exact ⟨(a.id, a.kind, a.dtypep, a.childp), this, rfl⟩

theorem sfacts_removeSub (t : Tree) (j : Nat) :
    ∀ x ∈ sFacts (t.removeSub j), x ∈ sFacts t := by
  intro x hx
  simp only [sFacts, List.mem_map] at hx ⊢
  rcases hx with ⟨y, hy, hxy⟩
  exact ⟨y, removeSub_facts t j y hy, hxy⟩

/-- Facts of a node are the node's own fact plus the facts of its
child lists and `nextp()` chain. -/
theorem sfacts_node (i : Nat) (k : Kind) (d c : Option Nat) (sb sb2 nx : Tree) :
    sFacts (.node i k d c sb sb2 nx)
      = (i, scrubK k, d, c) :: (sFacts sb ++ sFacts sb2 ++ sFacts nx) := by
  simp [sFacts, nodeFacts]

/-- Inclusion of rebuilt nodes: if each component's facts embed, so
do the whole node's. -/
theorem sfacts_node_sub {i : Nat} {k1 k2 : Kind} {d c : Option Nat}
    {A B C sb sb2 nx : Tree} (hk : scrubK k1 = scrubK k2)
    (hA : ∀ x ∈ sFacts A, x ∈ sFacts sb)
    (hB : ∀ x ∈ sFacts B, x ∈ sFacts sb2)
    (hC : ∀ x ∈ sFacts C, x ∈ sFacts nx) :
    ∀ x ∈ sFacts (.node i k1 d c A B C), x ∈ sFacts (.node i k2 d c sb sb2 nx) := by
  intro x hx
  rw [sfacts_node] at hx
  rw [sfacts_node]
  simp only [List.mem_cons, List.mem_append] at hx ⊢
  rcases hx with h | ⟨h | h⟩ | h
  · rw [hk] at h
    exact Or.inl h
  · exact Or.inr (Or.inl (Or.inl (hA x h)))
  · exact Or.inr (Or.inl (Or.inr (hB x h)))
  · exact Or.inr (Or.inr (hC x h))

/-- Facts of the `nextp()` tail embed into the node's facts. -/
theorem sfacts_next_sub {i : Nat} {k : Kind} {d c : Option Nat}
    {A sb sb2 nx : Tree} (hA : ∀ x ∈ sFacts A, x ∈ sFacts nx) :
    ∀ x ∈ sFacts A, x ∈ sFacts (.node i k d c sb sb2 nx) := by
  intro x hx
  rw [sfacts_node]
  simp only [List.mem_cons, List.mem_append]
  exact Or.inr (Or.inr (hA x hx))

end V3Dead
namespace V3Dead

/-- The traversal only deletes nodes and nulls package links: the
scrubbed facts of its result embed into the input's. -/
theorem rcC_sfacts (f : Flags) (orig : Tree) : (t : Tree) → (s : St) →
    ∀ x ∈ sFacts (rcC f orig t s).1, x ∈ sFacts t
  | .nil, _ => by simp [rcC]
  | .node i k d c sb sb2 nx, s => by
    cases k with
    | netlist =>
      simp only [rcC]
      exact sfacts_node_sub rfl (rcC_sfacts f orig sb _)
        (rcC_sfacts f orig sb2 _) (rcC_sfacts f orig nx _)
    | module lvl intl pkg =>
      simp only [rcC]
      exact sfacts_node_sub rfl (rcC_sfacts f orig sb _)
        (rcC_sfacts f orig sb2 _) (rcC_sfacts f orig nx _)
    | cfunc scp =>
      simp only [rcC]
      exact sfacts_node_sub rfl (rcC_sfacts f orig sb _)
        (rcC_sfacts f orig sb2 _) (rcC_sfacts f orig nx _)
    | scope abv top hv hb hf =>
      simp only [rcC]
      exact sfacts_node_sub rfl (rcC_sfacts f orig sb _)
        (rcC_sfacts f orig sb2 _) (rcC_sfacts f orig nx _)
    | cell mt =>
      simp only [rcC]
      exact sfacts_node_sub rfl (rcC_sfacts f orig sb _)
        (rcC_sfacts f orig sb2 _) (rcC_sfacts f orig nx _)
    | varScope scp vv =>
      simp only [rcC]
      exact sfacts_node_sub rfl (rcC_sfacts f orig sb _)
        (rcC_sfacts f orig sb2 _) (rcC_sfacts f orig nx _)
    | var sp io tm pa tr =>
      simp only [rcC]
      exact sfacts_node_sub rfl (rcC_sfacts f orig sb _)
        (rcC_sfacts f orig sb2 _) (rcC_sfacts f orig nx _)
    | dtype g mem cl vr =>
      simp only [rcC]
      exact sfacts_node_sub rfl (rcC_sfacts f orig sb _)
        (rcC_sfacts f orig sb2 _) (rcC_sfacts f orig nx _)
    | varRef vp vsp pp =>
      simp only [rcC]
      exact sfacts_node_sub (by cases pp <;> rfl) (rcC_sfacts f orig sb _)
        (rcC_sfacts f orig sb2 _) (rcC_sfacts f orig nx _)
    | ftaskRef pp =>
      simp only [rcC]
      exact sfacts_node_sub (by cases pp <;> rfl) (rcC_sfacts f orig sb _)
        (rcC_sfacts f orig sb2 _) (rcC_sfacts f orig nx _)
    | refDType g vr pp =>
      simp only [rcC]
      exact sfacts_node_sub (by cases pp <;> rfl) (rcC_sfacts f orig sb _)
        (rcC_sfacts f orig sb2 _) (rcC_sfacts f orig nx _)
    | enumItemRef pp =>
      simp only [rcC]
      exact sfacts_node_sub (by cases pp <;> rfl) (rcC_sfacts f orig sb _)
        (rcC_sfacts f orig sb2 _) (rcC_sfacts f orig nx _)
    | modport hv =>
      simp only [rcC]
      by_cases hc : (f.elimCells && !hv) = true
      · simp only [if_pos hc]
        exact sfacts_next_sub (rcC_sfacts f orig nx _)
      · simp only [if_neg hc]
        exact sfacts_node_sub rfl (rcC_sfacts f orig sb _)
          (rcC_sfacts f orig sb2 _) (rcC_sfacts f orig nx _)
    | typedefD pub =>
      simp only [rcC]
      by_cases hc : (f.elimCells && !pub) = true
      · simp only [if_pos hc]
        exact sfacts_next_sub (rcC_sfacts f orig nx _)
      · simp only [if_neg hc]
        exact sfacts_node_sub rfl (rcC_sfacts f orig sb _)
          (rcC_sfacts f orig sb2 _) (rcC_sfacts f orig nx _)
    | assign =>
      simp only [rcC]
      rcases hL : lhsRec sb2 with _ | ⟨li, lvs, ld, lc⟩
      · exact sfacts_node_sub rfl (rcC_sfacts f orig sb _)
          (rcC_sfacts f orig sb2 _) (rcC_sfacts f orig nx _)
      · by_cases hse : (!(rcC f orig sb { s with sideEffect := false }).2.sideEffect) = true
        · simp only [if_pos hse]
          exact sfacts_node_sub rfl (rcC_sfacts f orig sb _)
            (fun x hx => hx) (rcC_sfacts f orig nx _)
        · simp only [if_neg hse]
          exact sfacts_node_sub rfl (rcC_sfacts f orig sb _)
            (rcC_sfacts f orig sb2 _) (rcC_sfacts f orig nx _)
    | other outp mth =>
      simp only [rcC]
      exact sfacts_node_sub rfl (rcC_sfacts f orig sb _)
        (rcC_sfacts f orig sb2 _) (rcC_sfacts f orig nx _)

end V3Dead

namespace V3Dead

/-- A list subset helper for phase lemmas. -/
def FactsSub (t t' : Tree) : Prop := ∀ x ∈ sFacts t, x ∈ sFacts t'

theorem factsSub_refl (t : Tree) : FactsSub t t := fun _ hx => hx

theorem factsSub_trans {a b c : Tree} (h1 : FactsSub a b) (h2 : FactsSub b c) :
    FactsSub a c := fun x hx => h2 x (h1 x hx)

theorem factsSub_removeSub (t : Tree) (j : Nat) : FactsSub (t.removeSub j) t :=
  sfacts_removeSub t j

theorem delAssign_sfacts (t : Tree) (s : St) (aid : Nat) :
    FactsSub (delAssign t s aid).1 t := by
  unfold delAssign
  cases hl : t.lookup aid with
  | none => exact factsSub_refl t
  | some a => exact factsSub_removeSub t aid

theorem vscDead_sfacts (t : Tree) (s : St) (v : Nat) :
    FactsSub (vscDead t s v).1 t := by
  unfold vscDead
  dsimp only
  have hfold : ∀ (aids : List Nat) (t : Tree) (s : St),
      FactsSub (aids.foldl (fun ts aid => delAssign ts.1 ts.2 aid) (t, s)).1 t := by
    intro aids
    induction aids with
    | nil => exact fun t s => factsSub_refl t
    | cons aid rest ih =>
      intro t s
      simp only [List.foldl_cons]
      rcases hd : delAssign t s aid with ⟨t1, s1⟩
      have h1 : FactsSub t1 t := by
        have := delAssign_sfacts t s aid
        rw [hd] at this
        exact this
      exact factsSub_trans (ih t1 s1) h1
  rcases hf : (((s.assignMap.filter (fun p => p.1 = v)).map (·.2)).foldl
      (fun ts aid => delAssign ts.1 ts.2 aid) (t, s)) with ⟨t1, s1⟩
  have h1 : FactsSub t1 t := by
    have := hfold ((s.assignMap.filter (fun p => p.1 = v)).map (·.2)) t s
    rw [hf] at this
    exact this
  rw [hf]
  dsimp only
  cases hl : t1.lookup v with
  | none => exact h1
  | some vn =>
    rcases vn with _ | ⟨vi, vk, vd, vc, vsb, vsb2, vnx⟩
    · exact h1
    · cases vk with
      | varScope scp vv =>
        exact factsSub_trans (factsSub_removeSub t1 v) h1
      | netlist => exact h1
      | module a b e => exact h1
      | cell a => exact h1
      | scope a b e g q => exact h1
      | var a b e g q => exact h1
      | dtype a b e g => exact h1
      | refDType a b e => exact h1
      | enumItemRef a => exact h1
      | varRef a b e => exact h1
      | ftaskRef a => exact h1
      | typedefD a => exact h1
      | modport a => exact h1
      | cfunc a => exact h1
      | assign => exact h1
      | other a b => exact h1

theorem vscPhase_sfacts : (l : List Nat) → (t : Tree) → (s : St) →
    FactsSub (vscPhase l t s).1 t
  | [], t, _ => factsSub_refl t
  | v :: rest, t, s => by
    by_cases h0 : s.uses v = 0
    · simp only [vscPhase, if_pos h0]
      rcases hd : vscDead t s v with ⟨t1, s1⟩
      have h1 : FactsSub t1 t := by
        have := vscDead_sfacts t s v
        rw [hd] at this
        exact this
      exact factsSub_trans (vscPhase_sfacts rest t1 s1) h1
    · simp only [vscPhase, if_neg h0]
      exact vscPhase_sfacts rest t s

theorem varPass_sfacts : (l : List (Option Nat)) → (t : Tree) → (s : St) →
    FactsSub (varPass l t s).2.1 t
  | [], t, _ => factsSub_refl t
  | none :: rest, t, s => by
    simp only [varPass]
    exact varPass_sfacts rest t s
  | some v :: rest, t, s => by
    by_cases h0 : s.uses v = 0
    · simp only [varPass, if_pos h0]
      cases hl : t.lookup v with
      | some vn =>
        exact factsSub_trans (varPass_sfacts rest _ _) (factsSub_removeSub t v)
      | none => exact varPass_sfacts rest t s
    · simp only [varPass, if_neg h0]
      exact varPass_sfacts rest t s

theorem varLoop_sfacts : (fuel : Nat) → (l : List (Option Nat)) → (t : Tree) → (s : St) →
    FactsSub (varLoop fuel l t s).2.1 t
  | 0, _, t, _ => factsSub_refl t
  | fuel + 1, l, t, s => by
    simp only [varLoop]
    rcases hp : varPass l t s with ⟨l', t', s', retry⟩
    have h1 : FactsSub t' t := by
      have := varPass_sfacts l t s
      rw [hp] at this
      exact this
    cases retry with
    | true =>
      simp only [if_pos rfl]
      exact factsSub_trans (varLoop_sfacts fuel l' t' s') h1
    | false => simpa using h1

theorem dtypePhase_sfacts : (l : List Nat) → (t : Tree) → (s : St) →
    FactsSub (dtypePhase l t s).1 t
  | [], t, _ => factsSub_refl t
  | dId :: rest, t, s => by
    by_cases h0 : s.uses dId = 0
    · simp only [dtypePhase, if_pos h0]
      cases hl : t.lookup dId with
      | none => exact dtypePhase_sfacts rest t s
      | some dn =>
        by_cases hk : (isClassK dn.kind && classKeep s dn.sub) = true
        · simp only [if_pos hk]
          exact dtypePhase_sfacts rest t s
        · simp only [if_neg hk]
          exact factsSub_trans (dtypePhase_sfacts rest _ _) (factsSub_removeSub t dId)
    · simp only [dtypePhase, if_neg h0]
      exact dtypePhase_sfacts rest t s

theorem scopePass_sfacts : (l : List (Option Nat)) → (t : Tree) → (s : St) →
    FactsSub (scopePass l t s).2.1 t
  | [], t, _ => factsSub_refl t
  | none :: rest, t, s => by
    simp only [scopePass]
    exact scopePass_sfacts rest t s
  | some v :: rest, t, s => by
    by_cases h0 : s.uses v = 0
    · simp only [scopePass, if_pos h0]
      cases hl : t.lookup v with
      | some sn =>
        rcases sn with _ | ⟨si, sk, sd, sc, ssb, ssb2, snx⟩
        · simp only [Tree.kind]
          exact scopePass_sfacts rest t s
        · simp only [Tree.kind]
          cases sk with
          | scope abv top hv hb hf =>
            exact factsSub_trans (scopePass_sfacts rest _ _) (factsSub_removeSub t v)
          | _ => exact scopePass_sfacts rest t s
      | none => exact scopePass_sfacts rest t s
    · simp only [scopePass, if_neg h0]
      exact scopePass_sfacts rest t s

theorem scopeLoop_sfacts : (fuel : Nat) → (l : List (Option Nat)) → (t : Tree) → (s : St) →
    FactsSub (scopeLoop fuel l t s).2.1 t
  | 0, _, t, _ => factsSub_refl t
  | fuel + 1, l, t, s => by
    simp only [scopeLoop]
    rcases hp : scopePass l t s with ⟨l', t', s', retry⟩
    have h1 : FactsSub t' t := by
      have := scopePass_sfacts l t s
      rw [hp] at this
      exact this
    cases retry with
    | true =>
      simp only [if_pos rfl]
      exact factsSub_trans (scopeLoop_sfacts fuel l' t' s') h1
    | false => simpa using h1

theorem cellPhase_sfacts : (l : List Nat) → (t : Tree) → (s : St) →
    FactsSub (cellPhase l t s).1 t
  | [], t, _ => factsSub_refl t
  | cId :: rest, t, s => by
    simp only [cellPhase]
    cases hl : t.lookup cId with
    | none => exact cellPhase_sfacts rest t s
    | some cn =>
      rcases cn with _ | ⟨ci, ck, cd, cc, csb, csb2, cnx⟩
      · simp only [Tree.kind]
        exact cellPhase_sfacts rest t s
      · simp only [Tree.kind]
        cases ck with
        | cell mt =>
          dsimp only
          split
          · exact factsSub_trans (cellPhase_sfacts rest _ _) (factsSub_removeSub t cId)
          · exact cellPhase_sfacts rest t s
        | _ => exact cellPhase_sfacts rest t s

end V3Dead

namespace V3Dead

theorem modPass_sfacts : (ms : Tree) → (s : St) → FactsSub (modPass ms s).1 ms
  | .nil, _ => factsSub_refl .nil
  | .node i k d c sb sb2 nx, s => by
    cases k with
    | module lvl intl pkg =>
      by_cases hg : lvl > 2 ∧ s.uses i = 0 ∧ ¬intl
      · simp only [modPass, if_pos hg]
        exact sfacts_next_sub (modPass_sfacts nx _)
      · simp only [modPass, if_neg hg]
        exact sfacts_node_sub rfl (factsSub_refl sb) (factsSub_refl sb2)
          (modPass_sfacts nx s)
    | _ =>
      simp only [modPass]
      exact sfacts_node_sub rfl (factsSub_refl sb) (factsSub_refl sb2)
        (modPass_sfacts nx s)

theorem modLoop_sfacts : (fuel : Nat) → (ms : Tree) → (s : St) →
    FactsSub (modLoop fuel ms s).1 ms
  | 0, ms, _ => factsSub_refl ms
  | fuel + 1, ms, s => by
    simp only [modLoop]
    rcases hp : modPass ms s with ⟨ms', s', retry⟩
    have h1 : FactsSub ms' ms := by
      have := modPass_sfacts ms s
      rw [hp] at this
      exact this
    cases retry with
    | true =>
      simp only [if_pos rfl]
      exact factsSub_trans (modLoop_sfacts fuel ms' s') h1
    | false => simpa using h1

theorem deadCheckModF_sfacts (t : Tree) (s : St) :
    FactsSub (deadCheckModF t s).1 t := by
  cases t with
  | nil => exact factsSub_refl .nil
  | node i k d c sb sb2 nx =>
    simp only [deadCheckModF]
    rcases hp : modLoop (sb.chainLen + 1) sb s with ⟨sb', s', done⟩
    have h1 : FactsSub sb' sb := by
      have := modLoop_sfacts (sb.chainLen + 1) sb s
      rw [hp] at this
      exact this
    exact sfacts_node_sub rfl h1 (factsSub_refl sb2) (factsSub_refl nx)

theorem deadCheckVarF_sfacts (t : Tree) (s : St) :
    FactsSub (deadCheckVarF t s).1 t := by
  unfold deadCheckVarF
  rcases h1 : vscPhase s.vscsp t s with ⟨t1, s1⟩
  have hs1 : FactsSub t1 t := by
    have := vscPhase_sfacts s.vscsp t s
    rw [h1] at this
    exact this
  dsimp only
  rcases h2 : varLoop (List.length (List.map some s1.varsp) + 1)
      (List.map some s1.varsp) t1 s1 with ⟨l2, t2, s2, d2⟩
  have hs2 : FactsSub t2 t1 := by
    have := varLoop_sfacts (List.length (List.map some s1.varsp) + 1)
      (List.map some s1.varsp) t1 s1
    rw [h2] at this
    exact this
  dsimp only
  exact factsSub_trans (factsSub_trans (dtypePhase_sfacts s2.dtypesp t2 s2) hs2) hs1

/-- The whole invocation only deletes nodes and nulls package links:
the scrubbed facts of its result tree embed into the input's. -/
theorem runDead_sfacts (f : Flags) (t0 : Tree) : FactsSub (runDead f t0).1 t0 := by
  unfold runDead rcRun
  rcases h1 : rcC f t0 t0 initSt with ⟨t1, s1⟩
  have hs1 : FactsSub t1 t0 := by
    have := rcC_sfacts f t0 t0 initSt
    rw [h1] at this
    exact this
  dsimp only
  rcases h2 : deadCheckVarF t1 s1 with ⟨t2, s2⟩
  have hs2 : FactsSub t2 t1 := by
    have := deadCheckVarF_sfacts t1 s1
    rw [h2] at this
    exact this
  dsimp only
  rcases h3 : (if f.elimScopes = true then deadCheckScopeF t2 s2 else (t2, s2)) with ⟨t3, s3⟩
  have hs3 : FactsSub t3 t2 := by
    by_cases he : f.elimScopes = true
    · rw [if_pos he] at h3
      unfold deadCheckScopeF at h3
      dsimp only at h3
      rcases hsl : scopeLoop (List.length (List.map some s2.scopesp) + 1)
          (List.map some s2.scopesp) t2 s2 with ⟨l', t', s', d'⟩
      rw [hsl] at h3
      simp only at h3
      have := scopeLoop_sfacts (List.length (List.map some s2.scopesp) + 1)
        (List.map some s2.scopesp) t2 s2
      rw [hsl] at this
      simp only at this
      injection h3 with ht hs
      rw [← ht]
      exact this
    · rw [if_neg he] at h3
      cases h3
      exact factsSub_refl t2
  dsimp only
  rcases h4 : (if f.elimCells = true then deadCheckCellsF t3 s3 else (t3, s3)) with ⟨t4, s4⟩
  have hs4 : FactsSub t4 t3 := by
    by_cases he : f.elimCells = true
    · rw [if_pos he] at h4
      unfold deadCheckCellsF at h4
      have := cellPhase_sfacts s3.cellsp t3 s3
      rw [h4] at this
      exact this
    · rw [if_neg he] at h4
      cases h4
      exact factsSub_refl t3
  dsimp only
  exact factsSub_trans (deadCheckModF_sfacts t4 s4)
    (factsSub_trans hs4 (factsSub_trans hs3 (factsSub_trans hs2 hs1)))

end V3Dead

namespace V3Dead

/-- Decidable test that a node carries no counted edge to `y`: its
`dtypep()` / `getChildDTypep()` links and its kind-specific edges
(`modp`, `aboveScopep`, `scopep`, `varp`, `varScopep`, `packagep`,
`virtRefDTypep`) avoid `y`, and — because the traversal pins the
enclosing module — a module node's own id is not `y`. -/
def noEdgeTo (y : Nat) : Nat × Kind × Option Nat × Option Nat → Bool
  | (i, k, d, c) =>
    decide (d ≠ some y) && decide (c ≠ some y) &&
    (match k with
     | .module _ _ _ => decide (i ≠ y)
     | .cell mt => decide (mt ≠ y)
     | .scope abv _ _ _ _ => decide (abv ≠ some y)
     | .varScope scp vv => decide (scp ≠ some y) && decide (vv ≠ y)
     | .varRef vp vsp pp =>
       decide (vp ≠ some y) && decide (vsp ≠ some y) && decide (pp ≠ some y)
     | .refDType _ vr pp => decide (vr ≠ some y) && decide (pp ≠ some y)
     | .dtype _ _ _ vr => decide (vr ≠ some y)
     | .enumItemRef pp => decide (pp ≠ some y)
     | .ftaskRef pp => decide (pp ≠ some y)
     | .cfunc scp => decide (scp ≠ some y)
     | _ => true)

theorem noEdgeTo_scrub (y : Nat) (i : Nat) (k : Kind) (d c : Option Nat)
    (h : noEdgeTo y (i, k, d, c) = true) : noEdgeTo y (i, scrubK k, d, c) = true := by
  cases k <;> simp only [scrubK, noEdgeTo, Bool.and_eq_true, decide_eq_true_eq] at h ⊢ <;>
    refine ⟨h.1, ?_⟩ <;> first
      | exact trivial
      | exact h.2
      | exact ⟨h.2.1, by simp⟩
      | exact ⟨h.2.1.1, h.2.1.2, by simp⟩
      | simp

theorem checkAll_other (i : Nat) (d c : Option Nat) (u : Nat → Int) (y : Nat)
    (hd : d ≠ some y) (hc : c ≠ some y) : checkAll i d c u y = u y := by
  unfold checkAll
  rw [bumpO_other _ c 1 y (fun z hz hyz => hc (by rw [hz, hyz]))]
  cases d with
  | none => rfl
  | some z =>
    dsimp only
    by_cases hiz : i = z
    · rw [if_pos hiz]
    · rw [if_neg hiz]
      exact bump_other u z 1 y (fun hyz => hd (by rw [hyz]))

theorem pinUses_other (isPub : Bool) (mp : Option (Nat × Bool)) (u : Nat → Int)
    (y : Nat) (hm : ∀ m pk, mp = some (m, pk) → m ≠ y) :
    pinUses isPub mp u y = u y := by
  cases mp with
  | none => rfl
  | some p =>
    rcases p with ⟨m, b⟩
    cases b with
    | false => rfl
    | true =>
      simp only [pinUses]
      by_cases hp : isPub = true
      · rw [if_pos hp]
        exact bump_other u m 1 y (fun hyz => hm m true rfl (by rw [hyz]))
      · rw [if_neg hp]

theorem vsUses_other (orig : Tree) (vsp : Option Nat) (u : Nat → Int) (y : Nat)
    (H : ∀ x ∈ nodeFacts orig, noEdgeTo y x = true)
    (hvsp : vsp ≠ some y) : vsUses orig vsp u y = u y := by
  cases vsp with
  | none => rfl
  | some vs =>
    have hvs : y ≠ vs := fun hyz => hvsp (by rw [hyz])
    simp only [vsUses]
    cases hl : orig.lookup vs with
    | none => exact bump_other u vs 1 y hvs
    | some a =>
      rcases a with _ | ⟨ai, ak, ad, ac, asb, asb2, anx⟩
      · simp only [Tree.kind]
        exact bump_other u vs 1 y hvs
      · cases ak with
        | varScope scp vv =>
          have hfact := lookup_facts orig vs _ hl
          have := H _ hfact
          simp only [Tree.id, Tree.kind, Tree.dtypep, Tree.childp, noEdgeTo,
            Bool.and_eq_true, decide_eq_true_eq] at this
          have hvv : vv ≠ y := this.2.2
          dsimp only
          rw [bump_other (bump u vs 1) vv 1 y (fun hyz => hvv (by rw [← hyz]))]
          exact bump_other u vs 1 y hvs
        | netlist => exact bump_other u vs 1 y hvs
        | module a b e => exact bump_other u vs 1 y hvs
        | cell a => exact bump_other u vs 1 y hvs
        | scope a b e g q => exact bump_other u vs 1 y hvs
        | var a b e g q => exact bump_other u vs 1 y hvs
        | dtype a b e g => exact bump_other u vs 1 y hvs
        | refDType a b e => exact bump_other u vs 1 y hvs
        | enumItemRef a => exact bump_other u vs 1 y hvs
        | varRef a b e => exact bump_other u vs 1 y hvs
        | ftaskRef a => exact bump_other u vs 1 y hvs
        | typedefD a => exact bump_other u vs 1 y hvs
        | modport a => exact bump_other u vs 1 y hvs
        | cfunc a => exact bump_other u vs 1 y hvs
        | assign => exact bump_other u vs 1 y hvs
        | other a b => exact bump_other u vs 1 y hvs

theorem pkgHandle_other (f : Flags) (pp : Option Nat) (s : St) (y : Nat)
    (hpp : pp ≠ some y) : (pkgHandle f pp s).2.uses y = s.uses y := by
  cases pp with
  | none => rfl
  | some p =>
    simp only [pkgHandle]
    by_cases hc : f.elimCells = true
    · rw [if_pos hc]
    · rw [if_neg hc]
      exact bump_other s.uses p 1 y (fun hyz => hpp (by rw [hyz]))

theorem cntPkg_other (f : Flags) (pp : Option Nat) (u : Nat → Int) (y : Nat)
    (hpp : pp ≠ some y) : cntPkg f pp u y = u y := by
  cases pp with
  | none => rfl
  | some p =>
    simp only [cntPkg]
    by_cases hc : f.elimCells = true
    · rw [if_pos hc]
    · rw [if_neg hc]
      exact bump_other u p 1 y (fun hyz => hpp (by rw [hyz]))

/-- Facts of the components embed into the facts of the node. -/
theorem facts_sub_comp (i : Nat) (k : Kind) (d c : Option Nat) (sb sb2 nx : Tree) :
    (∀ x ∈ nodeFacts sb, x ∈ nodeFacts (.node i k d c sb sb2 nx)) ∧
    (∀ x ∈ nodeFacts sb2, x ∈ nodeFacts (.node i k d c sb sb2 nx)) ∧
    (∀ x ∈ nodeFacts nx, x ∈ nodeFacts (.node i k d c sb sb2 nx)) := by
  refine ⟨fun x hx => ?_, fun x hx => ?_, fun x hx => ?_⟩ <;>
    simp only [nodeFacts, List.mem_cons, List.mem_append] <;>
    [exact Or.inr (Or.inl (Or.inl hx)); exact Or.inr (Or.inl (Or.inr hx));
     exact Or.inr (Or.inr hx)]

end V3Dead

namespace V3Dead

theorem ne_some_imp {o : Option Nat} {y : Nat} (h : o ≠ some y) :
    ∀ z, o = some z → y ≠ z := fun z hz hyz => h (by rw [hz, hyz])

theorem pkgHandle_modp (f : Flags) (pp : Option Nat) (s : St) :
    (pkgHandle f pp s).2.modp = s.modp := by
  unfold pkgHandle
  cases pp with
  | none => rfl
  | some p =>
    dsimp only
    by_cases hc : f.elimCells = true
    · rw [if_pos hc]
    · rw [if_neg hc]

theorem checkDType_modp (f : Flags) (i : Nat) (g mem : Bool) (vr : Option Nat)
    (s : St) : (checkDType f i g mem vr s).modp = s.modp := by
  unfold checkDType
  dsimp only
  by_cases hc : (!g && f.elimDTypes && !mem) = true
  · rw [if_pos hc]
  · rw [if_neg hc]

end V3Dead


namespace V3Dead

/-- The traversal-time removals: a Modport with no vars or a
non-public Typedef (both only under `m_elimCells`). -/
def travElim : Kind → Bool
  | .modport hv => !hv
  | .typedefD pub => !pub
  | _ => false

theorem bump_le (u : Nat → Int) (z y : Nat) : bump u z (-1) y ≤ u y := by
  simp only [bump]
  by_cases h : y = z
  · rw [if_pos h]; omega
  · rw [if_neg h]

theorem bumpO_le (u : Nat → Int) (o : Option Nat) (y : Nat) :
    bumpO u o (-1) y ≤ u y := by
  cases o with
  | none => exact le_refl _
  | some z => exact bump_le u z y

theorem rcC_events (f : Flags) (orig : Tree) : (t : Tree) → (s : St) →
    ∀ ev ∈ (rcC f orig t s).2.delEvents,
      ev ∈ s.delEvents ∨ (f.elimCells = true ∧ travElim ev.k = true)
  | .nil, _ => fun _ hev => Or.inl hev
  | .node i k d c sb sb2 nx, s => by
    cases k with
    | netlist =>
      intro ev
      simp only [rcC]
      rcases h1 : rcC f orig sb s with ⟨sb1, s1⟩
      try dsimp only
      rcases h2 : rcC f orig sb2 s1 with ⟨sb2', s2⟩
      try dsimp only
      rcases h3 : rcC f orig nx { s2 with uses := checkAll i d c s2.uses } with ⟨nx', s3⟩
      try dsimp only
      intro hev
      rcases rcC_events f orig nx { s2 with uses := checkAll i d c s2.uses } ev
          (by rw [h3]; exact hev) with h | p
      · rcases rcC_events f orig sb2 s1 ev (by rw [h2]; exact h) with h' | p
        · exact rcC_events f orig sb s ev (by rw [h1]; exact h')
        · exact Or.inr p
      · exact Or.inr p
    | module lvl intl pkg =>
      intro ev
      simp only [rcC]
      rcases h1 : rcC f orig sb { s with modp := some (i, pkg) } with ⟨sb1, s1⟩
      try dsimp only
      rcases h2 : rcC f orig sb2 s1 with ⟨sb2', s2⟩
      try dsimp only
      rcases h3 : rcC f orig nx
          { s2 with uses := checkAll i d c s2.uses, modp := none } with ⟨nx', s3⟩
      try dsimp only
      intro hev
      rcases rcC_events f orig nx { s2 with uses := checkAll i d c s2.uses, modp := none } ev
          (by rw [h3]; exact hev) with h | p
      · rcases rcC_events f orig sb2 s1 ev (by rw [h2]; exact h) with h' | p
        · exact rcC_events f orig sb { s with modp := some (i, pkg) } ev (by rw [h1]; exact h')
        · exact Or.inr p
      · exact Or.inr p
    | cfunc scp =>
      intro ev
      simp only [rcC]
      rcases h1 : rcC f orig sb s with ⟨sb1, s1⟩
      try dsimp only
      rcases h2 : rcC f orig sb2 s1 with ⟨sb2', s2⟩
      try dsimp only
      rcases h3 : rcC f orig nx
          { s2 with uses := bumpO (checkAll i d c s2.uses) scp 1 } with ⟨nx', s3⟩
      try dsimp only
      intro hev
      rcases rcC_events f orig nx { s2 with uses := bumpO (checkAll i d c s2.uses) scp 1 } ev
          (by rw [h3]; exact hev) with h | p
      · rcases rcC_events f orig sb2 s1 ev (by rw [h2]; exact h) with h' | p
        · exact rcC_events f orig sb s ev (by rw [h1]; exact h')
        · exact Or.inr p
      · exact Or.inr p
    | scope abv top hv hb hf =>
      intro ev
      simp only [rcC]
      rcases h1 : rcC f orig sb s with ⟨sb1, s1⟩
      try dsimp only
      rcases h2 : rcC f orig sb2 s1 with ⟨sb2', s2⟩
      try dsimp only
      by_cases hcc : (!top && !hv && !hb && !hf) = true
      · rw [if_pos hcc]
        rcases h3 : rcC f orig nx
            { s2 with uses := bumpO (checkAll i d c s2.uses) abv 1, scopesp := s2.scopesp ++ [i] } with ⟨nx', s3⟩
        try dsimp only
        intro hev
        rcases rcC_events f orig nx
            { s2 with uses := bumpO (checkAll i d c s2.uses) abv 1, scopesp := s2.scopesp ++ [i] } ev (by rw [h3]; exact hev) with h | p
        · rcases rcC_events f orig sb2 s1 ev (by rw [h2]; exact h) with h' | p
          · exact rcC_events f orig sb s ev (by rw [h1]; exact h')
          · exact Or.inr p
        · exact Or.inr p
      · rw [if_neg hcc]
        rcases h3 : rcC f orig nx
            { s2 with uses := bumpO (checkAll i d c s2.uses) abv 1 } with ⟨nx', s3⟩
        try dsimp only
        intro hev
        rcases rcC_events f orig nx
            { s2 with uses := bumpO (checkAll i d c s2.uses) abv 1 } ev
            (by rw [h3]; exact hev) with h | p
        · rcases rcC_events f orig sb2 s1 ev (by rw [h2]; exact h) with h' | p
          · exact rcC_events f orig sb s ev (by rw [h1]; exact h')
          · exact Or.inr p
        · exact Or.inr p
    | cell mt =>
      intro ev
      simp only [rcC]
      rcases h1 : rcC f orig sb s with ⟨sb1, s1⟩
      try dsimp only
      rcases h2 : rcC f orig sb2 s1 with ⟨sb2', s2⟩
      try dsimp only
      rcases h3 : rcC f orig nx
          { s2 with uses := bump (checkAll i d c s2.uses) mt 1, cellsp := s2.cellsp ++ [i] } with ⟨nx', s3⟩
      try dsimp only
      intro hev
      rcases rcC_events f orig nx
          { s2 with uses := bump (checkAll i d c s2.uses) mt 1, cellsp := s2.cellsp ++ [i] } ev (by rw [h3]; exact hev) with h | p
      · rcases rcC_events f orig sb2 s1 ev (by rw [h2]; exact h) with h' | p
        · exact rcC_events f orig sb s ev (by rw [h1]; exact h')
        · exact Or.inr p
      · exact Or.inr p
    | varScope scp vvar =>
      intro ev
      simp only [rcC]
      rcases h1 : rcC f orig sb s with ⟨sb1, s1⟩
      try dsimp only
      rcases h2 : rcC f orig sb2 s1 with ⟨sb2', s2⟩
      try dsimp only
      by_cases hcc : mightElimVarAt f orig vvar = true
      · rw [if_pos hcc]
        rcases h3 : rcC f orig nx
            { s2 with uses := bumpO (checkAll i d c s2.uses) scp 1, vscsp := s2.vscsp ++ [i] } with ⟨nx', s3⟩
        try dsimp only
        intro hev
        rcases rcC_events f orig nx
            { s2 with uses := bumpO (checkAll i d c s2.uses) scp 1, vscsp := s2.vscsp ++ [i] } ev (by rw [h3]; exact hev) with h | p
        · rcases rcC_events f orig sb2 s1 ev (by rw [h2]; exact h) with h' | p
          · exact rcC_events f orig sb s ev (by rw [h1]; exact h')
          · exact Or.inr p
        · exact Or.inr p
      · rw [if_neg hcc]
        rcases h3 : rcC f orig nx
            { s2 with uses := bumpO (checkAll i d c s2.uses) scp 1 } with ⟨nx', s3⟩
        try dsimp only
        intro hev
        rcases rcC_events f orig nx
            { s2 with uses := bumpO (checkAll i d c s2.uses) scp 1 } ev
            (by rw [h3]; exact hev) with h | p
        · rcases rcC_events f orig sb2 s1 ev (by rw [h2]; exact h) with h' | p
          · exact rcC_events f orig sb s ev (by rw [h1]; exact h')
          · exact Or.inr p
        · exact Or.inr p
    | var sp io tm pa tr =>
      intro ev
      simp only [rcC]
      rcases h1 : rcC f orig sb s with ⟨sb1, s1⟩
      try dsimp only
      rcases h2 : rcC f orig sb2 s1 with ⟨sb2', s2⟩
      try dsimp only
      by_cases hcc : mightElimVar f sp io tm pa tr = true
      · rw [if_pos hcc]
        rcases h3 : rcC f orig nx
            { s2 with uses := pinUses sp s2.modp (checkAll i d c s2.uses), varsp := s2.varsp ++ [i] } with ⟨nx', s3⟩
        try dsimp only
        intro hev
        rcases rcC_events f orig nx
            { s2 with uses := pinUses sp s2.modp (checkAll i d c s2.uses), varsp := s2.varsp ++ [i] } ev (by rw [h3]; exact hev) with h | p
        · rcases rcC_events f orig sb2 s1 ev (by rw [h2]; exact h) with h' | p
          · exact rcC_events f orig sb s ev (by rw [h1]; exact h')
          · exact Or.inr p
        · exact Or.inr p
      · rw [if_neg hcc]
        rcases h3 : rcC f orig nx
            { s2 with uses := pinUses sp s2.modp (checkAll i d c s2.uses) } with ⟨nx', s3⟩
        try dsimp only
        intro hev
        rcases rcC_events f orig nx
            { s2 with uses := pinUses sp s2.modp (checkAll i d c s2.uses) } ev
            (by rw [h3]; exact hev) with h | p
        · rcases rcC_events f orig sb2 s1 ev (by rw [h2]; exact h) with h' | p
          · exact rcC_events f orig sb s ev (by rw [h1]; exact h')
          · exact Or.inr p
        · exact Or.inr p
    | dtype g mem cl vr =>
      intro ev
      simp only [rcC]
      rcases h1 : rcC f orig sb s with ⟨sb1, s1⟩
      try dsimp only
      rcases h2 : rcC f orig sb2 s1 with ⟨sb2', s2⟩
      try dsimp only
      rcases h3 : rcC f orig nx
          { checkDType f i g mem vr s2 with
            uses := checkAll i d c (checkDType f i g mem vr s2).uses } with ⟨nx', s3⟩
      try dsimp only
      intro hev
      rcases rcC_events f orig nx
          { checkDType f i g mem vr s2 with
            uses := checkAll i d c (checkDType f i g mem vr s2).uses } ev
          (by rw [h3]; exact hev) with h | p
      · have h' : ev ∈ s2.delEvents := by
          have hde : (checkDType f i g mem vr s2).delEvents = s2.delEvents := by
            unfold checkDType
            dsimp only
            by_cases hq : (!g && f.elimDTypes && !mem) = true
            · rw [if_pos hq]
            · rw [if_neg hq]
          rw [← hde]
          exact h
        rcases rcC_events f orig sb2 s1 ev (by rw [h2]; exact h') with h'' | p
        · exact rcC_events f orig sb s ev (by rw [h1]; exact h'')
        · exact Or.inr p
      · exact Or.inr p
    | varRef vp vsp pp =>
      intro ev
      simp only [rcC]
      rcases h1 : rcC f orig sb s with ⟨sb1, s1⟩
      try dsimp only
      rcases h2 : rcC f orig sb2 s1 with ⟨sb2', s2⟩
      try dsimp only
      rcases hp : pkgHandle f pp
          { s2 with uses := bumpO (vsUses orig vsp (checkAll i d c s2.uses)) vp 1 } with ⟨pp', s3⟩
      try dsimp only
      have hde : s3.delEvents = s2.delEvents := by
        have := congrArg (fun r => r.2.delEvents) hp
        dsimp only at this
        rw [← this]
        unfold pkgHandle
        cases pp with
        | none => rfl
        | some p =>
          dsimp only
          by_cases hq : f.elimCells = true
          · rw [if_pos hq]
          · rw [if_neg hq]
      rcases h3 : rcC f orig nx s3 with ⟨nx', s4⟩
      try dsimp only
      intro hev
      rcases rcC_events f orig nx s3 ev (by rw [h3]; exact hev) with h | p
      · rw [hde] at h
        rcases rcC_events f orig sb2 s1 ev (by rw [h2]; exact h) with h' | p
        · exact rcC_events f orig sb s ev (by rw [h1]; exact h')
        · exact Or.inr p
      · exact Or.inr p
    | ftaskRef pp =>
      intro ev
      simp only [rcC]
      rcases h1 : rcC f orig sb s with ⟨sb1, s1⟩
      try dsimp only
      rcases h2 : rcC f orig sb2 s1 with ⟨sb2', s2⟩
      try dsimp only
      rcases hp : pkgHandle f pp { s2 with uses := checkAll i d c s2.uses } with ⟨pp', s3⟩
      try dsimp only
      have hde : s3.delEvents = s2.delEvents := by
        have := congrArg (fun r => r.2.delEvents) hp
        dsimp only at this
        rw [← this]
        unfold pkgHandle
        cases pp with
        | none => rfl
        | some p =>
          dsimp only
          by_cases hq : f.elimCells = true
          · rw [if_pos hq]
          · rw [if_neg hq]
      rcases h3 : rcC f orig nx s3 with ⟨nx', s4⟩
      try dsimp only
      intro hev
      rcases rcC_events f orig nx s3 ev (by rw [h3]; exact hev) with h | p
      · rw [hde] at h
        rcases rcC_events f orig sb2 s1 ev (by rw [h2]; exact h) with h' | p
        · exact rcC_events f orig sb s ev (by rw [h1]; exact h')
        · exact Or.inr p
      · exact Or.inr p
    | refDType g vr pp =>
      intro ev
      simp only [rcC]
      rcases h1 : rcC f orig sb s with ⟨sb1, s1⟩
      try dsimp only
      rcases h2 : rcC f orig sb2 s1 with ⟨sb2', s2⟩
      try dsimp only
      rcases hp : pkgHandle f pp
          { checkDType f i g false vr s2 with
            uses := checkAll i d c (checkDType f i g false vr s2).uses } with ⟨pp', s3⟩
      try dsimp only
      have hde : s3.delEvents = s2.delEvents := by
        have h2' := congrArg (fun r => r.2.delEvents) hp
        dsimp only at h2'
        rw [← h2']
        have hcd : (checkDType f i g false vr s2).delEvents = s2.delEvents := by
          unfold checkDType
          dsimp only
          by_cases hq : (!g && f.elimDTypes && !false) = true
          · rw [if_pos hq]
          · rw [if_neg hq]
        unfold pkgHandle
        cases pp with
        | none => exact hcd
        | some p =>
          dsimp only
          by_cases hq : f.elimCells = true
          · rw [if_pos hq]; exact hcd
          · rw [if_neg hq]; exact hcd
      rcases h3 : rcC f orig nx s3 with ⟨nx', s4⟩
      try dsimp only
      intro hev
      rcases rcC_events f orig nx s3 ev (by rw [h3]; exact hev) with h | p
      · rw [hde] at h
        rcases rcC_events f orig sb2 s1 ev (by rw [h2]; exact h) with h' | p
        · exact rcC_events f orig sb s ev (by rw [h1]; exact h')
        · exact Or.inr p
      · exact Or.inr p
    | enumItemRef pp =>
      intro ev
      simp only [rcC]
      rcases h1 : rcC f orig sb s with ⟨sb1, s1⟩
      try dsimp only
      rcases h2 : rcC f orig sb2 s1 with ⟨sb2', s2⟩
      try dsimp only
      rcases hp : pkgHandle f pp { s2 with uses := checkAll i d c s2.uses } with ⟨pp', s3⟩
      try dsimp only
      have hde : s3.delEvents = s2.delEvents := by
        have := congrArg (fun r => r.2.delEvents) hp
        dsimp only at this
        rw [← this]
        unfold pkgHandle
        cases pp with
        | none => rfl
        | some p =>
          dsimp only
          by_cases hq : f.elimCells = true
          · rw [if_pos hq]
          · rw [if_neg hq]
      rcases h3 : rcC f orig nx { s3 with uses := checkAll i d c s3.uses } with ⟨nx', s4⟩
      try dsimp only
      intro hev
      rcases rcC_events f orig nx { s3 with uses := checkAll i d c s3.uses } ev
          (by rw [h3]; exact hev) with h | p
      · rw [show ({ s3 with uses := checkAll i d c s3.uses } : St).delEvents = s2.delEvents from hde] at h
        rcases rcC_events f orig sb2 s1 ev (by rw [h2]; exact h) with h' | p
        · exact rcC_events f orig sb s ev (by rw [h1]; exact h')
        · exact Or.inr p
      · exact Or.inr p
    | modport hv =>
      intro ev
      simp only [rcC]
      rcases h1 : rcC f orig sb s with ⟨sb1, s1⟩
      try dsimp only
      rcases h2 : rcC f orig sb2 s1 with ⟨sb2', s2⟩
      try dsimp only
      by_cases hcc : (f.elimCells && !hv) = true
      · rw [if_pos hcc]
        rw [Bool.and_eq_true] at hcc
        intro hev
        rcases rcC_events f orig nx
            (logDel (Tree.node i (Kind.modport hv) d c sb1 sb2' nx) s2) ev hev with h | p
        · simp only [logDel, Tree.id, Tree.kind, List.mem_append, List.mem_singleton] at h
          rcases h with h' | h''
          · rcases rcC_events f orig sb2 s1 ev (by rw [h2]; exact h') with h'' | p
            · exact rcC_events f orig sb s ev (by rw [h1]; exact h'')
            · exact Or.inr p
          · right
            refine ⟨hcc.1, ?_⟩
            rw [h'']
            exact hcc.2
        · exact Or.inr p
      · rw [if_neg hcc]
        rcases h3 : rcC f orig nx { s2 with uses := checkAll i d c s2.uses } with ⟨nx', s3⟩
        try dsimp only
        intro hev
        rcases rcC_events f orig nx { s2 with uses := checkAll i d c s2.uses } ev
            (by rw [h3]; exact hev) with h | p
        · rcases rcC_events f orig sb2 s1 ev (by rw [h2]; exact h) with h' | p
          · exact rcC_events f orig sb s ev (by rw [h1]; exact h')
          · exact Or.inr p
        · exact Or.inr p
    | typedefD pub =>
      intro ev
      simp only [rcC]
      rcases h1 : rcC f orig sb s with ⟨sb1, s1⟩
      try dsimp only
      rcases h2 : rcC f orig sb2 s1 with ⟨sb2', s2⟩
      try dsimp only
      by_cases hcc : (f.elimCells && !pub) = true
      · rw [if_pos hcc]
        rw [Bool.and_eq_true] at hcc
        intro hev
        rcases rcC_events f orig nx
            (logDel (Tree.node i (Kind.typedefD pub) d c sb1 sb2' nx) s2) ev hev with h | p
        · simp only [logDel, Tree.id, Tree.kind, List.mem_append, List.mem_singleton] at h
          rcases h with h' | h''
          · rcases rcC_events f orig sb2 s1 ev (by rw [h2]; exact h') with h'' | p
            · exact rcC_events f orig sb s ev (by rw [h1]; exact h'')
            · exact Or.inr p
          · right
            refine ⟨hcc.1, ?_⟩
            rw [h'']
            exact hcc.2
        · exact Or.inr p
      · rw [if_neg hcc]
        rcases h3 : rcC f orig nx
            { s2 with uses := pinUses pub s2.modp (checkAll i d c s2.uses) } with ⟨nx', s3⟩
        try dsimp only
        intro hev
        rcases rcC_events f orig nx
            { s2 with uses := pinUses pub s2.modp (checkAll i d c s2.uses) } ev
            (by rw [h3]; exact hev) with h | p
        · rcases rcC_events f orig sb2 s1 ev (by rw [h2]; exact h) with h' | p
          · exact rcC_events f orig sb s ev (by rw [h1]; exact h')
          · exact Or.inr p
        · exact Or.inr p
    | assign =>
      intro ev
      simp only [rcC]
      rcases h1 : rcC f orig sb { s with sideEffect := false } with ⟨sb1, s1⟩
      try dsimp only
      rcases hL : lhsRec sb2 with _ | ⟨li, lvs, ld, lc⟩
      · try dsimp only
        rcases h2 : rcC f orig sb2 { s1 with uses := checkAll i d c s1.uses } with ⟨sb2', s2⟩
        try dsimp only
        rcases h3 : rcC f orig nx { s2 with uses := checkAll i d c s2.uses } with ⟨nx', s3⟩
        try dsimp only
        intro hev
        rcases rcC_events f orig nx { s2 with uses := checkAll i d c s2.uses } ev
            (by rw [h3]; exact hev) with h | p
        · rcases rcC_events f orig sb2 { s1 with uses := checkAll i d c s1.uses } ev
              (by rw [h2]; exact h) with h' | p
          · exact rcC_events f orig sb { s with sideEffect := false } ev (by rw [h1]; exact h')
          · exact Or.inr p
        · exact Or.inr p
      · try dsimp only
        by_cases hse : (!s1.sideEffect) = true
        · rw [if_pos hse]
          rcases h3 : rcC f orig nx
              { s1 with uses := checkAll i d c (checkAll li ld lc (checkAll i d c s1.uses)), assignMap := s1.assignMap ++ [(lvs, i)] } with ⟨nx', s3⟩
          try dsimp only
          intro hev
          rcases rcC_events f orig nx
              { s1 with uses := checkAll i d c (checkAll li ld lc (checkAll i d c s1.uses)), assignMap := s1.assignMap ++ [(lvs, i)] } ev
              (by rw [h3]; exact hev) with h | p
          · exact rcC_events f orig sb { s with sideEffect := false } ev (by rw [h1]; exact h)
          · exact Or.inr p
        · rw [if_neg hse]
          rcases h2 : rcC f orig sb2 { s1 with uses := checkAll i d c s1.uses } with ⟨sb2', s2⟩
          try dsimp only
          rcases h3 : rcC f orig nx { s2 with uses := checkAll i d c s2.uses } with ⟨nx', s3⟩
          try dsimp only
          intro hev
          rcases rcC_events f orig nx { s2 with uses := checkAll i d c s2.uses } ev
              (by rw [h3]; exact hev) with h | p
          · rcases rcC_events f orig sb2 { s1 with uses := checkAll i d c s1.uses } ev
                (by rw [h2]; exact h) with h' | p
            · exact rcC_events f orig sb { s with sideEffect := false } ev (by rw [h1]; exact h')
            · exact Or.inr p
          · exact Or.inr p
    | other outp mth =>
      intro ev
      simp only [rcC]
      by_cases ho : outp = true
      · rw [if_pos ho]
        rcases h1 : rcC f orig sb { s with sideEffect := true } with ⟨sb1, s1⟩
        try dsimp only
        rcases h2 : rcC f orig sb2 s1 with ⟨sb2', s2⟩
        try dsimp only
        rcases h3 : rcC f orig nx { s2 with uses := checkAll i d c s2.uses } with ⟨nx', s3⟩
        try dsimp only
        intro hev
        rcases rcC_events f orig nx { s2 with uses := checkAll i d c s2.uses } ev
            (by rw [h3]; exact hev) with h | p
        · rcases rcC_events f orig sb2 s1 ev (by rw [h2]; exact h) with h' | p
          · exact rcC_events f orig sb { s with sideEffect := true } ev (by rw [h1]; exact h')
          · exact Or.inr p
        · exact Or.inr p
      · rw [if_neg ho]
        rcases h1 : rcC f orig sb s with ⟨sb1, s1⟩
        try dsimp only
        rcases h2 : rcC f orig sb2 s1 with ⟨sb2', s2⟩
        try dsimp only
        rcases h3 : rcC f orig nx { s2 with uses := checkAll i d c s2.uses } with ⟨nx', s3⟩
        try dsimp only
        intro hev
        rcases rcC_events f orig nx { s2 with uses := checkAll i d c s2.uses } ev
            (by rw [h3]; exact hev) with h | p
        · rcases rcC_events f orig sb2 s1 ev (by rw [h2]; exact h) with h' | p
          · exact rcC_events f orig sb s ev (by rw [h1]; exact h')
          · exact Or.inr p
        · exact Or.inr p

end V3Dead

namespace V3Dead

theorem delAssign_events (t : Tree) (s : St) (aid : Nat) :
    ∀ ev ∈ (delAssign t s aid).2.delEvents, ev ∈ s.delEvents ∨ ev.id = aid := by
  intro ev hev
  unfold delAssign at hev
  cases hl : t.lookup aid with
  | none => rw [hl] at hev; exact Or.inl hev
  | some a =>
    rw [hl] at hev
    simp only [logDel, List.mem_append, List.mem_singleton] at hev
    rcases hev with h | h
    · exact Or.inl h
    · right
      rw [h]
      exact lookup_id t aid a hl

theorem delAssign_amap (t : Tree) (s : St) (aid : Nat) :
    (delAssign t s aid).2.assignMap = s.assignMap := by
  unfold delAssign
  cases hl : t.lookup aid with
  | none => rfl
  | some a => rfl

theorem delAssign_uses_le (t : Tree) (s : St) (aid y : Nat) :
    (delAssign t s aid).2.uses y ≤ s.uses y := by
  unfold delAssign
  cases hl : t.lookup aid with
  | none => exact le_refl _
  | some a =>
    simp only [logDel]
    exact bumpO_le s.uses a.dtypep y

theorem delAssigns_events (aids : List Nat) (t : Tree) (s : St) :
    (∀ ev ∈ (aids.foldl (fun ts aid => delAssign ts.1 ts.2 aid) (t, s)).2.delEvents,
      ev ∈ s.delEvents ∨ ev.id ∈ aids) ∧
    (aids.foldl (fun ts aid => delAssign ts.1 ts.2 aid) (t, s)).2.assignMap = s.assignMap ∧
    (∀ y, (aids.foldl (fun ts aid => delAssign ts.1 ts.2 aid) (t, s)).2.uses y ≤ s.uses y) := by
  induction aids generalizing t s with
  | nil => exact ⟨fun ev hev => Or.inl hev, rfl, fun y => le_refl _⟩
  | cons aid rest ih =>
    simp only [List.foldl_cons]
    rcases hd : delAssign t s aid with ⟨t1, s1⟩
    have ihr := ih t1 s1
    refine ⟨fun ev hev => ?_, ?_, fun y => ?_⟩
    · rcases (ihr.1 ev hev) with h | h
      · have := delAssign_events t s aid ev (by rw [hd]; exact h)
        rcases this with h' | h'
        · exact Or.inl h'
        · exact Or.inr (by rw [h']; exact List.mem_cons_self aid rest)
      · exact Or.inr (List.mem_cons_of_mem aid h)
    · rw [ihr.2.1]
      have := delAssign_amap t s aid
      rw [hd] at this
      exact this
    · have h1 := ihr.2.2 y
      have h2 := delAssign_uses_le t s aid y
      rw [hd] at h2
      exact le_trans h1 h2

theorem vscDead_events (t : Tree) (s : St) (v : Nat) (h0 : s.uses v = 0) :
    (∀ ev ∈ (vscDead t s v).2.delEvents,
      ev ∈ s.delEvents ∨ ev.u ≤ 0 ∨ ev.id ∈ s.assignMap.map (fun p => p.2)) ∧
    (vscDead t s v).2.assignMap = s.assignMap := by
  unfold vscDead
  dsimp only
  rcases hf : (((s.assignMap.filter (fun p => p.1 = v)).map (·.2)).foldl
      (fun ts aid => delAssign ts.1 ts.2 aid) (t, s)) with ⟨t1, s1⟩
  have hda := delAssigns_events ((s.assignMap.filter (fun p => p.1 = v)).map (·.2)) t s
  rw [hf] at hda
  have haidmem : ∀ a, a ∈ (s.assignMap.filter (fun p => p.1 = v)).map (fun p => p.2) →
      a ∈ s.assignMap.map (fun p => p.2) := by
    intro a ha
    simp only [List.mem_map] at ha ⊢
    rcases ha with ⟨p, hp, he⟩
    exact ⟨p, List.mem_of_mem_filter hp, he⟩
  have hpre : ∀ ev ∈ s1.delEvents,
      ev ∈ s.delEvents ∨ ev.u ≤ 0 ∨ ev.id ∈ s.assignMap.map (fun p => p.2) := by
    intro ev hev
    rcases hda.1 ev hev with h | h
    · exact Or.inl h
    · exact Or.inr (Or.inr (haidmem ev.id h))
  rw [hf]
  dsimp only
  cases hl : t1.lookup v with
  | none => exact ⟨hpre, hda.2.1⟩
  | some vn =>
    rcases vn with _ | ⟨vi, vk, vd, vc, vsb, vsb2, vnx⟩
    · exact ⟨hpre, hda.2.1⟩
    · cases vk with
      | varScope scp vvar =>
        refine ⟨fun ev hev => ?_, hda.2.1⟩
        rcases List.mem_append.mp hev with h | h
        · exact hpre ev h
        · have h' := List.mem_singleton.mp h
          right; left
          rw [h']
          dsimp only [Tree.id, Tree.dtypep]
          have hid : vi = v :=
            lookup_id t1 v _ hl
          rw [hid]
          have hle : s1.uses v ≤ s.uses v := hda.2.2 v
          have h1 := bumpO_le s1.uses scp v
          have h2 := bumpO_le (bumpO s1.uses scp (-1)) vd v
          have h0' : s.uses v = 0 := h0
          omega
      | netlist => exact ⟨hpre, hda.2.1⟩
      | module a b e => exact ⟨hpre, hda.2.1⟩
      | cell a => exact ⟨hpre, hda.2.1⟩
      | scope a b e g q => exact ⟨hpre, hda.2.1⟩
      | var a b e g q => exact ⟨hpre, hda.2.1⟩
      | dtype a b e g => exact ⟨hpre, hda.2.1⟩
      | refDType a b e => exact ⟨hpre, hda.2.1⟩
      | enumItemRef a => exact ⟨hpre, hda.2.1⟩
      | varRef a b e => exact ⟨hpre, hda.2.1⟩
      | ftaskRef a => exact ⟨hpre, hda.2.1⟩
      | typedefD a => exact ⟨hpre, hda.2.1⟩
      | modport a => exact ⟨hpre, hda.2.1⟩
      | cfunc a => exact ⟨hpre, hda.2.1⟩
      | assign => exact ⟨hpre, hda.2.1⟩
      | other a b => exact ⟨hpre, hda.2.1⟩

end V3Dead

namespace V3Dead

theorem vscPhase_events : (l : List Nat) → (t : Tree) → (s : St) →
    (∀ ev ∈ (vscPhase l t s).2.delEvents,
      ev ∈ s.delEvents ∨ ev.u ≤ 0 ∨ ev.id ∈ s.assignMap.map (fun p => p.2)) ∧
    (vscPhase l t s).2.assignMap = s.assignMap
  | [], t, s => ⟨fun ev hev => Or.inl hev, rfl⟩
  | v :: rest, t, s => by
    by_cases h0 : s.uses v = 0
    · simp only [vscPhase, if_pos h0]
      rcases hd : vscDead t s v with ⟨t1, s1⟩
      have hvd := vscDead_events t s v h0
      rw [hd] at hvd
      have ihr := vscPhase_events rest t1 s1
      refine ⟨fun ev hev => ?_, ?_⟩
      · rcases ihr.1 ev hev with h | h | h
        · rcases hvd.1 ev h with h' | h' | h'
          · exact Or.inl h'
          · exact Or.inr (Or.inl h')
          · exact Or.inr (Or.inr h')
        · exact Or.inr (Or.inl h)
        · rw [hvd.2] at h
          exact Or.inr (Or.inr h)
      · rw [ihr.2, hvd.2]
    · simp only [vscPhase, if_neg h0]
      exact vscPhase_events rest t s

theorem varPass_events : (slots : List (Option Nat)) → (t : Tree) → (s : St) →
    ∀ ev ∈ (varPass slots t s).2.2.1.delEvents, ev ∈ s.delEvents ∨ ev.u ≤ 0
  | [], t, s => fun ev hev => Or.inl hev
  | none :: rest, t, s => by
    simp only [varPass]
    rcases hr : varPass rest t s with ⟨rest', t', s', r⟩
    intro ev hev
    have := varPass_events rest t s ev (by rw [hr]; exact hev)
    exact this
  | some v :: rest, t, s => by
    by_cases h0 : s.uses v = 0
    · simp only [varPass, if_pos h0]
      cases hl : t.lookup v with
      | none =>
        try dsimp only
        rcases hr : varPass rest t s with ⟨rest', t', s', r⟩
        intro ev hev
        exact varPass_events rest t s ev (by rw [hr]; exact hev)
      | some vn =>
        try dsimp only
        rcases hr : varPass rest (t.removeSub v)
            (logDel vn { s with uses := bumpO s.uses vn.dtypep (-1) }) with ⟨rest', t', s', r⟩
        intro ev hev
        have := varPass_events rest (t.removeSub v)
            (logDel vn { s with uses := bumpO s.uses vn.dtypep (-1) }) ev (by rw [hr]; exact hev)
        rcases this with h | h
        · rcases List.mem_append.mp h with h' | h'
          · exact Or.inl h'
          · have he := List.mem_singleton.mp h'
            have hid : vn.id = v := lookup_id t v vn hl
            right
            rw [he]
            show bumpO s.uses vn.dtypep (-1) vn.id ≤ 0
            rw [hid]
            have h1 := bumpO_le s.uses vn.dtypep v
            omega
        · exact Or.inr h
    · simp only [varPass, if_neg h0]
      rcases hr : varPass rest t s with ⟨rest', t', s', r⟩
      intro ev hev
      exact varPass_events rest t s ev (by rw [hr]; exact hev)

theorem varLoop_events : (fuel : Nat) → (slots : List (Option Nat)) → (t : Tree) → (s : St) →
    ∀ ev ∈ (varLoop fuel slots t s).2.2.1.delEvents, ev ∈ s.delEvents ∨ ev.u ≤ 0
  | 0, _, _, _ => fun ev hev => Or.inl hev
  | fuel + 1, slots, t, s => by
    simp only [varLoop]
    rcases hp : varPass slots t s with ⟨slots', t', s', retry⟩
    intro ev
    by_cases hre : retry = true
    · rw [if_pos hre]
      intro hev
      rcases varLoop_events fuel slots' t' s' ev hev with h | h
      · exact varPass_events slots t s ev (by rw [hp]; exact h)
      · exact Or.inr h
    · rw [if_neg hre]
      intro hev
      exact varPass_events slots t s ev (by rw [hp]; exact hev)

theorem scopePass_events : (slots : List (Option Nat)) → (t : Tree) → (s : St) →
    ∀ ev ∈ (scopePass slots t s).2.2.1.delEvents, ev ∈ s.delEvents ∨ ev.u ≤ 0
  | [], t, s => fun ev hev => Or.inl hev
  | none :: rest, t, s => by
    simp only [scopePass]
    rcases hr : scopePass rest t s with ⟨rest', t', s', r⟩
    intro ev hev
    exact scopePass_events rest t s ev (by rw [hr]; exact hev)
  | some v :: rest, t, s => by
    by_cases h0 : s.uses v = 0
    · simp only [scopePass, if_pos h0]
      cases hl : t.lookup v with
      | none =>
        try dsimp only [Tree.kind, Tree.dtypep]
        rcases hr : scopePass rest t s with ⟨rest', t', s', r⟩
        intro ev hev
        exact scopePass_events rest t s ev (by rw [hr]; exact hev)
      | some sn =>
        rcases sn with _ | ⟨si, sk, sd, sc, ssb, ssb2, snx⟩
        · try dsimp only [Tree.kind, Tree.dtypep]
          rcases hr : scopePass rest t s with ⟨rest', t', s', r⟩
          intro ev hev
          exact scopePass_events rest t s ev (by rw [hr]; exact hev)
        · cases sk with
          | scope abv tp hv hb hf =>
            try dsimp only [Tree.kind, Tree.dtypep]
            rcases hr : scopePass rest (t.removeSub v) (logDel (Tree.node si (Kind.scope abv tp hv hb hf) sd sc ssb ssb2 snx) { s with uses := bumpO (bumpO s.uses abv (-1)) sd (-1) }) with ⟨rest', t', s', r⟩
            intro ev hev
            have := scopePass_events rest (t.removeSub v)
                (logDel (Tree.node si (Kind.scope abv tp hv hb hf) sd sc ssb ssb2 snx)
                  { s with uses := bumpO (bumpO s.uses abv (-1)) sd (-1) }) ev
                (by rw [hr]; exact hev)
            rcases this with h | h
            · rcases List.mem_append.mp h with h' | h'
              · exact Or.inl h'
              · have he := List.mem_singleton.mp h'
                have hid : si = v := lookup_id t v _ hl
                right
                rw [he]
                show bumpO (bumpO s.uses abv (-1)) sd (-1) si ≤ 0
                rw [hid]
                have h1 := bumpO_le s.uses abv v
                have h2 := bumpO_le (bumpO s.uses abv (-1)) sd v
                omega
            · exact Or.inr h
          | netlist =>
            try dsimp only [Tree.kind, Tree.dtypep]
            rcases hr : scopePass rest t s with ⟨rest', t', s', r⟩
            intro ev hev
            exact scopePass_events rest t s ev (by rw [hr]; exact hev)
          | module a b e =>
            try dsimp only [Tree.kind, Tree.dtypep]
            rcases hr : scopePass rest t s with ⟨rest', t', s', r⟩
            intro ev hev
            exact scopePass_events rest t s ev (by rw [hr]; exact hev)
          | cell a =>
            try dsimp only [Tree.kind, Tree.dtypep]
            rcases hr : scopePass rest t s with ⟨rest', t', s', r⟩
            intro ev hev
            exact scopePass_events rest t s ev (by rw [hr]; exact hev)
          | varScope a b =>
            try dsimp only [Tree.kind, Tree.dtypep]
            rcases hr : scopePass rest t s with ⟨rest', t', s', r⟩
            intro ev hev
            exact scopePass_events rest t s ev (by rw [hr]; exact hev)
          | var a b e g q =>
            try dsimp only [Tree.kind, Tree.dtypep]
            rcases hr : scopePass rest t s with ⟨rest', t', s', r⟩
            intro ev hev
            exact scopePass_events rest t s ev (by rw [hr]; exact hev)
          | dtype a b e g =>
            try dsimp only [Tree.kind, Tree.dtypep]
            rcases hr : scopePass rest t s with ⟨rest', t', s', r⟩
            intro ev hev
            exact scopePass_events rest t s ev (by rw [hr]; exact hev)
          | refDType a b e =>
            try dsimp only [Tree.kind, Tree.dtypep]
            rcases hr : scopePass rest t s with ⟨rest', t', s', r⟩
            intro ev hev
            exact scopePass_events rest t s ev (by rw [hr]; exact hev)
          | enumItemRef a =>
            try dsimp only [Tree.kind, Tree.dtypep]
            rcases hr : scopePass rest t s with ⟨rest', t', s', r⟩
            intro ev hev
            exact scopePass_events rest t s ev (by rw [hr]; exact hev)
          | varRef a b e =>
            try dsimp only [Tree.kind, Tree.dtypep]
            rcases hr : scopePass rest t s with ⟨rest', t', s', r⟩
            intro ev hev
            exact scopePass_events rest t s ev (by rw [hr]; exact hev)
          | ftaskRef a =>
            try dsimp only [Tree.kind, Tree.dtypep]
            rcases hr : scopePass rest t s with ⟨rest', t', s', r⟩
            intro ev hev
            exact scopePass_events rest t s ev (by rw [hr]; exact hev)
          | typedefD a =>
            try dsimp only [Tree.kind, Tree.dtypep]
            rcases hr : scopePass rest t s with ⟨rest', t', s', r⟩
            intro ev hev
            exact scopePass_events rest t s ev (by rw [hr]; exact hev)
          | modport a =>
            try dsimp only [Tree.kind, Tree.dtypep]
            rcases hr : scopePass rest t s with ⟨rest', t', s', r⟩
            intro ev hev
            exact scopePass_events rest t s ev (by rw [hr]; exact hev)
          | cfunc a =>
            try dsimp only [Tree.kind, Tree.dtypep]
            rcases hr : scopePass rest t s with ⟨rest', t', s', r⟩
            intro ev hev
            exact scopePass_events rest t s ev (by rw [hr]; exact hev)
          | assign =>
            try dsimp only [Tree.kind, Tree.dtypep]
            rcases hr : scopePass rest t s with ⟨rest', t', s', r⟩
            intro ev hev
            exact scopePass_events rest t s ev (by rw [hr]; exact hev)
          | other a b =>
            try dsimp only [Tree.kind, Tree.dtypep]
            rcases hr : scopePass rest t s with ⟨rest', t', s', r⟩
            intro ev hev
            exact scopePass_events rest t s ev (by rw [hr]; exact hev)
    · simp only [scopePass, if_neg h0]
      rcases hr : scopePass rest t s with ⟨rest', t', s', r⟩
      intro ev hev
      exact scopePass_events rest t s ev (by rw [hr]; exact hev)

theorem scopeLoop_events : (fuel : Nat) → (slots : List (Option Nat)) → (t : Tree) → (s : St) →
    ∀ ev ∈ (scopeLoop fuel slots t s).2.2.1.delEvents, ev ∈ s.delEvents ∨ ev.u ≤ 0
  | 0, _, _, _ => fun ev hev => Or.inl hev
  | fuel + 1, slots, t, s => by
    simp only [scopeLoop]
    rcases hp : scopePass slots t s with ⟨slots', t', s', retry⟩
    intro ev
    by_cases hre : retry = true
    · rw [if_pos hre]
      intro hev
      rcases scopeLoop_events fuel slots' t' s' ev hev with h | h
      · exact scopePass_events slots t s ev (by rw [hp]; exact h)
      · exact Or.inr h
    · rw [if_neg hre]
      intro hev
      exact scopePass_events slots t s ev (by rw [hp]; exact hev)

theorem cellPhase_events : (l : List Nat) → (t : Tree) → (s : St) →
    ∀ ev ∈ (cellPhase l t s).2.delEvents, ev ∈ s.delEvents ∨ ev.u ≤ 0
  | [], t, s => fun ev hev => Or.inl hev
  | cId :: rest, t, s => by
    simp only [cellPhase]
    cases hl : t.lookup cId with
    | none => exact cellPhase_events rest t s
    | some cn =>
      rcases cn with _ | ⟨ci, ck, cd, cc, csb, csb2, cnx⟩
      · exact cellPhase_events rest t s
      · cases ck with
        | cell mt =>
          intro ev hev
          simp only [Tree.kind] at hev
          split at hev
          · rename_i hg
            rw [Bool.and_eq_true] at hg
            have := cellPhase_events rest (t.removeSub cId)
                (logDel (Tree.node ci (Kind.cell mt) cd cc csb csb2 cnx)
                  { s with uses := bump s.uses mt (-1) }) ev hev
            rcases this with h | h
            · rcases List.mem_append.mp h with h' | h'
              · exact Or.inl h'
              · have he := List.mem_singleton.mp h'
                have hid : ci = cId := lookup_id t cId _ hl
                right
                rw [he]
                show bump s.uses mt (-1) ci ≤ 0
                rw [hid]
                have hg0 : s.uses cId = 0 := of_decide_eq_true hg.1
                have h1 := bump_le s.uses mt cId
                omega
            · exact Or.inr h
          · exact cellPhase_events rest t s ev hev
        | netlist => exact cellPhase_events rest t s
        | module a b e => exact cellPhase_events rest t s
        | scope a b e g q => exact cellPhase_events rest t s
        | varScope a b => exact cellPhase_events rest t s
        | var a b e g q => exact cellPhase_events rest t s
        | dtype a b e g => exact cellPhase_events rest t s
        | refDType a b e => exact cellPhase_events rest t s
        | enumItemRef a => exact cellPhase_events rest t s
        | varRef a b e => exact cellPhase_events rest t s
        | ftaskRef a => exact cellPhase_events rest t s
        | typedefD a => exact cellPhase_events rest t s
        | modport a => exact cellPhase_events rest t s
        | cfunc a => exact cellPhase_events rest t s
        | assign => exact cellPhase_events rest t s
        | other a b => exact cellPhase_events rest t s

end V3Dead

namespace V3Dead

theorem deadCheckVarF_events (t : Tree) (s : St) :
    ∀ ev ∈ (deadCheckVarF t s).2.delEvents,
      ev ∈ s.delEvents ∨ ev.u ≤ 0 ∨ ev.id ∈ s.assignMap.map (fun p => p.2) := by
  intro ev hev
  unfold deadCheckVarF at hev
  dsimp only at hev
  rcases ha : vscPhase s.vscsp t s with ⟨ta, sa⟩
  rw [ha] at hev
  dsimp only at hev
  rcases hb : varLoop ((sa.varsp.map some).length + 1) (sa.varsp.map some) ta sa
    with ⟨slots', tb, sb, rb⟩
  rw [hb] at hev
  dsimp only at hev
  have hvsc := vscPhase_events s.vscsp t s
  rw [ha] at hvsc
  have hvl := varLoop_events ((sa.varsp.map some).length + 1) (sa.varsp.map some) ta sa
  rw [hb] at hvl
  by_cases hmem : ev ∈ sb.delEvents
  · rcases hvl ev hmem with h | h
    · rcases hvsc.1 ev h with h' | h' | h'
      · exact Or.inl h'
      · exact Or.inr (Or.inl h')
      · exact Or.inr (Or.inr h')
    · exact Or.inr (Or.inl h)
  · have := dtypePhase_events sb.dtypesp tb sb ev hev hmem
    exact Or.inr (Or.inl (le_of_eq this.1))

theorem deadCheckScopeF_events (t : Tree) (s : St) :
    ∀ ev ∈ (deadCheckScopeF t s).2.delEvents, ev ∈ s.delEvents ∨ ev.u ≤ 0 := by
  intro ev hev
  unfold deadCheckScopeF at hev
  dsimp only at hev
  rcases hb : scopeLoop ((s.scopesp.map some).length + 1) (s.scopesp.map some) t s
    with ⟨slots', tb, sb, rb⟩
  rw [hb] at hev
  dsimp only at hev
  have hsl := scopeLoop_events ((s.scopesp.map some).length + 1) (s.scopesp.map some) t s
  rw [hb] at hsl
  exact hsl ev hev

theorem deadCheckCellsF_events (t : Tree) (s : St) :
    ∀ ev ∈ (deadCheckCellsF t s).2.delEvents, ev ∈ s.delEvents ∨ ev.u ≤ 0 := by
  intro ev hev
  exact cellPhase_events s.cellsp t s ev hev

theorem deadCheckModF_events (t : Tree) (s : St) :
    ∀ ev ∈ (deadCheckModF t s).2.delEvents, ev ∈ s.delEvents ∨ ev.u ≤ 0 := by
  intro ev hev
  unfold deadCheckModF at hev
  rcases t with _ | ⟨i, k, d, c, sb, sb2, nx⟩
  · exact Or.inl hev
  · dsimp only at hev
    rcases hm : modLoop (sb.chainLen + 1) sb s with ⟨ms', s', r⟩
    rw [hm] at hev
    dsimp only at hev
    have := modLoop_events (sb.chainLen + 1) sb s ev (by rw [hm]; exact hev)
    rcases this with h | h
    · exact Or.inl h
    · exact Or.inr (le_of_eq h.1)

/-- C3: every deletion in an invocation.  The traversal part deletes
only elim-cells Modports/Typedefs (never consulting a counter); the
sweep part logs a counter that the guard tested as zero (self fix-ups
can push the logged value below zero), except the recorded assigns of
a dead varscope, which are deleted with no counter test at all. -/
theorem C3_amended_deletion_guards (f : Flags) (t t1 : Tree) (s1 : St)
    (hrc : rcRun f t = (t1, s1)) :
    (∀ ev ∈ s1.delEvents, f.elimCells = true ∧ travElim ev.k = true) ∧
    (∀ ev ∈ (runDead f t).2.delEvents,
      ev ∈ s1.delEvents ∨ ev.u ≤ 0 ∨ ev.id ∈ s1.assignMap.map (fun p => p.2)) := by
  constructor
  · intro ev hev
    have hin : ev ∈ (rcC f t t initSt).2.delEvents := by
      have heq : rcC f t t initSt = (t1, s1) := hrc
      rw [heq]
      exact hev
    rcases rcC_events f t t initSt ev hin with h | p
    · exact absurd h (List.not_mem_nil ev)
    · exact p
  · intro ev hev
    have hru : runDead f t =
        (let r1 := deadCheckVarF t1 s1
         let r2 := if f.elimScopes then deadCheckScopeF r1.1 r1.2 else r1
         let r3 := if f.elimCells then deadCheckCellsF r2.1 r2.2 else r2
         deadCheckModF r3.1 r3.2) := by
      unfold runDead
      rw [hrc]
    rw [hru] at hev
    dsimp only at hev
    rcases h2 : deadCheckVarF t1 s1 with ⟨t2, s2⟩
    rw [h2] at hev
    rcases h3 : (if f.elimScopes then deadCheckScopeF (t2, s2).1 (t2, s2).2 else (t2, s2))
      with ⟨t3, s3⟩
    rw [h3] at hev
    rcases h4 : (if f.elimCells then deadCheckCellsF (t3, s3).1 (t3, s3).2 else (t3, s3))
      with ⟨t4, s4⟩
    rw [h4] at hev
    have e4 : ∀ e ∈ s4.delEvents, e ∈ s3.delEvents ∨ e.u ≤ 0 := by
      by_cases hC : f.elimCells = true
      · rw [if_pos hC] at h4
        intro e he
        exact deadCheckCellsF_events t3 s3 e (by rw [h4]; exact he)
      · rw [if_neg hC] at h4
        injection h4 with h4a h4b
        intro e he
        rw [h4b]
        exact Or.inl he
    have e3 : ∀ e ∈ s3.delEvents, e ∈ s2.delEvents ∨ e.u ≤ 0 := by
      by_cases hS : f.elimScopes = true
      · rw [if_pos hS] at h3
        intro e he
        exact deadCheckScopeF_events t2 s2 e (by rw [h3]; exact he)
      · rw [if_neg hS] at h3
        injection h3 with h3a h3b
        intro e he
        rw [h3b]
        exact Or.inl he
    have e2 : ∀ e ∈ s2.delEvents,
        e ∈ s1.delEvents ∨ e.u ≤ 0 ∨ e.id ∈ s1.assignMap.map (fun p => p.2) := by
      intro e he
      exact deadCheckVarF_events t1 s1 e (by rw [h2]; exact he)
    have hfin := deadCheckModF_events t4 s4 ev hev
    rcases hfin with h | h
    · rcases e4 ev h with h' | h'
      · rcases e3 ev h' with h'' | h''
        · exact e2 ev h''
        · exact Or.inr (Or.inl h'')
      · exact Or.inr (Or.inl h')
    · exact Or.inr (Or.inl h)

/-- The counterexample tree for C3: a node whose `dtypep()` targets a
var-less Modport gives the Modport a positive counter, yet the
traversal under `elim_cells` deletes it on sight. -/
def exC3 : Tree :=
  .node 1 .netlist none none
    (.node 2 (.other false false) (some 3) none .nil .nil
      (.node 3 (.modport false) none none .nil .nil .nil))
    .nil .nil

theorem C3_counterexample :
    (⟨3, 1, Kind.modport false⟩ : DelEvent) ∈ (deadifyAll exC3).2.delEvents ∧
    ((1 : Int) = 0 → False) := by
  constructor
  · decide
  · decide

end V3Dead

namespace V3Dead

theorem bump_ge (u : Nat → Int) (z y : Nat) : u y ≤ bump u z 1 y := by
  simp only [bump]
  by_cases h : y = z
  · rw [if_pos h]; omega
  · rw [if_neg h]

theorem bumpO_ge (u : Nat → Int) (o : Option Nat) (y : Nat) : u y ≤ bumpO u o 1 y := by
  cases o with
  | none => exact le_refl _
  | some z => exact bump_ge u z y

theorem checkAll_ge (i : Nat) (d c : Option Nat) (u : Nat → Int) (y : Nat) :
    u y ≤ checkAll i d c u y := by
  unfold checkAll
  refine le_trans ?_ (bumpO_ge _ c y)
  cases d with
  | none => exact le_refl _
  | some z =>
    dsimp only
    by_cases hiz : i = z
    · rw [if_pos hiz]
    · rw [if_neg hiz]
      exact bump_ge u z y

theorem pinUses_ge (isPub : Bool) (mp : Option (Nat × Bool)) (u : Nat → Int) (y : Nat) :
    u y ≤ pinUses isPub mp u y := by
  cases mp with
  | none => exact le_refl _
  | some p =>
    rcases p with ⟨m, b⟩
    cases b with
    | false => exact le_refl _
    | true =>
      simp only [pinUses]
      by_cases hp : isPub = true
      · rw [if_pos hp]; exact bump_ge u m y
      · rw [if_neg hp]

theorem vsUses_ge (orig : Tree) (vsp : Option Nat) (u : Nat → Int) (y : Nat) :
    u y ≤ vsUses orig vsp u y := by
  cases vsp with
  | none => exact le_refl _
  | some vs =>
    simp only [vsUses]
    cases hl : orig.lookup vs with
    | none => exact bump_ge u vs y
    | some a =>
      rcases a with _ | ⟨ai, ak, ad, ac, asb, asb2, anx⟩
      · exact bump_ge u vs y
      · cases ak with
        | varScope scp vv =>
          dsimp only
          exact le_trans (bump_ge u vs y) (bump_ge (bump u vs 1) vv y)
        | netlist => exact bump_ge u vs y
        | module a b e => exact bump_ge u vs y
        | cell a => exact bump_ge u vs y
        | scope a b e g q => exact bump_ge u vs y
        | var a b e g q => exact bump_ge u vs y
        | dtype a b e g => exact bump_ge u vs y
        | refDType a b e => exact bump_ge u vs y
        | enumItemRef a => exact bump_ge u vs y
        | varRef a b e => exact bump_ge u vs y
        | ftaskRef a => exact bump_ge u vs y
        | typedefD a => exact bump_ge u vs y
        | modport a => exact bump_ge u vs y
        | cfunc a => exact bump_ge u vs y
        | assign => exact bump_ge u vs y
        | other a b => exact bump_ge u vs y

theorem pkgHandle_ge (f : Flags) (pp : Option Nat) (s : St) (y : Nat) :
    s.uses y ≤ (pkgHandle f pp s).2.uses y := by
  unfold pkgHandle
  cases pp with
  | none => exact le_refl _
  | some p =>
    dsimp only
    by_cases hc : f.elimCells = true
    · rw [if_pos hc]
    · rw [if_neg hc]
      exact bump_ge s.uses p y

theorem checkDType_ge (f : Flags) (i : Nat) (g mem : Bool) (vr : Option Nat)
    (s : St) (y : Nat) : s.uses y ≤ (checkDType f i g mem vr s).uses y := by
  unfold checkDType
  dsimp only
  by_cases hc : (!g && f.elimDTypes && !mem) = true
  · rw [if_pos hc]
    exact bumpO_ge _ vr y
  · rw [if_neg hc]
    exact bumpO_ge _ vr y

/-- The reference-counting traversal never decrements a counter. -/
theorem rcC_mono (f : Flags) (orig : Tree) : (t : Tree) → (s : St) → (y : Nat) →
    s.uses y ≤ (rcC f orig t s).2.uses y
  | .nil, _, _ => le_refl _
  | .node i k d c sb sb2 nx, s, y => by
    cases k with
    | netlist =>
      simp only [rcC]
      rcases h1 : rcC f orig sb s with ⟨sb1, s1⟩
      try dsimp only
      have ih1 := rcC_mono f orig sb s y
      rw [h1] at ih1
      rcases h2 : rcC f orig sb2 s1 with ⟨sb2', s2⟩
      try dsimp only
      have ih2 := rcC_mono f orig sb2 s1 y
      rw [h2] at ih2
      rcases h3 : rcC f orig nx { s2 with uses := checkAll i d c s2.uses } with ⟨nx', s3⟩
      try dsimp only
      have ih3 := rcC_mono f orig nx { s2 with uses := checkAll i d c s2.uses } y
      rw [h3] at ih3
      have hloc : s2.uses y ≤ ({ s2 with uses := checkAll i d c s2.uses } : St).uses y := checkAll_ge i d c s2.uses y
      exact le_trans (le_trans (le_trans ih1 ih2) hloc) ih3

    | cfunc scp =>
      simp only [rcC]
      rcases h1 : rcC f orig sb s with ⟨sb1, s1⟩
      try dsimp only
      have ih1 := rcC_mono f orig sb s y
      rw [h1] at ih1
      rcases h2 : rcC f orig sb2 s1 with ⟨sb2', s2⟩
      try dsimp only
      have ih2 := rcC_mono f orig sb2 s1 y
      rw [h2] at ih2
      rcases h3 : rcC f orig nx { s2 with uses := bumpO (checkAll i d c s2.uses) scp 1 } with ⟨nx', s3⟩
      try dsimp only
      have ih3 := rcC_mono f orig nx { s2 with uses := bumpO (checkAll i d c s2.uses) scp 1 } y
      rw [h3] at ih3
      have hloc : s2.uses y ≤ ({ s2 with uses := bumpO (checkAll i d c s2.uses) scp 1 } : St).uses y := le_trans (checkAll_ge i d c s2.uses y) (bumpO_ge (checkAll i d c s2.uses) scp y)
      exact le_trans (le_trans (le_trans ih1 ih2) hloc) ih3

    | cell mt =>
      simp only [rcC]
      rcases h1 : rcC f orig sb s with ⟨sb1, s1⟩
      try dsimp only
      have ih1 := rcC_mono f orig sb s y
      rw [h1] at ih1
      rcases h2 : rcC f orig sb2 s1 with ⟨sb2', s2⟩
      try dsimp only
      have ih2 := rcC_mono f orig sb2 s1 y
      rw [h2] at ih2
      rcases h3 : rcC f orig nx { s2 with uses := bump (checkAll i d c s2.uses) mt 1, cellsp := s2.cellsp ++ [i] } with ⟨nx', s3⟩
      try dsimp only
      have ih3 := rcC_mono f orig nx { s2 with uses := bump (checkAll i d c s2.uses) mt 1, cellsp := s2.cellsp ++ [i] } y
      rw [h3] at ih3
      have hloc : s2.uses y ≤ ({ s2 with uses := bump (checkAll i d c s2.uses) mt 1, cellsp := s2.cellsp ++ [i] } : St).uses y := le_trans (checkAll_ge i d c s2.uses y) (bump_ge (checkAll i d c s2.uses) mt y)
      exact le_trans (le_trans (le_trans ih1 ih2) hloc) ih3

    | dtype g mem cl vr =>
      simp only [rcC]
      rcases h1 : rcC f orig sb s with ⟨sb1, s1⟩
      try dsimp only
      have ih1 := rcC_mono f orig sb s y
      rw [h1] at ih1
      rcases h2 : rcC f orig sb2 s1 with ⟨sb2', s2⟩
      try dsimp only
      have ih2 := rcC_mono f orig sb2 s1 y
      rw [h2] at ih2
      rcases h3 : rcC f orig nx { checkDType f i g mem vr s2 with uses := checkAll i d c (checkDType f i g mem vr s2).uses } with ⟨nx', s3⟩
      try dsimp only
      have ih3 := rcC_mono f orig nx { checkDType f i g mem vr s2 with uses := checkAll i d c (checkDType f i g mem vr s2).uses } y
      rw [h3] at ih3
      have hloc : s2.uses y ≤ ({ checkDType f i g mem vr s2 with uses := checkAll i d c (checkDType f i g mem vr s2).uses } : St).uses y := le_trans (checkDType_ge f i g mem vr s2 y) (checkAll_ge i d c (checkDType f i g mem vr s2).uses y)
      exact le_trans (le_trans (le_trans ih1 ih2) hloc) ih3

    | module lvl intl pkg =>
      simp only [rcC]
      rcases h1 : rcC f orig sb { s with modp := some (i, pkg) } with ⟨sb1, s1⟩
      try dsimp only
      have ih1 := rcC_mono f orig sb { s with modp := some (i, pkg) } y
      rw [h1] at ih1
      rcases h2 : rcC f orig sb2 s1 with ⟨sb2', s2⟩
      try dsimp only
      have ih2 := rcC_mono f orig sb2 s1 y
      rw [h2] at ih2
      rcases h3 : rcC f orig nx { s2 with uses := checkAll i d c s2.uses, modp := none } with ⟨nx', s3⟩
      try dsimp only
      have ih3 := rcC_mono f orig nx { s2 with uses := checkAll i d c s2.uses, modp := none } y
      rw [h3] at ih3
      have hloc : s2.uses y ≤ ({ s2 with uses := checkAll i d c s2.uses, modp := none } : St).uses y := checkAll_ge i d c s2.uses y
      exact le_trans (le_trans (le_trans ih1 ih2) hloc) ih3

    | scope abv top hv hb hf =>
      simp only [rcC]
      rcases h1 : rcC f orig sb s with ⟨sb1, s1⟩
      try dsimp only
      have ih1 := rcC_mono f orig sb s y
      rw [h1] at ih1
      rcases h2 : rcC f orig sb2 s1 with ⟨sb2', s2⟩
      try dsimp only
      have ih2 := rcC_mono f orig sb2 s1 y
      rw [h2] at ih2
      by_cases hcc : (!top && !hv && !hb && !hf) = true
      · rw [if_pos hcc]
        rcases h3 : rcC f orig nx { s2 with uses := bumpO (checkAll i d c s2.uses) abv 1, scopesp := s2.scopesp ++ [i] } with ⟨nx', s3⟩
        try dsimp only
        have ih3 := rcC_mono f orig nx { s2 with uses := bumpO (checkAll i d c s2.uses) abv 1, scopesp := s2.scopesp ++ [i] } y
        rw [h3] at ih3
        have hloc : s2.uses y ≤ ({ s2 with uses := bumpO (checkAll i d c s2.uses) abv 1, scopesp := s2.scopesp ++ [i] } : St).uses y := le_trans (checkAll_ge i d c s2.uses y) (bumpO_ge (checkAll i d c s2.uses) abv y)
        exact le_trans (le_trans (le_trans ih1 ih2) hloc) ih3
      · rw [if_neg hcc]
        rcases h3 : rcC f orig nx { s2 with uses := bumpO (checkAll i d c s2.uses) abv 1 } with ⟨nx', s3⟩
        try dsimp only
        have ih3 := rcC_mono f orig nx { s2 with uses := bumpO (checkAll i d c s2.uses) abv 1 } y
        rw [h3] at ih3
        have hloc : s2.uses y ≤ ({ s2 with uses := bumpO (checkAll i d c s2.uses) abv 1 } : St).uses y := le_trans (checkAll_ge i d c s2.uses y) (bumpO_ge (checkAll i d c s2.uses) abv y)
        exact le_trans (le_trans (le_trans ih1 ih2) hloc) ih3

    | varScope scp vvar =>
      simp only [rcC]
      rcases h1 : rcC f orig sb s with ⟨sb1, s1⟩
      try dsimp only
      have ih1 := rcC_mono f orig sb s y
      rw [h1] at ih1
      rcases h2 : rcC f orig sb2 s1 with ⟨sb2', s2⟩
      try dsimp only
      have ih2 := rcC_mono f orig sb2 s1 y
      rw [h2] at ih2
      by_cases hcc : mightElimVarAt f orig vvar = true
      · rw [if_pos hcc]
        rcases h3 : rcC f orig nx { s2 with uses := bumpO (checkAll i d c s2.uses) scp 1, vscsp := s2.vscsp ++ [i] } with ⟨nx', s3⟩
        try dsimp only
        have ih3 := rcC_mono f orig nx { s2 with uses := bumpO (checkAll i d c s2.uses) scp 1, vscsp := s2.vscsp ++ [i] } y
        rw [h3] at ih3
        have hloc : s2.uses y ≤ ({ s2 with uses := bumpO (checkAll i d c s2.uses) scp 1, vscsp := s2.vscsp ++ [i] } : St).uses y := le_trans (checkAll_ge i d c s2.uses y) (bumpO_ge (checkAll i d c s2.uses) scp y)
        exact le_trans (le_trans (le_trans ih1 ih2) hloc) ih3
      · rw [if_neg hcc]
        rcases h3 : rcC f orig nx { s2 with uses := bumpO (checkAll i d c s2.uses) scp 1 } with ⟨nx', s3⟩
        try dsimp only
        have ih3 := rcC_mono f orig nx { s2 with uses := bumpO (checkAll i d c s2.uses) scp 1 } y
        rw [h3] at ih3
        have hloc : s2.uses y ≤ ({ s2 with uses := bumpO (checkAll i d c s2.uses) scp 1 } : St).uses y := le_trans (checkAll_ge i d c s2.uses y) (bumpO_ge (checkAll i d c s2.uses) scp y)
        exact le_trans (le_trans (le_trans ih1 ih2) hloc) ih3

    | var sp io tm pa tr =>
      simp only [rcC]
      rcases h1 : rcC f orig sb s with ⟨sb1, s1⟩
      try dsimp only
      have ih1 := rcC_mono f orig sb s y
      rw [h1] at ih1
      rcases h2 : rcC f orig sb2 s1 with ⟨sb2', s2⟩
      try dsimp only
      have ih2 := rcC_mono f orig sb2 s1 y
      rw [h2] at ih2
      by_cases hcc : mightElimVar f sp io tm pa tr = true
      · rw [if_pos hcc]
        rcases h3 : rcC f orig nx { s2 with uses := pinUses sp s2.modp (checkAll i d c s2.uses), varsp := s2.varsp ++ [i] } with ⟨nx', s3⟩
        try dsimp only
        have ih3 := rcC_mono f orig nx { s2 with uses := pinUses sp s2.modp (checkAll i d c s2.uses), varsp := s2.varsp ++ [i] } y
        rw [h3] at ih3
        have hloc : s2.uses y ≤ ({ s2 with uses := pinUses sp s2.modp (checkAll i d c s2.uses), varsp := s2.varsp ++ [i] } : St).uses y := le_trans (checkAll_ge i d c s2.uses y) (pinUses_ge sp s2.modp (checkAll i d c s2.uses) y)
        exact le_trans (le_trans (le_trans ih1 ih2) hloc) ih3
      · rw [if_neg hcc]
        rcases h3 : rcC f orig nx { s2 with uses := pinUses sp s2.modp (checkAll i d c s2.uses) } with ⟨nx', s3⟩
        try dsimp only
        have ih3 := rcC_mono f orig nx { s2 with uses := pinUses sp s2.modp (checkAll i d c s2.uses) } y
        rw [h3] at ih3
        have hloc : s2.uses y ≤ ({ s2 with uses := pinUses sp s2.modp (checkAll i d c s2.uses) } : St).uses y := le_trans (checkAll_ge i d c s2.uses y) (pinUses_ge sp s2.modp (checkAll i d c s2.uses) y)
        exact le_trans (le_trans (le_trans ih1 ih2) hloc) ih3

    | varRef vp vsp pp =>
      simp only [rcC]
      rcases h1 : rcC f orig sb s with ⟨sb1, s1⟩
      try dsimp only
      have ih1 := rcC_mono f orig sb s y
      rw [h1] at ih1
      rcases h2 : rcC f orig sb2 s1 with ⟨sb2', s2⟩
      try dsimp only
      have ih2 := rcC_mono f orig sb2 s1 y
      rw [h2] at ih2
      rcases hp : pkgHandle f pp { s2 with uses := bumpO (vsUses orig vsp (checkAll i d c s2.uses)) vp 1 } with ⟨pp', s3⟩
      try dsimp only
      have hpg := pkgHandle_ge f pp { s2 with uses := bumpO (vsUses orig vsp (checkAll i d c s2.uses)) vp 1 } y
      rw [hp] at hpg
      rcases h3 : rcC f orig nx s3 with ⟨nx', s4⟩
      try dsimp only
      have ih3 := rcC_mono f orig nx s3 y
      rw [h3] at ih3
      have hloc : s2.uses y ≤ ({ s2 with uses := bumpO (vsUses orig vsp (checkAll i d c s2.uses)) vp 1 } : St).uses y := le_trans (le_trans (checkAll_ge i d c s2.uses y) (vsUses_ge orig vsp (checkAll i d c s2.uses) y)) (bumpO_ge (vsUses orig vsp (checkAll i d c s2.uses)) vp y)
      exact le_trans (le_trans (le_trans (le_trans ih1 ih2) hloc) hpg) ih3

    | ftaskRef pp =>
      simp only [rcC]
      rcases h1 : rcC f orig sb s with ⟨sb1, s1⟩
      try dsimp only
      have ih1 := rcC_mono f orig sb s y
      rw [h1] at ih1
      rcases h2 : rcC f orig sb2 s1 with ⟨sb2', s2⟩
      try dsimp only
      have ih2 := rcC_mono f orig sb2 s1 y
      rw [h2] at ih2
      rcases hp : pkgHandle f pp { s2 with uses := checkAll i d c s2.uses } with ⟨pp', s3⟩
      try dsimp only
      have hpg := pkgHandle_ge f pp { s2 with uses := checkAll i d c s2.uses } y
      rw [hp] at hpg
      rcases h3 : rcC f orig nx s3 with ⟨nx', s4⟩
      try dsimp only
      have ih3 := rcC_mono f orig nx s3 y
      rw [h3] at ih3
      have hloc : s2.uses y ≤ ({ s2 with uses := checkAll i d c s2.uses } : St).uses y := checkAll_ge i d c s2.uses y
      exact le_trans (le_trans (le_trans (le_trans ih1 ih2) hloc) hpg) ih3

    | refDType g vr pp =>
      simp only [rcC]
      rcases h1 : rcC f orig sb s with ⟨sb1, s1⟩
      try dsimp only
      have ih1 := rcC_mono f orig sb s y
      rw [h1] at ih1
      rcases h2 : rcC f orig sb2 s1 with ⟨sb2', s2⟩
      try dsimp only
      have ih2 := rcC_mono f orig sb2 s1 y
      rw [h2] at ih2
      rcases hp : pkgHandle f pp { checkDType f i g false vr s2 with uses := checkAll i d c (checkDType f i g false vr s2).uses } with ⟨pp', s3⟩
      try dsimp only
      have hpg := pkgHandle_ge f pp { checkDType f i g false vr s2 with uses := checkAll i d c (checkDType f i g false vr s2).uses } y
      rw [hp] at hpg
      rcases h3 : rcC f orig nx s3 with ⟨nx', s4⟩
      try dsimp only
      have ih3 := rcC_mono f orig nx s3 y
      rw [h3] at ih3
      have hloc : s2.uses y ≤ ({ checkDType f i g false vr s2 with uses := checkAll i d c (checkDType f i g false vr s2).uses } : St).uses y := le_trans (checkDType_ge f i g false vr s2 y) (checkAll_ge i d c (checkDType f i g false vr s2).uses y)
      exact le_trans (le_trans (le_trans (le_trans ih1 ih2) hloc) hpg) ih3

    | enumItemRef pp =>
      simp only [rcC]
      rcases h1 : rcC f orig sb s with ⟨sb1, s1⟩
      try dsimp only
      have ih1 := rcC_mono f orig sb s y
      rw [h1] at ih1
      rcases h2 : rcC f orig sb2 s1 with ⟨sb2', s2⟩
      try dsimp only
      have ih2 := rcC_mono f orig sb2 s1 y
      rw [h2] at ih2
      rcases hp : pkgHandle f pp { s2 with uses := checkAll i d c s2.uses } with ⟨pp', s3⟩
      try dsimp only
      have hpg := pkgHandle_ge f pp { s2 with uses := checkAll i d c s2.uses } y
      rw [hp] at hpg
      rcases h3 : rcC f orig nx { s3 with uses := checkAll i d c s3.uses } with ⟨nx', s4⟩
      try dsimp only
      have ih3 := rcC_mono f orig nx { s3 with uses := checkAll i d c s3.uses } y
      rw [h3] at ih3
      have hloc : s2.uses y ≤ ({ s2 with uses := checkAll i d c s2.uses } : St).uses y := checkAll_ge i d c s2.uses y
      have hca : s3.uses y ≤ checkAll i d c s3.uses y := checkAll_ge i d c s3.uses y
      exact le_trans (le_trans (le_trans (le_trans (le_trans ih1 ih2) hloc) hpg) hca) ih3

    | modport hv =>
      simp only [rcC]
      rcases h1 : rcC f orig sb s with ⟨sb1, s1⟩
      try dsimp only
      have ih1 := rcC_mono f orig sb s y
      rw [h1] at ih1
      rcases h2 : rcC f orig sb2 s1 with ⟨sb2', s2⟩
      try dsimp only
      have ih2 := rcC_mono f orig sb2 s1 y
      rw [h2] at ih2
      by_cases hcc : (f.elimCells && !hv) = true
      · rw [if_pos hcc]
        rcases h3 : rcC f orig nx (logDel (Tree.node i (Kind.modport hv) d c sb1 sb2' nx) s2) with ⟨nx', s3⟩
        try dsimp only
        have ih3 := rcC_mono f orig nx (logDel (Tree.node i (Kind.modport hv) d c sb1 sb2' nx) s2) y
        rw [h3] at ih3
        exact le_trans (le_trans ih1 ih2) ih3
      · rw [if_neg hcc]
        rcases h3 : rcC f orig nx { s2 with uses := checkAll i d c s2.uses } with ⟨nx', s3⟩
        try dsimp only
        have ih3 := rcC_mono f orig nx { s2 with uses := checkAll i d c s2.uses } y
        rw [h3] at ih3
        have hloc : s2.uses y ≤ ({ s2 with uses := checkAll i d c s2.uses } : St).uses y := checkAll_ge i d c s2.uses y
        exact le_trans (le_trans (le_trans ih1 ih2) hloc) ih3

    | typedefD pub =>
      simp only [rcC]
      rcases h1 : rcC f orig sb s with ⟨sb1, s1⟩
      try dsimp only
      have ih1 := rcC_mono f orig sb s y
      rw [h1] at ih1
      rcases h2 : rcC f orig sb2 s1 with ⟨sb2', s2⟩
      try dsimp only
      have ih2 := rcC_mono f orig sb2 s1 y
      rw [h2] at ih2
      by_cases hcc : (f.elimCells && !pub) = true
      · rw [if_pos hcc]
        rcases h3 : rcC f orig nx (logDel (Tree.node i (Kind.typedefD pub) d c sb1 sb2' nx) s2) with ⟨nx', s3⟩
        try dsimp only
        have ih3 := rcC_mono f orig nx (logDel (Tree.node i (Kind.typedefD pub) d c sb1 sb2' nx) s2) y
        rw [h3] at ih3
        exact le_trans (le_trans ih1 ih2) ih3
      · rw [if_neg hcc]
        rcases h3 : rcC f orig nx { s2 with uses := pinUses pub s2.modp (checkAll i d c s2.uses) } with ⟨nx', s3⟩
        try dsimp only
        have ih3 := rcC_mono f orig nx { s2 with uses := pinUses pub s2.modp (checkAll i d c s2.uses) } y
        rw [h3] at ih3
        have hloc : s2.uses y ≤ ({ s2 with uses := pinUses pub s2.modp (checkAll i d c s2.uses) } : St).uses y := le_trans (checkAll_ge i d c s2.uses y) (pinUses_ge pub s2.modp (checkAll i d c s2.uses) y)
        exact le_trans (le_trans (le_trans ih1 ih2) hloc) ih3

    | assign =>
      simp only [rcC]
      rcases h1 : rcC f orig sb { s with sideEffect := false } with ⟨sb1, s1⟩
      try dsimp only
      have ih1 := rcC_mono f orig sb { s with sideEffect := false } y
      rw [h1] at ih1
      rcases hL : lhsRec sb2 with _ | ⟨li, lvs, ld, lc⟩
      · try dsimp only
        rcases h2 : rcC f orig sb2 { s1 with uses := checkAll i d c s1.uses } with ⟨sb2', s2⟩
        try dsimp only
        have ih2 := rcC_mono f orig sb2 { s1 with uses := checkAll i d c s1.uses } y
        rw [h2] at ih2
        rcases h3 : rcC f orig nx { s2 with uses := checkAll i d c s2.uses } with ⟨nx', s3⟩
        try dsimp only
        have ih3 := rcC_mono f orig nx { s2 with uses := checkAll i d c s2.uses } y
        rw [h3] at ih3
        have hl1 : s1.uses y ≤ checkAll i d c s1.uses y := checkAll_ge i d c s1.uses y
        have hl2 : s2.uses y ≤ checkAll i d c s2.uses y := checkAll_ge i d c s2.uses y
        exact le_trans (le_trans (le_trans (le_trans ih1 hl1) ih2) hl2) ih3
      · try dsimp only
        by_cases hse : (!s1.sideEffect) = true
        · rw [if_pos hse]
          rcases h3 : rcC f orig nx { s1 with uses := checkAll i d c (checkAll li ld lc (checkAll i d c s1.uses)), assignMap := s1.assignMap ++ [(lvs, i)] } with ⟨nx', s3⟩
          try dsimp only
          have ih3 := rcC_mono f orig nx { s1 with uses := checkAll i d c (checkAll li ld lc (checkAll i d c s1.uses)), assignMap := s1.assignMap ++ [(lvs, i)] } y
          rw [h3] at ih3
          have hl1 : s1.uses y ≤ checkAll i d c s1.uses y := checkAll_ge i d c s1.uses y
          have hl2 : checkAll i d c s1.uses y ≤ checkAll li ld lc (checkAll i d c s1.uses) y :=
            checkAll_ge li ld lc (checkAll i d c s1.uses) y
          have hl3 : checkAll li ld lc (checkAll i d c s1.uses) y ≤
              checkAll i d c (checkAll li ld lc (checkAll i d c s1.uses)) y :=
            checkAll_ge i d c (checkAll li ld lc (checkAll i d c s1.uses)) y
          exact le_trans (le_trans (le_trans (le_trans ih1 hl1) hl2) hl3) ih3
        · rw [if_neg hse]
          rcases h2 : rcC f orig sb2 { s1 with uses := checkAll i d c s1.uses } with ⟨sb2', s2⟩
          try dsimp only
          have ih2 := rcC_mono f orig sb2 { s1 with uses := checkAll i d c s1.uses } y
          rw [h2] at ih2
          rcases h3 : rcC f orig nx { s2 with uses := checkAll i d c s2.uses } with ⟨nx', s3⟩
          try dsimp only
          have ih3 := rcC_mono f orig nx { s2 with uses := checkAll i d c s2.uses } y
          rw [h3] at ih3
          have hl1 : s1.uses y ≤ checkAll i d c s1.uses y := checkAll_ge i d c s1.uses y
          have hl2 : s2.uses y ≤ checkAll i d c s2.uses y := checkAll_ge i d c s2.uses y
          exact le_trans (le_trans (le_trans (le_trans ih1 hl1) ih2) hl2) ih3
    | other outp mth =>
      simp only [rcC]
      by_cases ho : outp = true
      · rw [if_pos ho]
        rcases h1 : rcC f orig sb { s with sideEffect := true } with ⟨sb1, s1⟩
        try dsimp only
        have ih1 := rcC_mono f orig sb { s with sideEffect := true } y
        rw [h1] at ih1
        rcases h2 : rcC f orig sb2 s1 with ⟨sb2', s2⟩
        try dsimp only
        have ih2 := rcC_mono f orig sb2 s1 y
        rw [h2] at ih2
        rcases h3 : rcC f orig nx { s2 with uses := checkAll i d c s2.uses } with ⟨nx', s3⟩
        try dsimp only
        have ih3 := rcC_mono f orig nx { s2 with uses := checkAll i d c s2.uses } y
        rw [h3] at ih3
        have hloc : s2.uses y ≤ ({ s2 with uses := checkAll i d c s2.uses } : St).uses y := checkAll_ge i d c s2.uses y
        exact le_trans (le_trans (le_trans ih1 ih2) hloc) ih3
      · rw [if_neg ho]
        rcases h1 : rcC f orig sb s with ⟨sb1, s1⟩
        try dsimp only
        have ih1 := rcC_mono f orig sb s y
        rw [h1] at ih1
        rcases h2 : rcC f orig sb2 s1 with ⟨sb2', s2⟩
        try dsimp only
        have ih2 := rcC_mono f orig sb2 s1 y
        rw [h2] at ih2
        rcases h3 : rcC f orig nx { s2 with uses := checkAll i d c s2.uses } with ⟨nx', s3⟩
        try dsimp only
        have ih3 := rcC_mono f orig nx { s2 with uses := checkAll i d c s2.uses } y
        rw [h3] at ih3
        have hloc : s2.uses y ≤ ({ s2 with uses := checkAll i d c s2.uses } : St).uses y := checkAll_ge i d c s2.uses y
        exact le_trans (le_trans (le_trans ih1 ih2) hloc) ih3


end V3Dead

namespace V3Dead

/-- No `AstNodeModule` anywhere in the list (the traversal's `m_modp`
is then untouched). -/
def moduleFree : Tree → Bool
  | .nil => true
  | .node _ k _ _ sb sb2 nx =>
    (match k with | .module _ _ _ => false | _ => true) &&
      moduleFree sb && moduleFree sb2 && moduleFree nx

/-- The list contains a node that pins the enclosing package: a public
var, or a public typedef; the unvisited left-hand side of a recorded
assignment (`sub2`) is not searched. -/
def hasPubPin : Tree → Bool
  | .nil => false
  | .node _ .assign _ _ sb _ nx => hasPubPin sb || hasPubPin nx
  | .node _ k _ _ sb sb2 nx =>
    (match k with
     | .var sp _ _ _ _ => sp
     | .typedefD pub => pub
     | _ => false) || hasPubPin sb || hasPubPin sb2 || hasPubPin nx

/-- Node ids along a top-level `nextp()` chain. -/
def topIds : Tree → List Nat
  | .nil => []
  | .node i _ _ _ _ _ nx => i :: topIds nx

/-- A module chain contains the package `y`: a module node with id `y`
and `isPackage`, no nested modules inside it, and a public var or
typedef in one of its child lists. -/
def chainPin (y : Nat) : Tree → Bool
  | .nil => false
  | .node i k _ _ sb sb2 nx =>
    (decide (i = y) &&
      (match k with | .module _ _ pkg => pkg | _ => false) &&
      moduleFree sb && moduleFree sb2 && (hasPubPin sb || hasPubPin sb2))
    || chainPin y nx

/-- The whole-netlist form: the root is the netlist and its module
list pins package `y`. -/
def pkgPin (y : Nat) (t : Tree) : Bool :=
  match t with
  | .node _ .netlist _ _ ch _ _ => chainPin y ch
  | _ => false

/-- When the visited list holds no module, the traversal leaves
`m_modp` unchanged. -/
theorem rcC_modp_pres (f : Flags) (orig : Tree) : (t : Tree) → (s : St) →
    moduleFree t = true → (rcC f orig t s).2.modp = s.modp
  | .nil, _, _ => rfl
  | .node i k d c sb sb2 nx, s, hmf => by
    cases k with
    | netlist =>
      simp only [moduleFree, Bool.true_and, Bool.and_eq_true] at hmf
      simp only [rcC]
      rcases h1 : rcC f orig sb s with ⟨sb1, s1⟩
      try dsimp only
      have ih1 := rcC_modp_pres f orig sb s hmf.1.1
      rw [h1] at ih1
      rcases h2 : rcC f orig sb2 s1 with ⟨sb2', s2⟩
      try dsimp only
      have ih2 := rcC_modp_pres f orig sb2 s1 hmf.1.2
      rw [h2] at ih2
      rcases h3 : rcC f orig nx { s2 with uses := checkAll i d c s2.uses } with ⟨nx', s3⟩
      try dsimp only
      have ih3 := rcC_modp_pres f orig nx { s2 with uses := checkAll i d c s2.uses } hmf.2
      rw [h3] at ih3
      rw [ih3]
      rw [ih2, ih1]

    | module lvl intl pkg =>
      simp only [moduleFree, Bool.false_and] at hmf
      exact absurd hmf (by simp)
    | cfunc scp =>
      simp only [moduleFree, Bool.true_and, Bool.and_eq_true] at hmf
      simp only [rcC]
      rcases h1 : rcC f orig sb s with ⟨sb1, s1⟩
      try dsimp only
      have ih1 := rcC_modp_pres f orig sb s hmf.1.1
      rw [h1] at ih1
      rcases h2 : rcC f orig sb2 s1 with ⟨sb2', s2⟩
      try dsimp only
      have ih2 := rcC_modp_pres f orig sb2 s1 hmf.1.2
      rw [h2] at ih2
      rcases h3 : rcC f orig nx { s2 with uses := bumpO (checkAll i d c s2.uses) scp 1 } with ⟨nx', s3⟩
      try dsimp only
      have ih3 := rcC_modp_pres f orig nx { s2 with uses := bumpO (checkAll i d c s2.uses) scp 1 } hmf.2
      rw [h3] at ih3
      rw [ih3]
      rw [ih2, ih1]

    | cell mt =>
      simp only [moduleFree, Bool.true_and, Bool.and_eq_true] at hmf
      simp only [rcC]
      rcases h1 : rcC f orig sb s with ⟨sb1, s1⟩
      try dsimp only
      have ih1 := rcC_modp_pres f orig sb s hmf.1.1
      rw [h1] at ih1
      rcases h2 : rcC f orig sb2 s1 with ⟨sb2', s2⟩
      try dsimp only
      have ih2 := rcC_modp_pres f orig sb2 s1 hmf.1.2
      rw [h2] at ih2
      rcases h3 : rcC f orig nx { s2 with uses := bump (checkAll i d c s2.uses) mt 1, cellsp := s2.cellsp ++ [i] } with ⟨nx', s3⟩
      try dsimp only
      have ih3 := rcC_modp_pres f orig nx { s2 with uses := bump (checkAll i d c s2.uses) mt 1, cellsp := s2.cellsp ++ [i] } hmf.2
      rw [h3] at ih3
      rw [ih3]
      rw [ih2, ih1]

    | dtype g mem cl vr =>
      simp only [moduleFree, Bool.true_and, Bool.and_eq_true] at hmf
      simp only [rcC]
      rcases h1 : rcC f orig sb s with ⟨sb1, s1⟩
      try dsimp only
      have ih1 := rcC_modp_pres f orig sb s hmf.1.1
      rw [h1] at ih1
      rcases h2 : rcC f orig sb2 s1 with ⟨sb2', s2⟩
      try dsimp only
      have ih2 := rcC_modp_pres f orig sb2 s1 hmf.1.2
      rw [h2] at ih2
      rcases h3 : rcC f orig nx { checkDType f i g mem vr s2 with uses := checkAll i d c (checkDType f i g mem vr s2).uses } with ⟨nx', s3⟩
      try dsimp only
      have ih3 := rcC_modp_pres f orig nx { checkDType f i g mem vr s2 with uses := checkAll i d c (checkDType f i g mem vr s2).uses } hmf.2
      rw [h3] at ih3
      rw [ih3]
      rw [checkDType_modp f i g mem vr s2]
      rw [ih2, ih1]

    | scope abv top hv hb hf =>
      simp only [moduleFree, Bool.true_and, Bool.and_eq_true] at hmf
      simp only [rcC]
      rcases h1 : rcC f orig sb s with ⟨sb1, s1⟩
      try dsimp only
      have ih1 := rcC_modp_pres f orig sb s hmf.1.1
      rw [h1] at ih1
      rcases h2 : rcC f orig sb2 s1 with ⟨sb2', s2⟩
      try dsimp only
      have ih2 := rcC_modp_pres f orig sb2 s1 hmf.1.2
      rw [h2] at ih2
      by_cases hcc : (!top && !hv && !hb && !hf) = true
      · rw [if_pos hcc]
        rcases h3 : rcC f orig nx { s2 with uses := bumpO (checkAll i d c s2.uses) abv 1, scopesp := s2.scopesp ++ [i] } with ⟨nx', s3⟩
        try dsimp only
        have ih3 := rcC_modp_pres f orig nx { s2 with uses := bumpO (checkAll i d c s2.uses) abv 1, scopesp := s2.scopesp ++ [i] } hmf.2
        rw [h3] at ih3
        rw [ih3]
        rw [ih2, ih1]
      · rw [if_neg hcc]
        rcases h3 : rcC f orig nx { s2 with uses := bumpO (checkAll i d c s2.uses) abv 1 } with ⟨nx', s3⟩
        try dsimp only
        have ih3 := rcC_modp_pres f orig nx { s2 with uses := bumpO (checkAll i d c s2.uses) abv 1 } hmf.2
        rw [h3] at ih3
        rw [ih3]
        rw [ih2, ih1]

    | varScope scp vvar =>
      simp only [moduleFree, Bool.true_and, Bool.and_eq_true] at hmf
      simp only [rcC]
      rcases h1 : rcC f orig sb s with ⟨sb1, s1⟩
      try dsimp only
      have ih1 := rcC_modp_pres f orig sb s hmf.1.1
      rw [h1] at ih1
      rcases h2 : rcC f orig sb2 s1 with ⟨sb2', s2⟩
      try dsimp only
      have ih2 := rcC_modp_pres f orig sb2 s1 hmf.1.2
      rw [h2] at ih2
      by_cases hcc : mightElimVarAt f orig vvar = true
      · rw [if_pos hcc]
        rcases h3 : rcC f orig nx { s2 with uses := bumpO (checkAll i d c s2.uses) scp 1, vscsp := s2.vscsp ++ [i] } with ⟨nx', s3⟩
        try dsimp only
        have ih3 := rcC_modp_pres f orig nx { s2 with uses := bumpO (checkAll i d c s2.uses) scp 1, vscsp := s2.vscsp ++ [i] } hmf.2
        rw [h3] at ih3
        rw [ih3]
        rw [ih2, ih1]
      · rw [if_neg hcc]
        rcases h3 : rcC f orig nx { s2 with uses := bumpO (checkAll i d c s2.uses) scp 1 } with ⟨nx', s3⟩
        try dsimp only
        have ih3 := rcC_modp_pres f orig nx { s2 with uses := bumpO (checkAll i d c s2.uses) scp 1 } hmf.2
        rw [h3] at ih3
        rw [ih3]
        rw [ih2, ih1]

    | var sp io tm pa tr =>
      simp only [moduleFree, Bool.true_and, Bool.and_eq_true] at hmf
      simp only [rcC]
      rcases h1 : rcC f orig sb s with ⟨sb1, s1⟩
      try dsimp only
      have ih1 := rcC_modp_pres f orig sb s hmf.1.1
      rw [h1] at ih1
      rcases h2 : rcC f orig sb2 s1 with ⟨sb2', s2⟩
      try dsimp only
      have ih2 := rcC_modp_pres f orig sb2 s1 hmf.1.2
      rw [h2] at ih2
      by_cases hcc : mightElimVar f sp io tm pa tr = true
      · rw [if_pos hcc]
        rcases h3 : rcC f orig nx { s2 with uses := pinUses sp s2.modp (checkAll i d c s2.uses), varsp := s2.varsp ++ [i] } with ⟨nx', s3⟩
        try dsimp only
        have ih3 := rcC_modp_pres f orig nx { s2 with uses := pinUses sp s2.modp (checkAll i d c s2.uses), varsp := s2.varsp ++ [i] } hmf.2
        rw [h3] at ih3
        rw [ih3]
        rw [ih2, ih1]
      · rw [if_neg hcc]
        rcases h3 : rcC f orig nx { s2 with uses := pinUses sp s2.modp (checkAll i d c s2.uses) } with ⟨nx', s3⟩
        try dsimp only
        have ih3 := rcC_modp_pres f orig nx { s2 with uses := pinUses sp s2.modp (checkAll i d c s2.uses) } hmf.2
        rw [h3] at ih3
        rw [ih3]
        rw [ih2, ih1]

    | varRef vp vsp pp =>
      simp only [moduleFree, Bool.true_and, Bool.and_eq_true] at hmf
      simp only [rcC]
      rcases h1 : rcC f orig sb s with ⟨sb1, s1⟩
      try dsimp only
      have ih1 := rcC_modp_pres f orig sb s hmf.1.1
      rw [h1] at ih1
      rcases h2 : rcC f orig sb2 s1 with ⟨sb2', s2⟩
      try dsimp only
      have ih2 := rcC_modp_pres f orig sb2 s1 hmf.1.2
      rw [h2] at ih2
      rcases hp : pkgHandle f pp { s2 with uses := bumpO (vsUses orig vsp (checkAll i d c s2.uses)) vp 1 } with ⟨pp', s3⟩
      try dsimp only
      have hpm := pkgHandle_modp f pp { s2 with uses := bumpO (vsUses orig vsp (checkAll i d c s2.uses)) vp 1 }
      rw [hp] at hpm
      rcases h3 : rcC f orig nx s3 with ⟨nx', s4⟩
      try dsimp only
      have ih3 := rcC_modp_pres f orig nx s3 hmf.2
      rw [h3] at ih3
      rw [ih3, hpm]
      rw [ih2, ih1]

    | ftaskRef pp =>
      simp only [moduleFree, Bool.true_and, Bool.and_eq_true] at hmf
      simp only [rcC]
      rcases h1 : rcC f orig sb s with ⟨sb1, s1⟩
      try dsimp only
      have ih1 := rcC_modp_pres f orig sb s hmf.1.1
      rw [h1] at ih1
      rcases h2 : rcC f orig sb2 s1 with ⟨sb2', s2⟩
      try dsimp only
      have ih2 := rcC_modp_pres f orig sb2 s1 hmf.1.2
      rw [h2] at ih2
      rcases hp : pkgHandle f pp { s2 with uses := checkAll i d c s2.uses } with ⟨pp', s3⟩
      try dsimp only
      have hpm := pkgHandle_modp f pp { s2 with uses := checkAll i d c s2.uses }
      rw [hp] at hpm
      rcases h3 : rcC f orig nx s3 with ⟨nx', s4⟩
      try dsimp only
      have ih3 := rcC_modp_pres f orig nx s3 hmf.2
      rw [h3] at ih3
      rw [ih3, hpm]
      rw [ih2, ih1]

    | refDType g vr pp =>
      simp only [moduleFree, Bool.true_and, Bool.and_eq_true] at hmf
      simp only [rcC]
      rcases h1 : rcC f orig sb s with ⟨sb1, s1⟩
      try dsimp only
      have ih1 := rcC_modp_pres f orig sb s hmf.1.1
      rw [h1] at ih1
      rcases h2 : rcC f orig sb2 s1 with ⟨sb2', s2⟩
      try dsimp only
      have ih2 := rcC_modp_pres f orig sb2 s1 hmf.1.2
      rw [h2] at ih2
      rcases hp : pkgHandle f pp { checkDType f i g false vr s2 with uses := checkAll i d c (checkDType f i g false vr s2).uses } with ⟨pp', s3⟩
      try dsimp only
      have hpm := pkgHandle_modp f pp { checkDType f i g false vr s2 with uses := checkAll i d c (checkDType f i g false vr s2).uses }
      rw [hp] at hpm
      rcases h3 : rcC f orig nx s3 with ⟨nx', s4⟩
      try dsimp only
      have ih3 := rcC_modp_pres f orig nx s3 hmf.2
      rw [h3] at ih3
      rw [ih3, hpm]
      rw [show ({ checkDType f i g false vr s2 with uses := checkAll i d c (checkDType f i g false vr s2).uses } : St).modp = (checkDType f i g false vr s2).modp from rfl, checkDType_modp f i g false vr s2]
      rw [ih2, ih1]

    | enumItemRef pp =>
      simp only [moduleFree, Bool.true_and, Bool.and_eq_true] at hmf
      simp only [rcC]
      rcases h1 : rcC f orig sb s with ⟨sb1, s1⟩
      try dsimp only
      have ih1 := rcC_modp_pres f orig sb s hmf.1.1
      rw [h1] at ih1
      rcases h2 : rcC f orig sb2 s1 with ⟨sb2', s2⟩
      try dsimp only
      have ih2 := rcC_modp_pres f orig sb2 s1 hmf.1.2
      rw [h2] at ih2
      rcases hp : pkgHandle f pp { s2 with uses := checkAll i d c s2.uses } with ⟨pp', s3⟩
      try dsimp only
      have hpm := pkgHandle_modp f pp { s2 with uses := checkAll i d c s2.uses }
      rw [hp] at hpm
      rcases h3 : rcC f orig nx { s3 with uses := checkAll i d c s3.uses } with ⟨nx', s4⟩
      try dsimp only
      have ih3 := rcC_modp_pres f orig nx { s3 with uses := checkAll i d c s3.uses } hmf.2
      rw [h3] at ih3
      rw [ih3]
      show s3.modp = s.modp
      rw [hpm]
      rw [ih2, ih1]

    | modport hv =>
      simp only [moduleFree, Bool.true_and, Bool.and_eq_true] at hmf
      simp only [rcC]
      rcases h1 : rcC f orig sb s with ⟨sb1, s1⟩
      try dsimp only
      have ih1 := rcC_modp_pres f orig sb s hmf.1.1
      rw [h1] at ih1
      rcases h2 : rcC f orig sb2 s1 with ⟨sb2', s2⟩
      try dsimp only
      have ih2 := rcC_modp_pres f orig sb2 s1 hmf.1.2
      rw [h2] at ih2
      by_cases hcc : (f.elimCells && !hv) = true
      · rw [if_pos hcc]
        rcases h3 : rcC f orig nx (logDel (Tree.node i (Kind.modport hv) d c sb1 sb2' nx) s2) with ⟨nx', s3⟩
        try dsimp only
        have ih3 := rcC_modp_pres f orig nx (logDel (Tree.node i (Kind.modport hv) d c sb1 sb2' nx) s2) hmf.2
        rw [h3] at ih3
        rw [ih3]
        show s2.modp = s.modp
        rw [ih2, ih1]
      · rw [if_neg hcc]
        rcases h3 : rcC f orig nx { s2 with uses := checkAll i d c s2.uses } with ⟨nx', s3⟩
        try dsimp only
        have ih3 := rcC_modp_pres f orig nx { s2 with uses := checkAll i d c s2.uses } hmf.2
        rw [h3] at ih3
        rw [ih3]
        rw [ih2, ih1]

    | typedefD pub =>
      simp only [moduleFree, Bool.true_and, Bool.and_eq_true] at hmf
      simp only [rcC]
      rcases h1 : rcC f orig sb s with ⟨sb1, s1⟩
      try dsimp only
      have ih1 := rcC_modp_pres f orig sb s hmf.1.1
      rw [h1] at ih1
      rcases h2 : rcC f orig sb2 s1 with ⟨sb2', s2⟩
      try dsimp only
      have ih2 := rcC_modp_pres f orig sb2 s1 hmf.1.2
      rw [h2] at ih2
      by_cases hcc : (f.elimCells && !pub) = true
      · rw [if_pos hcc]
        rcases h3 : rcC f orig nx (logDel (Tree.node i (Kind.typedefD pub) d c sb1 sb2' nx) s2) with ⟨nx', s3⟩
        try dsimp only
        have ih3 := rcC_modp_pres f orig nx (logDel (Tree.node i (Kind.typedefD pub) d c sb1 sb2' nx) s2) hmf.2
        rw [h3] at ih3
        rw [ih3]
        show s2.modp = s.modp
        rw [ih2, ih1]
      · rw [if_neg hcc]
        rcases h3 : rcC f orig nx { s2 with uses := pinUses pub s2.modp (checkAll i d c s2.uses) } with ⟨nx', s3⟩
        try dsimp only
        have ih3 := rcC_modp_pres f orig nx { s2 with uses := pinUses pub s2.modp (checkAll i d c s2.uses) } hmf.2
        rw [h3] at ih3
        rw [ih3]
        rw [ih2, ih1]

    | assign =>
      simp only [moduleFree, Bool.true_and, Bool.and_eq_true] at hmf
      simp only [rcC]
      rcases h1 : rcC f orig sb { s with sideEffect := false } with ⟨sb1, s1⟩
      try dsimp only
      have ih1 := rcC_modp_pres f orig sb { s with sideEffect := false } hmf.1.1
      rw [h1] at ih1
      rcases hL : lhsRec sb2 with _ | ⟨li, lvs, ld, lc⟩
      · try dsimp only
        rcases h2 : rcC f orig sb2 { s1 with uses := checkAll i d c s1.uses } with ⟨sb2', s2⟩
        try dsimp only
        have ih2 := rcC_modp_pres f orig sb2 { s1 with uses := checkAll i d c s1.uses } hmf.1.2
        rw [h2] at ih2
        rcases h3 : rcC f orig nx { s2 with uses := checkAll i d c s2.uses } with ⟨nx', s3⟩
        try dsimp only
        have ih3 := rcC_modp_pres f orig nx { s2 with uses := checkAll i d c s2.uses } hmf.2
        rw [h3] at ih3
        rw [ih3]
        show s2.modp = s.modp
        rw [ih2]
        show s1.modp = s.modp
        rw [ih1]
      · try dsimp only
        by_cases hse : (!s1.sideEffect) = true
        · rw [if_pos hse]
          rcases h3 : rcC f orig nx { s1 with uses := checkAll i d c (checkAll li ld lc (checkAll i d c s1.uses)), assignMap := s1.assignMap ++ [(lvs, i)] } with ⟨nx', s3⟩
          try dsimp only
          have ih3 := rcC_modp_pres f orig nx { s1 with uses := checkAll i d c (checkAll li ld lc (checkAll i d c s1.uses)), assignMap := s1.assignMap ++ [(lvs, i)] } hmf.2
          rw [h3] at ih3
          rw [ih3]
          show s1.modp = s.modp
          rw [ih1]
        · rw [if_neg hse]
          rcases h2 : rcC f orig sb2 { s1 with uses := checkAll i d c s1.uses } with ⟨sb2', s2⟩
          try dsimp only
          have ih2 := rcC_modp_pres f orig sb2 { s1 with uses := checkAll i d c s1.uses } hmf.1.2
          rw [h2] at ih2
          rcases h3 : rcC f orig nx { s2 with uses := checkAll i d c s2.uses } with ⟨nx', s3⟩
          try dsimp only
          have ih3 := rcC_modp_pres f orig nx { s2 with uses := checkAll i d c s2.uses } hmf.2
          rw [h3] at ih3
          rw [ih3]
          show s2.modp = s.modp
          rw [ih2]
          show s1.modp = s.modp
          rw [ih1]
    | other outp mth =>
      simp only [moduleFree, Bool.true_and, Bool.and_eq_true] at hmf
      simp only [rcC]
      by_cases ho : outp = true
      · rw [if_pos ho]
        rcases h1 : rcC f orig sb { s with sideEffect := true } with ⟨sb1, s1⟩
        try dsimp only
        have ih1 := rcC_modp_pres f orig sb { s with sideEffect := true } hmf.1.1
        rw [h1] at ih1
        rcases h2 : rcC f orig sb2 s1 with ⟨sb2', s2⟩
        try dsimp only
        have ih2 := rcC_modp_pres f orig sb2 s1 hmf.1.2
        rw [h2] at ih2
        rcases h3 : rcC f orig nx { s2 with uses := checkAll i d c s2.uses } with ⟨nx', s3⟩
        try dsimp only
        have ih3 := rcC_modp_pres f orig nx { s2 with uses := checkAll i d c s2.uses } hmf.2
        rw [h3] at ih3
        rw [ih3]
        rw [ih2, ih1]
      · rw [if_neg ho]
        rcases h1 : rcC f orig sb s with ⟨sb1, s1⟩
        try dsimp only
        have ih1 := rcC_modp_pres f orig sb s hmf.1.1
        rw [h1] at ih1
        rcases h2 : rcC f orig sb2 s1 with ⟨sb2', s2⟩
        try dsimp only
        have ih2 := rcC_modp_pres f orig sb2 s1 hmf.1.2
        rw [h2] at ih2
        rcases h3 : rcC f orig nx { s2 with uses := checkAll i d c s2.uses } with ⟨nx', s3⟩
        try dsimp only
        have ih3 := rcC_modp_pres f orig nx { s2 with uses := checkAll i d c s2.uses } hmf.2
        rw [h3] at ih3
        rw [ih3]
        rw [ih2, ih1]


end V3Dead

namespace V3Dead

theorem pinUses_pin (u : Nat → Int) (y : Nat) :
    u y + 1 ≤ pinUses true (some (y, true)) u y := by
  simp [pinUses, bump]

/-- A public var or typedef visited while `m_modp` is a package
increments the package's counter: the traversal adds at least one. -/
theorem rcC_pin (f : Flags) (orig : Tree) (y : Nat) : (t : Tree) → (s : St) →
    s.modp = some (y, true) → moduleFree t = true → hasPubPin t = true →
    s.uses y + 1 ≤ (rcC f orig t s).2.uses y
  | .nil, _, _, _, hpp => by simp [hasPubPin] at hpp
  | .node i k d c sb sb2 nx, s, hm, hmf, hpp => by
    cases k with
    | netlist =>
      simp only [moduleFree, Bool.true_and, Bool.and_eq_true] at hmf
      simp only [hasPubPin, Bool.false_or, Bool.or_eq_true] at hpp
      simp only [rcC]
      rcases h1 : rcC f orig sb s with ⟨sb1, s1⟩
      try dsimp only
      have hm1 : s1.modp = s.modp := by
        have := rcC_modp_pres f orig sb s hmf.1.1
        rw [h1] at this
        exact this
      rcases h2 : rcC f orig sb2 s1 with ⟨sb2', s2⟩
      try dsimp only
      have hm2 : s2.modp = s1.modp := by
        have := rcC_modp_pres f orig sb2 s1 hmf.1.2
        rw [h2] at this
        exact this
      rcases h3 : rcC f orig nx { s2 with uses := checkAll i d c s2.uses } with ⟨nx', s3⟩
      try dsimp only
      have hloc : s2.uses y ≤ ({ s2 with uses := checkAll i d c s2.uses } : St).uses y := checkAll_ge i d c s2.uses y
      have ihm3 : ({ s2 with uses := checkAll i d c s2.uses } : St).uses y ≤ s3.uses y := by
        have := rcC_mono f orig nx { s2 with uses := checkAll i d c s2.uses } y
        rw [h3] at this
        exact this
      rcases hpp with (h | h) | h
      · have ihp := rcC_pin f orig y sb s hm hmf.1.1 h
        rw [h1] at ihp
        try dsimp only at ihp
        have i2 := rcC_mono f orig sb2 s1 y
        rw [h2] at i2
        try dsimp only at i2
        try dsimp only at *
        omega
      · have i1 := rcC_mono f orig sb s y
        rw [h1] at i1
        try dsimp only at i1
        have ihp := rcC_pin f orig y sb2 s1 (by rw [hm1]; exact hm) hmf.1.2 h
        rw [h2] at ihp
        try dsimp only at ihp
        try dsimp only at *
        omega
      · have i1 := rcC_mono f orig sb s y
        rw [h1] at i1
        try dsimp only at i1
        have i2 := rcC_mono f orig sb2 s1 y
        rw [h2] at i2
        try dsimp only at i2
        have ihp := rcC_pin f orig y nx { s2 with uses := checkAll i d c s2.uses }
            (by show s2.modp = some (y, true); rw [hm2, hm1]; exact hm) hmf.2 h
        rw [h3] at ihp
        try dsimp only at ihp
        try dsimp only at *
        omega

    | module lvl intl pkg =>
      simp only [moduleFree, Bool.false_and] at hmf
      exact absurd hmf (by simp)
    | cfunc scp =>
      simp only [moduleFree, Bool.true_and, Bool.and_eq_true] at hmf
      simp only [hasPubPin, Bool.false_or, Bool.or_eq_true] at hpp
      simp only [rcC]
      rcases h1 : rcC f orig sb s with ⟨sb1, s1⟩
      try dsimp only
      have hm1 : s1.modp = s.modp := by
        have := rcC_modp_pres f orig sb s hmf.1.1
        rw [h1] at this
        exact this
      rcases h2 : rcC f orig sb2 s1 with ⟨sb2', s2⟩
      try dsimp only
      have hm2 : s2.modp = s1.modp := by
        have := rcC_modp_pres f orig sb2 s1 hmf.1.2
        rw [h2] at this
        exact this
      rcases h3 : rcC f orig nx { s2 with uses := bumpO (checkAll i d c s2.uses) scp 1 } with ⟨nx', s3⟩
      try dsimp only
      have hloc : s2.uses y ≤ ({ s2 with uses := bumpO (checkAll i d c s2.uses) scp 1 } : St).uses y := le_trans (checkAll_ge i d c s2.uses y) (bumpO_ge (checkAll i d c s2.uses) scp y)
      have ihm3 : ({ s2 with uses := bumpO (checkAll i d c s2.uses) scp 1 } : St).uses y ≤ s3.uses y := by
        have := rcC_mono f orig nx { s2 with uses := bumpO (checkAll i d c s2.uses) scp 1 } y
        rw [h3] at this
        exact this
      rcases hpp with (h | h) | h
      · have ihp := rcC_pin f orig y sb s hm hmf.1.1 h
        rw [h1] at ihp
        try dsimp only at ihp
        have i2 := rcC_mono f orig sb2 s1 y
        rw [h2] at i2
        try dsimp only at i2
        try dsimp only at *
        omega
      · have i1 := rcC_mono f orig sb s y
        rw [h1] at i1
        try dsimp only at i1
        have ihp := rcC_pin f orig y sb2 s1 (by rw [hm1]; exact hm) hmf.1.2 h
        rw [h2] at ihp
        try dsimp only at ihp
        try dsimp only at *
        omega
      · have i1 := rcC_mono f orig sb s y
        rw [h1] at i1
        try dsimp only at i1
        have i2 := rcC_mono f orig sb2 s1 y
        rw [h2] at i2
        try dsimp only at i2
        have ihp := rcC_pin f orig y nx { s2 with uses := bumpO (checkAll i d c s2.uses) scp 1 }
            (by show s2.modp = some (y, true); rw [hm2, hm1]; exact hm) hmf.2 h
        rw [h3] at ihp
        try dsimp only at ihp
        try dsimp only at *
        omega

    | cell mt =>
      simp only [moduleFree, Bool.true_and, Bool.and_eq_true] at hmf
      simp only [hasPubPin, Bool.false_or, Bool.or_eq_true] at hpp
      simp only [rcC]
      rcases h1 : rcC f orig sb s with ⟨sb1, s1⟩
      try dsimp only
      have hm1 : s1.modp = s.modp := by
        have := rcC_modp_pres f orig sb s hmf.1.1
        rw [h1] at this
        exact this
      rcases h2 : rcC f orig sb2 s1 with ⟨sb2', s2⟩
      try dsimp only
      have hm2 : s2.modp = s1.modp := by
        have := rcC_modp_pres f orig sb2 s1 hmf.1.2
        rw [h2] at this
        exact this
      rcases h3 : rcC f orig nx { s2 with uses := bump (checkAll i d c s2.uses) mt 1, cellsp := s2.cellsp ++ [i] } with ⟨nx', s3⟩
      try dsimp only
      have hloc : s2.uses y ≤ ({ s2 with uses := bump (checkAll i d c s2.uses) mt 1, cellsp := s2.cellsp ++ [i] } : St).uses y := le_trans (checkAll_ge i d c s2.uses y) (bump_ge (checkAll i d c s2.uses) mt y)
      have ihm3 : ({ s2 with uses := bump (checkAll i d c s2.uses) mt 1, cellsp := s2.cellsp ++ [i] } : St).uses y ≤ s3.uses y := by
        have := rcC_mono f orig nx { s2 with uses := bump (checkAll i d c s2.uses) mt 1, cellsp := s2.cellsp ++ [i] } y
        rw [h3] at this
        exact this
      rcases hpp with (h | h) | h
      · have ihp := rcC_pin f orig y sb s hm hmf.1.1 h
        rw [h1] at ihp
        try dsimp only at ihp
        have i2 := rcC_mono f orig sb2 s1 y
        rw [h2] at i2
        try dsimp only at i2
        try dsimp only at *
        omega
      · have i1 := rcC_mono f orig sb s y
        rw [h1] at i1
        try dsimp only at i1
        have ihp := rcC_pin f orig y sb2 s1 (by rw [hm1]; exact hm) hmf.1.2 h
        rw [h2] at ihp
        try dsimp only at ihp
        try dsimp only at *
        omega
      · have i1 := rcC_mono f orig sb s y
        rw [h1] at i1
        try dsimp only at i1
        have i2 := rcC_mono f orig sb2 s1 y
        rw [h2] at i2
        try dsimp only at i2
        have ihp := rcC_pin f orig y nx { s2 with uses := bump (checkAll i d c s2.uses) mt 1, cellsp := s2.cellsp ++ [i] }
            (by show s2.modp = some (y, true); rw [hm2, hm1]; exact hm) hmf.2 h
        rw [h3] at ihp
        try dsimp only at ihp
        try dsimp only at *
        omega

    | dtype g mem cl vr =>
      simp only [moduleFree, Bool.true_and, Bool.and_eq_true] at hmf
      simp only [hasPubPin, Bool.false_or, Bool.or_eq_true] at hpp
      simp only [rcC]
      rcases h1 : rcC f orig sb s with ⟨sb1, s1⟩
      try dsimp only
      have hm1 : s1.modp = s.modp := by
        have := rcC_modp_pres f orig sb s hmf.1.1
        rw [h1] at this
        exact this
      rcases h2 : rcC f orig sb2 s1 with ⟨sb2', s2⟩
      try dsimp only
      have hm2 : s2.modp = s1.modp := by
        have := rcC_modp_pres f orig sb2 s1 hmf.1.2
        rw [h2] at this
        exact this
      rcases h3 : rcC f orig nx { checkDType f i g mem vr s2 with uses := checkAll i d c (checkDType f i g mem vr s2).uses } with ⟨nx', s3⟩
      try dsimp only
      have hloc : s2.uses y ≤ ({ checkDType f i g mem vr s2 with uses := checkAll i d c (checkDType f i g mem vr s2).uses } : St).uses y := le_trans (checkDType_ge f i g mem vr s2 y) (checkAll_ge i d c (checkDType f i g mem vr s2).uses y)
      have ihm3 : ({ checkDType f i g mem vr s2 with uses := checkAll i d c (checkDType f i g mem vr s2).uses } : St).uses y ≤ s3.uses y := by
        have := rcC_mono f orig nx { checkDType f i g mem vr s2 with uses := checkAll i d c (checkDType f i g mem vr s2).uses } y
        rw [h3] at this
        exact this
      rcases hpp with (h | h) | h
      · have ihp := rcC_pin f orig y sb s hm hmf.1.1 h
        rw [h1] at ihp
        try dsimp only at ihp
        have i2 := rcC_mono f orig sb2 s1 y
        rw [h2] at i2
        try dsimp only at i2
        try dsimp only at *
        omega
      · have i1 := rcC_mono f orig sb s y
        rw [h1] at i1
        try dsimp only at i1
        have ihp := rcC_pin f orig y sb2 s1 (by rw [hm1]; exact hm) hmf.1.2 h
        rw [h2] at ihp
        try dsimp only at ihp
        try dsimp only at *
        omega
      · have i1 := rcC_mono f orig sb s y
        rw [h1] at i1
        try dsimp only at i1
        have i2 := rcC_mono f orig sb2 s1 y
        rw [h2] at i2
        try dsimp only at i2
        have ihp := rcC_pin f orig y nx { checkDType f i g mem vr s2 with uses := checkAll i d c (checkDType f i g mem vr s2).uses }
            (by show (checkDType f i g mem vr s2).modp = some (y, true); rw [checkDType_modp f i g mem vr s2, hm2, hm1]; exact hm) hmf.2 h
        rw [h3] at ihp
        try dsimp only at ihp
        try dsimp only at *
        omega

    | scope abv top hv hb hf =>
      simp only [moduleFree, Bool.true_and, Bool.and_eq_true] at hmf
      simp only [hasPubPin, Bool.false_or, Bool.or_eq_true] at hpp
      simp only [rcC]
      rcases h1 : rcC f orig sb s with ⟨sb1, s1⟩
      try dsimp only
      have hm1 : s1.modp = s.modp := by
        have := rcC_modp_pres f orig sb s hmf.1.1
        rw [h1] at this
        exact this
      rcases h2 : rcC f orig sb2 s1 with ⟨sb2', s2⟩
      try dsimp only
      have hm2 : s2.modp = s1.modp := by
        have := rcC_modp_pres f orig sb2 s1 hmf.1.2
        rw [h2] at this
        exact this
      by_cases hcc : (!top && !hv && !hb && !hf) = true
      · rw [if_pos hcc]
        rcases h3 : rcC f orig nx { s2 with uses := bumpO (checkAll i d c s2.uses) abv 1, scopesp := s2.scopesp ++ [i] } with ⟨nx', s3⟩
        try dsimp only
        have hloc : s2.uses y ≤ ({ s2 with uses := bumpO (checkAll i d c s2.uses) abv 1, scopesp := s2.scopesp ++ [i] } : St).uses y := le_trans (checkAll_ge i d c s2.uses y) (bumpO_ge (checkAll i d c s2.uses) abv y)
        have ihm3 : ({ s2 with uses := bumpO (checkAll i d c s2.uses) abv 1, scopesp := s2.scopesp ++ [i] } : St).uses y ≤ s3.uses y := by
          have := rcC_mono f orig nx { s2 with uses := bumpO (checkAll i d c s2.uses) abv 1, scopesp := s2.scopesp ++ [i] } y
          rw [h3] at this
          exact this
        rcases hpp with (h | h) | h
        · have ihp := rcC_pin f orig y sb s hm hmf.1.1 h
          rw [h1] at ihp
          try dsimp only at ihp
          have i2 := rcC_mono f orig sb2 s1 y
          rw [h2] at i2
          try dsimp only at i2
          try dsimp only at *
          omega
        · have i1 := rcC_mono f orig sb s y
          rw [h1] at i1
          try dsimp only at i1
          have ihp := rcC_pin f orig y sb2 s1 (by rw [hm1]; exact hm) hmf.1.2 h
          rw [h2] at ihp
          try dsimp only at ihp
          try dsimp only at *
          omega
        · have i1 := rcC_mono f orig sb s y
          rw [h1] at i1
          try dsimp only at i1
          have i2 := rcC_mono f orig sb2 s1 y
          rw [h2] at i2
          try dsimp only at i2
          have ihp := rcC_pin f orig y nx { s2 with uses := bumpO (checkAll i d c s2.uses) abv 1, scopesp := s2.scopesp ++ [i] }
              (by show s2.modp = some (y, true); rw [hm2, hm1]; exact hm) hmf.2 h
          rw [h3] at ihp
          try dsimp only at ihp
          try dsimp only at *
          omega
      · rw [if_neg hcc]
        rcases h3 : rcC f orig nx { s2 with uses := bumpO (checkAll i d c s2.uses) abv 1 } with ⟨nx', s3⟩
        try dsimp only
        have hloc : s2.uses y ≤ ({ s2 with uses := bumpO (checkAll i d c s2.uses) abv 1 } : St).uses y := le_trans (checkAll_ge i d c s2.uses y) (bumpO_ge (checkAll i d c s2.uses) abv y)
        have ihm3 : ({ s2 with uses := bumpO (checkAll i d c s2.uses) abv 1 } : St).uses y ≤ s3.uses y := by
          have := rcC_mono f orig nx { s2 with uses := bumpO (checkAll i d c s2.uses) abv 1 } y
          rw [h3] at this
          exact this
        rcases hpp with (h | h) | h
        · have ihp := rcC_pin f orig y sb s hm hmf.1.1 h
          rw [h1] at ihp
          try dsimp only at ihp
          have i2 := rcC_mono f orig sb2 s1 y
          rw [h2] at i2
          try dsimp only at i2
          try dsimp only at *
          omega
        · have i1 := rcC_mono f orig sb s y
          rw [h1] at i1
          try dsimp only at i1
          have ihp := rcC_pin f orig y sb2 s1 (by rw [hm1]; exact hm) hmf.1.2 h
          rw [h2] at ihp
          try dsimp only at ihp
          try dsimp only at *
          omega
        · have i1 := rcC_mono f orig sb s y
          rw [h1] at i1
          try dsimp only at i1
          have i2 := rcC_mono f orig sb2 s1 y
          rw [h2] at i2
          try dsimp only at i2
          have ihp := rcC_pin f orig y nx { s2 with uses := bumpO (checkAll i d c s2.uses) abv 1 }
              (by show s2.modp = some (y, true); rw [hm2, hm1]; exact hm) hmf.2 h
          rw [h3] at ihp
          try dsimp only at ihp
          try dsimp only at *
          omega

    | varScope scp vvar =>
      simp only [moduleFree, Bool.true_and, Bool.and_eq_true] at hmf
      simp only [hasPubPin, Bool.false_or, Bool.or_eq_true] at hpp
      simp only [rcC]
      rcases h1 : rcC f orig sb s with ⟨sb1, s1⟩
      try dsimp only
      have hm1 : s1.modp = s.modp := by
        have := rcC_modp_pres f orig sb s hmf.1.1
        rw [h1] at this
        exact this
      rcases h2 : rcC f orig sb2 s1 with ⟨sb2', s2⟩
      try dsimp only
      have hm2 : s2.modp = s1.modp := by
        have := rcC_modp_pres f orig sb2 s1 hmf.1.2
        rw [h2] at this
        exact this
      by_cases hcc : mightElimVarAt f orig vvar = true
      · rw [if_pos hcc]
        rcases h3 : rcC f orig nx { s2 with uses := bumpO (checkAll i d c s2.uses) scp 1, vscsp := s2.vscsp ++ [i] } with ⟨nx', s3⟩
        try dsimp only
        have hloc : s2.uses y ≤ ({ s2 with uses := bumpO (checkAll i d c s2.uses) scp 1, vscsp := s2.vscsp ++ [i] } : St).uses y := le_trans (checkAll_ge i d c s2.uses y) (bumpO_ge (checkAll i d c s2.uses) scp y)
        have ihm3 : ({ s2 with uses := bumpO (checkAll i d c s2.uses) scp 1, vscsp := s2.vscsp ++ [i] } : St).uses y ≤ s3.uses y := by
          have := rcC_mono f orig nx { s2 with uses := bumpO (checkAll i d c s2.uses) scp 1, vscsp := s2.vscsp ++ [i] } y
          rw [h3] at this
          exact this
        rcases hpp with (h | h) | h
        · have ihp := rcC_pin f orig y sb s hm hmf.1.1 h
          rw [h1] at ihp
          try dsimp only at ihp
          have i2 := rcC_mono f orig sb2 s1 y
          rw [h2] at i2
          try dsimp only at i2
          try dsimp only at *
          omega
        · have i1 := rcC_mono f orig sb s y
          rw [h1] at i1
          try dsimp only at i1
          have ihp := rcC_pin f orig y sb2 s1 (by rw [hm1]; exact hm) hmf.1.2 h
          rw [h2] at ihp
          try dsimp only at ihp
          try dsimp only at *
          omega
        · have i1 := rcC_mono f orig sb s y
          rw [h1] at i1
          try dsimp only at i1
          have i2 := rcC_mono f orig sb2 s1 y
          rw [h2] at i2
          try dsimp only at i2
          have ihp := rcC_pin f orig y nx { s2 with uses := bumpO (checkAll i d c s2.uses) scp 1, vscsp := s2.vscsp ++ [i] }
              (by show s2.modp = some (y, true); rw [hm2, hm1]; exact hm) hmf.2 h
          rw [h3] at ihp
          try dsimp only at ihp
          try dsimp only at *
          omega
      · rw [if_neg hcc]
        rcases h3 : rcC f orig nx { s2 with uses := bumpO (checkAll i d c s2.uses) scp 1 } with ⟨nx', s3⟩
        try dsimp only
        have hloc : s2.uses y ≤ ({ s2 with uses := bumpO (checkAll i d c s2.uses) scp 1 } : St).uses y := le_trans (checkAll_ge i d c s2.uses y) (bumpO_ge (checkAll i d c s2.uses) scp y)
        have ihm3 : ({ s2 with uses := bumpO (checkAll i d c s2.uses) scp 1 } : St).uses y ≤ s3.uses y := by
          have := rcC_mono f orig nx { s2 with uses := bumpO (checkAll i d c s2.uses) scp 1 } y
          rw [h3] at this
          exact this
        rcases hpp with (h | h) | h
        · have ihp := rcC_pin f orig y sb s hm hmf.1.1 h
          rw [h1] at ihp
          try dsimp only at ihp
          have i2 := rcC_mono f orig sb2 s1 y
          rw [h2] at i2
          try dsimp only at i2
          try dsimp only at *
          omega
        · have i1 := rcC_mono f orig sb s y
          rw [h1] at i1
          try dsimp only at i1
          have ihp := rcC_pin f orig y sb2 s1 (by rw [hm1]; exact hm) hmf.1.2 h
          rw [h2] at ihp
          try dsimp only at ihp
          try dsimp only at *
          omega
        · have i1 := rcC_mono f orig sb s y
          rw [h1] at i1
          try dsimp only at i1
          have i2 := rcC_mono f orig sb2 s1 y
          rw [h2] at i2
          try dsimp only at i2
          have ihp := rcC_pin f orig y nx { s2 with uses := bumpO (checkAll i d c s2.uses) scp 1 }
              (by show s2.modp = some (y, true); rw [hm2, hm1]; exact hm) hmf.2 h
          rw [h3] at ihp
          try dsimp only at ihp
          try dsimp only at *
          omega

    | var sp io tm pa tr =>
      simp only [moduleFree, Bool.true_and, Bool.and_eq_true] at hmf
      simp only [hasPubPin, Bool.false_or, Bool.or_eq_true] at hpp
      simp only [rcC]
      rcases h1 : rcC f orig sb s with ⟨sb1, s1⟩
      try dsimp only
      have hm1 : s1.modp = s.modp := by
        have := rcC_modp_pres f orig sb s hmf.1.1
        rw [h1] at this
        exact this
      rcases h2 : rcC f orig sb2 s1 with ⟨sb2', s2⟩
      try dsimp only
      have hm2 : s2.modp = s1.modp := by
        have := rcC_modp_pres f orig sb2 s1 hmf.1.2
        rw [h2] at this
        exact this
      have hsplit : sp = true ∨ hasPubPin sb = true ∨ hasPubPin sb2 = true ∨ hasPubPin nx = true := by tauto
      by_cases hcc : mightElimVar f sp io tm pa tr = true
      · rw [if_pos hcc]
        rcases h3 : rcC f orig nx { s2 with uses := pinUses sp s2.modp (checkAll i d c s2.uses), varsp := s2.varsp ++ [i] } with ⟨nx', s3⟩
        try dsimp only
        have ihm3 : ({ s2 with uses := pinUses sp s2.modp (checkAll i d c s2.uses), varsp := s2.varsp ++ [i] } : St).uses y ≤ s3.uses y := by
          have := rcC_mono f orig nx { s2 with uses := pinUses sp s2.modp (checkAll i d c s2.uses), varsp := s2.varsp ++ [i] } y
          rw [h3] at this
          exact this
        have hmm : s2.modp = some (y, true) := by rw [hm2, hm1]; exact hm
        rcases hsplit with h | h | h | h
        · have i1 := rcC_mono f orig sb s y
          rw [h1] at i1
          try dsimp only at i1
          have i2 := rcC_mono f orig sb2 s1 y
          rw [h2] at i2
          try dsimp only at i2
          have heq : ({ s2 with uses := pinUses sp s2.modp (checkAll i d c s2.uses), varsp := s2.varsp ++ [i] } : St).uses y = pinUses true (some (y, true)) (checkAll i d c s2.uses) y := by
            show pinUses sp s2.modp (checkAll i d c s2.uses) y = _
            rw [h, hmm]
          have hpin := pinUses_pin (checkAll i d c s2.uses) y
          have hca := checkAll_ge i d c s2.uses y
          try dsimp only at *
          omega
        · have ihp := rcC_pin f orig y sb s hm hmf.1.1 h
          rw [h1] at ihp
          try dsimp only at ihp
          have i2 := rcC_mono f orig sb2 s1 y
          rw [h2] at i2
          try dsimp only at i2
          have hloc : s2.uses y ≤ ({ s2 with uses := pinUses sp s2.modp (checkAll i d c s2.uses), varsp := s2.varsp ++ [i] } : St).uses y :=
            le_trans (checkAll_ge i d c s2.uses y) (pinUses_ge sp s2.modp (checkAll i d c s2.uses) y)
          try dsimp only at *
          omega
        · have i1 := rcC_mono f orig sb s y
          rw [h1] at i1
          try dsimp only at i1
          have ihp := rcC_pin f orig y sb2 s1 (by rw [hm1]; exact hm) hmf.1.2 h
          rw [h2] at ihp
          try dsimp only at ihp
          have hloc : s2.uses y ≤ ({ s2 with uses := pinUses sp s2.modp (checkAll i d c s2.uses), varsp := s2.varsp ++ [i] } : St).uses y :=
            le_trans (checkAll_ge i d c s2.uses y) (pinUses_ge sp s2.modp (checkAll i d c s2.uses) y)
          try dsimp only at *
          omega
        · have i1 := rcC_mono f orig sb s y
          rw [h1] at i1
          try dsimp only at i1
          have i2 := rcC_mono f orig sb2 s1 y
          rw [h2] at i2
          try dsimp only at i2
          have hloc : s2.uses y ≤ ({ s2 with uses := pinUses sp s2.modp (checkAll i d c s2.uses), varsp := s2.varsp ++ [i] } : St).uses y :=
            le_trans (checkAll_ge i d c s2.uses y) (pinUses_ge sp s2.modp (checkAll i d c s2.uses) y)
          have ihp := rcC_pin f orig y nx { s2 with uses := pinUses sp s2.modp (checkAll i d c s2.uses), varsp := s2.varsp ++ [i] }
              (by show s2.modp = some (y, true); exact hmm) hmf.2 h
          rw [h3] at ihp
          try dsimp only at ihp
          try dsimp only at *
          omega
      · rw [if_neg hcc]
        rcases h3 : rcC f orig nx { s2 with uses := pinUses sp s2.modp (checkAll i d c s2.uses) } with ⟨nx', s3⟩
        try dsimp only
        have ihm3 : ({ s2 with uses := pinUses sp s2.modp (checkAll i d c s2.uses) } : St).uses y ≤ s3.uses y := by
          have := rcC_mono f orig nx { s2 with uses := pinUses sp s2.modp (checkAll i d c s2.uses) } y
          rw [h3] at this
          exact this
        have hmm : s2.modp = some (y, true) := by rw [hm2, hm1]; exact hm
        rcases hsplit with h | h | h | h
        · have i1 := rcC_mono f orig sb s y
          rw [h1] at i1
          try dsimp only at i1
          have i2 := rcC_mono f orig sb2 s1 y
          rw [h2] at i2
          try dsimp only at i2
          have heq : ({ s2 with uses := pinUses sp s2.modp (checkAll i d c s2.uses) } : St).uses y = pinUses true (some (y, true)) (checkAll i d c s2.uses) y := by
            show pinUses sp s2.modp (checkAll i d c s2.uses) y = _
            rw [h, hmm]
          have hpin := pinUses_pin (checkAll i d c s2.uses) y
          have hca := checkAll_ge i d c s2.uses y
          try dsimp only at *
          omega
        · have ihp := rcC_pin f orig y sb s hm hmf.1.1 h
          rw [h1] at ihp
          try dsimp only at ihp
          have i2 := rcC_mono f orig sb2 s1 y
          rw [h2] at i2
          try dsimp only at i2
          have hloc : s2.uses y ≤ ({ s2 with uses := pinUses sp s2.modp (checkAll i d c s2.uses) } : St).uses y :=
            le_trans (checkAll_ge i d c s2.uses y) (pinUses_ge sp s2.modp (checkAll i d c s2.uses) y)
          try dsimp only at *
          omega
        · have i1 := rcC_mono f orig sb s y
          rw [h1] at i1
          try dsimp only at i1
          have ihp := rcC_pin f orig y sb2 s1 (by rw [hm1]; exact hm) hmf.1.2 h
          rw [h2] at ihp
          try dsimp only at ihp
          have hloc : s2.uses y ≤ ({ s2 with uses := pinUses sp s2.modp (checkAll i d c s2.uses) } : St).uses y :=
            le_trans (checkAll_ge i d c s2.uses y) (pinUses_ge sp s2.modp (checkAll i d c s2.uses) y)
          try dsimp only at *
          omega
        · have i1 := rcC_mono f orig sb s y
          rw [h1] at i1
          try dsimp only at i1
          have i2 := rcC_mono f orig sb2 s1 y
          rw [h2] at i2
          try dsimp only at i2
          have hloc : s2.uses y ≤ ({ s2 with uses := pinUses sp s2.modp (checkAll i d c s2.uses) } : St).uses y :=
            le_trans (checkAll_ge i d c s2.uses y) (pinUses_ge sp s2.modp (checkAll i d c s2.uses) y)
          have ihp := rcC_pin f orig y nx { s2 with uses := pinUses sp s2.modp (checkAll i d c s2.uses) }
              (by show s2.modp = some (y, true); exact hmm) hmf.2 h
          rw [h3] at ihp
          try dsimp only at ihp
          try dsimp only at *
          omega
    | varRef vp vsp pp =>
      simp only [moduleFree, Bool.true_and, Bool.and_eq_true] at hmf
      simp only [hasPubPin, Bool.false_or, Bool.or_eq_true] at hpp
      simp only [rcC]
      rcases h1 : rcC f orig sb s with ⟨sb1, s1⟩
      try dsimp only
      have hm1 : s1.modp = s.modp := by
        have := rcC_modp_pres f orig sb s hmf.1.1
        rw [h1] at this
        exact this
      rcases h2 : rcC f orig sb2 s1 with ⟨sb2', s2⟩
      try dsimp only
      have hm2 : s2.modp = s1.modp := by
        have := rcC_modp_pres f orig sb2 s1 hmf.1.2
        rw [h2] at this
        exact this
      rcases hp : pkgHandle f pp { s2 with uses := bumpO (vsUses orig vsp (checkAll i d c s2.uses)) vp 1 } with ⟨pp', s3⟩
      try dsimp only
      have hpg : ({ s2 with uses := bumpO (vsUses orig vsp (checkAll i d c s2.uses)) vp 1 } : St).uses y ≤ s3.uses y := by
        have := pkgHandle_ge f pp { s2 with uses := bumpO (vsUses orig vsp (checkAll i d c s2.uses)) vp 1 } y
        rw [hp] at this
        exact this
      have hpm : s3.modp = ({ s2 with uses := bumpO (vsUses orig vsp (checkAll i d c s2.uses)) vp 1 } : St).modp := by
        have := pkgHandle_modp f pp { s2 with uses := bumpO (vsUses orig vsp (checkAll i d c s2.uses)) vp 1 }
        rw [hp] at this
        exact this
      have hloc : s2.uses y ≤ ({ s2 with uses := bumpO (vsUses orig vsp (checkAll i d c s2.uses)) vp 1 } : St).uses y := le_trans (le_trans (checkAll_ge i d c s2.uses y) (vsUses_ge orig vsp (checkAll i d c s2.uses) y)) (bumpO_ge (vsUses orig vsp (checkAll i d c s2.uses)) vp y)
      rcases h3 : rcC f orig nx s3 with ⟨nx', s4⟩
      try dsimp only
      have ihm3 : s3.uses y ≤ s4.uses y := by
        have := rcC_mono f orig nx s3 y
        rw [h3] at this
        exact this
      rcases hpp with (h | h) | h
      · have ihp := rcC_pin f orig y sb s hm hmf.1.1 h
        rw [h1] at ihp
        try dsimp only at ihp
        have i2 := rcC_mono f orig sb2 s1 y
        rw [h2] at i2
        try dsimp only at i2
        try dsimp only at *
        omega
      · have i1 := rcC_mono f orig sb s y
        rw [h1] at i1
        try dsimp only at i1
        have ihp := rcC_pin f orig y sb2 s1 (by rw [hm1]; exact hm) hmf.1.2 h
        rw [h2] at ihp
        try dsimp only at ihp
        try dsimp only at *
        omega
      · have i1 := rcC_mono f orig sb s y
        rw [h1] at i1
        try dsimp only at i1
        have i2 := rcC_mono f orig sb2 s1 y
        rw [h2] at i2
        try dsimp only at i2
        have ihp := rcC_pin f orig y nx s3
            (by rw [hpm]; show s2.modp = some (y, true); rw [hm2, hm1]; exact hm) hmf.2 h
        rw [h3] at ihp
        try dsimp only at ihp
        try dsimp only at *
        omega

    | ftaskRef pp =>
      simp only [moduleFree, Bool.true_and, Bool.and_eq_true] at hmf
      simp only [hasPubPin, Bool.false_or, Bool.or_eq_true] at hpp
      simp only [rcC]
      rcases h1 : rcC f orig sb s with ⟨sb1, s1⟩
      try dsimp only
      have hm1 : s1.modp = s.modp := by
        have := rcC_modp_pres f orig sb s hmf.1.1
        rw [h1] at this
        exact this
      rcases h2 : rcC f orig sb2 s1 with ⟨sb2', s2⟩
      try dsimp only
      have hm2 : s2.modp = s1.modp := by
        have := rcC_modp_pres f orig sb2 s1 hmf.1.2
        rw [h2] at this
        exact this
      rcases hp : pkgHandle f pp { s2 with uses := checkAll i d c s2.uses } with ⟨pp', s3⟩
      try dsimp only
      have hpg : ({ s2 with uses := checkAll i d c s2.uses } : St).uses y ≤ s3.uses y := by
        have := pkgHandle_ge f pp { s2 with uses := checkAll i d c s2.uses } y
        rw [hp] at this
        exact this
      have hpm : s3.modp = ({ s2 with uses := checkAll i d c s2.uses } : St).modp := by
        have := pkgHandle_modp f pp { s2 with uses := checkAll i d c s2.uses }
        rw [hp] at this
        exact this
      have hloc : s2.uses y ≤ ({ s2 with uses := checkAll i d c s2.uses } : St).uses y := checkAll_ge i d c s2.uses y
      rcases h3 : rcC f orig nx s3 with ⟨nx', s4⟩
      try dsimp only
      have ihm3 : s3.uses y ≤ s4.uses y := by
        have := rcC_mono f orig nx s3 y
        rw [h3] at this
        exact this
      rcases hpp with (h | h) | h
      · have ihp := rcC_pin f orig y sb s hm hmf.1.1 h
        rw [h1] at ihp
        try dsimp only at ihp
        have i2 := rcC_mono f orig sb2 s1 y
        rw [h2] at i2
        try dsimp only at i2
        try dsimp only at *
        omega
      · have i1 := rcC_mono f orig sb s y
        rw [h1] at i1
        try dsimp only at i1
        have ihp := rcC_pin f orig y sb2 s1 (by rw [hm1]; exact hm) hmf.1.2 h
        rw [h2] at ihp
        try dsimp only at ihp
        try dsimp only at *
        omega
      · have i1 := rcC_mono f orig sb s y
        rw [h1] at i1
        try dsimp only at i1
        have i2 := rcC_mono f orig sb2 s1 y
        rw [h2] at i2
        try dsimp only at i2
        have ihp := rcC_pin f orig y nx s3
            (by rw [hpm]; show s2.modp = some (y, true); rw [hm2, hm1]; exact hm) hmf.2 h
        rw [h3] at ihp
        try dsimp only at ihp
        try dsimp only at *
        omega

    | refDType g vr pp =>
      simp only [moduleFree, Bool.true_and, Bool.and_eq_true] at hmf
      simp only [hasPubPin, Bool.false_or, Bool.or_eq_true] at hpp
      simp only [rcC]
      rcases h1 : rcC f orig sb s with ⟨sb1, s1⟩
      try dsimp only
      have hm1 : s1.modp = s.modp := by
        have := rcC_modp_pres f orig sb s hmf.1.1
        rw [h1] at this
        exact this
      rcases h2 : rcC f orig sb2 s1 with ⟨sb2', s2⟩
      try dsimp only
      have hm2 : s2.modp = s1.modp := by
        have := rcC_modp_pres f orig sb2 s1 hmf.1.2
        rw [h2] at this
        exact this
      rcases hp : pkgHandle f pp { checkDType f i g false vr s2 with uses := checkAll i d c (checkDType f i g false vr s2).uses } with ⟨pp', s3⟩
      try dsimp only
      have hpg : ({ checkDType f i g false vr s2 with uses := checkAll i d c (checkDType f i g false vr s2).uses } : St).uses y ≤ s3.uses y := by
        have := pkgHandle_ge f pp { checkDType f i g false vr s2 with uses := checkAll i d c (checkDType f i g false vr s2).uses } y
        rw [hp] at this
        exact this
      have hpm : s3.modp = ({ checkDType f i g false vr s2 with uses := checkAll i d c (checkDType f i g false vr s2).uses } : St).modp := by
        have := pkgHandle_modp f pp { checkDType f i g false vr s2 with uses := checkAll i d c (checkDType f i g false vr s2).uses }
        rw [hp] at this
        exact this
      have hloc : s2.uses y ≤ ({ checkDType f i g false vr s2 with uses := checkAll i d c (checkDType f i g false vr s2).uses } : St).uses y := le_trans (checkDType_ge f i g false vr s2 y) (checkAll_ge i d c (checkDType f i g false vr s2).uses y)
      rcases h3 : rcC f orig nx s3 with ⟨nx', s4⟩
      try dsimp only
      have ihm3 : s3.uses y ≤ s4.uses y := by
        have := rcC_mono f orig nx s3 y
        rw [h3] at this
        exact this
      rcases hpp with (h | h) | h
      · have ihp := rcC_pin f orig y sb s hm hmf.1.1 h
        rw [h1] at ihp
        try dsimp only at ihp
        have i2 := rcC_mono f orig sb2 s1 y
        rw [h2] at i2
        try dsimp only at i2
        try dsimp only at *
        omega
      · have i1 := rcC_mono f orig sb s y
        rw [h1] at i1
        try dsimp only at i1
        have ihp := rcC_pin f orig y sb2 s1 (by rw [hm1]; exact hm) hmf.1.2 h
        rw [h2] at ihp
        try dsimp only at ihp
        try dsimp only at *
        omega
      · have i1 := rcC_mono f orig sb s y
        rw [h1] at i1
        try dsimp only at i1
        have i2 := rcC_mono f orig sb2 s1 y
        rw [h2] at i2
        try dsimp only at i2
        have ihp := rcC_pin f orig y nx s3
            (by rw [hpm]; rw [checkDType_modp f i g false vr s2, hm2, hm1]; exact hm) hmf.2 h
        rw [h3] at ihp
        try dsimp only at ihp
        try dsimp only at *
        omega

    | enumItemRef pp =>
      simp only [moduleFree, Bool.true_and, Bool.and_eq_true] at hmf
      simp only [hasPubPin, Bool.false_or, Bool.or_eq_true] at hpp
      simp only [rcC]
      rcases h1 : rcC f orig sb s with ⟨sb1, s1⟩
      try dsimp only
      have hm1 : s1.modp = s.modp := by
        have := rcC_modp_pres f orig sb s hmf.1.1
        rw [h1] at this
        exact this
      rcases h2 : rcC f orig sb2 s1 with ⟨sb2', s2⟩
      try dsimp only
      have hm2 : s2.modp = s1.modp := by
        have := rcC_modp_pres f orig sb2 s1 hmf.1.2
        rw [h2] at this
        exact this
      rcases hp : pkgHandle f pp { s2 with uses := checkAll i d c s2.uses } with ⟨pp', s3⟩
      try dsimp only
      have hpg : ({ s2 with uses := checkAll i d c s2.uses } : St).uses y ≤ s3.uses y := by
        have := pkgHandle_ge f pp { s2 with uses := checkAll i d c s2.uses } y
        rw [hp] at this
        exact this
      have hpm : s3.modp = ({ s2 with uses := checkAll i d c s2.uses } : St).modp := by
        have := pkgHandle_modp f pp { s2 with uses := checkAll i d c s2.uses }
        rw [hp] at this
        exact this
      have hloc : s2.uses y ≤ ({ s2 with uses := checkAll i d c s2.uses } : St).uses y := checkAll_ge i d c s2.uses y
      rcases h3 : rcC f orig nx { s3 with uses := checkAll i d c s3.uses } with ⟨nx', s4⟩
      try dsimp only
      have hca : s3.uses y ≤ ({ s3 with uses := checkAll i d c s3.uses } : St).uses y := checkAll_ge i d c s3.uses y
      have ihm3 : ({ s3 with uses := checkAll i d c s3.uses } : St).uses y ≤ s4.uses y := by
        have := rcC_mono f orig nx { s3 with uses := checkAll i d c s3.uses } y
        rw [h3] at this
        exact this
      rcases hpp with (h | h) | h
      · have ihp := rcC_pin f orig y sb s hm hmf.1.1 h
        rw [h1] at ihp
        try dsimp only at ihp
        have i2 := rcC_mono f orig sb2 s1 y
        rw [h2] at i2
        try dsimp only at i2
        try dsimp only at *
        omega
      · have i1 := rcC_mono f orig sb s y
        rw [h1] at i1
        try dsimp only at i1
        have ihp := rcC_pin f orig y sb2 s1 (by rw [hm1]; exact hm) hmf.1.2 h
        rw [h2] at ihp
        try dsimp only at ihp
        try dsimp only at *
        omega
      · have i1 := rcC_mono f orig sb s y
        rw [h1] at i1
        try dsimp only at i1
        have i2 := rcC_mono f orig sb2 s1 y
        rw [h2] at i2
        try dsimp only at i2
        have ihp := rcC_pin f orig y nx { s3 with uses := checkAll i d c s3.uses }
            (by show s3.modp = some (y, true); rw [hpm]; show s2.modp = some (y, true); rw [hm2, hm1]; exact hm) hmf.2 h
        rw [h3] at ihp
        try dsimp only at ihp
        try dsimp only at *
        omega

    | modport hv =>
      simp only [moduleFree, Bool.true_and, Bool.and_eq_true] at hmf
      simp only [hasPubPin, Bool.false_or, Bool.or_eq_true] at hpp
      simp only [rcC]
      rcases h1 : rcC f orig sb s with ⟨sb1, s1⟩
      try dsimp only
      have hm1 : s1.modp = s.modp := by
        have := rcC_modp_pres f orig sb s hmf.1.1
        rw [h1] at this
        exact this
      rcases h2 : rcC f orig sb2 s1 with ⟨sb2', s2⟩
      try dsimp only
      have hm2 : s2.modp = s1.modp := by
        have := rcC_modp_pres f orig sb2 s1 hmf.1.2
        rw [h2] at this
        exact this
      by_cases hcc : (f.elimCells && !hv) = true
      · rw [if_pos hcc]
        rcases h3 : rcC f orig nx (logDel (Tree.node i (Kind.modport hv) d c sb1 sb2' nx) s2) with ⟨nx', s3⟩
        try dsimp only
        have ihm3 : s2.uses y ≤ s3.uses y := by
          have := rcC_mono f orig nx (logDel (Tree.node i (Kind.modport hv) d c sb1 sb2' nx) s2) y
          rw [h3] at this
          exact this
        rcases hpp with (h | h) | h
        · have ihp := rcC_pin f orig y sb s hm hmf.1.1 h
          rw [h1] at ihp
          try dsimp only at ihp
          have i2 := rcC_mono f orig sb2 s1 y
          rw [h2] at i2
          try dsimp only at i2
          try dsimp only at *
          omega
        · have i1 := rcC_mono f orig sb s y
          rw [h1] at i1
          try dsimp only at i1
          have ihp := rcC_pin f orig y sb2 s1 (by rw [hm1]; exact hm) hmf.1.2 h
          rw [h2] at ihp
          try dsimp only at ihp
          try dsimp only at *
          omega
        · have i1 := rcC_mono f orig sb s y
          rw [h1] at i1
          try dsimp only at i1
          have i2 := rcC_mono f orig sb2 s1 y
          rw [h2] at i2
          try dsimp only at i2
          have ihp := rcC_pin f orig y nx (logDel (Tree.node i (Kind.modport hv) d c sb1 sb2' nx) s2)
              (by show s2.modp = some (y, true); rw [hm2, hm1]; exact hm) hmf.2 h
          rw [h3] at ihp
          try dsimp only at ihp
          have heq : (logDel (Tree.node i (Kind.modport hv) d c sb1 sb2' nx) s2).uses y = s2.uses y := rfl
          try dsimp only at *
          omega
      · rw [if_neg hcc]
        rcases h3 : rcC f orig nx { s2 with uses := checkAll i d c s2.uses } with ⟨nx', s3⟩
        try dsimp only
        have hloc : s2.uses y ≤ ({ s2 with uses := checkAll i d c s2.uses } : St).uses y := checkAll_ge i d c s2.uses y
        have ihm3 : ({ s2 with uses := checkAll i d c s2.uses } : St).uses y ≤ s3.uses y := by
          have := rcC_mono f orig nx { s2 with uses := checkAll i d c s2.uses } y
          rw [h3] at this
          exact this
        rcases hpp with (h | h) | h
        · have ihp := rcC_pin f orig y sb s hm hmf.1.1 h
          rw [h1] at ihp
          try dsimp only at ihp
          have i2 := rcC_mono f orig sb2 s1 y
          rw [h2] at i2
          try dsimp only at i2
          try dsimp only at *
          omega
        · have i1 := rcC_mono f orig sb s y
          rw [h1] at i1
          try dsimp only at i1
          have ihp := rcC_pin f orig y sb2 s1 (by rw [hm1]; exact hm) hmf.1.2 h
          rw [h2] at ihp
          try dsimp only at ihp
          try dsimp only at *
          omega
        · have i1 := rcC_mono f orig sb s y
          rw [h1] at i1
          try dsimp only at i1
          have i2 := rcC_mono f orig sb2 s1 y
          rw [h2] at i2
          try dsimp only at i2
          have ihp := rcC_pin f orig y nx { s2 with uses := checkAll i d c s2.uses }
              (by show s2.modp = some (y, true); rw [hm2, hm1]; exact hm) hmf.2 h
          rw [h3] at ihp
          try dsimp only at ihp
          try dsimp only at *
          omega

    | typedefD pub =>
      simp only [moduleFree, Bool.true_and, Bool.and_eq_true] at hmf
      simp only [hasPubPin, Bool.false_or, Bool.or_eq_true] at hpp
      simp only [rcC]
      rcases h1 : rcC f orig sb s with ⟨sb1, s1⟩
      try dsimp only
      have hm1 : s1.modp = s.modp := by
        have := rcC_modp_pres f orig sb s hmf.1.1
        rw [h1] at this
        exact this
      rcases h2 : rcC f orig sb2 s1 with ⟨sb2', s2⟩
      try dsimp only
      have hm2 : s2.modp = s1.modp := by
        have := rcC_modp_pres f orig sb2 s1 hmf.1.2
        rw [h2] at this
        exact this
      have hsplit : pub = true ∨ hasPubPin sb = true ∨ hasPubPin sb2 = true ∨ hasPubPin nx = true := by tauto
      rcases hsplit with hpub | hrest
      · have hg : ¬((f.elimCells && !pub) = true) := by rw [hpub]; simp
        rw [if_neg hg]
        rcases h3 : rcC f orig nx { s2 with uses := pinUses pub s2.modp (checkAll i d c s2.uses) } with ⟨nx', s3⟩
        try dsimp only
        have ihm3 : ({ s2 with uses := pinUses pub s2.modp (checkAll i d c s2.uses) } : St).uses y ≤ s3.uses y := by
          have := rcC_mono f orig nx { s2 with uses := pinUses pub s2.modp (checkAll i d c s2.uses) } y
          rw [h3] at this
          exact this
        have hmm : s2.modp = some (y, true) := by rw [hm2, hm1]; exact hm
        have i1 := rcC_mono f orig sb s y
        rw [h1] at i1
        try dsimp only at i1
        have i2 := rcC_mono f orig sb2 s1 y
        rw [h2] at i2
        try dsimp only at i2
        have heq : ({ s2 with uses := pinUses pub s2.modp (checkAll i d c s2.uses) } : St).uses y = pinUses true (some (y, true)) (checkAll i d c s2.uses) y := by
          show pinUses pub s2.modp (checkAll i d c s2.uses) y = _
          rw [hpub, hmm]
        have hpin := pinUses_pin (checkAll i d c s2.uses) y
        have hca := checkAll_ge i d c s2.uses y
        try dsimp only at *
        omega
      · by_cases hcc : (f.elimCells && !pub) = true
        · rw [if_pos hcc]
          rcases h3 : rcC f orig nx (logDel (Tree.node i (Kind.typedefD pub) d c sb1 sb2' nx) s2) with ⟨nx', s3⟩
          try dsimp only
          have ihm3 : s2.uses y ≤ s3.uses y := by
            have := rcC_mono f orig nx (logDel (Tree.node i (Kind.typedefD pub) d c sb1 sb2' nx) s2) y
            rw [h3] at this
            exact this
          rcases hrest with h | h | h
          · have ihp := rcC_pin f orig y sb s hm hmf.1.1 h
            rw [h1] at ihp
            try dsimp only at ihp
            have i2 := rcC_mono f orig sb2 s1 y
            rw [h2] at i2
            try dsimp only at i2
            try dsimp only at *
            omega
          · have i1 := rcC_mono f orig sb s y
            rw [h1] at i1
            try dsimp only at i1
            have ihp := rcC_pin f orig y sb2 s1 (by rw [hm1]; exact hm) hmf.1.2 h
            rw [h2] at ihp
            try dsimp only at ihp
            try dsimp only at *
            omega
          · have i1 := rcC_mono f orig sb s y
            rw [h1] at i1
            try dsimp only at i1
            have i2 := rcC_mono f orig sb2 s1 y
            rw [h2] at i2
            try dsimp only at i2
            have ihp := rcC_pin f orig y nx (logDel (Tree.node i (Kind.typedefD pub) d c sb1 sb2' nx) s2)
                (by show s2.modp = some (y, true); rw [hm2, hm1]; exact hm) hmf.2 h
            rw [h3] at ihp
            try dsimp only at ihp
            have heq : (logDel (Tree.node i (Kind.typedefD pub) d c sb1 sb2' nx) s2).uses y = s2.uses y := rfl
            try dsimp only at *
            omega
        · rw [if_neg hcc]
          rcases h3 : rcC f orig nx { s2 with uses := pinUses pub s2.modp (checkAll i d c s2.uses) } with ⟨nx', s3⟩
          try dsimp only
          have hloc : s2.uses y ≤ ({ s2 with uses := pinUses pub s2.modp (checkAll i d c s2.uses) } : St).uses y :=
            le_trans (checkAll_ge i d c s2.uses y) (pinUses_ge pub s2.modp (checkAll i d c s2.uses) y)
          have ihm3 : ({ s2 with uses := pinUses pub s2.modp (checkAll i d c s2.uses) } : St).uses y ≤ s3.uses y := by
            have := rcC_mono f orig nx { s2 with uses := pinUses pub s2.modp (checkAll i d c s2.uses) } y
            rw [h3] at this
            exact this
          rcases hrest with h | h | h
          · have ihp := rcC_pin f orig y sb s hm hmf.1.1 h
            rw [h1] at ihp
            try dsimp only at ihp
            have i2 := rcC_mono f orig sb2 s1 y
            rw [h2] at i2
            try dsimp only at i2
            try dsimp only at *
            omega
          · have i1 := rcC_mono f orig sb s y
            rw [h1] at i1
            try dsimp only at i1
            have ihp := rcC_pin f orig y sb2 s1 (by rw [hm1]; exact hm) hmf.1.2 h
            rw [h2] at ihp
            try dsimp only at ihp
            try dsimp only at *
            omega
          · have i1 := rcC_mono f orig sb s y
            rw [h1] at i1
            try dsimp only at i1
            have i2 := rcC_mono f orig sb2 s1 y
            rw [h2] at i2
            try dsimp only at i2
            have ihp := rcC_pin f orig y nx { s2 with uses := pinUses pub s2.modp (checkAll i d c s2.uses) }
                (by show s2.modp = some (y, true); rw [hm2, hm1]; exact hm) hmf.2 h
            rw [h3] at ihp
            try dsimp only at ihp
            try dsimp only at *
            omega

    | assign =>
      simp only [moduleFree, Bool.true_and, Bool.and_eq_true] at hmf
      simp only [hasPubPin, Bool.or_eq_true] at hpp
      simp only [rcC]
      rcases h1 : rcC f orig sb { s with sideEffect := false } with ⟨sb1, s1⟩
      try dsimp only
      have hm1 : s1.modp = s.modp := by
        have := rcC_modp_pres f orig sb { s with sideEffect := false } hmf.1.1
        rw [h1] at this
        exact this
      rcases hL : lhsRec sb2 with _ | ⟨li, lvs, ld, lc⟩
      · try dsimp only
        rcases h2 : rcC f orig sb2 { s1 with uses := checkAll i d c s1.uses } with ⟨sb2', s2⟩
        try dsimp only
        have hm2 : s2.modp = s1.modp := by
          have := rcC_modp_pres f orig sb2 { s1 with uses := checkAll i d c s1.uses } hmf.1.2
          rw [h2] at this
          exact this
        rcases h3 : rcC f orig nx { s2 with uses := checkAll i d c s2.uses } with ⟨nx', s3⟩
        try dsimp only
        have ihm3 : ({ s2 with uses := checkAll i d c s2.uses } : St).uses y ≤ s3.uses y := by
          have := rcC_mono f orig nx { s2 with uses := checkAll i d c s2.uses } y
          rw [h3] at this
          exact this
        have hca1 : s1.uses y ≤ checkAll i d c s1.uses y := checkAll_ge i d c s1.uses y
        have hca2 : s2.uses y ≤ ({ s2 with uses := checkAll i d c s2.uses } : St).uses y := checkAll_ge i d c s2.uses y
        have i2 : ({ s1 with uses := checkAll i d c s1.uses } : St).uses y ≤ s2.uses y := by
          have := rcC_mono f orig sb2 { s1 with uses := checkAll i d c s1.uses } y
          rw [h2] at this
          exact this
        rcases hpp with h | h
        · have ihp := rcC_pin f orig y sb { s with sideEffect := false } hm hmf.1.1 h
          rw [h1] at ihp
          try dsimp only at ihp
          try dsimp only at *
          omega
        · have i1 := rcC_mono f orig sb { s with sideEffect := false } y
          rw [h1] at i1
          try dsimp only at i1
          have ihp := rcC_pin f orig y nx { s2 with uses := checkAll i d c s2.uses }
              (by show s2.modp = some (y, true); rw [hm2, hm1]; exact hm) hmf.2 h
          rw [h3] at ihp
          try dsimp only at ihp
          try dsimp only at *
          omega
      · try dsimp only
        by_cases hse : (!s1.sideEffect) = true
        · rw [if_pos hse]
          rcases h3 : rcC f orig nx { s1 with uses := checkAll i d c (checkAll li ld lc (checkAll i d c s1.uses)), assignMap := s1.assignMap ++ [(lvs, i)] } with ⟨nx', s3⟩
          try dsimp only
          have ihm3 : ({ s1 with uses := checkAll i d c (checkAll li ld lc (checkAll i d c s1.uses)), assignMap := s1.assignMap ++ [(lvs, i)] } : St).uses y ≤ s3.uses y := by
            have := rcC_mono f orig nx { s1 with uses := checkAll i d c (checkAll li ld lc (checkAll i d c s1.uses)), assignMap := s1.assignMap ++ [(lvs, i)] } y
            rw [h3] at this
            exact this
          have hca : s1.uses y ≤ ({ s1 with uses := checkAll i d c (checkAll li ld lc (checkAll i d c s1.uses)), assignMap := s1.assignMap ++ [(lvs, i)] } : St).uses y :=
            le_trans (checkAll_ge i d c s1.uses y)
              (le_trans (checkAll_ge li ld lc (checkAll i d c s1.uses) y)
                (checkAll_ge i d c (checkAll li ld lc (checkAll i d c s1.uses)) y))
          rcases hpp with h | h
          · have ihp := rcC_pin f orig y sb { s with sideEffect := false } hm hmf.1.1 h
            rw [h1] at ihp
            try dsimp only at ihp
            try dsimp only at *
            omega
          · have i1 := rcC_mono f orig sb { s with sideEffect := false } y
            rw [h1] at i1
            try dsimp only at i1
            have ihp := rcC_pin f orig y nx { s1 with uses := checkAll i d c (checkAll li ld lc (checkAll i d c s1.uses)), assignMap := s1.assignMap ++ [(lvs, i)] }
                (by show s1.modp = some (y, true); rw [hm1]; exact hm) hmf.2 h
            rw [h3] at ihp
            try dsimp only at ihp
            try dsimp only at *
            omega
        · rw [if_neg hse]
          rcases h2 : rcC f orig sb2 { s1 with uses := checkAll i d c s1.uses } with ⟨sb2', s2⟩
          try dsimp only
          have hm2 : s2.modp = s1.modp := by
            have := rcC_modp_pres f orig sb2 { s1 with uses := checkAll i d c s1.uses } hmf.1.2
            rw [h2] at this
            exact this
          rcases h3 : rcC f orig nx { s2 with uses := checkAll i d c s2.uses } with ⟨nx', s3⟩
          try dsimp only
          have ihm3 : ({ s2 with uses := checkAll i d c s2.uses } : St).uses y ≤ s3.uses y := by
            have := rcC_mono f orig nx { s2 with uses := checkAll i d c s2.uses } y
            rw [h3] at this
            exact this
          have hca1 : s1.uses y ≤ checkAll i d c s1.uses y := checkAll_ge i d c s1.uses y
          have hca2 : s2.uses y ≤ ({ s2 with uses := checkAll i d c s2.uses } : St).uses y := checkAll_ge i d c s2.uses y
          have i2 : ({ s1 with uses := checkAll i d c s1.uses } : St).uses y ≤ s2.uses y := by
            have := rcC_mono f orig sb2 { s1 with uses := checkAll i d c s1.uses } y
            rw [h2] at this
            exact this
          rcases hpp with h | h
          · have ihp := rcC_pin f orig y sb { s with sideEffect := false } hm hmf.1.1 h
            rw [h1] at ihp
            try dsimp only at ihp
            try dsimp only at *
            omega
          · have i1 := rcC_mono f orig sb { s with sideEffect := false } y
            rw [h1] at i1
            try dsimp only at i1
            have ihp := rcC_pin f orig y nx { s2 with uses := checkAll i d c s2.uses }
                (by show s2.modp = some (y, true); rw [hm2, hm1]; exact hm) hmf.2 h
            rw [h3] at ihp
            try dsimp only at ihp
            try dsimp only at *
            omega

    | other outp mth =>
      simp only [moduleFree, Bool.true_and, Bool.and_eq_true] at hmf
      simp only [hasPubPin, Bool.false_or, Bool.or_eq_true] at hpp
      simp only [rcC]
      by_cases ho : outp = true
      · rw [if_pos ho]
        rcases h1 : rcC f orig sb { s with sideEffect := true } with ⟨sb1, s1⟩
        try dsimp only
        have hm1 : s1.modp = s.modp := by
          have := rcC_modp_pres f orig sb { s with sideEffect := true } hmf.1.1
          rw [h1] at this
          exact this
        rcases h2 : rcC f orig sb2 s1 with ⟨sb2', s2⟩
        try dsimp only
        have hm2 : s2.modp = s1.modp := by
          have := rcC_modp_pres f orig sb2 s1 hmf.1.2
          rw [h2] at this
          exact this
        rcases h3 : rcC f orig nx { s2 with uses := checkAll i d c s2.uses } with ⟨nx', s3⟩
        try dsimp only
        have hloc : s2.uses y ≤ ({ s2 with uses := checkAll i d c s2.uses } : St).uses y := checkAll_ge i d c s2.uses y
        have ihm3 : ({ s2 with uses := checkAll i d c s2.uses } : St).uses y ≤ s3.uses y := by
          have := rcC_mono f orig nx { s2 with uses := checkAll i d c s2.uses } y
          rw [h3] at this
          exact this
        rcases hpp with (h | h) | h
        · have ihp := rcC_pin f orig y sb { s with sideEffect := true } hm hmf.1.1 h
          rw [h1] at ihp
          try dsimp only at ihp
          have i2 := rcC_mono f orig sb2 s1 y
          rw [h2] at i2
          try dsimp only at i2
          try dsimp only at *
          omega
        · have i1 := rcC_mono f orig sb { s with sideEffect := true } y
          rw [h1] at i1
          try dsimp only at i1
          have ihp := rcC_pin f orig y sb2 s1 (by rw [hm1]; exact hm) hmf.1.2 h
          rw [h2] at ihp
          try dsimp only at ihp
          try dsimp only at *
          omega
        · have i1 := rcC_mono f orig sb { s with sideEffect := true } y
          rw [h1] at i1
          try dsimp only at i1
          have i2 := rcC_mono f orig sb2 s1 y
          rw [h2] at i2
          try dsimp only at i2
          have ihp := rcC_pin f orig y nx { s2 with uses := checkAll i d c s2.uses }
              (by show s2.modp = some (y, true); rw [hm2, hm1]; exact hm) hmf.2 h
          rw [h3] at ihp
          try dsimp only at ihp
          try dsimp only at *
          omega
      · rw [if_neg ho]
        rcases h1 : rcC f orig sb s with ⟨sb1, s1⟩
        try dsimp only
        have hm1 : s1.modp = s.modp := by
          have := rcC_modp_pres f orig sb s hmf.1.1
          rw [h1] at this
          exact this
        rcases h2 : rcC f orig sb2 s1 with ⟨sb2', s2⟩
        try dsimp only
        have hm2 : s2.modp = s1.modp := by
          have := rcC_modp_pres f orig sb2 s1 hmf.1.2
          rw [h2] at this
          exact this
        rcases h3 : rcC f orig nx { s2 with uses := checkAll i d c s2.uses } with ⟨nx', s3⟩
        try dsimp only
        have hloc : s2.uses y ≤ ({ s2 with uses := checkAll i d c s2.uses } : St).uses y := checkAll_ge i d c s2.uses y
        have ihm3 : ({ s2 with uses := checkAll i d c s2.uses } : St).uses y ≤ s3.uses y := by
          have := rcC_mono f orig nx { s2 with uses := checkAll i d c s2.uses } y
          rw [h3] at this
          exact this
        rcases hpp with (h | h) | h
        · have ihp := rcC_pin f orig y sb s hm hmf.1.1 h
          rw [h1] at ihp
          try dsimp only at ihp
          have i2 := rcC_mono f orig sb2 s1 y
          rw [h2] at i2
          try dsimp only at i2
          try dsimp only at *
          omega
        · have i1 := rcC_mono f orig sb s y
          rw [h1] at i1
          try dsimp only at i1
          have ihp := rcC_pin f orig y sb2 s1 (by rw [hm1]; exact hm) hmf.1.2 h
          rw [h2] at ihp
          try dsimp only at ihp
          try dsimp only at *
          omega
        · have i1 := rcC_mono f orig sb s y
          rw [h1] at i1
          try dsimp only at i1
          have i2 := rcC_mono f orig sb2 s1 y
          rw [h2] at i2
          try dsimp only at i2
          have ihp := rcC_pin f orig y nx { s2 with uses := checkAll i d c s2.uses }
              (by show s2.modp = some (y, true); rw [hm2, hm1]; exact hm) hmf.2 h
          rw [h3] at ihp
          try dsimp only at ihp
          try dsimp only at *
          omega


end V3Dead

namespace V3Dead

/-- Traversing a module chain that pins package `y` adds at least one
to `y`'s counter. -/
theorem rcC_chainPin (f : Flags) (orig : Tree) (y : Nat) : (ch : Tree) → (s : St) →
    chainPin y ch = true → s.uses y + 1 ≤ (rcC f orig ch s).2.uses y
  | .nil, _, hpp => by simp [chainPin] at hpp
  | .node i k d c sb sb2 nx, s, hpp => by
    cases k with
    | netlist =>
      simp only [chainPin, Bool.and_false, Bool.false_and, Bool.and_true, Bool.true_and, Bool.false_or] at hpp
      simp only [rcC]
      rcases h1 : rcC f orig sb s with ⟨sb1, s1⟩
      try dsimp only
      have i1 := rcC_mono f orig sb s y
      rw [h1] at i1
      try dsimp only at i1
      rcases h2 : rcC f orig sb2 s1 with ⟨sb2', s2⟩
      try dsimp only
      have i2 := rcC_mono f orig sb2 s1 y
      rw [h2] at i2
      try dsimp only at i2
      rcases h3 : rcC f orig nx { s2 with uses := checkAll i d c s2.uses } with ⟨nx', s3⟩
      try dsimp only
      have hloc : s2.uses y ≤ ({ s2 with uses := checkAll i d c s2.uses } : St).uses y := checkAll_ge i d c s2.uses y
      have ihp := rcC_chainPin f orig y nx { s2 with uses := checkAll i d c s2.uses } hpp
      rw [h3] at ihp
      try dsimp only at ihp
      try dsimp only at *
      omega

    | cfunc scp =>
      simp only [chainPin, Bool.and_false, Bool.false_and, Bool.and_true, Bool.true_and, Bool.false_or] at hpp
      simp only [rcC]
      rcases h1 : rcC f orig sb s with ⟨sb1, s1⟩
      try dsimp only
      have i1 := rcC_mono f orig sb s y
      rw [h1] at i1
      try dsimp only at i1
      rcases h2 : rcC f orig sb2 s1 with ⟨sb2', s2⟩
      try dsimp only
      have i2 := rcC_mono f orig sb2 s1 y
      rw [h2] at i2
      try dsimp only at i2
      rcases h3 : rcC f orig nx { s2 with uses := bumpO (checkAll i d c s2.uses) scp 1 } with ⟨nx', s3⟩
      try dsimp only
      have hloc : s2.uses y ≤ ({ s2 with uses := bumpO (checkAll i d c s2.uses) scp 1 } : St).uses y := le_trans (checkAll_ge i d c s2.uses y) (bumpO_ge (checkAll i d c s2.uses) scp y)
      have ihp := rcC_chainPin f orig y nx { s2 with uses := bumpO (checkAll i d c s2.uses) scp 1 } hpp
      rw [h3] at ihp
      try dsimp only at ihp
      try dsimp only at *
      omega

    | cell mt =>
      simp only [chainPin, Bool.and_false, Bool.false_and, Bool.and_true, Bool.true_and, Bool.false_or] at hpp
      simp only [rcC]
      rcases h1 : rcC f orig sb s with ⟨sb1, s1⟩
      try dsimp only
      have i1 := rcC_mono f orig sb s y
      rw [h1] at i1
      try dsimp only at i1
      rcases h2 : rcC f orig sb2 s1 with ⟨sb2', s2⟩
      try dsimp only
      have i2 := rcC_mono f orig sb2 s1 y
      rw [h2] at i2
      try dsimp only at i2
      rcases h3 : rcC f orig nx { s2 with uses := bump (checkAll i d c s2.uses) mt 1, cellsp := s2.cellsp ++ [i] } with ⟨nx', s3⟩
      try dsimp only
      have hloc : s2.uses y ≤ ({ s2 with uses := bump (checkAll i d c s2.uses) mt 1, cellsp := s2.cellsp ++ [i] } : St).uses y := le_trans (checkAll_ge i d c s2.uses y) (bump_ge (checkAll i d c s2.uses) mt y)
      have ihp := rcC_chainPin f orig y nx { s2 with uses := bump (checkAll i d c s2.uses) mt 1, cellsp := s2.cellsp ++ [i] } hpp
      rw [h3] at ihp
      try dsimp only at ihp
      try dsimp only at *
      omega

    | dtype g mem cl vr =>
      simp only [chainPin, Bool.and_false, Bool.false_and, Bool.and_true, Bool.true_and, Bool.false_or] at hpp
      simp only [rcC]
      rcases h1 : rcC f orig sb s with ⟨sb1, s1⟩
      try dsimp only
      have i1 := rcC_mono f orig sb s y
      rw [h1] at i1
      try dsimp only at i1
      rcases h2 : rcC f orig sb2 s1 with ⟨sb2', s2⟩
      try dsimp only
      have i2 := rcC_mono f orig sb2 s1 y
      rw [h2] at i2
      try dsimp only at i2
      rcases h3 : rcC f orig nx { checkDType f i g mem vr s2 with uses := checkAll i d c (checkDType f i g mem vr s2).uses } with ⟨nx', s3⟩
      try dsimp only
      have hloc : s2.uses y ≤ ({ checkDType f i g mem vr s2 with uses := checkAll i d c (checkDType f i g mem vr s2).uses } : St).uses y := le_trans (checkDType_ge f i g mem vr s2 y) (checkAll_ge i d c (checkDType f i g mem vr s2).uses y)
      have ihp := rcC_chainPin f orig y nx { checkDType f i g mem vr s2 with uses := checkAll i d c (checkDType f i g mem vr s2).uses } hpp
      rw [h3] at ihp
      try dsimp only at ihp
      try dsimp only at *
      omega

    | scope abv top hv hb hf =>
      simp only [chainPin, Bool.and_false, Bool.false_and, Bool.and_true, Bool.true_and, Bool.false_or] at hpp
      simp only [rcC]
      rcases h1 : rcC f orig sb s with ⟨sb1, s1⟩
      try dsimp only
      have i1 := rcC_mono f orig sb s y
      rw [h1] at i1
      try dsimp only at i1
      rcases h2 : rcC f orig sb2 s1 with ⟨sb2', s2⟩
      try dsimp only
      have i2 := rcC_mono f orig sb2 s1 y
      rw [h2] at i2
      try dsimp only at i2
      by_cases hcc : (!top && !hv && !hb && !hf) = true
      · rw [if_pos hcc]
        rcases h3 : rcC f orig nx { s2 with uses := bumpO (checkAll i d c s2.uses) abv 1, scopesp := s2.scopesp ++ [i] } with ⟨nx', s3⟩
        try dsimp only
        have hloc : s2.uses y ≤ ({ s2 with uses := bumpO (checkAll i d c s2.uses) abv 1, scopesp := s2.scopesp ++ [i] } : St).uses y := le_trans (checkAll_ge i d c s2.uses y) (bumpO_ge (checkAll i d c s2.uses) abv y)
        have ihp := rcC_chainPin f orig y nx { s2 with uses := bumpO (checkAll i d c s2.uses) abv 1, scopesp := s2.scopesp ++ [i] } hpp
        rw [h3] at ihp
        try dsimp only at ihp
        try dsimp only at *
        omega
      · rw [if_neg hcc]
        rcases h3 : rcC f orig nx { s2 with uses := bumpO (checkAll i d c s2.uses) abv 1 } with ⟨nx', s3⟩
        try dsimp only
        have hloc : s2.uses y ≤ ({ s2 with uses := bumpO (checkAll i d c s2.uses) abv 1 } : St).uses y := le_trans (checkAll_ge i d c s2.uses y) (bumpO_ge (checkAll i d c s2.uses) abv y)
        have ihp := rcC_chainPin f orig y nx { s2 with uses := bumpO (checkAll i d c s2.uses) abv 1 } hpp
        rw [h3] at ihp
        try dsimp only at ihp
        try dsimp only at *
        omega

    | varScope scp vvar =>
      simp only [chainPin, Bool.and_false, Bool.false_and, Bool.and_true, Bool.true_and, Bool.false_or] at hpp
      simp only [rcC]
      rcases h1 : rcC f orig sb s with ⟨sb1, s1⟩
      try dsimp only
      have i1 := rcC_mono f orig sb s y
      rw [h1] at i1
      try dsimp only at i1
      rcases h2 : rcC f orig sb2 s1 with ⟨sb2', s2⟩
      try dsimp only
      have i2 := rcC_mono f orig sb2 s1 y
      rw [h2] at i2
      try dsimp only at i2
      by_cases hcc : mightElimVarAt f orig vvar = true
      · rw [if_pos hcc]
        rcases h3 : rcC f orig nx { s2 with uses := bumpO (checkAll i d c s2.uses) scp 1, vscsp := s2.vscsp ++ [i] } with ⟨nx', s3⟩
        try dsimp only
        have hloc : s2.uses y ≤ ({ s2 with uses := bumpO (checkAll i d c s2.uses) scp 1, vscsp := s2.vscsp ++ [i] } : St).uses y := le_trans (checkAll_ge i d c s2.uses y) (bumpO_ge (checkAll i d c s2.uses) scp y)
        have ihp := rcC_chainPin f orig y nx { s2 with uses := bumpO (checkAll i d c s2.uses) scp 1, vscsp := s2.vscsp ++ [i] } hpp
        rw [h3] at ihp
        try dsimp only at ihp
        try dsimp only at *
        omega
      · rw [if_neg hcc]
        rcases h3 : rcC f orig nx { s2 with uses := bumpO (checkAll i d c s2.uses) scp 1 } with ⟨nx', s3⟩
        try dsimp only
        have hloc : s2.uses y ≤ ({ s2 with uses := bumpO (checkAll i d c s2.uses) scp 1 } : St).uses y := le_trans (checkAll_ge i d c s2.uses y) (bumpO_ge (checkAll i d c s2.uses) scp y)
        have ihp := rcC_chainPin f orig y nx { s2 with uses := bumpO (checkAll i d c s2.uses) scp 1 } hpp
        rw [h3] at ihp
        try dsimp only at ihp
        try dsimp only at *
        omega

    | var sp io tm pa tr =>
      simp only [chainPin, Bool.and_false, Bool.false_and, Bool.and_true, Bool.true_and, Bool.false_or] at hpp
      simp only [rcC]
      rcases h1 : rcC f orig sb s with ⟨sb1, s1⟩
      try dsimp only
      have i1 := rcC_mono f orig sb s y
      rw [h1] at i1
      try dsimp only at i1
      rcases h2 : rcC f orig sb2 s1 with ⟨sb2', s2⟩
      try dsimp only
      have i2 := rcC_mono f orig sb2 s1 y
      rw [h2] at i2
      try dsimp only at i2
      by_cases hcc : mightElimVar f sp io tm pa tr = true
      · rw [if_pos hcc]
        rcases h3 : rcC f orig nx { s2 with uses := pinUses sp s2.modp (checkAll i d c s2.uses), varsp := s2.varsp ++ [i] } with ⟨nx', s3⟩
        try dsimp only
        have hloc : s2.uses y ≤ ({ s2 with uses := pinUses sp s2.modp (checkAll i d c s2.uses), varsp := s2.varsp ++ [i] } : St).uses y := le_trans (checkAll_ge i d c s2.uses y) (pinUses_ge sp s2.modp (checkAll i d c s2.uses) y)
        have ihp := rcC_chainPin f orig y nx { s2 with uses := pinUses sp s2.modp (checkAll i d c s2.uses), varsp := s2.varsp ++ [i] } hpp
        rw [h3] at ihp
        try dsimp only at ihp
        try dsimp only at *
        omega
      · rw [if_neg hcc]
        rcases h3 : rcC f orig nx { s2 with uses := pinUses sp s2.modp (checkAll i d c s2.uses) } with ⟨nx', s3⟩
        try dsimp only
        have hloc : s2.uses y ≤ ({ s2 with uses := pinUses sp s2.modp (checkAll i d c s2.uses) } : St).uses y := le_trans (checkAll_ge i d c s2.uses y) (pinUses_ge sp s2.modp (checkAll i d c s2.uses) y)
        have ihp := rcC_chainPin f orig y nx { s2 with uses := pinUses sp s2.modp (checkAll i d c s2.uses) } hpp
        rw [h3] at ihp
        try dsimp only at ihp
        try dsimp only at *
        omega

    | varRef vp vsp pp =>
      simp only [chainPin, Bool.and_false, Bool.false_and, Bool.and_true, Bool.true_and, Bool.false_or] at hpp
      simp only [rcC]
      rcases h1 : rcC f orig sb s with ⟨sb1, s1⟩
      try dsimp only
      have i1 := rcC_mono f orig sb s y
      rw [h1] at i1
      try dsimp only at i1
      rcases h2 : rcC f orig sb2 s1 with ⟨sb2', s2⟩
      try dsimp only
      have i2 := rcC_mono f orig sb2 s1 y
      rw [h2] at i2
      try dsimp only at i2
      rcases hp : pkgHandle f pp { s2 with uses := bumpO (vsUses orig vsp (checkAll i d c s2.uses)) vp 1 } with ⟨pp', s3⟩
      try dsimp only
      have hpg : ({ s2 with uses := bumpO (vsUses orig vsp (checkAll i d c s2.uses)) vp 1 } : St).uses y ≤ s3.uses y := by
        have := pkgHandle_ge f pp { s2 with uses := bumpO (vsUses orig vsp (checkAll i d c s2.uses)) vp 1 } y
        rw [hp] at this
        exact this
      have hloc : s2.uses y ≤ ({ s2 with uses := bumpO (vsUses orig vsp (checkAll i d c s2.uses)) vp 1 } : St).uses y := le_trans (le_trans (checkAll_ge i d c s2.uses y) (vsUses_ge orig vsp (checkAll i d c s2.uses) y)) (bumpO_ge (vsUses orig vsp (checkAll i d c s2.uses)) vp y)
      rcases h3 : rcC f orig nx s3 with ⟨nx', s4⟩
      try dsimp only
      have ihp := rcC_chainPin f orig y nx s3 hpp
      rw [h3] at ihp
      try dsimp only at ihp
      try dsimp only at *
      omega

    | ftaskRef pp =>
      simp only [chainPin, Bool.and_false, Bool.false_and, Bool.and_true, Bool.true_and, Bool.false_or] at hpp
      simp only [rcC]
      rcases h1 : rcC f orig sb s with ⟨sb1, s1⟩
      try dsimp only
      have i1 := rcC_mono f orig sb s y
      rw [h1] at i1
      try dsimp only at i1
      rcases h2 : rcC f orig sb2 s1 with ⟨sb2', s2⟩
      try dsimp only
      have i2 := rcC_mono f orig sb2 s1 y
      rw [h2] at i2
      try dsimp only at i2
      rcases hp : pkgHandle f pp { s2 with uses := checkAll i d c s2.uses } with ⟨pp', s3⟩
      try dsimp only
      have hpg : ({ s2 with uses := checkAll i d c s2.uses } : St).uses y ≤ s3.uses y := by
        have := pkgHandle_ge f pp { s2 with uses := checkAll i d c s2.uses } y
        rw [hp] at this
        exact this
      have hloc : s2.uses y ≤ ({ s2 with uses := checkAll i d c s2.uses } : St).uses y := checkAll_ge i d c s2.uses y
      rcases h3 : rcC f orig nx s3 with ⟨nx', s4⟩
      try dsimp only
      have ihp := rcC_chainPin f orig y nx s3 hpp
      rw [h3] at ihp
      try dsimp only at ihp
      try dsimp only at *
      omega

    | refDType g vr pp =>
      simp only [chainPin, Bool.and_false, Bool.false_and, Bool.and_true, Bool.true_and, Bool.false_or] at hpp
      simp only [rcC]
      rcases h1 : rcC f orig sb s with ⟨sb1, s1⟩
      try dsimp only
      have i1 := rcC_mono f orig sb s y
      rw [h1] at i1
      try dsimp only at i1
      rcases h2 : rcC f orig sb2 s1 with ⟨sb2', s2⟩
      try dsimp only
      have i2 := rcC_mono f orig sb2 s1 y
      rw [h2] at i2
      try dsimp only at i2
      rcases hp : pkgHandle f pp { checkDType f i g false vr s2 with uses := checkAll i d c (checkDType f i g false vr s2).uses } with ⟨pp', s3⟩
      try dsimp only
      have hpg : ({ checkDType f i g false vr s2 with uses := checkAll i d c (checkDType f i g false vr s2).uses } : St).uses y ≤ s3.uses y := by
        have := pkgHandle_ge f pp { checkDType f i g false vr s2 with uses := checkAll i d c (checkDType f i g false vr s2).uses } y
        rw [hp] at this
        exact this
      have hloc : s2.uses y ≤ ({ checkDType f i g false vr s2 with uses := checkAll i d c (checkDType f i g false vr s2).uses } : St).uses y := le_trans (checkDType_ge f i g false vr s2 y) (checkAll_ge i d c (checkDType f i g false vr s2).uses y)
      rcases h3 : rcC f orig nx s3 with ⟨nx', s4⟩
      try dsimp only
      have ihp := rcC_chainPin f orig y nx s3 hpp
      rw [h3] at ihp
      try dsimp only at ihp
      try dsimp only at *
      omega

    | enumItemRef pp =>
      simp only [chainPin, Bool.and_false, Bool.false_and, Bool.and_true, Bool.true_and, Bool.false_or] at hpp
      simp only [rcC]
      rcases h1 : rcC f orig sb s with ⟨sb1, s1⟩
      try dsimp only
      have i1 := rcC_mono f orig sb s y
      rw [h1] at i1
      try dsimp only at i1
      rcases h2 : rcC f orig sb2 s1 with ⟨sb2', s2⟩
      try dsimp only
      have i2 := rcC_mono f orig sb2 s1 y
      rw [h2] at i2
      try dsimp only at i2
      rcases hp : pkgHandle f pp { s2 with uses := checkAll i d c s2.uses } with ⟨pp', s3⟩
      try dsimp only
      have hpg : ({ s2 with uses := checkAll i d c s2.uses } : St).uses y ≤ s3.uses y := by
        have := pkgHandle_ge f pp { s2 with uses := checkAll i d c s2.uses } y
        rw [hp] at this
        exact this
      have hloc : s2.uses y ≤ ({ s2 with uses := checkAll i d c s2.uses } : St).uses y := checkAll_ge i d c s2.uses y
      rcases h3 : rcC f orig nx { s3 with uses := checkAll i d c s3.uses } with ⟨nx', s4⟩
      try dsimp only
      have hca : s3.uses y ≤ ({ s3 with uses := checkAll i d c s3.uses } : St).uses y := checkAll_ge i d c s3.uses y
      have ihp := rcC_chainPin f orig y nx { s3 with uses := checkAll i d c s3.uses } hpp
      rw [h3] at ihp
      try dsimp only at ihp
      try dsimp only at *
      omega

    | modport hv =>
      simp only [chainPin, Bool.and_false, Bool.false_and, Bool.and_true, Bool.true_and, Bool.false_or] at hpp
      simp only [rcC]
      rcases h1 : rcC f orig sb s with ⟨sb1, s1⟩
      try dsimp only
      have i1 := rcC_mono f orig sb s y
      rw [h1] at i1
      try dsimp only at i1
      rcases h2 : rcC f orig sb2 s1 with ⟨sb2', s2⟩
      try dsimp only
      have i2 := rcC_mono f orig sb2 s1 y
      rw [h2] at i2
      try dsimp only at i2
      by_cases hcc : (f.elimCells && !hv) = true
      · rw [if_pos hcc]
        rcases h3 : rcC f orig nx (logDel (Tree.node i (Kind.modport hv) d c sb1 sb2' nx) s2) with ⟨nx', s3⟩
        try dsimp only
        have ihp := rcC_chainPin f orig y nx (logDel (Tree.node i (Kind.modport hv) d c sb1 sb2' nx) s2) hpp
        rw [h3] at ihp
        try dsimp only at ihp
        have heq : (logDel (Tree.node i (Kind.modport hv) d c sb1 sb2' nx) s2).uses y = s2.uses y := rfl
        try dsimp only at *
        omega
      · rw [if_neg hcc]
        rcases h3 : rcC f orig nx { s2 with uses := checkAll i d c s2.uses } with ⟨nx', s3⟩
        try dsimp only
        have hloc : s2.uses y ≤ ({ s2 with uses := checkAll i d c s2.uses } : St).uses y := checkAll_ge i d c s2.uses y
        have ihp := rcC_chainPin f orig y nx { s2 with uses := checkAll i d c s2.uses } hpp
        rw [h3] at ihp
        try dsimp only at ihp
        try dsimp only at *
        omega

    | typedefD pub =>
      simp only [chainPin, Bool.and_false, Bool.false_and, Bool.and_true, Bool.true_and, Bool.false_or] at hpp
      simp only [rcC]
      rcases h1 : rcC f orig sb s with ⟨sb1, s1⟩
      try dsimp only
      have i1 := rcC_mono f orig sb s y
      rw [h1] at i1
      try dsimp only at i1
      rcases h2 : rcC f orig sb2 s1 with ⟨sb2', s2⟩
      try dsimp only
      have i2 := rcC_mono f orig sb2 s1 y
      rw [h2] at i2
      try dsimp only at i2
      by_cases hcc : (f.elimCells && !pub) = true
      · rw [if_pos hcc]
        rcases h3 : rcC f orig nx (logDel (Tree.node i (Kind.typedefD pub) d c sb1 sb2' nx) s2) with ⟨nx', s3⟩
        try dsimp only
        have ihp := rcC_chainPin f orig y nx (logDel (Tree.node i (Kind.typedefD pub) d c sb1 sb2' nx) s2) hpp
        rw [h3] at ihp
        try dsimp only at ihp
        have heq : (logDel (Tree.node i (Kind.typedefD pub) d c sb1 sb2' nx) s2).uses y = s2.uses y := rfl
        try dsimp only at *
        omega
      · rw [if_neg hcc]
        rcases h3 : rcC f orig nx { s2 with uses := pinUses pub s2.modp (checkAll i d c s2.uses) } with ⟨nx', s3⟩
        try dsimp only
        have hloc : s2.uses y ≤ ({ s2 with uses := pinUses pub s2.modp (checkAll i d c s2.uses) } : St).uses y := le_trans (checkAll_ge i d c s2.uses y) (pinUses_ge pub s2.modp (checkAll i d c s2.uses) y)
        have ihp := rcC_chainPin f orig y nx { s2 with uses := pinUses pub s2.modp (checkAll i d c s2.uses) } hpp
        rw [h3] at ihp
        try dsimp only at ihp
        try dsimp only at *
        omega

    | assign =>
      simp only [chainPin, Bool.and_false, Bool.false_and, Bool.and_true, Bool.true_and, Bool.false_or] at hpp
      simp only [rcC]
      rcases h1 : rcC f orig sb { s with sideEffect := false } with ⟨sb1, s1⟩
      try dsimp only
      have i1 := rcC_mono f orig sb { s with sideEffect := false } y
      rw [h1] at i1
      try dsimp only at i1
      rcases hL : lhsRec sb2 with _ | ⟨li, lvs, ld, lc⟩
      · try dsimp only
        rcases h2 : rcC f orig sb2 { s1 with uses := checkAll i d c s1.uses } with ⟨sb2', s2⟩
        try dsimp only
        have i2 := rcC_mono f orig sb2 { s1 with uses := checkAll i d c s1.uses } y
        rw [h2] at i2
        try dsimp only at i2
        rcases h3 : rcC f orig nx { s2 with uses := checkAll i d c s2.uses } with ⟨nx', s3⟩
        try dsimp only
        have hca1 : s1.uses y ≤ checkAll i d c s1.uses y := checkAll_ge i d c s1.uses y
        have hca2 : s2.uses y ≤ checkAll i d c s2.uses y := checkAll_ge i d c s2.uses y
        have ihp := rcC_chainPin f orig y nx { s2 with uses := checkAll i d c s2.uses } hpp
        rw [h3] at ihp
        try dsimp only at ihp
        try dsimp only at *
        omega
      · try dsimp only
        by_cases hse : (!s1.sideEffect) = true
        · rw [if_pos hse]
          rcases h3 : rcC f orig nx { s1 with uses := checkAll i d c (checkAll li ld lc (checkAll i d c s1.uses)), assignMap := s1.assignMap ++ [(lvs, i)] } with ⟨nx', s3⟩
          try dsimp only
          have hca : s1.uses y ≤ checkAll i d c (checkAll li ld lc (checkAll i d c s1.uses)) y :=
            le_trans (checkAll_ge i d c s1.uses y)
              (le_trans (checkAll_ge li ld lc (checkAll i d c s1.uses) y)
                (checkAll_ge i d c (checkAll li ld lc (checkAll i d c s1.uses)) y))
          have ihp := rcC_chainPin f orig y nx { s1 with uses := checkAll i d c (checkAll li ld lc (checkAll i d c s1.uses)), assignMap := s1.assignMap ++ [(lvs, i)] } hpp
          rw [h3] at ihp
          try dsimp only at ihp
          try dsimp only at *
          omega
        · rw [if_neg hse]
          rcases h2 : rcC f orig sb2 { s1 with uses := checkAll i d c s1.uses } with ⟨sb2', s2⟩
          try dsimp only
          have i2 := rcC_mono f orig sb2 { s1 with uses := checkAll i d c s1.uses } y
          rw [h2] at i2
          try dsimp only at i2
          rcases h3 : rcC f orig nx { s2 with uses := checkAll i d c s2.uses } with ⟨nx', s3⟩
          try dsimp only
          have hca1 : s1.uses y ≤ checkAll i d c s1.uses y := checkAll_ge i d c s1.uses y
          have hca2 : s2.uses y ≤ checkAll i d c s2.uses y := checkAll_ge i d c s2.uses y
          have ihp := rcC_chainPin f orig y nx { s2 with uses := checkAll i d c s2.uses } hpp
          rw [h3] at ihp
          try dsimp only at ihp
          try dsimp only at *
          omega
    | other outp mth =>
      simp only [chainPin, Bool.and_false, Bool.false_and, Bool.and_true, Bool.true_and, Bool.false_or] at hpp
      simp only [rcC]
      by_cases ho : outp = true
      · rw [if_pos ho]
        rcases h1 : rcC f orig sb { s with sideEffect := true } with ⟨sb1, s1⟩
        try dsimp only
        have i1 := rcC_mono f orig sb { s with sideEffect := true } y
        rw [h1] at i1
        try dsimp only at i1
        rcases h2 : rcC f orig sb2 s1 with ⟨sb2', s2⟩
        try dsimp only
        have i2 := rcC_mono f orig sb2 s1 y
        rw [h2] at i2
        try dsimp only at i2
        rcases h3 : rcC f orig nx { s2 with uses := checkAll i d c s2.uses } with ⟨nx', s3⟩
        try dsimp only
        have hloc : s2.uses y ≤ checkAll i d c s2.uses y := checkAll_ge i d c s2.uses y
        have ihp := rcC_chainPin f orig y nx { s2 with uses := checkAll i d c s2.uses } hpp
        rw [h3] at ihp
        try dsimp only at ihp
        try dsimp only at *
        omega
      · rw [if_neg ho]
        rcases h1 : rcC f orig sb s with ⟨sb1, s1⟩
        try dsimp only
        have i1 := rcC_mono f orig sb s y
        rw [h1] at i1
        try dsimp only at i1
        rcases h2 : rcC f orig sb2 s1 with ⟨sb2', s2⟩
        try dsimp only
        have i2 := rcC_mono f orig sb2 s1 y
        rw [h2] at i2
        try dsimp only at i2
        rcases h3 : rcC f orig nx { s2 with uses := checkAll i d c s2.uses } with ⟨nx', s3⟩
        try dsimp only
        have hloc : s2.uses y ≤ checkAll i d c s2.uses y := checkAll_ge i d c s2.uses y
        have ihp := rcC_chainPin f orig y nx { s2 with uses := checkAll i d c s2.uses } hpp
        rw [h3] at ihp
        try dsimp only at ihp
        try dsimp only at *
        omega
    | module lvl intl pkg =>
      simp only [chainPin, Bool.or_eq_true, Bool.and_eq_true, decide_eq_true_eq] at hpp
      simp only [rcC]
      rcases h1 : rcC f orig sb { s with modp := some (i, pkg) } with ⟨sb1, s1⟩
      try dsimp only
      rcases h2 : rcC f orig sb2 s1 with ⟨sb2', s2⟩
      try dsimp only
      rcases h3 : rcC f orig nx { s2 with uses := checkAll i d c s2.uses, modp := none } with ⟨nx', s3⟩
      try dsimp only
      have hloc : s2.uses y ≤ checkAll i d c s2.uses y := checkAll_ge i d c s2.uses y
      have im3 : ({ s2 with uses := checkAll i d c s2.uses, modp := none } : St).uses y ≤ s3.uses y := by
        have := rcC_mono f orig nx { s2 with uses := checkAll i d c s2.uses, modp := none } y
        rw [h3] at this
        exact this
      rcases hpp with hhead | htail
      · obtain ⟨⟨⟨⟨hiy, hpkg⟩, hmfsb⟩, hmfsb2⟩, hpin⟩ := hhead
        have hmodp : ({ s with modp := some (i, pkg) } : St).modp = some (y, true) := by
          show some (i, pkg) = some (y, true)
          rw [hiy, hpkg]
        rcases hpin with hps | hps
        · have ihp := rcC_pin f orig y sb { s with modp := some (i, pkg) } hmodp hmfsb hps
          rw [h1] at ihp
          try dsimp only at ihp
          have i2 := rcC_mono f orig sb2 s1 y
          rw [h2] at i2
          try dsimp only at i2
          try dsimp only at *
          omega
        · have i1 := rcC_mono f orig sb { s with modp := some (i, pkg) } y
          rw [h1] at i1
          try dsimp only at i1
          have hm1 : s1.modp = some (y, true) := by
            have := rcC_modp_pres f orig sb { s with modp := some (i, pkg) } hmfsb
            rw [h1] at this
            rw [this]
            exact hmodp
          have ihp := rcC_pin f orig y sb2 s1 hm1 hmfsb2 hps
          rw [h2] at ihp
          try dsimp only at ihp
          try dsimp only at *
          omega
      · have i1 := rcC_mono f orig sb { s with modp := some (i, pkg) } y
        rw [h1] at i1
        try dsimp only at i1
        have i2 := rcC_mono f orig sb2 s1 y
        rw [h2] at i2
        try dsimp only at i2
        have ihp := rcC_chainPin f orig y nx { s2 with uses := checkAll i d c s2.uses, modp := none } htail
        rw [h3] at ihp
        try dsimp only at ihp
        try dsimp only at *
        omega

/-- The whole traversal: a package pinned by a public var or typedef
ends the reference count with a strictly positive counter. -/
theorem rcRun_pkgPin (f : Flags) (t : Tree) (y : Nat) (h : pkgPin y t = true) :
    1 ≤ (rcRun f t).2.uses y := by
  unfold pkgPin at h
  rcases t with _ | ⟨i, k, d, c, ch, s2t, nxt⟩
  · simp at h
  · cases k with
    | netlist =>
      unfold rcRun
      simp only [rcC]
      rcases h1 : rcC f (Tree.node i Kind.netlist d c ch s2t nxt) ch initSt with ⟨ch', s1⟩
      try dsimp only
      have ihp := rcC_chainPin f (Tree.node i Kind.netlist d c ch s2t nxt) y ch initSt h
      rw [h1] at ihp
      try dsimp only at ihp
      rcases h2 : rcC f (Tree.node i Kind.netlist d c ch s2t nxt) s2t s1 with ⟨s2t', s2⟩
      try dsimp only
      have i2 := rcC_mono f (Tree.node i Kind.netlist d c ch s2t nxt) s2t s1 y
      rw [h2] at i2
      try dsimp only at i2
      rcases h3 : rcC f (Tree.node i Kind.netlist d c ch s2t nxt) nxt { s2 with uses := checkAll i d c s2.uses } with ⟨nxt'2, s3⟩
      try dsimp only
      have hloc : s2.uses y ≤ checkAll i d c s2.uses y := checkAll_ge i d c s2.uses y
      have i3 := rcC_mono f (Tree.node i Kind.netlist d c ch s2t nxt) nxt { s2 with uses := checkAll i d c s2.uses } y
      rw [h3] at i3
      try dsimp only at i3
      have hz : initSt.uses y = 0 := rfl
      try dsimp only at *
      omega
    | module a b e => simp at h
    | cell a => simp at h
    | scope a b e g q => simp at h
    | varScope a b => simp at h
    | var a b e g q => simp at h
    | dtype a b e g => simp at h
    | refDType a b e => simp at h
    | enumItemRef a => simp at h
    | varRef a b e => simp at h
    | ftaskRef a => simp at h
    | typedefD a => simp at h
    | modport a => simp at h
    | cfunc a => simp at h
    | assign => simp at h
    | other a b => simp at h

end V3Dead

namespace V3Dead

/-- The decrement targets of the sweepers avoid `y`: no node's
`dtypep()` is `y`, no scope's `aboveScopep()` is `y`, no varscope's
`scopep()` is `y`, and no cell instantiates `y`.  (For a package
module all of these hold in a well-typed netlist: those pointers
never point at a module.) -/
def avoidsSweep (y : Nat) : Nat × Kind × Option Nat × Option Nat → Bool
  | (_, k, d, _) =>
    decide (d ≠ some y) &&
    (match k with
     | .scope abv _ _ _ _ => decide (abv ≠ some y)
     | .varScope scp _ => decide (scp ≠ some y)
     | .cell mt => decide (mt ≠ y)
     | _ => true)

theorem delAssign_presU (t : Tree) (s : St) (aid y : Nat)
    (hav : ∀ x ∈ sFacts t, avoidsSweep y x = true) :
    (delAssign t s aid).2.uses y = s.uses y := by
  unfold delAssign
  cases hl : t.lookup aid with
  | none => rfl
  | some a =>
    have hf := sfacts_lookup t aid a hl
    have := hav _ hf
    simp only [avoidsSweep, Bool.and_eq_true, decide_eq_true_eq] at this
    simp only [logDel]
    exact bumpO_other s.uses a.dtypep (-1) y (ne_some_imp this.1)

theorem delAssigns_presU (aids : List Nat) (t : Tree) (s : St) (y : Nat)
    (hav : ∀ x ∈ sFacts t, avoidsSweep y x = true) :
    (aids.foldl (fun ts aid => delAssign ts.1 ts.2 aid) (t, s)).2.uses y = s.uses y := by
  induction aids generalizing t s with
  | nil => rfl
  | cons aid rest ih =>
    simp only [List.foldl_cons]
    rcases hd : delAssign t s aid with ⟨t1, s1⟩
    have hsf : ∀ x ∈ sFacts t1, avoidsSweep y x = true := by
      intro x hx
      have := delAssign_sfacts t s aid
      rw [hd] at this
      exact hav x (this x hx)
    have h1 := delAssign_presU t s aid y hav
    rw [hd] at h1
    rw [ih t1 s1 hsf, h1]

theorem delAssigns_sfacts2 (aids : List Nat) (t : Tree) (s : St) :
    FactsSub (aids.foldl (fun ts aid => delAssign ts.1 ts.2 aid) (t, s)).1 t := by
  induction aids generalizing t s with
  | nil => exact factsSub_refl t
  | cons aid rest ih =>
    simp only [List.foldl_cons]
    rcases hd : delAssign t s aid with ⟨t1, s1⟩
    have h1 : FactsSub t1 t := by
      have := delAssign_sfacts t s aid
      rw [hd] at this
      exact this
    exact factsSub_trans (ih t1 s1) h1

theorem vscDead_presU (t : Tree) (s : St) (v y : Nat)
    (hav : ∀ x ∈ sFacts t, avoidsSweep y x = true) :
    (vscDead t s v).2.uses y = s.uses y := by
  unfold vscDead
  dsimp only
  rcases hf : (((s.assignMap.filter (fun p => p.1 = v)).map (·.2)).foldl
      (fun ts aid => delAssign ts.1 ts.2 aid) (t, s)) with ⟨t1, s1⟩
  have hu1 : s1.uses y = s.uses y := by
    have := delAssigns_presU ((s.assignMap.filter (fun p => p.1 = v)).map (·.2)) t s y hav
    rw [hf] at this
    exact this
  have hsf : ∀ x ∈ sFacts t1, avoidsSweep y x = true := by
    intro x hx
    have := delAssigns_sfacts2 ((s.assignMap.filter (fun p => p.1 = v)).map (·.2)) t s
    rw [hf] at this
    exact hav x (this x hx)
  rw [hf]
  dsimp only
  cases hl : t1.lookup v with
  | none => exact hu1
  | some vn =>
    rcases vn with _ | ⟨vi, vk, vd, vc, vsb, vsb2, vnx⟩
    · exact hu1
    · cases vk with
      | varScope scp vvar =>
        have hfact := sfacts_lookup t1 v _ hl
        have hvv := hsf _ hfact
        simp only [Tree.id, Tree.kind, Tree.dtypep, Tree.childp, scrubK, avoidsSweep,
          Bool.and_eq_true, decide_eq_true_eq] at hvv
        show bumpO (bumpO s1.uses scp (-1)) vd (-1) y = s.uses y
        rw [bumpO_other (bumpO s1.uses scp (-1)) vd (-1) y (ne_some_imp hvv.1),
          bumpO_other s1.uses scp (-1) y (ne_some_imp hvv.2)]
        exact hu1
      | netlist => exact hu1
      | module a b e => exact hu1
      | cell a => exact hu1
      | scope a b e g q => exact hu1
      | var a b e g q => exact hu1
      | dtype a b e g => exact hu1
      | refDType a b e => exact hu1
      | enumItemRef a => exact hu1
      | varRef a b e => exact hu1
      | ftaskRef a => exact hu1
      | typedefD a => exact hu1
      | modport a => exact hu1
      | cfunc a => exact hu1
      | assign => exact hu1
      | other a b => exact hu1

theorem vscPhase_presU : (l : List Nat) → (t : Tree) → (s : St) → (y : Nat) →
    (∀ x ∈ sFacts t, avoidsSweep y x = true) →
    (vscPhase l t s).2.uses y = s.uses y
  | [], _, _, _, _ => rfl
  | v :: rest, t, s, y, hav => by
    by_cases h0 : s.uses v = 0
    · simp only [vscPhase, if_pos h0]
      rcases hd : vscDead t s v with ⟨t1, s1⟩
      have hu1 : s1.uses y = s.uses y := by
        have := vscDead_presU t s v y hav
        rw [hd] at this
        exact this
      have hsf : ∀ x ∈ sFacts t1, avoidsSweep y x = true := by
        intro x hx
        have := vscDead_sfacts t s v
        rw [hd] at this
        exact hav x (this x hx)
      rw [vscPhase_presU rest t1 s1 y hsf, hu1]
    · simp only [vscPhase, if_neg h0]
      exact vscPhase_presU rest t s y hav

theorem varPass_presU : (slots : List (Option Nat)) → (t : Tree) → (s : St) → (y : Nat) →
    (∀ x ∈ sFacts t, avoidsSweep y x = true) →
    (varPass slots t s).2.2.1.uses y = s.uses y
  | [], _, _, _, _ => rfl
  | none :: rest, t, s, y, hav => by
    simp only [varPass]
    rcases hr : varPass rest t s with ⟨rest', t', s', r⟩
    have := varPass_presU rest t s y hav
    rw [hr] at this
    exact this
  | some v :: rest, t, s, y, hav => by
    by_cases h0 : s.uses v = 0
    · simp only [varPass, if_pos h0]
      cases hl : t.lookup v with
      | none =>
        try dsimp only
        rcases hr : varPass rest t s with ⟨rest', t', s', r⟩
        have := varPass_presU rest t s y hav
        rw [hr] at this
        exact this
      | some vn =>
        try dsimp only
        have hfact := sfacts_lookup t v vn hl
        have hvv := hav _ hfact
        simp only [avoidsSweep, Bool.and_eq_true, decide_eq_true_eq] at hvv
        rcases hr : varPass rest (t.removeSub v)
            (logDel vn { s with uses := bumpO s.uses vn.dtypep (-1) }) with ⟨rest', t', s', r⟩
        have hsf : ∀ x ∈ sFacts (t.removeSub v), avoidsSweep y x = true :=
          fun x hx => hav x (sfacts_removeSub t v x hx)
        have := varPass_presU rest (t.removeSub v)
            (logDel vn { s with uses := bumpO s.uses vn.dtypep (-1) }) y hsf
        rw [hr] at this
        rw [this]
        show bumpO s.uses vn.dtypep (-1) y = s.uses y
        exact bumpO_other s.uses vn.dtypep (-1) y (ne_some_imp hvv.1)
    · simp only [varPass, if_neg h0]
      rcases hr : varPass rest t s with ⟨rest', t', s', r⟩
      have := varPass_presU rest t s y hav
      rw [hr] at this
      exact this

theorem varLoop_presU : (fuel : Nat) → (slots : List (Option Nat)) → (t : Tree) → (s : St) →
    (y : Nat) → (∀ x ∈ sFacts t, avoidsSweep y x = true) →
    (varLoop fuel slots t s).2.2.1.uses y = s.uses y
  | 0, _, _, _, _, _ => rfl
  | fuel + 1, slots, t, s, y, hav => by
    simp only [varLoop]
    rcases hp : varPass slots t s with ⟨slots', t', s', retry⟩
    have hu := varPass_presU slots t s y hav
    rw [hp] at hu
    have hsf : ∀ x ∈ sFacts t', avoidsSweep y x = true := by
      intro x hx
      have := varPass_sfacts slots t s
      rw [hp] at this
      exact hav x (this x hx)
    by_cases hre : retry = true
    · rw [if_pos hre]
      rw [varLoop_presU fuel slots' t' s' y hsf, hu]
    · rw [if_neg hre]
      exact hu

end V3Dead

namespace V3Dead

theorem scopePass_presU : (slots : List (Option Nat)) → (t : Tree) → (s : St) → (y : Nat) →
    (∀ x ∈ sFacts t, avoidsSweep y x = true) →
    (scopePass slots t s).2.2.1.uses y = s.uses y
  | [], _, _, _, _ => rfl
  | none :: rest, t, s, y, hav => by
    simp only [scopePass]
    rcases hr : scopePass rest t s with ⟨rest', t', s', r⟩
    have := scopePass_presU rest t s y hav
    rw [hr] at this
    exact this
  | some v :: rest, t, s, y, hav => by
    by_cases h0 : s.uses v = 0
    · simp only [scopePass, if_pos h0]
      cases hl : t.lookup v with
      | none =>
        try dsimp only
        rcases hr : scopePass rest t s with ⟨rest', t', s', r⟩
        have := scopePass_presU rest t s y hav
        rw [hr] at this
        exact this
      | some sn =>
        rcases sn with _ | ⟨si, sk, sd, sc, ssb, ssb2, snx⟩
        · try dsimp only
          rcases hr : scopePass rest t s with ⟨rest', t', s', r⟩
          have := scopePass_presU rest t s y hav
          rw [hr] at this
          exact this
        · cases sk with
          | scope abv tp hv hb hf =>
            try dsimp only [Tree.kind, Tree.dtypep]
            have hfact := sfacts_lookup t v _ hl
            have hvv := hav _ hfact
            simp only [Tree.id, Tree.kind, Tree.dtypep, Tree.childp, scrubK, avoidsSweep,
              Bool.and_eq_true, decide_eq_true_eq] at hvv
            rcases hr : scopePass rest (t.removeSub v) (logDel (Tree.node si (Kind.scope abv tp hv hb hf) sd sc ssb ssb2 snx) { s with uses := bumpO (bumpO s.uses abv (-1)) sd (-1) }) with ⟨rest', t', s', r⟩
            have hsf : ∀ x ∈ sFacts (t.removeSub v), avoidsSweep y x = true :=
              fun x hx => hav x (sfacts_removeSub t v x hx)
            have := scopePass_presU rest (t.removeSub v)
                (logDel (Tree.node si (Kind.scope abv tp hv hb hf) sd sc ssb ssb2 snx)
                  { s with uses := bumpO (bumpO s.uses abv (-1)) sd (-1) }) y hsf
            rw [hr] at this
            rw [this]
            show bumpO (bumpO s.uses abv (-1)) sd (-1) y = s.uses y
            rw [bumpO_other (bumpO s.uses abv (-1)) sd (-1) y (ne_some_imp hvv.1),
              bumpO_other s.uses abv (-1) y (ne_some_imp hvv.2)]
          | netlist =>
            try dsimp only [Tree.kind]
            rcases hr : scopePass rest t s with ⟨rest', t', s', r⟩
            have := scopePass_presU rest t s y hav
            rw [hr] at this
            exact this
          | module a b e =>
            try dsimp only [Tree.kind]
            rcases hr : scopePass rest t s with ⟨rest', t', s', r⟩
            have := scopePass_presU rest t s y hav
            rw [hr] at this
            exact this
          | cell a =>
            try dsimp only [Tree.kind]
            rcases hr : scopePass rest t s with ⟨rest', t', s', r⟩
            have := scopePass_presU rest t s y hav
            rw [hr] at this
            exact this
          | varScope a b =>
            try dsimp only [Tree.kind]
            rcases hr : scopePass rest t s with ⟨rest', t', s', r⟩
            have := scopePass_presU rest t s y hav
            rw [hr] at this
            exact this
          | var a b e g q =>
            try dsimp only [Tree.kind]
            rcases hr : scopePass rest t s with ⟨rest', t', s', r⟩
            have := scopePass_presU rest t s y hav
            rw [hr] at this
            exact this
          | dtype a b e g =>
            try dsimp only [Tree.kind]
            rcases hr : scopePass rest t s with ⟨rest', t', s', r⟩
            have := scopePass_presU rest t s y hav
            rw [hr] at this
            exact this
          | refDType a b e =>
            try dsimp only [Tree.kind]
            rcases hr : scopePass rest t s with ⟨rest', t', s', r⟩
            have := scopePass_presU rest t s y hav
            rw [hr] at this
            exact this
          | enumItemRef a =>
            try dsimp only [Tree.kind]
            rcases hr : scopePass rest t s with ⟨rest', t', s', r⟩
            have := scopePass_presU rest t s y hav
            rw [hr] at this
            exact this
          | varRef a b e =>
            try dsimp only [Tree.kind]
            rcases hr : scopePass rest t s with ⟨rest', t', s', r⟩
            have := scopePass_presU rest t s y hav
            rw [hr] at this
            exact this
          | ftaskRef a =>
            try dsimp only [Tree.kind]
            rcases hr : scopePass rest t s with ⟨rest', t', s', r⟩
            have := scopePass_presU rest t s y hav
            rw [hr] at this
            exact this
          | typedefD a =>
            try dsimp only [Tree.kind]
            rcases hr : scopePass rest t s with ⟨rest', t', s', r⟩
            have := scopePass_presU rest t s y hav
            rw [hr] at this
            exact this
          | modport a =>
            try dsimp only [Tree.kind]
            rcases hr : scopePass rest t s with ⟨rest', t', s', r⟩
            have := scopePass_presU rest t s y hav
            rw [hr] at this
            exact this
          | cfunc a =>
            try dsimp only [Tree.kind]
            rcases hr : scopePass rest t s with ⟨rest', t', s', r⟩
            have := scopePass_presU rest t s y hav
            rw [hr] at this
            exact this
          | assign =>
            try dsimp only [Tree.kind]
            rcases hr : scopePass rest t s with ⟨rest', t', s', r⟩
            have := scopePass_presU rest t s y hav
            rw [hr] at this
            exact this
          | other a b =>
            try dsimp only [Tree.kind]
            rcases hr : scopePass rest t s with ⟨rest', t', s', r⟩
            have := scopePass_presU rest t s y hav
            rw [hr] at this
            exact this
    · simp only [scopePass, if_neg h0]
      rcases hr : scopePass rest t s with ⟨rest', t', s', r⟩
      have := scopePass_presU rest t s y hav
      rw [hr] at this
      exact this

theorem scopeLoop_presU : (fuel : Nat) → (slots : List (Option Nat)) → (t : Tree) → (s : St) →
    (y : Nat) → (∀ x ∈ sFacts t, avoidsSweep y x = true) →
    (scopeLoop fuel slots t s).2.2.1.uses y = s.uses y
  | 0, _, _, _, _, _ => rfl
  | fuel + 1, slots, t, s, y, hav => by
    simp only [scopeLoop]
    rcases hp : scopePass slots t s with ⟨slots', t', s', retry⟩
    have hu := scopePass_presU slots t s y hav
    rw [hp] at hu
    have hsf : ∀ x ∈ sFacts t', avoidsSweep y x = true := by
      intro x hx
      have := scopePass_sfacts slots t s
      rw [hp] at this
      exact hav x (this x hx)
    by_cases hre : retry = true
    · rw [if_pos hre]
      rw [scopeLoop_presU fuel slots' t' s' y hsf, hu]
    · rw [if_neg hre]
      exact hu

theorem cellPhase_presU : (l : List Nat) → (t : Tree) → (s : St) → (y : Nat) →
    (∀ x ∈ sFacts t, avoidsSweep y x = true) →
    (cellPhase l t s).2.uses y = s.uses y
  | [], _, _, _, _ => rfl
  | cId :: rest, t, s, y, hav => by
    simp only [cellPhase]
    cases hl : t.lookup cId with
    | none => exact cellPhase_presU rest t s y hav
    | some cn =>
      rcases cn with _ | ⟨ci, ck, cd, cc, csb, csb2, cnx⟩
      · exact cellPhase_presU rest t s y hav
      · cases ck with
        | cell mt =>
          simp only [Tree.kind]
          try dsimp only
          split
          · have hfact := sfacts_lookup t cId _ hl
            have hvv := hav _ hfact
            simp only [Tree.id, Tree.kind, Tree.dtypep, Tree.childp, scrubK, avoidsSweep,
              Bool.and_eq_true, decide_eq_true_eq] at hvv
            have hsf : ∀ x ∈ sFacts (t.removeSub cId), avoidsSweep y x = true :=
              fun x hx => hav x (sfacts_removeSub t cId x hx)
            rw [cellPhase_presU rest (t.removeSub cId)
              (logDel (Tree.node ci (Kind.cell mt) cd cc csb csb2 cnx)
                { s with uses := bump s.uses mt (-1) }) y hsf]
            show bump s.uses mt (-1) y = s.uses y
            exact bump_other s.uses mt (-1) y (Ne.symm hvv.2)
          · exact cellPhase_presU rest t s y hav
        | netlist => exact cellPhase_presU rest t s y hav
        | module a b e => exact cellPhase_presU rest t s y hav
        | scope a b e g q => exact cellPhase_presU rest t s y hav
        | varScope a b => exact cellPhase_presU rest t s y hav
        | var a b e g q => exact cellPhase_presU rest t s y hav
        | dtype a b e g => exact cellPhase_presU rest t s y hav
        | refDType a b e => exact cellPhase_presU rest t s y hav
        | enumItemRef a => exact cellPhase_presU rest t s y hav
        | varRef a b e => exact cellPhase_presU rest t s y hav
        | ftaskRef a => exact cellPhase_presU rest t s y hav
        | typedefD a => exact cellPhase_presU rest t s y hav
        | modport a => exact cellPhase_presU rest t s y hav
        | cfunc a => exact cellPhase_presU rest t s y hav
        | assign => exact cellPhase_presU rest t s y hav
        | other a b => exact cellPhase_presU rest t s y hav

/-- `DeadModVisitor` does not decrement `y` when no cell in the
visited list instantiates `y`. -/
theorem dmC_presU : (m : Tree) → (u : Nat → Int) → (y : Nat) →
    (∀ x ∈ sFacts m, avoidsSweep y x = true) →
    dmC m u y = u y
  | .nil, _, _, _ => rfl
  | .node i k d c sb sb2 nx, u, y, hav => by
    have hsb : ∀ x ∈ sFacts sb, avoidsSweep y x = true := by
      intro x hx
      refine hav x ?_
      rw [sfacts_node]
      simp only [List.mem_cons, List.mem_append]
      exact Or.inr (Or.inl (Or.inl hx))
    have hsb2 : ∀ x ∈ sFacts sb2, avoidsSweep y x = true := by
      intro x hx
      refine hav x ?_
      rw [sfacts_node]
      simp only [List.mem_cons, List.mem_append]
      exact Or.inr (Or.inl (Or.inr hx))
    have hnx : ∀ x ∈ sFacts nx, avoidsSweep y x = true := by
      intro x hx
      refine hav x ?_
      rw [sfacts_node]
      simp only [List.mem_cons, List.mem_append]
      exact Or.inr (Or.inr hx)
    cases k with
    | cell mt =>
      have hself : avoidsSweep y (i, scrubK (Kind.cell mt), d, c) = true := by
        refine hav _ ?_
        rw [sfacts_node]
        exact List.mem_cons_self _ _
      simp only [scrubK, avoidsSweep, Bool.and_eq_true, decide_eq_true_eq] at hself
      simp only [dmC]
      rw [dmC_presU nx _ y hnx]
      rw [bump_other _ mt (-1) y (Ne.symm hself.2)]
      rw [dmC_presU sb2 _ y hsb2, dmC_presU sb u y hsb]
    | varRef a b e => simp only [dmC]; exact dmC_presU nx u y hnx
    | enumItemRef a => simp only [dmC]; exact dmC_presU nx u y hnx
    | netlist =>
      simp only [dmC]
      rw [dmC_presU nx _ y hnx, dmC_presU sb2 _ y hsb2, dmC_presU sb u y hsb]
    | module a b e =>
      simp only [dmC]
      rw [dmC_presU nx _ y hnx, dmC_presU sb2 _ y hsb2, dmC_presU sb u y hsb]
    | scope a b e g q =>
      simp only [dmC]
      rw [dmC_presU nx _ y hnx, dmC_presU sb2 _ y hsb2, dmC_presU sb u y hsb]
    | varScope a b =>
      simp only [dmC]
      rw [dmC_presU nx _ y hnx, dmC_presU sb2 _ y hsb2, dmC_presU sb u y hsb]
    | var a b e g q =>
      simp only [dmC]
      rw [dmC_presU nx _ y hnx, dmC_presU sb2 _ y hsb2, dmC_presU sb u y hsb]
    | dtype a b e g =>
      simp only [dmC]
      rw [dmC_presU nx _ y hnx, dmC_presU sb2 _ y hsb2, dmC_presU sb u y hsb]
    | refDType a b e =>
      simp only [dmC]
      rw [dmC_presU nx _ y hnx, dmC_presU sb2 _ y hsb2, dmC_presU sb u y hsb]
    | ftaskRef a =>
      simp only [dmC]
      rw [dmC_presU nx _ y hnx, dmC_presU sb2 _ y hsb2, dmC_presU sb u y hsb]
    | typedefD a =>
      simp only [dmC]
      rw [dmC_presU nx _ y hnx, dmC_presU sb2 _ y hsb2, dmC_presU sb u y hsb]
    | modport a =>
      simp only [dmC]
      rw [dmC_presU nx _ y hnx, dmC_presU sb2 _ y hsb2, dmC_presU sb u y hsb]
    | cfunc a =>
      simp only [dmC]
      rw [dmC_presU nx _ y hnx, dmC_presU sb2 _ y hsb2, dmC_presU sb u y hsb]
    | assign =>
      simp only [dmC]
      rw [dmC_presU nx _ y hnx, dmC_presU sb2 _ y hsb2, dmC_presU sb u y hsb]
    | other a b =>
      cases b with
      | true => simp only [dmC]; exact dmC_presU nx u y hnx
      | false =>
        simp only [dmC]
        rw [dmC_presU nx _ y hnx, dmC_presU sb2 _ y hsb2, dmC_presU sb u y hsb]

end V3Dead

namespace V3Dead

theorem modPass_presU : (ms : Tree) → (s : St) → (y : Nat) →
    (∀ x ∈ sFacts ms, avoidsSweep y x = true) →
    (modPass ms s).2.1.uses y = s.uses y
  | .nil, _, _, _ => rfl
  | .node i k d c sb sb2 nx, s, y, hav => by
    have hnx : ∀ x ∈ sFacts nx, avoidsSweep y x = true := by
      intro x hx
      refine hav x ?_
      rw [sfacts_node]
      simp only [List.mem_cons, List.mem_append]
      exact Or.inr (Or.inr hx)
    cases k with
    | module lvl intl pkg =>
      simp only [modPass]
      by_cases hg : lvl > 2 ∧ s.uses i = 0 ∧ ¬intl
      · rw [if_pos hg]
        have hdm : ∀ x ∈ sFacts (Tree.node i (Kind.module lvl intl pkg) d c sb sb2 Tree.nil),
            avoidsSweep y x = true := by
          intro x hx
          refine hav x ?_
          rw [sfacts_node] at hx ⊢
          simp only [List.mem_cons, List.mem_append] at hx ⊢
          rcases hx with h | ⟨h | h⟩ | h
          · exact Or.inl h
          · exact Or.inr (Or.inl (Or.inl h))
          · exact Or.inr (Or.inl (Or.inr h))
          · simp [sFacts, nodeFacts] at h
        rcases hp : modPass nx { logDel (Tree.node i (Kind.module lvl intl pkg) d c sb sb2 nx) s with uses := dmC (Tree.node i (Kind.module lvl intl pkg) d c sb sb2 Tree.nil) (logDel (Tree.node i (Kind.module lvl intl pkg) d c sb sb2 nx) s).uses } with ⟨nx', s', r⟩
        try dsimp only
        have ih := modPass_presU nx { logDel (Tree.node i (Kind.module lvl intl pkg) d c sb sb2 nx) s with uses := dmC (Tree.node i (Kind.module lvl intl pkg) d c sb sb2 Tree.nil) (logDel (Tree.node i (Kind.module lvl intl pkg) d c sb sb2 nx) s).uses } y hnx
        rw [hp] at ih
        rw [ih]
        show dmC (Tree.node i (Kind.module lvl intl pkg) d c sb sb2 Tree.nil)
          (logDel (Tree.node i (Kind.module lvl intl pkg) d c sb sb2 nx) s).uses y = s.uses y
        rw [dmC_presU _ _ y hdm]
        rfl
      · rw [if_neg hg]
        rcases hp : modPass nx s with ⟨nx', s', r⟩
        try dsimp only
        have ih := modPass_presU nx s y hnx
        rw [hp] at ih
        exact ih
    | netlist =>
      simp only [modPass]
      rcases hp : modPass nx s with ⟨nx', s', r⟩
      try dsimp only
      have ih := modPass_presU nx s y hnx
      rw [hp] at ih
      exact ih
    | cell a =>
      simp only [modPass]
      rcases hp : modPass nx s with ⟨nx', s', r⟩
      try dsimp only
      have ih := modPass_presU nx s y hnx
      rw [hp] at ih
      exact ih
    | scope a b e g q =>
      simp only [modPass]
      rcases hp : modPass nx s with ⟨nx', s', r⟩
      try dsimp only
      have ih := modPass_presU nx s y hnx
      rw [hp] at ih
      exact ih
    | varScope a b =>
      simp only [modPass]
      rcases hp : modPass nx s with ⟨nx', s', r⟩
      try dsimp only
      have ih := modPass_presU nx s y hnx
      rw [hp] at ih
      exact ih
    | var a b e g q =>
      simp only [modPass]
      rcases hp : modPass nx s with ⟨nx', s', r⟩
      try dsimp only
      have ih := modPass_presU nx s y hnx
      rw [hp] at ih
      exact ih
    | dtype a b e g =>
      simp only [modPass]
      rcases hp : modPass nx s with ⟨nx', s', r⟩
      try dsimp only
      have ih := modPass_presU nx s y hnx
      rw [hp] at ih
      exact ih
    | refDType a b e =>
      simp only [modPass]
      rcases hp : modPass nx s with ⟨nx', s', r⟩
      try dsimp only
      have ih := modPass_presU nx s y hnx
      rw [hp] at ih
      exact ih
    | enumItemRef a =>
      simp only [modPass]
      rcases hp : modPass nx s with ⟨nx', s', r⟩
      try dsimp only
      have ih := modPass_presU nx s y hnx
      rw [hp] at ih
      exact ih
    | varRef a b e =>
      simp only [modPass]
      rcases hp : modPass nx s with ⟨nx', s', r⟩
      try dsimp only
      have ih := modPass_presU nx s y hnx
      rw [hp] at ih
      exact ih
    | ftaskRef a =>
      simp only [modPass]
      rcases hp : modPass nx s with ⟨nx', s', r⟩
      try dsimp only
      have ih := modPass_presU nx s y hnx
      rw [hp] at ih
      exact ih
    | typedefD a =>
      simp only [modPass]
      rcases hp : modPass nx s with ⟨nx', s', r⟩
      try dsimp only
      have ih := modPass_presU nx s y hnx
      rw [hp] at ih
      exact ih
    | modport a =>
      simp only [modPass]
      rcases hp : modPass nx s with ⟨nx', s', r⟩
      try dsimp only
      have ih := modPass_presU nx s y hnx
      rw [hp] at ih
      exact ih
    | cfunc a =>
      simp only [modPass]
      rcases hp : modPass nx s with ⟨nx', s', r⟩
      try dsimp only
      have ih := modPass_presU nx s y hnx
      rw [hp] at ih
      exact ih
    | assign =>
      simp only [modPass]
      rcases hp : modPass nx s with ⟨nx', s', r⟩
      try dsimp only
      have ih := modPass_presU nx s y hnx
      rw [hp] at ih
      exact ih
    | other a b =>
      simp only [modPass]
      rcases hp : modPass nx s with ⟨nx', s', r⟩
      try dsimp only
      have ih := modPass_presU nx s y hnx
      rw [hp] at ih
      exact ih

theorem modLoop_presU : (fuel : Nat) → (ms : Tree) → (s : St) → (y : Nat) →
    (∀ x ∈ sFacts ms, avoidsSweep y x = true) →
    (modLoop fuel ms s).2.1.uses y = s.uses y
  | 0, _, _, _, _ => rfl
  | fuel + 1, ms, s, y, hav => by
    simp only [modLoop]
    rcases hp : modPass ms s with ⟨ms', s', retry⟩
    have hu := modPass_presU ms s y hav
    rw [hp] at hu
    have hsf : ∀ x ∈ sFacts ms', avoidsSweep y x = true := by
      intro x hx
      have := modPass_sfacts ms s
      rw [hp] at this
      exact hav x (this x hx)
    by_cases hre : retry = true
    · rw [if_pos hre]
      rw [modLoop_presU fuel ms' s' y hsf, hu]
    · rw [if_neg hre]
      exact hu

end V3Dead

namespace V3Dead

/-- `y` does not occur below the top level of the chain: not inside
any element's child subtrees. -/
def onlyTopIn (y : Nat) : Tree → Bool
  | .nil => true
  | .node _ _ _ _ sb sb2 nx =>
    decide (y ∉ sb.ids) && decide (y ∉ sb2.ids) && onlyTopIn y nx

/-- `y` occurs in the tree only as the id of top-level chain elements
under the root. -/
def rootOnly (y : Nat) : Tree → Bool
  | .nil => true
  | .node i _ _ _ ch sb2 nx =>
    decide (i ≠ y) && onlyTopIn y ch && decide (y ∉ sb2.ids) && decide (y ∉ nx.ids)

theorem removeSub_ids : (t : Tree) → (v : Nat) → ∀ j ∈ (t.removeSub v).ids, j ∈ t.ids
  | .nil, _ => by simp [Tree.removeSub]
  | .node i k d c sb sb2 nx, v => by
    intro j hj
    simp only [Tree.removeSub] at hj
    by_cases hiv : i = v
    · rw [if_pos hiv] at hj
      simp only [Tree.ids, List.mem_cons, List.mem_append]
      exact Or.inr (Or.inr hj)
    · rw [if_neg hiv] at hj
      simp only [Tree.ids, List.mem_cons, List.mem_append] at hj ⊢
      rcases hj with h | (h | h) | h
      · exact Or.inl h
      · exact Or.inr (Or.inl (Or.inl (removeSub_ids sb v j h)))
      · exact Or.inr (Or.inl (Or.inr (removeSub_ids sb2 v j h)))
      · exact Or.inr (Or.inr (removeSub_ids nx v j h))

theorem subIds_sub_ids : (t : Tree) → ∀ j ∈ t.subIds, j ∈ t.ids
  | .nil => by simp [Tree.subIds]
  | .node i k d c sb sb2 nx => by
    intro j hj
    simp only [Tree.subIds, List.mem_cons, List.mem_append] at hj
    simp only [Tree.ids, List.mem_cons, List.mem_append]
    rcases hj with h | h | h
    · exact Or.inl h
    · exact Or.inr (Or.inl (Or.inl h))
    · exact Or.inr (Or.inl (Or.inr h))

theorem lookup_ids_sub : (t : Tree) → (v : Nat) → (a : Tree) →
    t.lookup v = some a → ∀ j ∈ a.ids, j ∈ t.ids
  | .nil, _, _, h => by simp [Tree.lookup] at h
  | .node i k d c sb sb2 nx, v, a, h => by
    simp only [Tree.lookup] at h
    by_cases hiv : i = v
    · rw [if_pos hiv] at h
      cases h
      exact fun j hj => hj
    · rw [if_neg hiv] at h
      intro j hj
      simp only [Tree.ids, List.mem_cons, List.mem_append]
      cases hs : sb.lookup v with
      | some r =>
        rw [hs] at h
        cases h
        exact Or.inr (Or.inl (Or.inl (lookup_ids_sub sb v a hs j hj)))
      | none =>
        rw [hs] at h
        cases hs2 : sb2.lookup v with
        | some r =>
          rw [hs2] at h
          cases h
          exact Or.inr (Or.inl (Or.inr (lookup_ids_sub sb2 v a hs2 j hj)))
        | none =>
          rw [hs2] at h
          exact Or.inr (Or.inr (lookup_ids_sub nx v a h j hj))

theorem notIn_lookup_subIds (t : Tree) (v : Nat) (a : Tree) (y : Nat)
    (hni : y ∉ t.ids) (h : t.lookup v = some a) : y ∉ a.subIds := by
  intro hy
  exact hni (lookup_ids_sub t v a h y (subIds_sub_ids a y hy))

theorem onlyTopIn_lookup_subIds : (ch : Tree) → (v : Nat) → (a : Tree) → (y : Nat) →
    onlyTopIn y ch = true → v ≠ y → ch.lookup v = some a → y ∉ a.subIds
  | .nil, _, _, _, _, _, h => by simp [Tree.lookup] at h
  | .node i k d c sb sb2 nx, v, a, y, hot, hvy, h => by
    simp only [onlyTopIn, Bool.and_eq_true, decide_eq_true_eq] at hot
    simp only [Tree.lookup] at h
    by_cases hiv : i = v
    · rw [if_pos hiv] at h
      cases h
      simp only [Tree.subIds, List.mem_cons, List.mem_append]
      intro hy
      rcases hy with h | h | h
      · exact hvy (by rw [← hiv, ← h])
      · exact hot.1.1 h
      · exact hot.1.2 h
    · rw [if_neg hiv] at h
      cases hs : sb.lookup v with
      | some r =>
        rw [hs] at h
        cases h
        exact notIn_lookup_subIds sb v a y hot.1.1 hs
      | none =>
        rw [hs] at h
        cases hs2 : sb2.lookup v with
        | some r =>
          rw [hs2] at h
          cases h
          exact notIn_lookup_subIds sb2 v a y hot.1.2 hs2
        | none =>
          rw [hs2] at h
          exact onlyTopIn_lookup_subIds nx v a y hot.2 hvy h

theorem rootOnly_lookup_subIds (t : Tree) (v : Nat) (a : Tree) (y : Nat)
    (hro : rootOnly y t = true) (hvy : v ≠ y) (hvr : v ≠ t.id)
    (h : t.lookup v = some a) : y ∉ a.subIds := by
  rcases t with _ | ⟨i, k, d, c, ch, sb2, nx⟩
  · simp [Tree.lookup] at h
  · simp only [rootOnly, Bool.and_eq_true, decide_eq_true_eq] at hro
    simp only [Tree.lookup] at h
    have hiv : ¬(i = v) := fun he => hvr (by rw [Tree.id, he])
    rw [if_neg hiv] at h
    cases hs : ch.lookup v with
    | some r =>
      rw [hs] at h
      cases h
      exact onlyTopIn_lookup_subIds ch v a y hro.1.1.2 hvy hs
    | none =>
      rw [hs] at h
      cases hs2 : sb2.lookup v with
      | some r =>
        rw [hs2] at h
        cases h
        exact notIn_lookup_subIds sb2 v a y hro.1.2 hs2
      | none =>
        rw [hs2] at h
        exact notIn_lookup_subIds nx v a y hro.2 h

theorem onlyTopIn_removeSub : (ch : Tree) → (v y : Nat) →
    onlyTopIn y ch = true → onlyTopIn y (ch.removeSub v) = true
  | .nil, _, _, _ => rfl
  | .node i k d c sb sb2 nx, v, y, hot => by
    simp only [onlyTopIn, Bool.and_eq_true, decide_eq_true_eq] at hot
    simp only [Tree.removeSub]
    by_cases hiv : i = v
    · rw [if_pos hiv]
      exact hot.2
    · rw [if_neg hiv]
      simp only [onlyTopIn, Bool.and_eq_true, decide_eq_true_eq]
      refine ⟨⟨fun hy => hot.1.1 (removeSub_ids sb v y hy),
        fun hy => hot.1.2 (removeSub_ids sb2 v y hy)⟩, ?_⟩
      exact onlyTopIn_removeSub nx v y hot.2

theorem topIds_removeSub : (ch : Tree) → (v y : Nat) → v ≠ y →
    y ∈ topIds ch → y ∈ topIds (ch.removeSub v)
  | .nil, _, _, _, hy => hy
  | .node i k d c sb sb2 nx, v, y, hvy, hy => by
    simp only [topIds, List.mem_cons] at hy
    simp only [Tree.removeSub]
    by_cases hiv : i = v
    · rw [if_pos hiv]
      rcases hy with h | h
      · exact absurd (h.trans hiv) (Ne.symm hvy)
      · exact h
    · rw [if_neg hiv]
      simp only [topIds, List.mem_cons]
      rcases hy with h | h
      · exact Or.inl h
      · exact Or.inr (topIds_removeSub nx v y hvy h)

theorem rootOnly_removeSub (t : Tree) (v y : Nat) (hvr : v ≠ t.id)
    (hro : rootOnly y t = true) : rootOnly y (t.removeSub v) = true := by
  rcases t with _ | ⟨i, k, d, c, ch, sb2, nx⟩
  · exact hro
  · simp only [rootOnly, Bool.and_eq_true, decide_eq_true_eq] at hro
    have hiv : ¬(i = v) := fun he => hvr (by rw [Tree.id, he])
    simp only [Tree.removeSub, if_neg hiv]
    simp only [rootOnly, Bool.and_eq_true, decide_eq_true_eq]
    refine ⟨⟨⟨hro.1.1.1, onlyTopIn_removeSub ch v y hro.1.1.2⟩,
      fun hy => hro.1.2 (removeSub_ids sb2 v y hy)⟩,
      fun hy => hro.2 (removeSub_ids nx v y hy)⟩

theorem removeSub_root (t : Tree) (v : Nat) (hvr : v ≠ t.id) (hnn : t ≠ .nil) :
    (t.removeSub v).id = t.id ∧ (t.removeSub v).sub = t.sub.removeSub v := by
  rcases t with _ | ⟨i, k, d, c, ch, sb2, nx⟩
  · exact absurd rfl hnn
  · have hiv : ¬(i = v) := fun he => hvr (by rw [Tree.id, he])
    constructor <;> simp [Tree.removeSub, if_neg hiv, Tree.id, Tree.sub]

theorem topIds_sub_removeSub (t : Tree) (v y : Nat) (hvy : v ≠ y) (hvr : v ≠ t.id)
    (htop : y ∈ topIds t.sub) : y ∈ topIds (t.removeSub v).sub := by
  rcases t with _ | ⟨i, k, d, c, ch, sb2, nx⟩
  · simp only [Tree.sub, topIds] at htop
    exact absurd htop (List.not_mem_nil y)
  · have hiv : ¬(i = v) := fun he => hvr (by rw [Tree.id, he])
    simp only [Tree.removeSub, if_neg hiv, Tree.sub] at *
    exact topIds_removeSub ch v y hvy htop

end V3Dead

namespace V3Dead

/-- The candidate lists and the assignment map of the state, which no
sweeper modifies. -/
def lists (s : St) : List Nat × List Nat × List Nat × List Nat × List Nat × List (Nat × Nat) :=
  (s.varsp, s.dtypesp, s.vscsp, s.scopesp, s.cellsp, s.assignMap)

theorem lists_varsp {s s' : St} (h : lists s' = lists s) : s'.varsp = s.varsp :=
  congrArg (fun p => p.1) h

theorem lists_dtypesp {s s' : St} (h : lists s' = lists s) : s'.dtypesp = s.dtypesp :=
  congrArg (fun p => p.2.1) h

theorem lists_vscsp {s s' : St} (h : lists s' = lists s) : s'.vscsp = s.vscsp :=
  congrArg (fun p => p.2.2.1) h

theorem lists_scopesp {s s' : St} (h : lists s' = lists s) : s'.scopesp = s.scopesp :=
  congrArg (fun p => p.2.2.2.1) h

theorem lists_cellsp {s s' : St} (h : lists s' = lists s) : s'.cellsp = s.cellsp :=
  congrArg (fun p => p.2.2.2.2.1) h

theorem lists_amap {s s' : St} (h : lists s' = lists s) : s'.assignMap = s.assignMap :=
  congrArg (fun p => p.2.2.2.2.2) h

theorem delAssign_lists (t : Tree) (s : St) (aid : Nat) :
    lists (delAssign t s aid).2 = lists s := by
  unfold delAssign
  cases hl : t.lookup aid with
  | none => rfl
  | some a => rfl

theorem delAssigns_lists (aids : List Nat) (t : Tree) (s : St) :
    lists (aids.foldl (fun ts aid => delAssign ts.1 ts.2 aid) (t, s)).2 = lists s := by
  induction aids generalizing t s with
  | nil => rfl
  | cons aid rest ih =>
    simp only [List.foldl_cons]
    rcases hd : delAssign t s aid with ⟨t1, s1⟩
    have h1 := delAssign_lists t s aid
    rw [hd] at h1
    rw [ih t1 s1, h1]

theorem vscDead_lists (t : Tree) (s : St) (v : Nat) :
    lists (vscDead t s v).2 = lists s := by
  unfold vscDead
  dsimp only
  rcases hf : (((s.assignMap.filter (fun p => p.1 = v)).map (·.2)).foldl
      (fun ts aid => delAssign ts.1 ts.2 aid) (t, s)) with ⟨t1, s1⟩
  have h1 : lists s1 = lists s := by
    have := delAssigns_lists ((s.assignMap.filter (fun p => p.1 = v)).map (·.2)) t s
    rw [hf] at this
    exact this
  rw [hf]
  dsimp only
  cases hl : t1.lookup v with
  | none => exact h1
  | some vn =>
    rcases vn with _ | ⟨vi, vk, vd, vc, vsb, vsb2, vnx⟩
    · exact h1
    · cases vk with
      | varScope scp vvar => exact h1
      | netlist => exact h1
      | module a b e => exact h1
      | cell a => exact h1
      | scope a b e g q => exact h1
      | var a b e g q => exact h1
      | dtype a b e g => exact h1
      | refDType a b e => exact h1
      | enumItemRef a => exact h1
      | varRef a b e => exact h1
      | ftaskRef a => exact h1
      | typedefD a => exact h1
      | modport a => exact h1
      | cfunc a => exact h1
      | assign => exact h1
      | other a b => exact h1

theorem vscPhase_lists : (l : List Nat) → (t : Tree) → (s : St) →
    lists (vscPhase l t s).2 = lists s
  | [], _, _ => rfl
  | v :: rest, t, s => by
    by_cases h0 : s.uses v = 0
    · simp only [vscPhase, if_pos h0]
      rcases hd : vscDead t s v with ⟨t1, s1⟩
      have h1 := vscDead_lists t s v
      rw [hd] at h1
      rw [vscPhase_lists rest t1 s1, h1]
    · simp only [vscPhase, if_neg h0]
      exact vscPhase_lists rest t s

theorem varPass_lists : (slots : List (Option Nat)) → (t : Tree) → (s : St) →
    lists (varPass slots t s).2.2.1 = lists s
  | [], _, _ => rfl
  | none :: rest, t, s => by
    simp only [varPass]
    rcases hr : varPass rest t s with ⟨rest', t', s', r⟩
    have := varPass_lists rest t s
    rw [hr] at this
    exact this
  | some v :: rest, t, s => by
    by_cases h0 : s.uses v = 0
    · simp only [varPass, if_pos h0]
      cases hl : t.lookup v with
      | none =>
        try dsimp only
        rcases hr : varPass rest t s with ⟨rest', t', s', r⟩
        have := varPass_lists rest t s
        rw [hr] at this
        exact this
      | some vn =>
        try dsimp only
        rcases hr : varPass rest (t.removeSub v)
            (logDel vn { s with uses := bumpO s.uses vn.dtypep (-1) }) with ⟨rest', t', s', r⟩
        have := varPass_lists rest (t.removeSub v)
            (logDel vn { s with uses := bumpO s.uses vn.dtypep (-1) })
        rw [hr] at this
        exact this
    · simp only [varPass, if_neg h0]
      rcases hr : varPass rest t s with ⟨rest', t', s', r⟩
      have := varPass_lists rest t s
      rw [hr] at this
      exact this

theorem varLoop_lists : (fuel : Nat) → (slots : List (Option Nat)) → (t : Tree) → (s : St) →
    lists (varLoop fuel slots t s).2.2.1 = lists s
  | 0, _, _, _ => rfl
  | fuel + 1, slots, t, s => by
    simp only [varLoop]
    rcases hp : varPass slots t s with ⟨slots', t', s', retry⟩
    have hu := varPass_lists slots t s
    rw [hp] at hu
    by_cases hre : retry = true
    · rw [if_pos hre]
      rw [varLoop_lists fuel slots' t' s', hu]
    · rw [if_neg hre]
      exact hu

theorem dtypePhase_lists : (l : List Nat) → (t : Tree) → (s : St) →
    lists (dtypePhase l t s).2 = lists s
  | [], _, _ => rfl
  | dId :: rest, t, s => by
    by_cases h0 : s.uses dId = 0
    · simp only [dtypePhase, if_pos h0]
      cases hl : t.lookup dId with
      | none => exact dtypePhase_lists rest t s
      | some dn =>
        try dsimp only
        by_cases hc : (isClassK dn.kind && classKeep s dn.sub) = true
        · rw [if_pos hc]
          exact dtypePhase_lists rest t s
        · rw [if_neg hc]
          exact dtypePhase_lists rest (t.removeSub dId) (logDel dn s)
    · simp only [dtypePhase, if_neg h0]
      exact dtypePhase_lists rest t s

theorem scopePass_lists : (slots : List (Option Nat)) → (t : Tree) → (s : St) →
    lists (scopePass slots t s).2.2.1 = lists s
  | [], _, _ => rfl
  | none :: rest, t, s => by
    simp only [scopePass]
    rcases hr : scopePass rest t s with ⟨rest', t', s', r⟩
    have := scopePass_lists rest t s
    rw [hr] at this
    exact this
  | some v :: rest, t, s => by
    by_cases h0 : s.uses v = 0
    · simp only [scopePass, if_pos h0]
      cases hl : t.lookup v with
      | none =>
        try dsimp only
        rcases hr : scopePass rest t s with ⟨rest', t', s', r⟩
        have := scopePass_lists rest t s
        rw [hr] at this
        exact this
      | some sn =>
        rcases sn with _ | ⟨si, sk, sd, sc, ssb, ssb2, snx⟩
        · try dsimp only
          rcases hr : scopePass rest t s with ⟨rest', t', s', r⟩
          have := scopePass_lists rest t s
          rw [hr] at this
          exact this
        · cases sk with
          | scope abv tp hv hb hf =>
            try dsimp only [Tree.kind, Tree.dtypep]
            rcases hr : scopePass rest (t.removeSub v) (logDel (Tree.node si (Kind.scope abv tp hv hb hf) sd sc ssb ssb2 snx) { s with uses := bumpO (bumpO s.uses abv (-1)) sd (-1) }) with ⟨rest', t', s', r⟩
            have := scopePass_lists rest (t.removeSub v)
                (logDel (Tree.node si (Kind.scope abv tp hv hb hf) sd sc ssb ssb2 snx)
                  { s with uses := bumpO (bumpO s.uses abv (-1)) sd (-1) })
            rw [hr] at this
            exact this
          | netlist =>
            try dsimp only [Tree.kind]
            rcases hr : scopePass rest t s with ⟨rest', t', s', r⟩
            have := scopePass_lists rest t s
            rw [hr] at this
            exact this
          | module a b e =>
            try dsimp only [Tree.kind]
            rcases hr : scopePass rest t s with ⟨rest', t', s', r⟩
            have := scopePass_lists rest t s
            rw [hr] at this
            exact this
          | cell a =>
            try dsimp only [Tree.kind]
            rcases hr : scopePass rest t s with ⟨rest', t', s', r⟩
            have := scopePass_lists rest t s
            rw [hr] at this
            exact this
          | varScope a b =>
            try dsimp only [Tree.kind]
            rcases hr : scopePass rest t s with ⟨rest', t', s', r⟩
            have := scopePass_lists rest t s
            rw [hr] at this
            exact this
          | var a b e g q =>
            try dsimp only [Tree.kind]
            rcases hr : scopePass rest t s with ⟨rest', t', s', r⟩
            have := scopePass_lists rest t s
            rw [hr] at this
            exact this
          | dtype a b e g =>
            try dsimp only [Tree.kind]
            rcases hr : scopePass rest t s with ⟨rest', t', s', r⟩
            have := scopePass_lists rest t s
            rw [hr] at this
            exact this
          | refDType a b e =>
            try dsimp only [Tree.kind]
            rcases hr : scopePass rest t s with ⟨rest', t', s', r⟩
            have := scopePass_lists rest t s
            rw [hr] at this
            exact this
          | enumItemRef a =>
            try dsimp only [Tree.kind]
            rcases hr : scopePass rest t s with ⟨rest', t', s', r⟩
            have := scopePass_lists rest t s
            rw [hr] at this
            exact this
          | varRef a b e =>
            try dsimp only [Tree.kind]
            rcases hr : scopePass rest t s with ⟨rest', t', s', r⟩
            have := scopePass_lists rest t s
            rw [hr] at this
            exact this
          | ftaskRef a =>
            try dsimp only [Tree.kind]
            rcases hr : scopePass rest t s with ⟨rest', t', s', r⟩
            have := scopePass_lists rest t s
            rw [hr] at this
            exact this
          | typedefD a =>
            try dsimp only [Tree.kind]
            rcases hr : scopePass rest t s with ⟨rest', t', s', r⟩
            have := scopePass_lists rest t s
            rw [hr] at this
            exact this
          | modport a =>
            try dsimp only [Tree.kind]
            rcases hr : scopePass rest t s with ⟨rest', t', s', r⟩
            have := scopePass_lists rest t s
            rw [hr] at this
            exact this
          | cfunc a =>
            try dsimp only [Tree.kind]
            rcases hr : scopePass rest t s with ⟨rest', t', s', r⟩
            have := scopePass_lists rest t s
            rw [hr] at this
            exact this
          | assign =>
            try dsimp only [Tree.kind]
            rcases hr : scopePass rest t s with ⟨rest', t', s', r⟩
            have := scopePass_lists rest t s
            rw [hr] at this
            exact this
          | other a b =>
            try dsimp only [Tree.kind]
            rcases hr : scopePass rest t s with ⟨rest', t', s', r⟩
            have := scopePass_lists rest t s
            rw [hr] at this
            exact this
    · simp only [scopePass, if_neg h0]
      rcases hr : scopePass rest t s with ⟨rest', t', s', r⟩
      have := scopePass_lists rest t s
      rw [hr] at this
      exact this

theorem scopeLoop_lists : (fuel : Nat) → (slots : List (Option Nat)) → (t : Tree) → (s : St) →
    lists (scopeLoop fuel slots t s).2.2.1 = lists s
  | 0, _, _, _ => rfl
  | fuel + 1, slots, t, s => by
    simp only [scopeLoop]
    rcases hp : scopePass slots t s with ⟨slots', t', s', retry⟩
    have hu := scopePass_lists slots t s
    rw [hp] at hu
    by_cases hre : retry = true
    · rw [if_pos hre]
      rw [scopeLoop_lists fuel slots' t' s', hu]
    · rw [if_neg hre]
      exact hu

theorem cellPhase_lists : (l : List Nat) → (t : Tree) → (s : St) →
    lists (cellPhase l t s).2 = lists s
  | [], _, _ => rfl
  | cId :: rest, t, s => by
    simp only [cellPhase]
    cases hl : t.lookup cId with
    | none => exact cellPhase_lists rest t s
    | some cn =>
      rcases cn with _ | ⟨ci, ck, cd, cc, csb, csb2, cnx⟩
      · exact cellPhase_lists rest t s
      · cases ck with
        | cell mt =>
          simp only [Tree.kind]
          try dsimp only
          split
          · exact cellPhase_lists rest (t.removeSub cId)
              (logDel (Tree.node ci (Kind.cell mt) cd cc csb csb2 cnx)
                { s with uses := bump s.uses mt (-1) })
          · exact cellPhase_lists rest t s
        | netlist => exact cellPhase_lists rest t s
        | module a b e => exact cellPhase_lists rest t s
        | scope a b e g q => exact cellPhase_lists rest t s
        | varScope a b => exact cellPhase_lists rest t s
        | var a b e g q => exact cellPhase_lists rest t s
        | dtype a b e g => exact cellPhase_lists rest t s
        | refDType a b e => exact cellPhase_lists rest t s
        | enumItemRef a => exact cellPhase_lists rest t s
        | varRef a b e => exact cellPhase_lists rest t s
        | ftaskRef a => exact cellPhase_lists rest t s
        | typedefD a => exact cellPhase_lists rest t s
        | modport a => exact cellPhase_lists rest t s
        | cfunc a => exact cellPhase_lists rest t s
        | assign => exact cellPhase_lists rest t s
        | other a b => exact cellPhase_lists rest t s

end V3Dead

namespace V3Dead

theorem delAssign_survive (t : Tree) (s : St) (aid y : Nat)
    (hro : rootOnly y t = true) (htop : y ∈ topIds t.sub)
    (hvy : aid ≠ y) (hvr : aid ≠ t.id) :
    rootOnly y (delAssign t s aid).1 = true ∧ y ∈ topIds (delAssign t s aid).1.sub ∧
    (delAssign t s aid).1.id = t.id ∧
    (∀ j ∈ (delAssign t s aid).2.deletedIds, j ∈ s.deletedIds ∨ j ≠ y) := by
  unfold delAssign
  cases hl : t.lookup aid with
  | none => exact ⟨hro, htop, rfl, fun j hj => Or.inl hj⟩
  | some a =>
    have hnn : t ≠ .nil := by
      intro he
      rw [he] at hl
      simp [Tree.lookup] at hl
    have hrr := removeSub_root t aid hvr hnn
    refine ⟨rootOnly_removeSub t aid y hvr hro, ?_, hrr.1, ?_⟩
    · exact topIds_sub_removeSub t aid y hvy hvr htop
    · intro j hj
      have hj2 : j ∈ s.deletedIds ++ a.subIds := hj
      rcases List.mem_append.mp hj2 with h | h
      · exact Or.inl h
      · right
        intro he
        rw [he] at h
        exact rootOnly_lookup_subIds t aid a y hro hvy hvr hl h

theorem delAssigns_survive (aids : List Nat) (t : Tree) (s : St) (y rid : Nat)
    (hrid : t.id = rid)
    (hro : rootOnly y t = true) (htop : y ∈ topIds t.sub)
    (hl : ∀ a ∈ aids, a ≠ y ∧ a ≠ rid) :
    rootOnly y (aids.foldl (fun ts aid => delAssign ts.1 ts.2 aid) (t, s)).1 = true ∧
    y ∈ topIds (aids.foldl (fun ts aid => delAssign ts.1 ts.2 aid) (t, s)).1.sub ∧
    (aids.foldl (fun ts aid => delAssign ts.1 ts.2 aid) (t, s)).1.id = rid ∧
    (∀ j ∈ (aids.foldl (fun ts aid => delAssign ts.1 ts.2 aid) (t, s)).2.deletedIds,
      j ∈ s.deletedIds ∨ j ≠ y) := by
  induction aids generalizing t s with
  | nil => exact ⟨hro, htop, hrid, fun j hj => Or.inl hj⟩
  | cons aid rest ih =>
    simp only [List.foldl_cons]
    rcases hd : delAssign t s aid with ⟨t1, s1⟩
    have hh := hl aid (List.mem_cons_self aid rest)
    have hsv := delAssign_survive t s aid y hro htop hh.1 (by rw [hrid]; exact hh.2)
    rw [hd] at hsv
    have ihr := ih t1 s1 (by rw [hsv.2.2.1]; exact hrid.symm ▸ rfl) hsv.1 hsv.2.1
      (fun a ha => hl a (List.mem_cons_of_mem aid ha))
    refine ⟨ihr.1, ihr.2.1, ihr.2.2.1, fun j hj => ?_⟩
    rcases ihr.2.2.2 j hj with h | h
    · exact hsv.2.2.2 j h
    · exact Or.inr h

end V3Dead

namespace V3Dead

theorem vscDead_survive (t : Tree) (s : St) (v y rid : Nat)
    (hrid : t.id = rid)
    (hro : rootOnly y t = true) (htop : y ∈ topIds t.sub)
    (hvy : v ≠ y) (hvr : v ≠ rid)
    (ham : ∀ a ∈ s.assignMap.map (fun p => p.2), a ≠ y ∧ a ≠ rid) :
    rootOnly y (vscDead t s v).1 = true ∧ y ∈ topIds (vscDead t s v).1.sub ∧
    (vscDead t s v).1.id = rid ∧
    (∀ j ∈ (vscDead t s v).2.deletedIds, j ∈ s.deletedIds ∨ j ≠ y) := by
  unfold vscDead
  dsimp only
  rcases hf : (((s.assignMap.filter (fun p => p.1 = v)).map (·.2)).foldl
      (fun ts aid => delAssign ts.1 ts.2 aid) (t, s)) with ⟨t1, s1⟩
  have haids : ∀ a ∈ (s.assignMap.filter (fun p => p.1 = v)).map (·.2), a ≠ y ∧ a ≠ rid := by
    intro a ha
    refine ham a ?_
    simp only [List.mem_map] at ha ⊢
    rcases ha with ⟨p, hp, he⟩
    exact ⟨p, List.mem_of_mem_filter hp, he⟩
  have hda := delAssigns_survive ((s.assignMap.filter (fun p => p.1 = v)).map (·.2)) t s y rid
    hrid hro htop haids
  rw [hf] at hda
  rw [hf]
  dsimp only
  cases hl : t1.lookup v with
  | none => exact hda
  | some vn =>
    rcases vn with _ | ⟨vi, vk, vd, vc, vsb, vsb2, vnx⟩
    · exact hda
    · cases vk with
      | varScope scp vvar =>
        have hnn : t1 ≠ .nil := by
          intro he
          rw [he] at hl
          simp [Tree.lookup] at hl
        have hvr1 : v ≠ t1.id := by rw [hda.2.2.1]; exact hvr
        have hrr := removeSub_root t1 v hvr1 hnn
        refine ⟨rootOnly_removeSub t1 v y hvr1 hda.1, ?_, ?_, ?_⟩
        · exact topIds_sub_removeSub t1 v y hvy hvr1 hda.2.1
        · exact hrr.1.trans hda.2.2.1
        · intro j hj
          have hj2 : j ∈ s1.deletedIds ++
              (Tree.node vi (Kind.varScope scp vvar) vd vc vsb vsb2 vnx).subIds := hj
          rcases List.mem_append.mp hj2 with h | h
          · exact hda.2.2.2 j h
          · right
            intro he
            rw [he] at h
            exact rootOnly_lookup_subIds t1 v _ y hda.1 hvy hvr1 hl h
      | netlist => exact hda
      | module a b e => exact hda
      | cell a => exact hda
      | scope a b e g q => exact hda
      | var a b e g q => exact hda
      | dtype a b e g => exact hda
      | refDType a b e => exact hda
      | enumItemRef a => exact hda
      | varRef a b e => exact hda
      | ftaskRef a => exact hda
      | typedefD a => exact hda
      | modport a => exact hda
      | cfunc a => exact hda
      | assign => exact hda
      | other a b => exact hda

theorem vscPhase_survive : (l : List Nat) → (t : Tree) → (s : St) → (y rid : Nat) →
    t.id = rid →
    rootOnly y t = true → y ∈ topIds t.sub →
    (∀ v ∈ l, v ≠ y ∧ v ≠ rid) →
    (∀ a ∈ s.assignMap.map (fun p => p.2), a ≠ y ∧ a ≠ rid) →
    rootOnly y (vscPhase l t s).1 = true ∧ y ∈ topIds (vscPhase l t s).1.sub ∧
    (vscPhase l t s).1.id = rid ∧
    (∀ j ∈ (vscPhase l t s).2.deletedIds, j ∈ s.deletedIds ∨ j ≠ y)
  | [], t, s, y, rid, hrid, hro, htop, _, _ => ⟨hro, htop, hrid, fun j hj => Or.inl hj⟩
  | v :: rest, t, s, y, rid, hrid, hro, htop, hl, ham => by
    by_cases h0 : s.uses v = 0
    · simp only [vscPhase, if_pos h0]
      rcases hd : vscDead t s v with ⟨t1, s1⟩
      have hh := hl v (List.mem_cons_self v rest)
      have hsv := vscDead_survive t s v y rid hrid hro htop hh.1 hh.2 ham
      rw [hd] at hsv
      have hamap : s1.assignMap = s.assignMap := by
        have := vscDead_lists t s v
        rw [hd] at this
        exact lists_amap this
      have ihr := vscPhase_survive rest t1 s1 y rid hsv.2.2.1 hsv.1 hsv.2.1
        (fun a ha => hl a (List.mem_cons_of_mem v ha))
        (by rw [hamap]; exact ham)
      refine ⟨ihr.1, ihr.2.1, ihr.2.2.1, fun j hj => ?_⟩
      rcases ihr.2.2.2 j hj with h | h
      · exact hsv.2.2.2 j h
      · exact Or.inr h
    · simp only [vscPhase, if_neg h0]
      exact vscPhase_survive rest t s y rid hrid hro htop
        (fun a ha => hl a (List.mem_cons_of_mem v ha)) ham

end V3Dead

namespace V3Dead

theorem varPass_survive : (slots : List (Option Nat)) → (t : Tree) → (s : St) → (y rid : Nat) →
    t.id = rid →
    rootOnly y t = true → y ∈ topIds t.sub →
    (∀ v, some v ∈ slots → v ≠ y ∧ v ≠ rid) →
    rootOnly y (varPass slots t s).2.1 = true ∧ y ∈ topIds (varPass slots t s).2.1.sub ∧
    (varPass slots t s).2.1.id = rid ∧
    (∀ j ∈ (varPass slots t s).2.2.1.deletedIds, j ∈ s.deletedIds ∨ j ≠ y) ∧
    (∀ v, some v ∈ (varPass slots t s).1 → some v ∈ slots)
  | [], t, s, y, rid, hrid, hro, htop, _ =>
    ⟨hro, htop, hrid, fun j hj => Or.inl hj, fun _ hv => hv⟩
  | none :: rest, t, s, y, rid, hrid, hro, htop, hsl => by
    simp only [varPass]
    rcases hr : varPass rest t s with ⟨rest', t', s', r⟩
    have ih := varPass_survive rest t s y rid hrid hro htop
      (fun v hv => hsl v (List.mem_cons_of_mem none hv))
    rw [hr] at ih
    refine ⟨ih.1, ih.2.1, ih.2.2.1, ih.2.2.2.1, ?_⟩
    intro v hv
    rcases List.mem_cons.mp hv with h | h
    · exact absurd h (by simp)
    · exact List.mem_cons_of_mem none (ih.2.2.2.2 v h)
  | some v :: rest, t, s, y, rid, hrid, hro, htop, hsl => by
    have hv := hsl v (List.mem_cons_self (some v) rest)
    by_cases h0 : s.uses v = 0
    · simp only [varPass, if_pos h0]
      cases hl : t.lookup v with
      | none =>
        try dsimp only
        rcases hr : varPass rest t s with ⟨rest', t', s', r⟩
        have ih := varPass_survive rest t s y rid hrid hro htop
          (fun a ha => hsl a (List.mem_cons_of_mem (some v) ha))
        rw [hr] at ih
        refine ⟨ih.1, ih.2.1, ih.2.2.1, ih.2.2.2.1, ?_⟩
        intro a ha
        rcases List.mem_cons.mp ha with h | h
        · exact h ▸ List.mem_cons_self (some v) rest
        · exact List.mem_cons_of_mem (some v) (ih.2.2.2.2 a h)
      | some vn =>
        try dsimp only
        have hvr1 : v ≠ t.id := by rw [hrid]; exact hv.2
        have hnn : t ≠ .nil := by
          intro he
          rw [he] at hl
          simp [Tree.lookup] at hl
        have hrr := removeSub_root t v hvr1 hnn
        have hro1 : rootOnly y (t.removeSub v) = true := rootOnly_removeSub t v y hvr1 hro
        have htop1 : y ∈ topIds (t.removeSub v).sub := topIds_sub_removeSub t v y hv.1 hvr1 htop
        rcases hr : varPass rest (t.removeSub v)
            (logDel vn { s with uses := bumpO s.uses vn.dtypep (-1) }) with ⟨rest', t', s', r⟩
        have ih := varPass_survive rest (t.removeSub v)
            (logDel vn { s with uses := bumpO s.uses vn.dtypep (-1) }) y rid
            (hrr.1.trans hrid) hro1 htop1
            (fun a ha => hsl a (List.mem_cons_of_mem (some v) ha))
        rw [hr] at ih
        refine ⟨ih.1, ih.2.1, ih.2.2.1, ?_, ?_⟩
        · intro j hj
          rcases ih.2.2.2.1 j hj with h | h
          · have hj2 : j ∈ s.deletedIds ++ vn.subIds := h
            rcases List.mem_append.mp hj2 with h2 | h2
            · exact Or.inl h2
            · right
              intro he
              rw [he] at h2
              exact rootOnly_lookup_subIds t v vn y hro hv.1 hvr1 hl h2
          · exact Or.inr h
        · intro a ha
          rcases List.mem_cons.mp ha with h | h
          · exact absurd h (by simp)
          · exact List.mem_cons_of_mem (some v) (ih.2.2.2.2 a h)
    · simp only [varPass, if_neg h0]
      rcases hr : varPass rest t s with ⟨rest', t', s', r⟩
      have ih := varPass_survive rest t s y rid hrid hro htop
        (fun a ha => hsl a (List.mem_cons_of_mem (some v) ha))
      rw [hr] at ih
      refine ⟨ih.1, ih.2.1, ih.2.2.1, ih.2.2.2.1, ?_⟩
      intro a ha
      rcases List.mem_cons.mp ha with h | h
      · exact h ▸ List.mem_cons_self (some v) rest
      · exact List.mem_cons_of_mem (some v) (ih.2.2.2.2 a h)

theorem varLoop_survive : (fuel : Nat) → (slots : List (Option Nat)) → (t : Tree) → (s : St) →
    (y rid : Nat) →
    t.id = rid →
    rootOnly y t = true → y ∈ topIds t.sub →
    (∀ v, some v ∈ slots → v ≠ y ∧ v ≠ rid) →
    rootOnly y (varLoop fuel slots t s).2.1 = true ∧
    y ∈ topIds (varLoop fuel slots t s).2.1.sub ∧
    (varLoop fuel slots t s).2.1.id = rid ∧
    (∀ j ∈ (varLoop fuel slots t s).2.2.1.deletedIds, j ∈ s.deletedIds ∨ j ≠ y)
  | 0, _, t, s, y, rid, hrid, hro, htop, _ => ⟨hro, htop, hrid, fun j hj => Or.inl hj⟩
  | fuel + 1, slots, t, s, y, rid, hrid, hro, htop, hsl => by
    simp only [varLoop]
    rcases hp : varPass slots t s with ⟨slots', t', s', retry⟩
    have hvp := varPass_survive slots t s y rid hrid hro htop hsl
    rw [hp] at hvp
    by_cases hre : retry = true
    · rw [if_pos hre]
      have ih := varLoop_survive fuel slots' t' s' y rid hvp.2.2.1 hvp.1 hvp.2.1
        (fun a ha => hsl a (hvp.2.2.2.2 a ha))
      refine ⟨ih.1, ih.2.1, ih.2.2.1, fun j hj => ?_⟩
      rcases ih.2.2.2 j hj with h | h
      · exact hvp.2.2.2.1 j h
      · exact Or.inr h
    · rw [if_neg hre]
      exact ⟨hvp.1, hvp.2.1, hvp.2.2.1, hvp.2.2.2.1⟩

theorem dtypePhase_survive : (l : List Nat) → (t : Tree) → (s : St) → (y rid : Nat) →
    t.id = rid →
    rootOnly y t = true → y ∈ topIds t.sub →
    (∀ v ∈ l, v ≠ y ∧ v ≠ rid) →
    rootOnly y (dtypePhase l t s).1 = true ∧ y ∈ topIds (dtypePhase l t s).1.sub ∧
    (dtypePhase l t s).1.id = rid ∧
    (∀ j ∈ (dtypePhase l t s).2.deletedIds, j ∈ s.deletedIds ∨ j ≠ y)
  | [], t, s, y, rid, hrid, hro, htop, _ => ⟨hro, htop, hrid, fun j hj => Or.inl hj⟩
  | dId :: rest, t, s, y, rid, hrid, hro, htop, hl => by
    have hv := hl dId (List.mem_cons_self dId rest)
    have hrest := fun a ha => hl a (List.mem_cons_of_mem dId ha)
    by_cases h0 : s.uses dId = 0
    · simp only [dtypePhase, if_pos h0]
      cases hlk : t.lookup dId with
      | none =>
        try dsimp only
        exact dtypePhase_survive rest t s y rid hrid hro htop hrest
      | some dn =>
        try dsimp only
        by_cases hck : (isClassK dn.kind && classKeep s dn.sub) = true
        · rw [if_pos hck]
          exact dtypePhase_survive rest t s y rid hrid hro htop hrest
        · rw [if_neg hck]
          have hvr1 : dId ≠ t.id := by rw [hrid]; exact hv.2
          have hnn : t ≠ .nil := by
            intro he
            rw [he] at hlk
            simp [Tree.lookup] at hlk
          have hrr := removeSub_root t dId hvr1 hnn
          have ih := dtypePhase_survive rest (t.removeSub dId) (logDel dn s) y rid
            (hrr.1.trans hrid) (rootOnly_removeSub t dId y hvr1 hro)
            (topIds_sub_removeSub t dId y hv.1 hvr1 htop) hrest
          refine ⟨ih.1, ih.2.1, ih.2.2.1, fun j hj => ?_⟩
          rcases ih.2.2.2 j hj with h | h
          · have hj2 : j ∈ s.deletedIds ++ dn.subIds := h
            rcases List.mem_append.mp hj2 with h2 | h2
            · exact Or.inl h2
            · right
              intro he
              rw [he] at h2
              exact rootOnly_lookup_subIds t dId dn y hro hv.1 hvr1 hlk h2
          · exact Or.inr h
    · simp only [dtypePhase, if_neg h0]
      exact dtypePhase_survive rest t s y rid hrid hro htop hrest

end V3Dead

namespace V3Dead

theorem scopePass_survive : (slots : List (Option Nat)) → (t : Tree) → (s : St) → (y rid : Nat) →
    t.id = rid →
    rootOnly y t = true → y ∈ topIds t.sub →
    (∀ v, some v ∈ slots → v ≠ y ∧ v ≠ rid) →
    rootOnly y (scopePass slots t s).2.1 = true ∧ y ∈ topIds (scopePass slots t s).2.1.sub ∧
    (scopePass slots t s).2.1.id = rid ∧
    (∀ j ∈ (scopePass slots t s).2.2.1.deletedIds, j ∈ s.deletedIds ∨ j ≠ y) ∧
    (∀ v, some v ∈ (scopePass slots t s).1 → some v ∈ slots)
  | [], t, s, y, rid, hrid, hro, htop, _ =>
    ⟨hro, htop, hrid, fun j hj => Or.inl hj, fun _ hv => hv⟩
  | none :: rest, t, s, y, rid, hrid, hro, htop, hsl => by
    simp only [scopePass]
    rcases hr : scopePass rest t s with ⟨rest1, t1, s1, r⟩
    have ih := scopePass_survive rest t s y rid hrid hro htop
      (fun v hv => hsl v (List.mem_cons_of_mem none hv))
    rw [hr] at ih
    refine ⟨ih.1, ih.2.1, ih.2.2.1, ih.2.2.2.1, ?_⟩
    intro v hv
    rcases List.mem_cons.mp hv with h | h
    · exact absurd h (by simp)
    · exact List.mem_cons_of_mem none (ih.2.2.2.2 v h)
  | some v :: rest, t, s, y, rid, hrid, hro, htop, hsl => by
    have hvs := hsl v (List.mem_cons_self (some v) rest)
    have hrest : ∀ a, some a ∈ rest → a ≠ y ∧ a ≠ rid :=
      fun a ha => hsl a (List.mem_cons_of_mem (some v) ha)
    by_cases h0 : s.uses v = 0
    · simp only [scopePass, if_pos h0]
      cases hlk : t.lookup v with
      | none =>
        try dsimp only
        rcases hr : scopePass rest t s with ⟨rest1, t1, s1, r⟩
        have ih := scopePass_survive rest t s y rid hrid hro htop hrest
        rw [hr] at ih
        refine ⟨ih.1, ih.2.1, ih.2.2.1, ih.2.2.2.1, ?_⟩
        intro a ha
        rcases List.mem_cons.mp ha with h | h
        · exact h ▸ List.mem_cons_self (some v) rest
        · exact List.mem_cons_of_mem (some v) (ih.2.2.2.2 a h)
      | some sn =>
        rcases sn with _ | ⟨si, sk, sd, sc, ssb, ssb2, snx⟩
        · try dsimp only
          rcases hr : scopePass rest t s with ⟨rest1, t1, s1, r⟩
          have ih := scopePass_survive rest t s y rid hrid hro htop hrest
          rw [hr] at ih
          refine ⟨ih.1, ih.2.1, ih.2.2.1, ih.2.2.2.1, ?_⟩
          intro a ha
          rcases List.mem_cons.mp ha with h | h
          · exact h ▸ List.mem_cons_self (some v) rest
          · exact List.mem_cons_of_mem (some v) (ih.2.2.2.2 a h)
        · cases sk with
          | scope abv tp pv pb pf =>
            try dsimp only [Tree.kind, Tree.dtypep]
            have hvr1 : v ≠ t.id := by rw [hrid]; exact hvs.2
            have hnn : t ≠ .nil := by
              intro he
              rw [he] at hlk
              simp [Tree.lookup] at hlk
            have hrr := removeSub_root t v hvr1 hnn
            rcases hr : scopePass rest (t.removeSub v) (logDel (Tree.node si (Kind.scope abv tp pv pb pf) sd sc ssb ssb2 snx) { s with uses := bumpO (bumpO s.uses abv (-1)) sd (-1) }) with ⟨rest1, t1, s1, r⟩
            have ih := scopePass_survive rest (t.removeSub v)
                (logDel (Tree.node si (Kind.scope abv tp pv pb pf) sd sc ssb ssb2 snx)
                  { s with uses := bumpO (bumpO s.uses abv (-1)) sd (-1) }) y rid
                (hrr.1.trans hrid) (rootOnly_removeSub t v y hvr1 hro)
                (topIds_sub_removeSub t v y hvs.1 hvr1 htop) hrest
            rw [hr] at ih
            refine ⟨ih.1, ih.2.1, ih.2.2.1, ?_, ?_⟩
            · intro j hj
              rcases ih.2.2.2.1 j hj with h | h
              · have hj2 : j ∈ s.deletedIds ++
                    (Tree.node si (Kind.scope abv tp pv pb pf) sd sc ssb ssb2 snx).subIds := h
                rcases List.mem_append.mp hj2 with h2 | h2
                · exact Or.inl h2
                · right
                  intro he
                  rw [he] at h2
                  exact rootOnly_lookup_subIds t v _ y hro hvs.1 hvr1 hlk h2
              · exact Or.inr h
            · intro a ha
              rcases List.mem_cons.mp ha with h | h
              · exact absurd h (by simp)
              · exact List.mem_cons_of_mem (some v) (ih.2.2.2.2 a h)
          | netlist =>
            try dsimp only [Tree.kind]
            rcases hr : scopePass rest t s with ⟨rest1, t1, s1, r⟩
            have ih := scopePass_survive rest t s y rid hrid hro htop hrest
            rw [hr] at ih
            refine ⟨ih.1, ih.2.1, ih.2.2.1, ih.2.2.2.1, ?_⟩
            intro a ha
            rcases List.mem_cons.mp ha with h | h
            · exact h ▸ List.mem_cons_self (some v) rest
            · exact List.mem_cons_of_mem (some v) (ih.2.2.2.2 a h)
          | module a b e =>
            try dsimp only [Tree.kind]
            rcases hr : scopePass rest t s with ⟨rest1, t1, s1, r⟩
            have ih := scopePass_survive rest t s y rid hrid hro htop hrest
            rw [hr] at ih
            refine ⟨ih.1, ih.2.1, ih.2.2.1, ih.2.2.2.1, ?_⟩
            intro a ha
            rcases List.mem_cons.mp ha with h | h
            · exact h ▸ List.mem_cons_self (some v) rest
            · exact List.mem_cons_of_mem (some v) (ih.2.2.2.2 a h)
          | cell a =>
            try dsimp only [Tree.kind]
            rcases hr : scopePass rest t s with ⟨rest1, t1, s1, r⟩
            have ih := scopePass_survive rest t s y rid hrid hro htop hrest
            rw [hr] at ih
            refine ⟨ih.1, ih.2.1, ih.2.2.1, ih.2.2.2.1, ?_⟩
            intro a ha
            rcases List.mem_cons.mp ha with h | h
            · exact h ▸ List.mem_cons_self (some v) rest
            · exact List.mem_cons_of_mem (some v) (ih.2.2.2.2 a h)
          | var a b e g q =>
            try dsimp only [Tree.kind]
            rcases hr : scopePass rest t s with ⟨rest1, t1, s1, r⟩
            have ih := scopePass_survive rest t s y rid hrid hro htop hrest
            rw [hr] at ih
            refine ⟨ih.1, ih.2.1, ih.2.2.1, ih.2.2.2.1, ?_⟩
            intro a ha
            rcases List.mem_cons.mp ha with h | h
            · exact h ▸ List.mem_cons_self (some v) rest
            · exact List.mem_cons_of_mem (some v) (ih.2.2.2.2 a h)
          | varScope a b =>
            try dsimp only [Tree.kind]
            rcases hr : scopePass rest t s with ⟨rest1, t1, s1, r⟩
            have ih := scopePass_survive rest t s y rid hrid hro htop hrest
            rw [hr] at ih
            refine ⟨ih.1, ih.2.1, ih.2.2.1, ih.2.2.2.1, ?_⟩
            intro a ha
            rcases List.mem_cons.mp ha with h | h
            · exact h ▸ List.mem_cons_self (some v) rest
            · exact List.mem_cons_of_mem (some v) (ih.2.2.2.2 a h)
          | dtype a b e g =>
            try dsimp only [Tree.kind]
            rcases hr : scopePass rest t s with ⟨rest1, t1, s1, r⟩
            have ih := scopePass_survive rest t s y rid hrid hro htop hrest
            rw [hr] at ih
            refine ⟨ih.1, ih.2.1, ih.2.2.1, ih.2.2.2.1, ?_⟩
            intro a ha
            rcases List.mem_cons.mp ha with h | h
            · exact h ▸ List.mem_cons_self (some v) rest
            · exact List.mem_cons_of_mem (some v) (ih.2.2.2.2 a h)
          | refDType a b e =>
            try dsimp only [Tree.kind]
            rcases hr : scopePass rest t s with ⟨rest1, t1, s1, r⟩
            have ih := scopePass_survive rest t s y rid hrid hro htop hrest
            rw [hr] at ih
            refine ⟨ih.1, ih.2.1, ih.2.2.1, ih.2.2.2.1, ?_⟩
            intro a ha
            rcases List.mem_cons.mp ha with h | h
            · exact h ▸ List.mem_cons_self (some v) rest
            · exact List.mem_cons_of_mem (some v) (ih.2.2.2.2 a h)
          | enumItemRef a =>
            try dsimp only [Tree.kind]
            rcases hr : scopePass rest t s with ⟨rest1, t1, s1, r⟩
            have ih := scopePass_survive rest t s y rid hrid hro htop hrest
            rw [hr] at ih
            refine ⟨ih.1, ih.2.1, ih.2.2.1, ih.2.2.2.1, ?_⟩
            intro a ha
            rcases List.mem_cons.mp ha with h | h
            · exact h ▸ List.mem_cons_self (some v) rest
            · exact List.mem_cons_of_mem (some v) (ih.2.2.2.2 a h)
          | varRef a b e =>
            try dsimp only [Tree.kind]
            rcases hr : scopePass rest t s with ⟨rest1, t1, s1, r⟩
            have ih := scopePass_survive rest t s y rid hrid hro htop hrest
            rw [hr] at ih
            refine ⟨ih.1, ih.2.1, ih.2.2.1, ih.2.2.2.1, ?_⟩
            intro a ha
            rcases List.mem_cons.mp ha with h | h
            · exact h ▸ List.mem_cons_self (some v) rest
            · exact List.mem_cons_of_mem (some v) (ih.2.2.2.2 a h)
          | ftaskRef a =>
            try dsimp only [Tree.kind]
            rcases hr : scopePass rest t s with ⟨rest1, t1, s1, r⟩
            have ih := scopePass_survive rest t s y rid hrid hro htop hrest
            rw [hr] at ih
            refine ⟨ih.1, ih.2.1, ih.2.2.1, ih.2.2.2.1, ?_⟩
            intro a ha
            rcases List.mem_cons.mp ha with h | h
            · exact h ▸ List.mem_cons_self (some v) rest
            · exact List.mem_cons_of_mem (some v) (ih.2.2.2.2 a h)
          | typedefD a =>
            try dsimp only [Tree.kind]
            rcases hr : scopePass rest t s with ⟨rest1, t1, s1, r⟩
            have ih := scopePass_survive rest t s y rid hrid hro htop hrest
            rw [hr] at ih
            refine ⟨ih.1, ih.2.1, ih.2.2.1, ih.2.2.2.1, ?_⟩
            intro a ha
            rcases List.mem_cons.mp ha with h | h
            · exact h ▸ List.mem_cons_self (some v) rest
            · exact List.mem_cons_of_mem (some v) (ih.2.2.2.2 a h)
          | modport a =>
            try dsimp only [Tree.kind]
            rcases hr : scopePass rest t s with ⟨rest1, t1, s1, r⟩
            have ih := scopePass_survive rest t s y rid hrid hro htop hrest
            rw [hr] at ih
            refine ⟨ih.1, ih.2.1, ih.2.2.1, ih.2.2.2.1, ?_⟩
            intro a ha
            rcases List.mem_cons.mp ha with h | h
            · exact h ▸ List.mem_cons_self (some v) rest
            · exact List.mem_cons_of_mem (some v) (ih.2.2.2.2 a h)
          | cfunc a =>
            try dsimp only [Tree.kind]
            rcases hr : scopePass rest t s with ⟨rest1, t1, s1, r⟩
            have ih := scopePass_survive rest t s y rid hrid hro htop hrest
            rw [hr] at ih
            refine ⟨ih.1, ih.2.1, ih.2.2.1, ih.2.2.2.1, ?_⟩
            intro a ha
            rcases List.mem_cons.mp ha with h | h
            · exact h ▸ List.mem_cons_self (some v) rest
            · exact List.mem_cons_of_mem (some v) (ih.2.2.2.2 a h)
          | assign =>
            try dsimp only [Tree.kind]
            rcases hr : scopePass rest t s with ⟨rest1, t1, s1, r⟩
            have ih := scopePass_survive rest t s y rid hrid hro htop hrest
            rw [hr] at ih
            refine ⟨ih.1, ih.2.1, ih.2.2.1, ih.2.2.2.1, ?_⟩
            intro a ha
            rcases List.mem_cons.mp ha with h | h
            · exact h ▸ List.mem_cons_self (some v) rest
            · exact List.mem_cons_of_mem (some v) (ih.2.2.2.2 a h)
          | other a b =>
            try dsimp only [Tree.kind]
            rcases hr : scopePass rest t s with ⟨rest1, t1, s1, r⟩
            have ih := scopePass_survive rest t s y rid hrid hro htop hrest
            rw [hr] at ih
            refine ⟨ih.1, ih.2.1, ih.2.2.1, ih.2.2.2.1, ?_⟩
            intro a ha
            rcases List.mem_cons.mp ha with h | h
            · exact h ▸ List.mem_cons_self (some v) rest
            · exact List.mem_cons_of_mem (some v) (ih.2.2.2.2 a h)
    · simp only [scopePass, if_neg h0]
      rcases hr : scopePass rest t s with ⟨rest1, t1, s1, r⟩
      have ih := scopePass_survive rest t s y rid hrid hro htop hrest
      rw [hr] at ih
      refine ⟨ih.1, ih.2.1, ih.2.2.1, ih.2.2.2.1, ?_⟩
      intro a ha
      rcases List.mem_cons.mp ha with h | h
      · exact h ▸ List.mem_cons_self (some v) rest
      · exact List.mem_cons_of_mem (some v) (ih.2.2.2.2 a h)

theorem scopeLoop_survive : (fuel : Nat) → (slots : List (Option Nat)) → (t : Tree) → (s : St) →
    (y rid : Nat) →
    t.id = rid →
    rootOnly y t = true → y ∈ topIds t.sub →
    (∀ v, some v ∈ slots → v ≠ y ∧ v ≠ rid) →
    rootOnly y (scopeLoop fuel slots t s).2.1 = true ∧
    y ∈ topIds (scopeLoop fuel slots t s).2.1.sub ∧
    (scopeLoop fuel slots t s).2.1.id = rid ∧
    (∀ j ∈ (scopeLoop fuel slots t s).2.2.1.deletedIds, j ∈ s.deletedIds ∨ j ≠ y)
  | 0, _, t, s, y, rid, hrid, hro, htop, _ => ⟨hro, htop, hrid, fun j hj => Or.inl hj⟩
  | fuel + 1, slots, t, s, y, rid, hrid, hro, htop, hsl => by
    simp only [scopeLoop]
    rcases hp : scopePass slots t s with ⟨slots1, t1, s1, retry⟩
    have hvp := scopePass_survive slots t s y rid hrid hro htop hsl
    rw [hp] at hvp
    by_cases hre : retry = true
    · rw [if_pos hre]
      have ih := scopeLoop_survive fuel slots1 t1 s1 y rid hvp.2.2.1 hvp.1 hvp.2.1
        (fun a ha => hsl a (hvp.2.2.2.2 a ha))
      refine ⟨ih.1, ih.2.1, ih.2.2.1, fun j hj => ?_⟩
      rcases ih.2.2.2 j hj with h | h
      · exact hvp.2.2.2.1 j h
      · exact Or.inr h
    · rw [if_neg hre]
      exact ⟨hvp.1, hvp.2.1, hvp.2.2.1, hvp.2.2.2.1⟩

end V3Dead

namespace V3Dead

theorem cellPhase_survive : (l : List Nat) → (t : Tree) → (s : St) → (y rid : Nat) →
    t.id = rid →
    rootOnly y t = true → y ∈ topIds t.sub →
    (∀ v ∈ l, v ≠ y ∧ v ≠ rid) →
    rootOnly y (cellPhase l t s).1 = true ∧ y ∈ topIds (cellPhase l t s).1.sub ∧
    (cellPhase l t s).1.id = rid ∧
    (∀ j ∈ (cellPhase l t s).2.deletedIds, j ∈ s.deletedIds ∨ j ≠ y)
  | [], t, s, y, rid, hrid, hro, htop, _ => ⟨hro, htop, hrid, fun j hj => Or.inl hj⟩
  | cId :: rest, t, s, y, rid, hrid, hro, htop, hl => by
    have hcs := hl cId (List.mem_cons_self cId rest)
    have hrest : ∀ a ∈ rest, a ≠ y ∧ a ≠ rid := fun a ha => hl a (List.mem_cons_of_mem cId ha)
    simp only [cellPhase]
    cases hlk : t.lookup cId with
    | none => exact cellPhase_survive rest t s y rid hrid hro htop hrest
    | some cn =>
      rcases cn with _ | ⟨ci, ck, cd, cc, csb, csb2, cnx⟩
      · exact cellPhase_survive rest t s y rid hrid hro htop hrest
      · cases ck with
        | cell mt =>
          simp only [Tree.kind]
          try dsimp only
          split
          · have hvr1 : cId ≠ t.id := by rw [hrid]; exact hcs.2
            have hnn : t ≠ .nil := by
              intro he
              rw [he] at hlk
              simp [Tree.lookup] at hlk
            have hrr := removeSub_root t cId hvr1 hnn
            have ih := cellPhase_survive rest (t.removeSub cId)
                (logDel (Tree.node ci (Kind.cell mt) cd cc csb csb2 cnx)
                  { s with uses := bump s.uses mt (-1) }) y rid
                (hrr.1.trans hrid) (rootOnly_removeSub t cId y hvr1 hro)
                (topIds_sub_removeSub t cId y hcs.1 hvr1 htop) hrest
            refine ⟨ih.1, ih.2.1, ih.2.2.1, fun j hj => ?_⟩
            rcases ih.2.2.2 j hj with h | h
            · have hj2 : j ∈ s.deletedIds ++
                  (Tree.node ci (Kind.cell mt) cd cc csb csb2 cnx).subIds := h
              rcases List.mem_append.mp hj2 with h2 | h2
              · exact Or.inl h2
              · right
                intro he
                rw [he] at h2
                exact rootOnly_lookup_subIds t cId _ y hro hcs.1 hvr1 hlk h2
            · exact Or.inr h
          · exact cellPhase_survive rest t s y rid hrid hro htop hrest
        | netlist => exact cellPhase_survive rest t s y rid hrid hro htop hrest
        | module a b e => exact cellPhase_survive rest t s y rid hrid hro htop hrest
        | scope a b e g q => exact cellPhase_survive rest t s y rid hrid hro htop hrest
        | varScope a b => exact cellPhase_survive rest t s y rid hrid hro htop hrest
        | var a b e g q => exact cellPhase_survive rest t s y rid hrid hro htop hrest
        | dtype a b e g => exact cellPhase_survive rest t s y rid hrid hro htop hrest
        | refDType a b e => exact cellPhase_survive rest t s y rid hrid hro htop hrest
        | enumItemRef a => exact cellPhase_survive rest t s y rid hrid hro htop hrest
        | varRef a b e => exact cellPhase_survive rest t s y rid hrid hro htop hrest
        | ftaskRef a => exact cellPhase_survive rest t s y rid hrid hro htop hrest
        | typedefD a => exact cellPhase_survive rest t s y rid hrid hro htop hrest
        | modport a => exact cellPhase_survive rest t s y rid hrid hro htop hrest
        | cfunc a => exact cellPhase_survive rest t s y rid hrid hro htop hrest
        | assign => exact cellPhase_survive rest t s y rid hrid hro htop hrest
        | other a b => exact cellPhase_survive rest t s y rid hrid hro htop hrest

end V3Dead


namespace V3Dead

theorem modPass_survive : (ms : Tree) → (s : St) → (y : Nat) →
    (∀ x ∈ sFacts ms, avoidsSweep y x = true) →
    1 ≤ s.uses y → onlyTopIn y ms = true →
    (y ∈ topIds ms → y ∈ topIds (modPass ms s).1) ∧
    onlyTopIn y (modPass ms s).1 = true ∧
    (∀ j ∈ (modPass ms s).2.1.deletedIds, j ∈ s.deletedIds ∨ j ≠ y)
  | .nil, s, y, _, _, _ => ⟨fun hy => hy, rfl, fun j hj => Or.inl hj⟩
  | .node i k d c sb sb2 nx, s, y, hav, huse, honlyB => by
    have honly : (y ∉ sb.ids ∧ y ∉ sb2.ids) ∧ onlyTopIn y nx = true := by
      simp only [onlyTopIn, Bool.and_eq_true, decide_eq_true_eq] at honlyB
      exact honlyB
    have hnx : ∀ x ∈ sFacts nx, avoidsSweep y x = true := by
      intro x hx
      refine hav x ?_
      rw [sfacts_node]
      simp only [List.mem_cons, List.mem_append]
      exact Or.inr (Or.inr hx)
    cases k with
    | module lvl intl pkg =>
      simp only [modPass]
      by_cases hg : lvl > 2 ∧ s.uses i = 0 ∧ ¬intl
      · have hiy : i ≠ y := by
          intro he
          rw [he] at hg
          have := hg.2.1
          omega
        rw [if_pos hg]
        have hdm : ∀ x ∈ sFacts (Tree.node i (Kind.module lvl intl pkg) d c sb sb2 Tree.nil),
            avoidsSweep y x = true := by
          intro x hx
          refine hav x ?_
          rw [sfacts_node] at hx ⊢
          simp only [List.mem_cons, List.mem_append] at hx ⊢
          rcases hx with h | ⟨h | h⟩ | h
          · exact Or.inl h
          · exact Or.inr (Or.inl (Or.inl h))
          · exact Or.inr (Or.inl (Or.inr h))
          · simp [sFacts, nodeFacts] at h
        rcases hp : modPass nx { logDel (Tree.node i (Kind.module lvl intl pkg) d c sb sb2 nx) s with uses := dmC (Tree.node i (Kind.module lvl intl pkg) d c sb sb2 Tree.nil) (logDel (Tree.node i (Kind.module lvl intl pkg) d c sb sb2 nx) s).uses } with ⟨nx1, s1, r⟩
        try dsimp only
        have huse2 : 1 ≤ ({ logDel (Tree.node i (Kind.module lvl intl pkg) d c sb sb2 nx) s with uses := dmC (Tree.node i (Kind.module lvl intl pkg) d c sb sb2 Tree.nil) (logDel (Tree.node i (Kind.module lvl intl pkg) d c sb sb2 nx) s).uses } : St).uses y := by
          show 1 ≤ dmC (Tree.node i (Kind.module lvl intl pkg) d c sb sb2 Tree.nil)
            (logDel (Tree.node i (Kind.module lvl intl pkg) d c sb sb2 nx) s).uses y
          rw [dmC_presU _ _ y hdm]
          exact huse
        have ih := modPass_survive nx _ y hnx huse2 honly.2
        rw [hp] at ih
        refine ⟨?_, ih.2.1, ?_⟩
        · intro hy
          rcases List.mem_cons.mp hy with h | h
          · exact absurd h.symm hiy
          · exact ih.1 h
        · intro j hj
          rcases ih.2.2 j hj with h | h
          · have hj2 : j ∈ s.deletedIds ++
                (Tree.node i (Kind.module lvl intl pkg) d c sb sb2 nx).subIds := h
            rcases List.mem_append.mp hj2 with h2 | h2
            · exact Or.inl h2
            · right
              intro he
              rw [he] at h2
              simp only [Tree.subIds, List.mem_cons, List.mem_append] at h2
              rcases h2 with h3 | h3 | h3
              · exact hiy h3.symm
              · exact honly.1.1 h3
              · exact honly.1.2 h3
          · exact Or.inr h
      · rw [if_neg hg]
        rcases hp : modPass nx s with ⟨nx1, s1, r⟩
        try dsimp only
        have ih := modPass_survive nx s y hnx huse honly.2
        rw [hp] at ih
        refine ⟨?_, ?_, ih.2.2⟩
        · intro hy
          simp only [topIds, List.mem_cons] at hy ⊢
          rcases hy with h | h
          · exact Or.inl h
          · exact Or.inr (ih.1 h)
        · simp only [onlyTopIn, Bool.and_eq_true, decide_eq_true_eq]
          exact ⟨⟨honly.1.1, honly.1.2⟩, ih.2.1⟩
    | netlist =>
      simp only [modPass]
      rcases hp : modPass nx s with ⟨nx1, s1, r⟩
      try dsimp only
      have ih := modPass_survive nx s y hnx huse honly.2
      rw [hp] at ih
      refine ⟨?_, ?_, ih.2.2⟩
      · intro hy
        simp only [topIds, List.mem_cons] at hy ⊢
        rcases hy with h | h
        · exact Or.inl h
        · exact Or.inr (ih.1 h)
      · simp only [onlyTopIn, Bool.and_eq_true, decide_eq_true_eq]
        exact ⟨⟨honly.1.1, honly.1.2⟩, ih.2.1⟩
    | cell a =>
      simp only [modPass]
      rcases hp : modPass nx s with ⟨nx1, s1, r⟩
      try dsimp only
      have ih := modPass_survive nx s y hnx huse honly.2
      rw [hp] at ih
      refine ⟨?_, ?_, ih.2.2⟩
      · intro hy
        simp only [topIds, List.mem_cons] at hy ⊢
        rcases hy with h | h
        · exact Or.inl h
        · exact Or.inr (ih.1 h)
      · simp only [onlyTopIn, Bool.and_eq_true, decide_eq_true_eq]
        exact ⟨⟨honly.1.1, honly.1.2⟩, ih.2.1⟩
    | scope a b e g q =>
      simp only [modPass]
      rcases hp : modPass nx s with ⟨nx1, s1, r⟩
      try dsimp only
      have ih := modPass_survive nx s y hnx huse honly.2
      rw [hp] at ih
      refine ⟨?_, ?_, ih.2.2⟩
      · intro hy
        simp only [topIds, List.mem_cons] at hy ⊢
        rcases hy with h | h
        · exact Or.inl h
        · exact Or.inr (ih.1 h)
      · simp only [onlyTopIn, Bool.and_eq_true, decide_eq_true_eq]
        exact ⟨⟨honly.1.1, honly.1.2⟩, ih.2.1⟩
    | varScope a b =>
      simp only [modPass]
      rcases hp : modPass nx s with ⟨nx1, s1, r⟩
      try dsimp only
      have ih := modPass_survive nx s y hnx huse honly.2
      rw [hp] at ih
      refine ⟨?_, ?_, ih.2.2⟩
      · intro hy
        simp only [topIds, List.mem_cons] at hy ⊢
        rcases hy with h | h
        · exact Or.inl h
        · exact Or.inr (ih.1 h)
      · simp only [onlyTopIn, Bool.and_eq_true, decide_eq_true_eq]
        exact ⟨⟨honly.1.1, honly.1.2⟩, ih.2.1⟩
    | var a b e g q =>
      simp only [modPass]
      rcases hp : modPass nx s with ⟨nx1, s1, r⟩
      try dsimp only
      have ih := modPass_survive nx s y hnx huse honly.2
      rw [hp] at ih
      refine ⟨?_, ?_, ih.2.2⟩
      · intro hy
        simp only [topIds, List.mem_cons] at hy ⊢
        rcases hy with h | h
        · exact Or.inl h
        · exact Or.inr (ih.1 h)
      · simp only [onlyTopIn, Bool.and_eq_true, decide_eq_true_eq]
        exact ⟨⟨honly.1.1, honly.1.2⟩, ih.2.1⟩
    | dtype a b e g =>
      simp only [modPass]
      rcases hp : modPass nx s with ⟨nx1, s1, r⟩
      try dsimp only
      have ih := modPass_survive nx s y hnx huse honly.2
      rw [hp] at ih
      refine ⟨?_, ?_, ih.2.2⟩
      · intro hy
        simp only [topIds, List.mem_cons] at hy ⊢
        rcases hy with h | h
        · exact Or.inl h
        · exact Or.inr (ih.1 h)
      · simp only [onlyTopIn, Bool.and_eq_true, decide_eq_true_eq]
        exact ⟨⟨honly.1.1, honly.1.2⟩, ih.2.1⟩
    | refDType a b e =>
      simp only [modPass]
      rcases hp : modPass nx s with ⟨nx1, s1, r⟩
      try dsimp only
      have ih := modPass_survive nx s y hnx huse honly.2
      rw [hp] at ih
      refine ⟨?_, ?_, ih.2.2⟩
      · intro hy
        simp only [topIds, List.mem_cons] at hy ⊢
        rcases hy with h | h
        · exact Or.inl h
        · exact Or.inr (ih.1 h)
      · simp only [onlyTopIn, Bool.and_eq_true, decide_eq_true_eq]
        exact ⟨⟨honly.1.1, honly.1.2⟩, ih.2.1⟩
    | enumItemRef a =>
      simp only [modPass]
      rcases hp : modPass nx s with ⟨nx1, s1, r⟩
      try dsimp only
      have ih := modPass_survive nx s y hnx huse honly.2
      rw [hp] at ih
      refine ⟨?_, ?_, ih.2.2⟩
      · intro hy
        simp only [topIds, List.mem_cons] at hy ⊢
        rcases hy with h | h
        · exact Or.inl h
        · exact Or.inr (ih.1 h)
      · simp only [onlyTopIn, Bool.and_eq_true, decide_eq_true_eq]
        exact ⟨⟨honly.1.1, honly.1.2⟩, ih.2.1⟩
    | varRef a b e =>
      simp only [modPass]
      rcases hp : modPass nx s with ⟨nx1, s1, r⟩
      try dsimp only
      have ih := modPass_survive nx s y hnx huse honly.2
      rw [hp] at ih
      refine ⟨?_, ?_, ih.2.2⟩
      · intro hy
        simp only [topIds, List.mem_cons] at hy ⊢
        rcases hy with h | h
        · exact Or.inl h
        · exact Or.inr (ih.1 h)
      · simp only [onlyTopIn, Bool.and_eq_true, decide_eq_true_eq]
        exact ⟨⟨honly.1.1, honly.1.2⟩, ih.2.1⟩
    | ftaskRef a =>
      simp only [modPass]
      rcases hp : modPass nx s with ⟨nx1, s1, r⟩
      try dsimp only
      have ih := modPass_survive nx s y hnx huse honly.2
      rw [hp] at ih
      refine ⟨?_, ?_, ih.2.2⟩
      · intro hy
        simp only [topIds, List.mem_cons] at hy ⊢
        rcases hy with h | h
        · exact Or.inl h
        · exact Or.inr (ih.1 h)
      · simp only [onlyTopIn, Bool.and_eq_true, decide_eq_true_eq]
        exact ⟨⟨honly.1.1, honly.1.2⟩, ih.2.1⟩
    | typedefD a =>
      simp only [modPass]
      rcases hp : modPass nx s with ⟨nx1, s1, r⟩
      try dsimp only
      have ih := modPass_survive nx s y hnx huse honly.2
      rw [hp] at ih
      refine ⟨?_, ?_, ih.2.2⟩
      · intro hy
        simp only [topIds, List.mem_cons] at hy ⊢
        rcases hy with h | h
        · exact Or.inl h
        · exact Or.inr (ih.1 h)
      · simp only [onlyTopIn, Bool.and_eq_true, decide_eq_true_eq]
        exact ⟨⟨honly.1.1, honly.1.2⟩, ih.2.1⟩
    | modport a =>
      simp only [modPass]
      rcases hp : modPass nx s with ⟨nx1, s1, r⟩
      try dsimp only
      have ih := modPass_survive nx s y hnx huse honly.2
      rw [hp] at ih
      refine ⟨?_, ?_, ih.2.2⟩
      · intro hy
        simp only [topIds, List.mem_cons] at hy ⊢
        rcases hy with h | h
        · exact Or.inl h
        · exact Or.inr (ih.1 h)
      · simp only [onlyTopIn, Bool.and_eq_true, decide_eq_true_eq]
        exact ⟨⟨honly.1.1, honly.1.2⟩, ih.2.1⟩
    | cfunc a =>
      simp only [modPass]
      rcases hp : modPass nx s with ⟨nx1, s1, r⟩
      try dsimp only
      have ih := modPass_survive nx s y hnx huse honly.2
      rw [hp] at ih
      refine ⟨?_, ?_, ih.2.2⟩
      · intro hy
        simp only [topIds, List.mem_cons] at hy ⊢
        rcases hy with h | h
        · exact Or.inl h
        · exact Or.inr (ih.1 h)
      · simp only [onlyTopIn, Bool.and_eq_true, decide_eq_true_eq]
        exact ⟨⟨honly.1.1, honly.1.2⟩, ih.2.1⟩
    | assign =>
      simp only [modPass]
      rcases hp : modPass nx s with ⟨nx1, s1, r⟩
      try dsimp only
      have ih := modPass_survive nx s y hnx huse honly.2
      rw [hp] at ih
      refine ⟨?_, ?_, ih.2.2⟩
      · intro hy
        simp only [topIds, List.mem_cons] at hy ⊢
        rcases hy with h | h
        · exact Or.inl h
        · exact Or.inr (ih.1 h)
      · simp only [onlyTopIn, Bool.and_eq_true, decide_eq_true_eq]
        exact ⟨⟨honly.1.1, honly.1.2⟩, ih.2.1⟩
    | other a b =>
      simp only [modPass]
      rcases hp : modPass nx s with ⟨nx1, s1, r⟩
      try dsimp only
      have ih := modPass_survive nx s y hnx huse honly.2
      rw [hp] at ih
      refine ⟨?_, ?_, ih.2.2⟩
      · intro hy
        simp only [topIds, List.mem_cons] at hy ⊢
        rcases hy with h | h
        · exact Or.inl h
        · exact Or.inr (ih.1 h)
      · simp only [onlyTopIn, Bool.and_eq_true, decide_eq_true_eq]
        exact ⟨⟨honly.1.1, honly.1.2⟩, ih.2.1⟩

theorem modLoop_survive : (fuel : Nat) → (ms : Tree) → (s : St) → (y : Nat) →
    (∀ x ∈ sFacts ms, avoidsSweep y x = true) →
    1 ≤ s.uses y → onlyTopIn y ms = true →
    (y ∈ topIds ms → y ∈ topIds (modLoop fuel ms s).1) ∧
    (∀ j ∈ (modLoop fuel ms s).2.1.deletedIds, j ∈ s.deletedIds ∨ j ≠ y)
  | 0, ms, s, y, _, _, _ => ⟨fun hy => hy, fun j hj => Or.inl hj⟩
  | fuel + 1, ms, s, y, hav, huse, honly => by
    simp only [modLoop]
    rcases hp : modPass ms s with ⟨ms1, s1, retry⟩
    have hmp := modPass_survive ms s y hav huse honly
    rw [hp] at hmp
    have hu1 : s1.uses y = s.uses y := by
      have := modPass_presU ms s y hav
      rw [hp] at this
      exact this
    have hsf : ∀ x ∈ sFacts ms1, avoidsSweep y x = true := by
      intro x hx
      have := modPass_sfacts ms s
      rw [hp] at this
      exact hav x (this x hx)
    by_cases hre : retry = true
    · rw [if_pos hre]
      have ih := modLoop_survive fuel ms1 s1 y hsf (by rw [hu1]; exact huse) hmp.2.1
      refine ⟨fun hy => ih.1 (hmp.1 hy), fun j hj => ?_⟩
      rcases ih.2 j hj with h | h
      · exact hmp.2.2 j h
      · exact Or.inr h
    · rw [if_neg hre]
      exact ⟨hmp.1, hmp.2.2⟩

theorem deadCheckModF_survive (t : Tree) (s : St) (y : Nat)
    (hav : ∀ x ∈ sFacts t.sub, avoidsSweep y x = true)
    (huse : 1 ≤ s.uses y)
    (hro : rootOnly y t = true) (htop : y ∈ topIds t.sub) :
    y ∈ topIds (deadCheckModF t s).1.sub ∧
    (∀ j ∈ (deadCheckModF t s).2.deletedIds, j ∈ s.deletedIds ∨ j ≠ y) := by
  rcases t with _ | ⟨i, k, d, c, sb, sb2, nx⟩
  · simp only [Tree.sub, topIds] at htop
    exact absurd htop (List.not_mem_nil y)
  · simp only [rootOnly, Bool.and_eq_true, decide_eq_true_eq] at hro
    simp only [deadCheckModF]
    rcases hp : modLoop (sb.chainLen + 1) sb s with ⟨sb1, s1, r⟩
    have hml := modLoop_survive (sb.chainLen + 1) sb s y hav huse hro.1.1.2
    rw [hp] at hml
    try dsimp only
    exact ⟨hml.1 htop, hml.2⟩

end V3Dead

namespace V3Dead

theorem deadCheckVarF_presU (t : Tree) (s : St) (y : Nat)
    (hav : ∀ x ∈ sFacts t, avoidsSweep y x = true) :
    (deadCheckVarF t s).2.uses y = s.uses y := by
  unfold deadCheckVarF
  rcases h1 : vscPhase s.vscsp t s with ⟨t1, s1⟩
  have hu1 := vscPhase_presU s.vscsp t s y hav
  rw [h1] at hu1
  have hs1 : FactsSub t1 t := by
    have := vscPhase_sfacts s.vscsp t s
    rw [h1] at this
    exact this
  have hav1 : ∀ x ∈ sFacts t1, avoidsSweep y x = true := fun x hx => hav x (hs1 x hx)
  dsimp only
  rcases h2 : varLoop (List.length (List.map some s1.varsp) + 1)
      (List.map some s1.varsp) t1 s1 with ⟨l2, t2, s2, d2⟩
  have hu2 := varLoop_presU (List.length (List.map some s1.varsp) + 1)
      (List.map some s1.varsp) t1 s1 y hav1
  rw [h2] at hu2
  dsimp only
  rw [dtypePhase_uses, hu2, hu1]

theorem deadCheckScopeF_presU (t : Tree) (s : St) (y : Nat)
    (hav : ∀ x ∈ sFacts t, avoidsSweep y x = true) :
    (deadCheckScopeF t s).2.uses y = s.uses y := by
  unfold deadCheckScopeF
  dsimp only
  rcases h1 : scopeLoop (List.length (List.map some s.scopesp) + 1)
      (List.map some s.scopesp) t s with ⟨l1, t1, s1, d1⟩
  have hu1 := scopeLoop_presU (List.length (List.map some s.scopesp) + 1)
      (List.map some s.scopesp) t s y hav
  rw [h1] at hu1
  exact hu1

theorem deadCheckCellsF_presU (t : Tree) (s : St) (y : Nat)
    (hav : ∀ x ∈ sFacts t, avoidsSweep y x = true) :
    (deadCheckCellsF t s).2.uses y = s.uses y := by
  unfold deadCheckCellsF
  exact cellPhase_presU s.cellsp t s y hav

theorem deadCheckVarF_survive (t : Tree) (s : St) (y rid : Nat)
    (hrid : t.id = rid) (hro : rootOnly y t = true) (htop : y ∈ topIds t.sub)
    (hvsc : ∀ v ∈ s.vscsp, v ≠ y ∧ v ≠ rid)
    (ham : ∀ a ∈ s.assignMap.map (fun p => p.2), a ≠ y ∧ a ≠ rid)
    (hvars : ∀ v ∈ s.varsp, v ≠ y ∧ v ≠ rid)
    (hdts : ∀ v ∈ s.dtypesp, v ≠ y ∧ v ≠ rid) :
    rootOnly y (deadCheckVarF t s).1 = true ∧ y ∈ topIds (deadCheckVarF t s).1.sub ∧
    (deadCheckVarF t s).1.id = rid ∧
    (∀ j ∈ (deadCheckVarF t s).2.deletedIds, j ∈ s.deletedIds ∨ j ≠ y) := by
  unfold deadCheckVarF
  rcases h1 : vscPhase s.vscsp t s with ⟨t1, s1⟩
  have hv1 := vscPhase_survive s.vscsp t s y rid hrid hro htop hvsc ham
  rw [h1] at hv1
  have hls1 : lists s1 = lists s := by
    have := vscPhase_lists s.vscsp t s
    rw [h1] at this
    exact this
  dsimp only
  rcases h2 : varLoop (List.length (List.map some s1.varsp) + 1)
      (List.map some s1.varsp) t1 s1 with ⟨l2, t2, s2, d2⟩
  have hsl : ∀ v, some v ∈ List.map some s1.varsp → v ≠ y ∧ v ≠ rid := by
    intro v hvm
    rcases List.mem_map.mp hvm with ⟨a, ha, hae⟩
    have hae2 : a = v := by injection hae
    rw [hae2] at ha
    rw [lists_varsp hls1] at ha
    exact hvars v ha
  have hv2 := varLoop_survive (List.length (List.map some s1.varsp) + 1)
      (List.map some s1.varsp) t1 s1 y rid hv1.2.2.1 hv1.1 hv1.2.1 hsl
  rw [h2] at hv2
  have hls2 : lists s2 = lists s1 := by
    have := varLoop_lists (List.length (List.map some s1.varsp) + 1)
      (List.map some s1.varsp) t1 s1
    rw [h2] at this
    exact this
  dsimp only
  have hdts2 : ∀ v ∈ s2.dtypesp, v ≠ y ∧ v ≠ rid := by
    intro v hvd
    rw [lists_dtypesp hls2, lists_dtypesp hls1] at hvd
    exact hdts v hvd
  have hv3 := dtypePhase_survive s2.dtypesp t2 s2 y rid hv2.2.2.1 hv2.1 hv2.2.1 hdts2
  refine ⟨hv3.1, hv3.2.1, hv3.2.2.1, fun j hj => ?_⟩
  rcases hv3.2.2.2 j hj with h | h
  · rcases hv2.2.2.2 j h with h2 | h2
    · exact hv1.2.2.2 j h2
    · exact Or.inr h2
  · exact Or.inr h

theorem deadCheckScopeF_survive (t : Tree) (s : St) (y rid : Nat)
    (hrid : t.id = rid) (hro : rootOnly y t = true) (htop : y ∈ topIds t.sub)
    (hscps : ∀ v ∈ s.scopesp, v ≠ y ∧ v ≠ rid) :
    rootOnly y (deadCheckScopeF t s).1 = true ∧ y ∈ topIds (deadCheckScopeF t s).1.sub ∧
    (deadCheckScopeF t s).1.id = rid ∧
    (∀ j ∈ (deadCheckScopeF t s).2.deletedIds, j ∈ s.deletedIds ∨ j ≠ y) := by
  unfold deadCheckScopeF
  dsimp only
  rcases h1 : scopeLoop (List.length (List.map some s.scopesp) + 1)
      (List.map some s.scopesp) t s with ⟨l1, t1, s1, d1⟩
  have hsl : ∀ v, some v ∈ List.map some s.scopesp → v ≠ y ∧ v ≠ rid := by
    intro v hvm
    rcases List.mem_map.mp hvm with ⟨a, ha, hae⟩
    have hae2 : a = v := by injection hae
    rw [hae2] at ha
    exact hscps v ha
  have hv1 := scopeLoop_survive (List.length (List.map some s.scopesp) + 1)
      (List.map some s.scopesp) t s y rid hrid hro htop hsl
  rw [h1] at hv1
  exact ⟨hv1.1, hv1.2.1, hv1.2.2.1, hv1.2.2.2⟩

theorem deadCheckCellsF_survive (t : Tree) (s : St) (y rid : Nat)
    (hrid : t.id = rid) (hro : rootOnly y t = true) (htop : y ∈ topIds t.sub)
    (hcells : ∀ v ∈ s.cellsp, v ≠ y ∧ v ≠ rid) :
    rootOnly y (deadCheckCellsF t s).1 = true ∧ y ∈ topIds (deadCheckCellsF t s).1.sub ∧
    (deadCheckCellsF t s).1.id = rid ∧
    (∀ j ∈ (deadCheckCellsF t s).2.deletedIds, j ∈ s.deletedIds ∨ j ≠ y) := by
  unfold deadCheckCellsF
  exact cellPhase_survive s.cellsp t s y rid hrid hro htop hcells

end V3Dead

namespace V3Dead

theorem sfacts_sub_mem (t : Tree) : ∀ x ∈ sFacts t.sub, x ∈ sFacts t := by
  rcases t with _ | ⟨i, k, d, c, sb, sb2, nx⟩
  · exact fun x hx => hx
  · intro x hx
    simp only [Tree.sub] at hx
    rw [sfacts_node]
    simp only [List.mem_cons, List.mem_append]
    exact Or.inr (Or.inl (Or.inl hx))

theorem deadCheckVarF_lists (t : Tree) (s : St) :
    lists (deadCheckVarF t s).2 = lists s := by
  unfold deadCheckVarF
  rcases h1 : vscPhase s.vscsp t s with ⟨t1, s1⟩
  have hl1 := vscPhase_lists s.vscsp t s
  rw [h1] at hl1
  dsimp only
  rcases h2 : varLoop (List.length (List.map some s1.varsp) + 1)
      (List.map some s1.varsp) t1 s1 with ⟨l2, t2, s2, d2⟩
  have hl2 := varLoop_lists (List.length (List.map some s1.varsp) + 1)
      (List.map some s1.varsp) t1 s1
  rw [h2] at hl2
  dsimp only
  rw [dtypePhase_lists, hl2, hl1]

theorem deadCheckScopeF_lists (t : Tree) (s : St) :
    lists (deadCheckScopeF t s).2 = lists s := by
  unfold deadCheckScopeF
  dsimp only
  rcases h1 : scopeLoop (List.length (List.map some s.scopesp) + 1)
      (List.map some s.scopesp) t s with ⟨l1, t1, s1, d1⟩
  have hl1 := scopeLoop_lists (List.length (List.map some s.scopesp) + 1)
      (List.map some s.scopesp) t s
  rw [h1] at hl1
  exact hl1

theorem deadCheckCellsF_lists (t : Tree) (s : St) :
    lists (deadCheckCellsF t s).2 = lists s := by
  unfold deadCheckCellsF
  exact cellPhase_lists s.cellsp t s

end V3Dead

namespace V3Dead

theorem deadCheckScopeF_sfacts (t : Tree) (s : St) :
    FactsSub (deadCheckScopeF t s).1 t := by
  unfold deadCheckScopeF
  dsimp only
  rcases h1 : scopeLoop (List.length (List.map some s.scopesp) + 1)
      (List.map some s.scopesp) t s with ⟨l1, t1, s1, d1⟩
  have := scopeLoop_sfacts (List.length (List.map some s.scopesp) + 1)
      (List.map some s.scopesp) t s
  rw [h1] at this
  exact this

theorem deadCheckCellsF_sfacts (t : Tree) (s : St) :
    FactsSub (deadCheckCellsF t s).1 t := by
  unfold deadCheckCellsF
  exact cellPhase_sfacts s.cellsp t s

end V3Dead

namespace V3Dead

/-- C7: a package module pinned by a public Var or public Typedef has a
strictly positive counter after the traversal, and the whole invocation
never deletes it: it survives as a top-level module of the result. -/
theorem C7_public_package_pin (f : Flags) (t t1 : Tree) (s1 : St) (y : Nat)
    (hrc : rcRun f t = (t1, s1))
    (hpin : pkgPin y t = true)
    (havoid : ∀ x ∈ sFacts t1, avoidsSweep y x = true)
    (hro : rootOnly y t1 = true) (htop : y ∈ topIds t1.sub)
    (hvsc : ∀ v ∈ s1.vscsp, v ≠ y ∧ v ≠ t1.id)
    (ham : ∀ a ∈ s1.assignMap.map (fun p => p.2), a ≠ y ∧ a ≠ t1.id)
    (hvars : ∀ v ∈ s1.varsp, v ≠ y ∧ v ≠ t1.id)
    (hdts : ∀ v ∈ s1.dtypesp, v ≠ y ∧ v ≠ t1.id)
    (hscps : ∀ v ∈ s1.scopesp, v ≠ y ∧ v ≠ t1.id)
    (hcells : ∀ v ∈ s1.cellsp, v ≠ y ∧ v ≠ t1.id)
    (hnd : y ∉ s1.deletedIds) :
    1 ≤ s1.uses y ∧
    y ∈ topIds (runDead f t).1.sub ∧ y ∉ (runDead f t).2.deletedIds := by
  have hpin1 : 1 ≤ s1.uses y := by
    have := rcRun_pkgPin f t y hpin
    rw [hrc] at this
    exact this
  have hru : runDead f t =
      (let r1 := deadCheckVarF t1 s1
       let r2 := if f.elimScopes then deadCheckScopeF r1.1 r1.2 else r1
       let r3 := if f.elimCells then deadCheckCellsF r2.1 r2.2 else r2
       deadCheckModF r3.1 r3.2) := by
    unfold runDead
    rw [hrc]
  rw [hru]
  dsimp only
  rcases h2 : deadCheckVarF t1 s1 with ⟨t2, s2⟩
  have hv2 := deadCheckVarF_survive t1 s1 y t1.id rfl hro htop hvsc ham hvars hdts
  rw [h2] at hv2
  have hu2 : s2.uses y = s1.uses y := by
    have := deadCheckVarF_presU t1 s1 y havoid
    rw [h2] at this
    exact this
  have hfs2 : FactsSub t2 t1 := by
    have := deadCheckVarF_sfacts t1 s1
    rw [h2] at this
    exact this
  have hav2 : ∀ x ∈ sFacts t2, avoidsSweep y x = true := fun x hx => havoid x (hfs2 x hx)
  have hls2 : lists s2 = lists s1 := by
    have := deadCheckVarF_lists t1 s1
    rw [h2] at this
    exact this
  rcases h3 : (if f.elimScopes then deadCheckScopeF (t2, s2).1 (t2, s2).2 else (t2, s2))
    with ⟨t3, s3⟩
  have hst3 : rootOnly y t3 = true ∧ y ∈ topIds t3.sub ∧ t3.id = t1.id ∧
      (∀ j ∈ s3.deletedIds, j ∈ s2.deletedIds ∨ j ≠ y) ∧ s3.uses y = s2.uses y ∧
      (∀ x ∈ sFacts t3, avoidsSweep y x = true) ∧ lists s3 = lists s2 := by
    by_cases hS : f.elimScopes = true
    · rw [if_pos hS] at h3
      dsimp only at h3
      have ha := deadCheckScopeF_survive t2 s2 y t1.id hv2.2.2.1 hv2.1 hv2.2.1
        (fun v hvm => hscps v (by rw [lists_scopesp hls2] at hvm; exact hvm))
      rw [h3] at ha
      have hb : s3.uses y = s2.uses y := by
        have := deadCheckScopeF_presU t2 s2 y hav2
        rw [h3] at this
        exact this
      have hc : FactsSub t3 t2 := by
        have := deadCheckScopeF_sfacts t2 s2
        rw [h3] at this
        exact this
      have hd : lists s3 = lists s2 := by
        have := deadCheckScopeF_lists t2 s2
        rw [h3] at this
        exact this
      exact ⟨ha.1, ha.2.1, ha.2.2.1, ha.2.2.2, hb, fun x hx => hav2 x (hc x hx), hd⟩
    · rw [if_neg hS] at h3
      injection h3 with h3a h3b
      subst h3a
      subst h3b
      exact ⟨hv2.1, hv2.2.1, hv2.2.2.1, fun j hj => Or.inl hj, rfl, hav2, rfl⟩
  rcases h4 : (if f.elimCells then deadCheckCellsF (t3, s3).1 (t3, s3).2 else (t3, s3))
    with ⟨t4, s4⟩
  have hst4 : rootOnly y t4 = true ∧ y ∈ topIds t4.sub ∧ t4.id = t1.id ∧
      (∀ j ∈ s4.deletedIds, j ∈ s3.deletedIds ∨ j ≠ y) ∧ s4.uses y = s3.uses y ∧
      (∀ x ∈ sFacts t4, avoidsSweep y x = true) := by
    by_cases hC : f.elimCells = true
    · rw [if_pos hC] at h4
      dsimp only at h4
      have ha := deadCheckCellsF_survive t3 s3 y t1.id hst3.2.2.1 hst3.1 hst3.2.1
        (fun v hvm => hcells v (by
          rw [lists_cellsp hst3.2.2.2.2.2.2, lists_cellsp hls2] at hvm
          exact hvm))
      rw [h4] at ha
      have hb : s4.uses y = s3.uses y := by
        have := deadCheckCellsF_presU t3 s3 y hst3.2.2.2.2.2.1
        rw [h4] at this
        exact this
      have hc : FactsSub t4 t3 := by
        have := deadCheckCellsF_sfacts t3 s3
        rw [h4] at this
        exact this
      exact ⟨ha.1, ha.2.1, ha.2.2.1, ha.2.2.2, hb,
        fun x hx => hst3.2.2.2.2.2.1 x (hc x hx)⟩
    · rw [if_neg hC] at h4
      injection h4 with h4a h4b
      subst h4a
      subst h4b
      exact ⟨hst3.1, hst3.2.1, hst3.2.2.1, fun j hj => Or.inl hj, rfl,
        hst3.2.2.2.2.2.1⟩
  dsimp only
  have hsub4 : ∀ x ∈ sFacts t4.sub, avoidsSweep y x = true :=
    fun x hx => hst4.2.2.2.2.2 x (sfacts_sub_mem t4 x hx)
  have huse4 : 1 ≤ s4.uses y := by
    rw [hst4.2.2.2.2.1, hst3.2.2.2.2.1, hu2]
    exact hpin1
  have hm := deadCheckModF_survive t4 s4 y hsub4 huse4 hst4.1 hst4.2.1
  refine ⟨hpin1, hm.1, fun hyd => ?_⟩
  rcases hm.2 y hyd with h | h
  · rcases hst4.2.2.2.1 y h with h2a | h2a
    · rcases hst3.2.2.2.1 y h2a with h3a | h3a
      · rcases hv2.2.2.2 y h3a with h4a | h4a
        · exact hnd h4a
        · exact h4a rfl
      · exact h3a rfl
    · exact h2a rfl
  · exact h rfl

end V3Dead

namespace V3Dead

/-- Witness netlist for C7: a level-3 package (id 2) holding a public
var (id 3); nothing else references the package. -/
def exC7 : Tree :=
  .node 1 .netlist none none
    (.node 2 (.module 3 false true) none none
      (.node 3 (.var true false false false false) none none .nil .nil .nil)
      .nil .nil)
    .nil .nil

theorem C7_witness :
    pkgPin 2 exC7 = true ∧
    1 ≤ (rcRun ⟨true, true, true, true⟩ exC7).2.uses 2 ∧
    2 ∈ topIds (runDead ⟨true, true, true, true⟩ exC7).1.sub ∧
    2 ∉ (runDead ⟨true, true, true, true⟩ exC7).2.deletedIds := by
  have h := C7_public_package_pin ⟨true, true, true, true⟩ exC7
    (rcRun ⟨true, true, true, true⟩ exC7).1 (rcRun ⟨true, true, true, true⟩ exC7).2 2
    rfl (by decide) (by decide) (by decide) (by decide) (by decide) (by decide)
    (by decide) (by decide) (by decide) (by decide) (by decide)
  exact ⟨by decide, h.1, h.2.1, h.2.2⟩

end V3Dead

namespace V3Dead

theorem C3_witness :
    (∀ ev ∈ (rcRun ⟨true, true, false, true⟩ exC3).2.delEvents,
        (⟨true, true, false, true⟩ : Flags).elimCells = true ∧ travElim ev.k = true) ∧
    (∀ ev ∈ (runDead ⟨true, true, false, true⟩ exC3).2.delEvents,
        ev ∈ (rcRun ⟨true, true, false, true⟩ exC3).2.delEvents ∨ ev.u ≤ 0 ∨
        ev.id ∈ (rcRun ⟨true, true, false, true⟩ exC3).2.assignMap.map (fun p => p.2)) :=
  C3_amended_deletion_guards ⟨true, true, false, true⟩ exC3
    (rcRun ⟨true, true, false, true⟩ exC3).1 (rcRun ⟨true, true, false, true⟩ exC3).2 rfl

end V3Dead

namespace V3Dead

/-- Number of `AstCell` nodes anywhere in the tree whose `modp()`
target is `m`. -/
def cellCntIn (m : Nat) : Tree → Nat
  | .nil => 0
  | .node _ k _ _ sb sb2 nx =>
    (match k with | .cell mt => if mt = m then 1 else 0 | _ => 0) +
      cellCntIn m sb + cellCntIn m sb2 + cellCntIn m nx

/-- `DeadModVisitor` decrements a module's counter at most once per
cell node of the visited subtree that instantiates it. -/
theorem dmC_cell_ge : (T : Tree) → (u : Nat → Int) → (m : Nat) →
    u m - cellCntIn m T ≤ dmC T u m
  | .nil, u, m => by simp [cellCntIn, dmC]
  | .node i k d c sb sb2 nx, u, m => by
    cases k with
    | cell mt =>
      simp only [dmC]
      have ih1 := dmC_cell_ge sb u m
      have ih2 := dmC_cell_ge sb2 (dmC sb u) m
      have ih3 := dmC_cell_ge nx (bump (dmC sb2 (dmC sb u)) mt (-1)) m
      simp only [cellCntIn]
      by_cases hmt : mt = m
      · rw [if_pos hmt]
        have hb2 : dmC sb2 (dmC sb u) m - 1 ≤ bump (dmC sb2 (dmC sb u)) mt (-1) m := by
          unfold bump
          split <;> omega
        push_cast at ih1 ih2 ih3 ⊢
        omega
      · rw [if_neg hmt]
        have hb2 : bump (dmC sb2 (dmC sb u)) mt (-1) m = dmC sb2 (dmC sb u) m :=
          bump_other _ mt (-1) m (fun he => hmt he.symm)
        push_cast at ih1 ih2 ih3 ⊢
        omega
    | other a b =>
      cases b with
      | true =>
        simp only [dmC]
        have ih3 := dmC_cell_ge nx u m
        simp only [cellCntIn]
        push_cast at ih3 ⊢
        omega
      | false =>
        simp only [dmC]
        have ih1 := dmC_cell_ge sb u m
        have ih2 := dmC_cell_ge sb2 (dmC sb u) m
        have ih3 := dmC_cell_ge nx (dmC sb2 (dmC sb u)) m
        simp only [cellCntIn]
        push_cast at ih1 ih2 ih3 ⊢
        omega
    | netlist =>
      simp only [dmC]
      have ih1 := dmC_cell_ge sb u m
      have ih2 := dmC_cell_ge sb2 (dmC sb u) m
      have ih3 := dmC_cell_ge nx (dmC sb2 (dmC sb u)) m
      simp only [cellCntIn]
      push_cast at ih1 ih2 ih3 ⊢
      omega
    | module a b e =>
      simp only [dmC]
      have ih1 := dmC_cell_ge sb u m
      have ih2 := dmC_cell_ge sb2 (dmC sb u) m
      have ih3 := dmC_cell_ge nx (dmC sb2 (dmC sb u)) m
      simp only [cellCntIn]
      push_cast at ih1 ih2 ih3 ⊢
      omega
    | scope a b e g q =>
      simp only [dmC]
      have ih1 := dmC_cell_ge sb u m
      have ih2 := dmC_cell_ge sb2 (dmC sb u) m
      have ih3 := dmC_cell_ge nx (dmC sb2 (dmC sb u)) m
      simp only [cellCntIn]
      push_cast at ih1 ih2 ih3 ⊢
      omega
    | varScope a b =>
      simp only [dmC]
      have ih1 := dmC_cell_ge sb u m
      have ih2 := dmC_cell_ge sb2 (dmC sb u) m
      have ih3 := dmC_cell_ge nx (dmC sb2 (dmC sb u)) m
      simp only [cellCntIn]
      push_cast at ih1 ih2 ih3 ⊢
      omega
    | var a b e g q =>
      simp only [dmC]
      have ih1 := dmC_cell_ge sb u m
      have ih2 := dmC_cell_ge sb2 (dmC sb u) m
      have ih3 := dmC_cell_ge nx (dmC sb2 (dmC sb u)) m
      simp only [cellCntIn]
      push_cast at ih1 ih2 ih3 ⊢
      omega
    | dtype a b e g =>
      simp only [dmC]
      have ih1 := dmC_cell_ge sb u m
      have ih2 := dmC_cell_ge sb2 (dmC sb u) m
      have ih3 := dmC_cell_ge nx (dmC sb2 (dmC sb u)) m
      simp only [cellCntIn]
      push_cast at ih1 ih2 ih3 ⊢
      omega
    | refDType a b e =>
      simp only [dmC]
      have ih1 := dmC_cell_ge sb u m
      have ih2 := dmC_cell_ge sb2 (dmC sb u) m
      have ih3 := dmC_cell_ge nx (dmC sb2 (dmC sb u)) m
      simp only [cellCntIn]
      push_cast at ih1 ih2 ih3 ⊢
      omega
    | ftaskRef a =>
      simp only [dmC]
      have ih1 := dmC_cell_ge sb u m
      have ih2 := dmC_cell_ge sb2 (dmC sb u) m
      have ih3 := dmC_cell_ge nx (dmC sb2 (dmC sb u)) m
      simp only [cellCntIn]
      push_cast at ih1 ih2 ih3 ⊢
      omega
    | typedefD a =>
      simp only [dmC]
      have ih1 := dmC_cell_ge sb u m
      have ih2 := dmC_cell_ge sb2 (dmC sb u) m
      have ih3 := dmC_cell_ge nx (dmC sb2 (dmC sb u)) m
      simp only [cellCntIn]
      push_cast at ih1 ih2 ih3 ⊢
      omega
    | modport a =>
      simp only [dmC]
      have ih1 := dmC_cell_ge sb u m
      have ih2 := dmC_cell_ge sb2 (dmC sb u) m
      have ih3 := dmC_cell_ge nx (dmC sb2 (dmC sb u)) m
      simp only [cellCntIn]
      push_cast at ih1 ih2 ih3 ⊢
      omega
    | cfunc a =>
      simp only [dmC]
      have ih1 := dmC_cell_ge sb u m
      have ih2 := dmC_cell_ge sb2 (dmC sb u) m
      have ih3 := dmC_cell_ge nx (dmC sb2 (dmC sb u)) m
      simp only [cellCntIn]
      push_cast at ih1 ih2 ih3 ⊢
      omega
    | assign =>
      simp only [dmC]
      have ih1 := dmC_cell_ge sb u m
      have ih2 := dmC_cell_ge sb2 (dmC sb u) m
      have ih3 := dmC_cell_ge nx (dmC sb2 (dmC sb u)) m
      simp only [cellCntIn]
      push_cast at ih1 ih2 ih3 ⊢
      omega
    | varRef a b e =>
      simp only [dmC]
      have ih3 := dmC_cell_ge nx u m
      simp only [cellCntIn]
      push_cast at ih3 ⊢
      omega
    | enumItemRef a =>
      simp only [dmC]
      have ih3 := dmC_cell_ge nx u m
      simp only [cellCntIn]
      push_cast at ih3 ⊢
      omega

end V3Dead

namespace V3Dead

/-- A pass of the module sweep never adds cells. -/
theorem modPass_cellLe : (ms : Tree) → (s : St) → (m : Nat) →
    cellCntIn m (modPass ms s).1 ≤ cellCntIn m ms
  | .nil, _, _ => Nat.le_refl 0
  | .node i k d c sb sb2 nx, s, m => by
    cases k with
    | module lvl intl pkg =>
      simp only [modPass]
      by_cases hg : lvl > 2 ∧ s.uses i = 0 ∧ ¬intl
      · rw [if_pos hg]
        rcases hp : modPass nx { logDel (Tree.node i (Kind.module lvl intl pkg) d c sb sb2 nx) s with uses := dmC (Tree.node i (Kind.module lvl intl pkg) d c sb sb2 Tree.nil) (logDel (Tree.node i (Kind.module lvl intl pkg) d c sb sb2 nx) s).uses } with ⟨nx1, s1, r⟩
        try dsimp only
        have ih : cellCntIn m nx1 ≤ cellCntIn m nx := by
          have hh := modPass_cellLe nx { logDel (Tree.node i (Kind.module lvl intl pkg) d c sb sb2 nx) s with uses := dmC (Tree.node i (Kind.module lvl intl pkg) d c sb sb2 Tree.nil) (logDel (Tree.node i (Kind.module lvl intl pkg) d c sb sb2 nx) s).uses } m
          rw [hp] at hh
          exact hh
        simp only [cellCntIn]
        omega
      · rw [if_neg hg]
        rcases hp : modPass nx s with ⟨nx1, s1, r⟩
        try dsimp only
        have ih : cellCntIn m nx1 ≤ cellCntIn m nx := by
          have hh := modPass_cellLe nx s m
          rw [hp] at hh
          exact hh
        simp only [cellCntIn]
        omega
    | netlist =>
      simp only [modPass]
      rcases hp : modPass nx s with ⟨nx1, s1, r⟩
      try dsimp only
      have ih : cellCntIn m nx1 ≤ cellCntIn m nx := by
        have hh := modPass_cellLe nx s m
        rw [hp] at hh
        exact hh
      simp only [cellCntIn]
      omega
    | cell a =>
      simp only [modPass]
      rcases hp : modPass nx s with ⟨nx1, s1, r⟩
      try dsimp only
      have ih : cellCntIn m nx1 ≤ cellCntIn m nx := by
        have hh := modPass_cellLe nx s m
        rw [hp] at hh
        exact hh
      simp only [cellCntIn]
      omega
    | scope a b e g q =>
      simp only [modPass]
      rcases hp : modPass nx s with ⟨nx1, s1, r⟩
      try dsimp only
      have ih : cellCntIn m nx1 ≤ cellCntIn m nx := by
        have hh := modPass_cellLe nx s m
        rw [hp] at hh
        exact hh
      simp only [cellCntIn]
      omega
    | varScope a b =>
      simp only [modPass]
      rcases hp : modPass nx s with ⟨nx1, s1, r⟩
      try dsimp only
      have ih : cellCntIn m nx1 ≤ cellCntIn m nx := by
        have hh := modPass_cellLe nx s m
        rw [hp] at hh
        exact hh
      simp only [cellCntIn]
      omega
    | var a b e g q =>
      simp only [modPass]
      rcases hp : modPass nx s with ⟨nx1, s1, r⟩
      try dsimp only
      have ih : cellCntIn m nx1 ≤ cellCntIn m nx := by
        have hh := modPass_cellLe nx s m
        rw [hp] at hh
        exact hh
      simp only [cellCntIn]
      omega
    | dtype a b e g =>
      simp only [modPass]
      rcases hp : modPass nx s with ⟨nx1, s1, r⟩
      try dsimp only
      have ih : cellCntIn m nx1 ≤ cellCntIn m nx := by
        have hh := modPass_cellLe nx s m
        rw [hp] at hh
        exact hh
      simp only [cellCntIn]
      omega
    | refDType a b e =>
      simp only [modPass]
      rcases hp : modPass nx s with ⟨nx1, s1, r⟩
      try dsimp only
      have ih : cellCntIn m nx1 ≤ cellCntIn m nx := by
        have hh := modPass_cellLe nx s m
        rw [hp] at hh
        exact hh
      simp only [cellCntIn]
      omega
    | enumItemRef a =>
      simp only [modPass]
      rcases hp : modPass nx s with ⟨nx1, s1, r⟩
      try dsimp only
      have ih : cellCntIn m nx1 ≤ cellCntIn m nx := by
        have hh := modPass_cellLe nx s m
        rw [hp] at hh
        exact hh
      simp only [cellCntIn]
      omega
    | varRef a b e =>
      simp only [modPass]
      rcases hp : modPass nx s with ⟨nx1, s1, r⟩
      try dsimp only
      have ih : cellCntIn m nx1 ≤ cellCntIn m nx := by
        have hh := modPass_cellLe nx s m
        rw [hp] at hh
        exact hh
      simp only [cellCntIn]
      omega
    | ftaskRef a =>
      simp only [modPass]
      rcases hp : modPass nx s with ⟨nx1, s1, r⟩
      try dsimp only
      have ih : cellCntIn m nx1 ≤ cellCntIn m nx := by
        have hh := modPass_cellLe nx s m
        rw [hp] at hh
        exact hh
      simp only [cellCntIn]
      omega
    | typedefD a =>
      simp only [modPass]
      rcases hp : modPass nx s with ⟨nx1, s1, r⟩
      try dsimp only
      have ih : cellCntIn m nx1 ≤ cellCntIn m nx := by
        have hh := modPass_cellLe nx s m
        rw [hp] at hh
        exact hh
      simp only [cellCntIn]
      omega
    | modport a =>
      simp only [modPass]
      rcases hp : modPass nx s with ⟨nx1, s1, r⟩
      try dsimp only
      have ih : cellCntIn m nx1 ≤ cellCntIn m nx := by
        have hh := modPass_cellLe nx s m
        rw [hp] at hh
        exact hh
      simp only [cellCntIn]
      omega
    | cfunc a =>
      simp only [modPass]
      rcases hp : modPass nx s with ⟨nx1, s1, r⟩
      try dsimp only
      have ih : cellCntIn m nx1 ≤ cellCntIn m nx := by
        have hh := modPass_cellLe nx s m
        rw [hp] at hh
        exact hh
      simp only [cellCntIn]
      omega
    | assign =>
      simp only [modPass]
      rcases hp : modPass nx s with ⟨nx1, s1, r⟩
      try dsimp only
      have ih : cellCntIn m nx1 ≤ cellCntIn m nx := by
        have hh := modPass_cellLe nx s m
        rw [hp] at hh
        exact hh
      simp only [cellCntIn]
      omega
    | other a b =>
      simp only [modPass]
      rcases hp : modPass nx s with ⟨nx1, s1, r⟩
      try dsimp only
      have ih : cellCntIn m nx1 ≤ cellCntIn m nx := by
        have hh := modPass_cellLe nx s m
        rw [hp] at hh
        exact hh
      simp only [cellCntIn]
      omega

/-- The module retry loop never adds cells. -/
theorem modLoop_cellLe : (fuel : Nat) → (ms : Tree) → (s : St) → (m : Nat) →
    cellCntIn m (modLoop fuel ms s).1 ≤ cellCntIn m ms
  | 0, ms, s, m => Nat.le_refl _
  | fuel + 1, ms, s, m => by
    simp only [modLoop]
    rcases hp : modPass ms s with ⟨ms1, s1, retry⟩
    try dsimp only
    have h1 : cellCntIn m ms1 ≤ cellCntIn m ms := by
      have hh := modPass_cellLe ms s m
      rw [hp] at hh
      exact hh
    by_cases hre : retry = true
    · rw [if_pos hre]
      have ih := modLoop_cellLe fuel ms1 s1 m
      omega
    · rw [if_neg hre]
      exact h1

end V3Dead

namespace V3Dead

/-- One pass of the module sweep keeps every module counter an upper
bound on the number of cells instantiating it that remain in the
module list, and whenever the pass logs the deletion of module `m`
no such cell remains. -/
theorem modPass_c4 : (ms : Tree) → (s : St) → (m : Nat) → (k : Nat) →
    ((k : Int) + (cellCntIn m ms : Int) ≤ s.uses m) →
    ((k : Int) + (cellCntIn m (modPass ms s).1 : Int) ≤ (modPass ms s).2.1.uses m) ∧
    ((∃ ev ∈ (modPass ms s).2.1.delEvents, ev ∉ s.delEvents ∧ ev.id = m) →
      cellCntIn m (modPass ms s).1 = 0 ∧ k = 0)
  | .nil, s, m, k, hinv => by
    refine ⟨hinv, ?_⟩
    intro hex
    rcases hex with ⟨ev, hev, hne, _⟩
    exact absurd hev hne
  | .node i kk d c sb sb2 nx, s, m, k, hinv => by
    cases kk with
    | module lvl intl pkg =>
      simp only [modPass]
      by_cases hg : lvl > 2 ∧ s.uses i = 0 ∧ ¬intl
      · rw [if_pos hg]
        rcases hp : modPass nx { logDel (Tree.node i (Kind.module lvl intl pkg) d c sb sb2 nx) s with uses := dmC (Tree.node i (Kind.module lvl intl pkg) d c sb sb2 Tree.nil) (logDel (Tree.node i (Kind.module lvl intl pkg) d c sb sb2 nx) s).uses } with ⟨nx1, s1, r⟩
        try dsimp only
        have hd := dmC_cell_ge (Tree.node i (Kind.module lvl intl pkg) d c sb sb2 Tree.nil)
          (logDel (Tree.node i (Kind.module lvl intl pkg) d c sb sb2 nx) s).uses m
        have hlu : (logDel (Tree.node i (Kind.module lvl intl pkg) d c sb sb2 nx) s).uses m
            = s.uses m := rfl
        simp only [cellCntIn] at hd
        rw [hlu] at hd
        have hle : cellCntIn m nx1 ≤ cellCntIn m nx := by
          have hh := modPass_cellLe nx { logDel (Tree.node i (Kind.module lvl intl pkg) d c sb sb2 nx) s with uses := dmC (Tree.node i (Kind.module lvl intl pkg) d c sb sb2 Tree.nil) (logDel (Tree.node i (Kind.module lvl intl pkg) d c sb sb2 nx) s).uses } m
          rw [hp] at hh
          exact hh
        by_cases him : i = m
        · have hu0 : s.uses m = 0 := by rw [← him]; exact hg.2.1
          have hks : k = 0 ∧ cellCntIn m sb = 0 ∧ cellCntIn m sb2 = 0 ∧ cellCntIn m nx = 0 := by
            simp only [cellCntIn] at hinv
            push_cast at hinv
            omega
          have hinv2 : ((0 : Nat) : Int) + (cellCntIn m nx : Int) ≤ ({ logDel (Tree.node i (Kind.module lvl intl pkg) d c sb sb2 nx) s with uses := dmC (Tree.node i (Kind.module lvl intl pkg) d c sb sb2 Tree.nil) (logDel (Tree.node i (Kind.module lvl intl pkg) d c sb sb2 nx) s).uses } : St).uses m := by
            show ((0 : Nat) : Int) + (cellCntIn m nx : Int) ≤
              dmC (Tree.node i (Kind.module lvl intl pkg) d c sb sb2 Tree.nil)
                (logDel (Tree.node i (Kind.module lvl intl pkg) d c sb sb2 nx) s).uses m
            push_cast at hd ⊢
            omega
          have ih := modPass_c4 nx { logDel (Tree.node i (Kind.module lvl intl pkg) d c sb sb2 nx) s with uses := dmC (Tree.node i (Kind.module lvl intl pkg) d c sb sb2 Tree.nil) (logDel (Tree.node i (Kind.module lvl intl pkg) d c sb sb2 nx) s).uses } m 0 hinv2
          rw [hp] at ih
          try dsimp only at ih
          constructor
          · have ih1 : ((0 : Nat) : Int) + (cellCntIn m nx1 : Int) ≤ s1.uses m := ih.1
            push_cast at ih1 ⊢
            omega
          · intro hex
            refine ⟨?_, hks.1⟩
            omega
        · have hinv2 : ((k : Nat) : Int) + (cellCntIn m nx : Int) ≤ ({ logDel (Tree.node i (Kind.module lvl intl pkg) d c sb sb2 nx) s with uses := dmC (Tree.node i (Kind.module lvl intl pkg) d c sb sb2 Tree.nil) (logDel (Tree.node i (Kind.module lvl intl pkg) d c sb sb2 nx) s).uses } : St).uses m := by
            show ((k : Nat) : Int) + (cellCntIn m nx : Int) ≤
              dmC (Tree.node i (Kind.module lvl intl pkg) d c sb sb2 Tree.nil)
                (logDel (Tree.node i (Kind.module lvl intl pkg) d c sb sb2 nx) s).uses m
            simp only [cellCntIn] at hinv
            push_cast at hinv hd ⊢
            omega
          have ih := modPass_c4 nx { logDel (Tree.node i (Kind.module lvl intl pkg) d c sb sb2 nx) s with uses := dmC (Tree.node i (Kind.module lvl intl pkg) d c sb sb2 Tree.nil) (logDel (Tree.node i (Kind.module lvl intl pkg) d c sb sb2 nx) s).uses } m k hinv2
          rw [hp] at ih
          try dsimp only at ih
          constructor
          · exact ih.1
          · intro hex
            rcases hex with ⟨ev, hev, hne, hid⟩
            have hne2 : ev ∉ ({ logDel (Tree.node i (Kind.module lvl intl pkg) d c sb sb2 nx) s with uses := dmC (Tree.node i (Kind.module lvl intl pkg) d c sb sb2 Tree.nil) (logDel (Tree.node i (Kind.module lvl intl pkg) d c sb sb2 nx) s).uses } : St).delEvents := by
              intro hin
              have hin2 : ev ∈ s.delEvents ++
                  [({ id := i, u := s.uses i, k := Kind.module lvl intl pkg } : DelEvent)] := hin
              rcases List.mem_append.mp hin2 with h | h
              · exact hne h
              · rw [List.mem_singleton.mp h] at hid
                exact him hid
            exact ih.2 ⟨ev, hev, hne2, hid⟩
      · rw [if_neg hg]
        rcases hp : modPass nx s with ⟨nx1, s1, r⟩
        try dsimp only
        have ih := modPass_c4 nx s m (k + cellCntIn m sb + cellCntIn m sb2) (by
          simp only [cellCntIn] at hinv
          push_cast at hinv ⊢
          omega)
        rw [hp] at ih
        try dsimp only at ih
        constructor
        · have ih1 : ((k + cellCntIn m sb + cellCntIn m sb2 : Nat) : Int) +
              (cellCntIn m nx1 : Int) ≤ s1.uses m := ih.1
          simp only [cellCntIn]
          push_cast at ih1 ⊢
          omega
        · intro hex
          rcases hex with ⟨ev, hev, hne, hid⟩
          have h2 : cellCntIn m nx1 = 0 ∧ (k + cellCntIn m sb + cellCntIn m sb2) = 0 :=
            ih.2 ⟨ev, hev, hne, hid⟩
          simp only [cellCntIn]
          omega
    | netlist =>
      simp only [modPass]
      rcases hp : modPass nx s with ⟨nx1, s1, r⟩
      try dsimp only
      have ih := modPass_c4 nx s m (k + cellCntIn m sb + cellCntIn m sb2) (by
        simp only [cellCntIn] at hinv
        push_cast at hinv ⊢
        omega)
      rw [hp] at ih
      try dsimp only at ih
      constructor
      · have ih1 : ((k + cellCntIn m sb + cellCntIn m sb2 : Nat) : Int) + (cellCntIn m nx1 : Int) ≤ s1.uses m := ih.1
        simp only [cellCntIn]
        push_cast at ih1 ⊢
        omega
      · intro hex
        rcases hex with ⟨ev, hev, hne, hid⟩
        have h2 : cellCntIn m nx1 = 0 ∧ ((k + cellCntIn m sb + cellCntIn m sb2 : Nat)) = 0 := ih.2 ⟨ev, hev, hne, hid⟩
        simp only [cellCntIn]
        omega
    | cell a =>
      simp only [modPass]
      rcases hp : modPass nx s with ⟨nx1, s1, r⟩
      try dsimp only
      have ih := modPass_c4 nx s m (k + (if a = m then 1 else 0) + cellCntIn m sb + cellCntIn m sb2) (by
        simp only [cellCntIn] at hinv
        push_cast at hinv ⊢
        omega)
      rw [hp] at ih
      try dsimp only at ih
      constructor
      · have ih1 : ((k + (if a = m then 1 else 0) + cellCntIn m sb + cellCntIn m sb2 : Nat) : Int) + (cellCntIn m nx1 : Int) ≤ s1.uses m := ih.1
        simp only [cellCntIn]
        push_cast at ih1 ⊢
        omega
      · intro hex
        rcases hex with ⟨ev, hev, hne, hid⟩
        have h2 : cellCntIn m nx1 = 0 ∧ ((k + (if a = m then 1 else 0) + cellCntIn m sb + cellCntIn m sb2 : Nat)) = 0 := ih.2 ⟨ev, hev, hne, hid⟩
        simp only [cellCntIn]
        omega
    | scope a b e g q =>
      simp only [modPass]
      rcases hp : modPass nx s with ⟨nx1, s1, r⟩
      try dsimp only
      have ih := modPass_c4 nx s m (k + cellCntIn m sb + cellCntIn m sb2) (by
        simp only [cellCntIn] at hinv
        push_cast at hinv ⊢
        omega)
      rw [hp] at ih
      try dsimp only at ih
      constructor
      · have ih1 : ((k + cellCntIn m sb + cellCntIn m sb2 : Nat) : Int) + (cellCntIn m nx1 : Int) ≤ s1.uses m := ih.1
        simp only [cellCntIn]
        push_cast at ih1 ⊢
        omega
      · intro hex
        rcases hex with ⟨ev, hev, hne, hid⟩
        have h2 : cellCntIn m nx1 = 0 ∧ ((k + cellCntIn m sb + cellCntIn m sb2 : Nat)) = 0 := ih.2 ⟨ev, hev, hne, hid⟩
        simp only [cellCntIn]
        omega
    | varScope a b =>
      simp only [modPass]
      rcases hp : modPass nx s with ⟨nx1, s1, r⟩
      try dsimp only
      have ih := modPass_c4 nx s m (k + cellCntIn m sb + cellCntIn m sb2) (by
        simp only [cellCntIn] at hinv
        push_cast at hinv ⊢
        omega)
      rw [hp] at ih
      try dsimp only at ih
      constructor
      · have ih1 : ((k + cellCntIn m sb + cellCntIn m sb2 : Nat) : Int) + (cellCntIn m nx1 : Int) ≤ s1.uses m := ih.1
        simp only [cellCntIn]
        push_cast at ih1 ⊢
        omega
      · intro hex
        rcases hex with ⟨ev, hev, hne, hid⟩
        have h2 : cellCntIn m nx1 = 0 ∧ ((k + cellCntIn m sb + cellCntIn m sb2 : Nat)) = 0 := ih.2 ⟨ev, hev, hne, hid⟩
        simp only [cellCntIn]
        omega
    | var a b e g q =>
      simp only [modPass]
      rcases hp : modPass nx s with ⟨nx1, s1, r⟩
      try dsimp only
      have ih := modPass_c4 nx s m (k + cellCntIn m sb + cellCntIn m sb2) (by
        simp only [cellCntIn] at hinv
        push_cast at hinv ⊢
        omega)
      rw [hp] at ih
      try dsimp only at ih
      constructor
      · have ih1 : ((k + cellCntIn m sb + cellCntIn m sb2 : Nat) : Int) + (cellCntIn m nx1 : Int) ≤ s1.uses m := ih.1
        simp only [cellCntIn]
        push_cast at ih1 ⊢
        omega
      · intro hex
        rcases hex with ⟨ev, hev, hne, hid⟩
        have h2 : cellCntIn m nx1 = 0 ∧ ((k + cellCntIn m sb + cellCntIn m sb2 : Nat)) = 0 := ih.2 ⟨ev, hev, hne, hid⟩
        simp only [cellCntIn]
        omega
    | dtype a b e g =>
      simp only [modPass]
      rcases hp : modPass nx s with ⟨nx1, s1, r⟩
      try dsimp only
      have ih := modPass_c4 nx s m (k + cellCntIn m sb + cellCntIn m sb2) (by
        simp only [cellCntIn] at hinv
        push_cast at hinv ⊢
        omega)
      rw [hp] at ih
      try dsimp only at ih
      constructor
      · have ih1 : ((k + cellCntIn m sb + cellCntIn m sb2 : Nat) : Int) + (cellCntIn m nx1 : Int) ≤ s1.uses m := ih.1
        simp only [cellCntIn]
        push_cast at ih1 ⊢
        omega
      · intro hex
        rcases hex with ⟨ev, hev, hne, hid⟩
        have h2 : cellCntIn m nx1 = 0 ∧ ((k + cellCntIn m sb + cellCntIn m sb2 : Nat)) = 0 := ih.2 ⟨ev, hev, hne, hid⟩
        simp only [cellCntIn]
        omega
    | refDType a b e =>
      simp only [modPass]
      rcases hp : modPass nx s with ⟨nx1, s1, r⟩
      try dsimp only
      have ih := modPass_c4 nx s m (k + cellCntIn m sb + cellCntIn m sb2) (by
        simp only [cellCntIn] at hinv
        push_cast at hinv ⊢
        omega)
      rw [hp] at ih
      try dsimp only at ih
      constructor
      · have ih1 : ((k + cellCntIn m sb + cellCntIn m sb2 : Nat) : Int) + (cellCntIn m nx1 : Int) ≤ s1.uses m := ih.1
        simp only [cellCntIn]
        push_cast at ih1 ⊢
        omega
      · intro hex
        rcases hex with ⟨ev, hev, hne, hid⟩
        have h2 : cellCntIn m nx1 = 0 ∧ ((k + cellCntIn m sb + cellCntIn m sb2 : Nat)) = 0 := ih.2 ⟨ev, hev, hne, hid⟩
        simp only [cellCntIn]
        omega
    | enumItemRef a =>
      simp only [modPass]
      rcases hp : modPass nx s with ⟨nx1, s1, r⟩
      try dsimp only
      have ih := modPass_c4 nx s m (k + cellCntIn m sb + cellCntIn m sb2) (by
        simp only [cellCntIn] at hinv
        push_cast at hinv ⊢
        omega)
      rw [hp] at ih
      try dsimp only at ih
      constructor
      · have ih1 : ((k + cellCntIn m sb + cellCntIn m sb2 : Nat) : Int) + (cellCntIn m nx1 : Int) ≤ s1.uses m := ih.1
        simp only [cellCntIn]
        push_cast at ih1 ⊢
        omega
      · intro hex
        rcases hex with ⟨ev, hev, hne, hid⟩
        have h2 : cellCntIn m nx1 = 0 ∧ ((k + cellCntIn m sb + cellCntIn m sb2 : Nat)) = 0 := ih.2 ⟨ev, hev, hne, hid⟩
        simp only [cellCntIn]
        omega
    | varRef a b e =>
      simp only [modPass]
      rcases hp : modPass nx s with ⟨nx1, s1, r⟩
      try dsimp only
      have ih := modPass_c4 nx s m (k + cellCntIn m sb + cellCntIn m sb2) (by
        simp only [cellCntIn] at hinv
        push_cast at hinv ⊢
        omega)
      rw [hp] at ih
      try dsimp only at ih
      constructor
      · have ih1 : ((k + cellCntIn m sb + cellCntIn m sb2 : Nat) : Int) + (cellCntIn m nx1 : Int) ≤ s1.uses m := ih.1
        simp only [cellCntIn]
        push_cast at ih1 ⊢
        omega
      · intro hex
        rcases hex with ⟨ev, hev, hne, hid⟩
        have h2 : cellCntIn m nx1 = 0 ∧ ((k + cellCntIn m sb + cellCntIn m sb2 : Nat)) = 0 := ih.2 ⟨ev, hev, hne, hid⟩
        simp only [cellCntIn]
        omega
    | ftaskRef a =>
      simp only [modPass]
      rcases hp : modPass nx s with ⟨nx1, s1, r⟩
      try dsimp only
      have ih := modPass_c4 nx s m (k + cellCntIn m sb + cellCntIn m sb2) (by
        simp only [cellCntIn] at hinv
        push_cast at hinv ⊢
        omega)
      rw [hp] at ih
      try dsimp only at ih
      constructor
      · have ih1 : ((k + cellCntIn m sb + cellCntIn m sb2 : Nat) : Int) + (cellCntIn m nx1 : Int) ≤ s1.uses m := ih.1
        simp only [cellCntIn]
        push_cast at ih1 ⊢
        omega
      · intro hex
        rcases hex with ⟨ev, hev, hne, hid⟩
        have h2 : cellCntIn m nx1 = 0 ∧ ((k + cellCntIn m sb + cellCntIn m sb2 : Nat)) = 0 := ih.2 ⟨ev, hev, hne, hid⟩
        simp only [cellCntIn]
        omega
    | typedefD a =>
      simp only [modPass]
      rcases hp : modPass nx s with ⟨nx1, s1, r⟩
      try dsimp only
      have ih := modPass_c4 nx s m (k + cellCntIn m sb + cellCntIn m sb2) (by
        simp only [cellCntIn] at hinv
        push_cast at hinv ⊢
        omega)
      rw [hp] at ih
      try dsimp only at ih
      constructor
      · have ih1 : ((k + cellCntIn m sb + cellCntIn m sb2 : Nat) : Int) + (cellCntIn m nx1 : Int) ≤ s1.uses m := ih.1
        simp only [cellCntIn]
        push_cast at ih1 ⊢
        omega
      · intro hex
        rcases hex with ⟨ev, hev, hne, hid⟩
        have h2 : cellCntIn m nx1 = 0 ∧ ((k + cellCntIn m sb + cellCntIn m sb2 : Nat)) = 0 := ih.2 ⟨ev, hev, hne, hid⟩
        simp only [cellCntIn]
        omega
    | modport a =>
      simp only [modPass]
      rcases hp : modPass nx s with ⟨nx1, s1, r⟩
      try dsimp only
      have ih := modPass_c4 nx s m (k + cellCntIn m sb + cellCntIn m sb2) (by
        simp only [cellCntIn] at hinv
        push_cast at hinv ⊢
        omega)
      rw [hp] at ih
      try dsimp only at ih
      constructor
      · have ih1 : ((k + cellCntIn m sb + cellCntIn m sb2 : Nat) : Int) + (cellCntIn m nx1 : Int) ≤ s1.uses m := ih.1
        simp only [cellCntIn]
        push_cast at ih1 ⊢
        omega
      · intro hex
        rcases hex with ⟨ev, hev, hne, hid⟩
        have h2 : cellCntIn m nx1 = 0 ∧ ((k + cellCntIn m sb + cellCntIn m sb2 : Nat)) = 0 := ih.2 ⟨ev, hev, hne, hid⟩
        simp only [cellCntIn]
        omega
    | cfunc a =>
      simp only [modPass]
      rcases hp : modPass nx s with ⟨nx1, s1, r⟩
      try dsimp only
      have ih := modPass_c4 nx s m (k + cellCntIn m sb + cellCntIn m sb2) (by
        simp only [cellCntIn] at hinv
        push_cast at hinv ⊢
        omega)
      rw [hp] at ih
      try dsimp only at ih
      constructor
      · have ih1 : ((k + cellCntIn m sb + cellCntIn m sb2 : Nat) : Int) + (cellCntIn m nx1 : Int) ≤ s1.uses m := ih.1
        simp only [cellCntIn]
        push_cast at ih1 ⊢
        omega
      · intro hex
        rcases hex with ⟨ev, hev, hne, hid⟩
        have h2 : cellCntIn m nx1 = 0 ∧ ((k + cellCntIn m sb + cellCntIn m sb2 : Nat)) = 0 := ih.2 ⟨ev, hev, hne, hid⟩
        simp only [cellCntIn]
        omega
    | assign =>
      simp only [modPass]
      rcases hp : modPass nx s with ⟨nx1, s1, r⟩
      try dsimp only
      have ih := modPass_c4 nx s m (k + cellCntIn m sb + cellCntIn m sb2) (by
        simp only [cellCntIn] at hinv
        push_cast at hinv ⊢
        omega)
      rw [hp] at ih
      try dsimp only at ih
      constructor
      · have ih1 : ((k + cellCntIn m sb + cellCntIn m sb2 : Nat) : Int) + (cellCntIn m nx1 : Int) ≤ s1.uses m := ih.1
        simp only [cellCntIn]
        push_cast at ih1 ⊢
        omega
      · intro hex
        rcases hex with ⟨ev, hev, hne, hid⟩
        have h2 : cellCntIn m nx1 = 0 ∧ ((k + cellCntIn m sb + cellCntIn m sb2 : Nat)) = 0 := ih.2 ⟨ev, hev, hne, hid⟩
        simp only [cellCntIn]
        omega
    | other a b =>
      simp only [modPass]
      rcases hp : modPass nx s with ⟨nx1, s1, r⟩
      try dsimp only
      have ih := modPass_c4 nx s m (k + cellCntIn m sb + cellCntIn m sb2) (by
        simp only [cellCntIn] at hinv
        push_cast at hinv ⊢
        omega)
      rw [hp] at ih
      try dsimp only at ih
      constructor
      · have ih1 : ((k + cellCntIn m sb + cellCntIn m sb2 : Nat) : Int) + (cellCntIn m nx1 : Int) ≤ s1.uses m := ih.1
        simp only [cellCntIn]
        push_cast at ih1 ⊢
        omega
      · intro hex
        rcases hex with ⟨ev, hev, hne, hid⟩
        have h2 : cellCntIn m nx1 = 0 ∧ ((k + cellCntIn m sb + cellCntIn m sb2 : Nat)) = 0 := ih.2 ⟨ev, hev, hne, hid⟩
        simp only [cellCntIn]
        omega

end V3Dead

namespace V3Dead

/-- The module retry loop preserves the cell-count bound and, once a
deletion event for `m` is logged, no cell instantiating `m` remains. -/
theorem modLoop_c4 : (fuel : Nat) → (ms : Tree) → (s : St) → (m : Nat) →
    ((cellCntIn m ms : Int) ≤ s.uses m) →
    ((cellCntIn m (modLoop fuel ms s).1 : Int) ≤ (modLoop fuel ms s).2.1.uses m) ∧
    ((∃ ev ∈ (modLoop fuel ms s).2.1.delEvents, ev ∉ s.delEvents ∧ ev.id = m) →
      cellCntIn m (modLoop fuel ms s).1 = 0)
  | 0, ms, s, m, hinv => by
    refine ⟨hinv, ?_⟩
    intro hex
    rcases hex with ⟨ev, hev, hne, _⟩
    exact absurd hev hne
  | fuel + 1, ms, s, m, hinv => by
    simp only [modLoop]
    rcases hp : modPass ms s with ⟨ms1, s1, retry⟩
    try dsimp only
    have hmp := modPass_c4 ms s m 0 (by push_cast; push_cast at hinv; omega)
    rw [hp] at hmp
    try dsimp only at hmp
    by_cases hre : retry = true
    · rw [if_pos hre]
      have hinv1 : (cellCntIn m ms1 : Int) ≤ s1.uses m := by
        have h1 := hmp.1
        push_cast at h1 ⊢
        omega
      have ih := modLoop_c4 fuel ms1 s1 m hinv1
      refine ⟨ih.1, ?_⟩
      intro hex
      rcases hex with ⟨ev, hev, hne, hid⟩
      by_cases hin1 : ev ∈ s1.delEvents
      · have h0 := (hmp.2 ⟨ev, hin1, hne, hid⟩).1
        have hle := modLoop_cellLe fuel ms1 s1 m
        omega
      · exact ih.2 ⟨ev, hev, hin1, hid⟩
    · rw [if_neg hre]
      refine ⟨?_, ?_⟩
      · have h1 := hmp.1
        push_cast at h1 ⊢
        omega
      · intro hex
        rcases hex with ⟨ev, hev, hne, hid⟩
        exact (hmp.2 ⟨ev, hev, hne, hid⟩).1

end V3Dead

namespace V3Dead

/-- Counterexample netlist for C4: the top module (id 2, level 2)
holds a VarRef (id 6) whose `varScopep()` targets the VarScope (id 4)
of an otherwise unreferenced level-3 module (id 3); the module sweep
deletes module 3 with its whole subtree while the VarRef survives. -/
def tC4 : Tree :=
  .node 1 .netlist none none
    (.node 2 (.module 2 false false) none none
      (.node 6 (.varRef (some 5) (some 4) none) none none .nil .nil .nil)
      .nil
      (.node 3 (.module 3 false false) none none
        (.node 4 (.varScope none 5) none none .nil .nil
          (.node 5 (.var false false false false false) none none .nil .nil .nil))
        .nil .nil))
    .nil .nil

theorem C4_counterexample :
    (6, Kind.varRef (some 5) (some 4) none, (none : Option Nat), (none : Option Nat)) ∈
      nodeFacts (deadifyModules tC4).1 ∧
    4 ∈ (deadifyModules tC4).2.deletedIds := by
  constructor
  · decide
  · decide

/-- C4: the general no-dangling-edge claim fails (see
`C4_counterexample`: a surviving VarRef keeps a `varScopep()` into a
deleted module's subtree), but the cell-to-module edges are protected
by the module sweep: as long as the counter of module `m` bounds from
above the number of cells in the module list instantiating `m`, the
sweep maintains that bound, and the moment it logs the deletion of
`m` no cell instantiating `m` remains in the module list. -/
theorem C4_amended_module_sweep (t : Tree) (s : St) (m : Nat)
    (hinv : (cellCntIn m t.sub : Int) ≤ s.uses m) :
    ((cellCntIn m (deadCheckModF t s).1.sub : Int) ≤ (deadCheckModF t s).2.uses m) ∧
    ((∃ ev ∈ (deadCheckModF t s).2.delEvents, ev ∉ s.delEvents ∧ ev.id = m) →
      cellCntIn m (deadCheckModF t s).1.sub = 0) := by
  rcases t with _ | ⟨i, k, d, c, sb, sb2, nx⟩
  · simp only [deadCheckModF]
    refine ⟨hinv, ?_⟩
    intro hex
    rcases hex with ⟨ev, hev, hne, _⟩
    exact absurd hev hne
  · simp only [deadCheckModF]
    rcases hp : modLoop (sb.chainLen + 1) sb s with ⟨sb1, s1, r⟩
    try dsimp only
    have hml := modLoop_c4 (sb.chainLen + 1) sb s m hinv
    rw [hp] at hml
    try dsimp only at hml
    exact ⟨hml.1, fun hex => hml.2 hex⟩

/-- Witness netlist for the amended C4: a top module (id 2) holding a
cell (id 7) that instantiates the level-3 module (id 3). -/
def exC4w : Tree :=
  .node 1 .netlist none none
    (.node 2 (.module 2 false false) none none
      (.node 7 (.cell 3) none none .nil .nil .nil) .nil
      (.node 3 (.module 3 false false) none none .nil .nil .nil))
    .nil .nil

theorem C4_amended_witness :
    ((cellCntIn 3 (deadCheckModF (rcRun ⟨false, false, false, false⟩ exC4w).1
        (rcRun ⟨false, false, false, false⟩ exC4w).2).1.sub : Int) ≤
      (deadCheckModF (rcRun ⟨false, false, false, false⟩ exC4w).1
        (rcRun ⟨false, false, false, false⟩ exC4w).2).2.uses 3) ∧
    ((∃ ev ∈ (deadCheckModF (rcRun ⟨false, false, false, false⟩ exC4w).1
        (rcRun ⟨false, false, false, false⟩ exC4w).2).2.delEvents,
        ev ∉ (rcRun ⟨false, false, false, false⟩ exC4w).2.delEvents ∧ ev.id = 3) →
      cellCntIn 3 (deadCheckModF (rcRun ⟨false, false, false, false⟩ exC4w).1
        (rcRun ⟨false, false, false, false⟩ exC4w).2).1.sub = 0) :=
  C4_amended_module_sweep (rcRun ⟨false, false, false, false⟩ exC4w).1
    (rcRun ⟨false, false, false, false⟩ exC4w).2 3 (by decide)

end V3Dead

namespace V3Dead

/-- The invocation state with the dtype candidate list blanked: the
only component through which `m_elimDTypes` influences the traversal. -/
def scrubD (s : St) : St := { s with dtypesp := [] }

theorem scrubD_iff {s1 s2 : St} : scrubD s1 = scrubD s2 ↔
    s1.uses = s2.uses ∧ s1.varsp = s2.varsp ∧ s1.vscsp = s2.vscsp ∧
    s1.scopesp = s2.scopesp ∧ s1.cellsp = s2.cellsp ∧ s1.assignMap = s2.assignMap ∧
    s1.sideEffect = s2.sideEffect ∧ s1.modp = s2.modp ∧
    s1.delEvents = s2.delEvents ∧ s1.deletedIds = s2.deletedIds := by
  cases s1
  cases s2
  simp only [scrubD, St.mk.injEq]
  tauto

theorem scrubD_uses {s1 s2 : St} (h : scrubD s1 = scrubD s2) : s1.uses = s2.uses :=
  (scrubD_iff.mp h).1

theorem scrubD_varsp {s1 s2 : St} (h : scrubD s1 = scrubD s2) : s1.varsp = s2.varsp :=
  (scrubD_iff.mp h).2.1

theorem scrubD_vscsp {s1 s2 : St} (h : scrubD s1 = scrubD s2) : s1.vscsp = s2.vscsp :=
  (scrubD_iff.mp h).2.2.1

theorem scrubD_scopesp {s1 s2 : St} (h : scrubD s1 = scrubD s2) : s1.scopesp = s2.scopesp :=
  (scrubD_iff.mp h).2.2.2.1

theorem scrubD_cellsp {s1 s2 : St} (h : scrubD s1 = scrubD s2) : s1.cellsp = s2.cellsp :=
  (scrubD_iff.mp h).2.2.2.2.1

theorem scrubD_am {s1 s2 : St} (h : scrubD s1 = scrubD s2) : s1.assignMap = s2.assignMap :=
  (scrubD_iff.mp h).2.2.2.2.2.1

theorem scrubD_se {s1 s2 : St} (h : scrubD s1 = scrubD s2) : s1.sideEffect = s2.sideEffect :=
  (scrubD_iff.mp h).2.2.2.2.2.2.1

theorem scrubD_modp {s1 s2 : St} (h : scrubD s1 = scrubD s2) : s1.modp = s2.modp :=
  (scrubD_iff.mp h).2.2.2.2.2.2.2.1

theorem scrubD_delEvents {s1 s2 : St} (h : scrubD s1 = scrubD s2) :
    s1.delEvents = s2.delEvents :=
  (scrubD_iff.mp h).2.2.2.2.2.2.2.2.1

theorem scrubD_deletedIds {s1 s2 : St} (h : scrubD s1 = scrubD s2) :
    s1.deletedIds = s2.deletedIds :=
  (scrubD_iff.mp h).2.2.2.2.2.2.2.2.2

theorem scrubD_upd_uses {s1 s2 : St} (h : scrubD s1 = scrubD s2) {u1 u2 : Nat → Int}
    (hu : u1 = u2) : scrubD { s1 with uses := u1 } = scrubD { s2 with uses := u2 } := by
  obtain ⟨_, c2, c3, c4, c5, c6, c7, c8, c9, c10⟩ := scrubD_iff.mp h
  exact scrubD_iff.mpr ⟨hu, c2, c3, c4, c5, c6, c7, c8, c9, c10⟩

theorem scrubD_upd_modp {s1 s2 : St} (h : scrubD s1 = scrubD s2)
    {m1 m2 : Option (Nat × Bool)} (hm : m1 = m2) :
    scrubD { s1 with modp := m1 } = scrubD { s2 with modp := m2 } := by
  obtain ⟨c1, c2, c3, c4, c5, c6, c7, _, c9, c10⟩ := scrubD_iff.mp h
  exact scrubD_iff.mpr ⟨c1, c2, c3, c4, c5, c6, c7, hm, c9, c10⟩

theorem scrubD_upd_se {s1 s2 : St} (h : scrubD s1 = scrubD s2) {b1 b2 : Bool}
    (hb : b1 = b2) :
    scrubD { s1 with sideEffect := b1 } = scrubD { s2 with sideEffect := b2 } := by
  obtain ⟨c1, c2, c3, c4, c5, c6, _, c8, c9, c10⟩ := scrubD_iff.mp h
  exact scrubD_iff.mpr ⟨c1, c2, c3, c4, c5, c6, hb, c8, c9, c10⟩

theorem scrubD_upd_scopesp {s1 s2 : St} (h : scrubD s1 = scrubD s2) {l1 l2 : List Nat}
    (hl : l1 = l2) :
    scrubD { s1 with scopesp := l1 } = scrubD { s2 with scopesp := l2 } := by
  obtain ⟨c1, c2, c3, _, c5, c6, c7, c8, c9, c10⟩ := scrubD_iff.mp h
  exact scrubD_iff.mpr ⟨c1, c2, c3, hl, c5, c6, c7, c8, c9, c10⟩

theorem scrubD_upd_vscsp {s1 s2 : St} (h : scrubD s1 = scrubD s2) {l1 l2 : List Nat}
    (hl : l1 = l2) :
    scrubD { s1 with vscsp := l1 } = scrubD { s2 with vscsp := l2 } := by
  obtain ⟨c1, c2, _, c4, c5, c6, c7, c8, c9, c10⟩ := scrubD_iff.mp h
  exact scrubD_iff.mpr ⟨c1, c2, hl, c4, c5, c6, c7, c8, c9, c10⟩

theorem scrubD_upd_varsp {s1 s2 : St} (h : scrubD s1 = scrubD s2) {l1 l2 : List Nat}
    (hl : l1 = l2) :
    scrubD { s1 with varsp := l1 } = scrubD { s2 with varsp := l2 } := by
  obtain ⟨c1, _, c3, c4, c5, c6, c7, c8, c9, c10⟩ := scrubD_iff.mp h
  exact scrubD_iff.mpr ⟨c1, hl, c3, c4, c5, c6, c7, c8, c9, c10⟩

theorem scrubD_upd_am {s1 s2 : St} (h : scrubD s1 = scrubD s2)
    {l1 l2 : List (Nat × Nat)} (hl : l1 = l2) :
    scrubD { s1 with assignMap := l1 } = scrubD { s2 with assignMap := l2 } := by
  obtain ⟨c1, c2, c3, c4, c5, _, c7, c8, c9, c10⟩ := scrubD_iff.mp h
  exact scrubD_iff.mpr ⟨c1, c2, c3, c4, c5, hl, c7, c8, c9, c10⟩

theorem scrubD_upd_cellsU {s1 s2 : St} (h : scrubD s1 = scrubD s2)
    {l1 l2 : List Nat} (hl : l1 = l2) {u1 u2 : Nat → Int} (hu : u1 = u2) :
    scrubD { s1 with cellsp := l1, uses := u1 } =
      scrubD { s2 with cellsp := l2, uses := u2 } := by
  obtain ⟨_, c2, c3, c4, _, c6, c7, c8, c9, c10⟩ := scrubD_iff.mp h
  exact scrubD_iff.mpr ⟨hu, c2, c3, c4, hl, c6, c7, c8, c9, c10⟩

theorem scrubD_logDel {s1 s2 : St} (h : scrubD s1 = scrubD s2) (a b : Tree)
    (hab : a = b) : scrubD (logDel a s1) = scrubD (logDel b s2) := by
  obtain ⟨c1, c2, c3, c4, c5, c6, c7, c8, c9, c10⟩ := scrubD_iff.mp h
  refine scrubD_iff.mpr ⟨c1, c2, c3, c4, c5, c6, c7, c8, ?_, ?_⟩
  · show s1.delEvents ++ [⟨a.id, s1.uses a.id, a.kind⟩] =
      s2.delEvents ++ [⟨b.id, s2.uses b.id, b.kind⟩]
    rw [c9, c1, hab]
  · show s1.deletedIds ++ a.subIds = s2.deletedIds ++ b.subIds
    rw [c10, hab]

theorem scrubD_dtypesp_drop (s : St) (l : List Nat) :
    scrubD { s with dtypesp := l } = scrubD s := rfl

theorem scrubD_checkDType (f1 f2 : Flags) (i1 i2 : Nat) (g mem : Bool) (vr : Option Nat)
    {s1 s2 : St} (h : scrubD s1 = scrubD s2) :
    scrubD (checkDType f1 i1 g mem vr s1) = scrubD (checkDType f2 i2 g mem vr s2) := by
  have hu := scrubD_uses h
  unfold checkDType
  dsimp only
  split
  · split
    · exact scrubD_upd_uses
        ((scrubD_dtypesp_drop s1 _).trans (h.trans (scrubD_dtypesp_drop s2 _).symm))
        (congrArg (fun u => bumpO u vr 1) hu)
    · exact scrubD_upd_uses ((scrubD_dtypesp_drop s1 _).trans h)
        (congrArg (fun u => bumpO u vr 1) hu)
  · split
    · exact scrubD_upd_uses (h.trans (scrubD_dtypesp_drop s2 _).symm)
        (congrArg (fun u => bumpO u vr 1) hu)
    · exact scrubD_upd_uses h (congrArg (fun u => bumpO u vr 1) hu)

theorem pkgHandle_dtEq (pp : Option Nat) {s1 s2 : St} (h : scrubD s1 = scrubD s2) :
    (pkgHandle ⟨false, false, false, false⟩ pp s1).1 =
      (pkgHandle ⟨false, true, false, false⟩ pp s2).1 ∧
    scrubD (pkgHandle ⟨false, false, false, false⟩ pp s1).2 =
      scrubD (pkgHandle ⟨false, true, false, false⟩ pp s2).2 := by
  cases pp with
  | none => exact ⟨rfl, h⟩
  | some p =>
    simp only [pkgHandle]
    rw [if_neg (by simp), if_neg (by simp)]
    exact ⟨rfl, scrubD_upd_uses h (by rw [scrubD_uses h])⟩

theorem mightElimVarAt_dt (orig : Tree) (v : Nat) :
    mightElimVarAt ⟨false, false, false, false⟩ orig v =
      mightElimVarAt ⟨false, true, false, false⟩ orig v := by
  unfold mightElimVarAt
  cases orig.lookup v with
  | none => rfl
  | some a =>
    cases a with
    | nil => rfl
    | node i k d c sb sb2 nx => cases k <;> rfl

end V3Dead

namespace V3Dead

theorem scrubD_upd_usesScopesp {s1 s2 : St} (h : scrubD s1 = scrubD s2)
    {u1 u2 : Nat → Int} (hu : u1 = u2) {l1 l2 : List Nat} (hl : l1 = l2) :
    scrubD { s1 with uses := u1, scopesp := l1 } =
      scrubD { s2 with uses := u2, scopesp := l2 } := by
  obtain ⟨_, c2, c3, _, c5, c6, c7, c8, c9, c10⟩ := scrubD_iff.mp h
  exact scrubD_iff.mpr ⟨hu, c2, c3, hl, c5, c6, c7, c8, c9, c10⟩

theorem scrubD_upd_usesVscsp {s1 s2 : St} (h : scrubD s1 = scrubD s2)
    {u1 u2 : Nat → Int} (hu : u1 = u2) {l1 l2 : List Nat} (hl : l1 = l2) :
    scrubD { s1 with uses := u1, vscsp := l1 } =
      scrubD { s2 with uses := u2, vscsp := l2 } := by
  obtain ⟨_, c2, _, c4, c5, c6, c7, c8, c9, c10⟩ := scrubD_iff.mp h
  exact scrubD_iff.mpr ⟨hu, c2, hl, c4, c5, c6, c7, c8, c9, c10⟩

theorem scrubD_upd_usesVarsp {s1 s2 : St} (h : scrubD s1 = scrubD s2)
    {u1 u2 : Nat → Int} (hu : u1 = u2) {l1 l2 : List Nat} (hl : l1 = l2) :
    scrubD { s1 with uses := u1, varsp := l1 } =
      scrubD { s2 with uses := u2, varsp := l2 } := by
  obtain ⟨_, _, c3, c4, c5, c6, c7, c8, c9, c10⟩ := scrubD_iff.mp h
  exact scrubD_iff.mpr ⟨hu, hl, c3, c4, c5, c6, c7, c8, c9, c10⟩

theorem scrubD_upd_usesModp {s1 s2 : St} (h : scrubD s1 = scrubD s2)
    {u1 u2 : Nat → Int} (hu : u1 = u2) {m1 m2 : Option (Nat × Bool)} (hm : m1 = m2) :
    scrubD { s1 with uses := u1, modp := m1 } =
      scrubD { s2 with uses := u2, modp := m2 } := by
  obtain ⟨_, c2, c3, c4, c5, c6, c7, _, c9, c10⟩ := scrubD_iff.mp h
  exact scrubD_iff.mpr ⟨hu, c2, c3, c4, c5, c6, c7, hm, c9, c10⟩

theorem scrubD_upd_usesAm {s1 s2 : St} (h : scrubD s1 = scrubD s2)
    {u1 u2 : Nat → Int} (hu : u1 = u2) {l1 l2 : List (Nat × Nat)} (hl : l1 = l2) :
    scrubD { s1 with uses := u1, assignMap := l1 } =
      scrubD { s2 with uses := u2, assignMap := l2 } := by
  obtain ⟨_, c2, c3, c4, c5, _, c7, c8, c9, c10⟩ := scrubD_iff.mp h
  exact scrubD_iff.mpr ⟨hu, c2, c3, c4, c5, hl, c7, c8, c9, c10⟩

theorem scrubD_upd_usesCellsp {s1 s2 : St} (h : scrubD s1 = scrubD s2)
    {u1 u2 : Nat → Int} (hu : u1 = u2) {l1 l2 : List Nat} (hl : l1 = l2) :
    scrubD { s1 with uses := u1, cellsp := l1 } =
      scrubD { s2 with uses := u2, cellsp := l2 } := by
  obtain ⟨_, c2, c3, c4, _, c6, c7, c8, c9, c10⟩ := scrubD_iff.mp h
  exact scrubD_iff.mpr ⟨hu, c2, c3, c4, hl, c6, c7, c8, c9, c10⟩

end V3Dead

namespace V3Dead

set_option maxHeartbeats 1600000

/-- The only difference between the `dead_modules` and `dead_dtypes`
flag sets is `m_elimDTypes`, which the traversal consults solely to
decide whether `checkDType` records a dtype candidate: on the same
input the two traversals rebuild the same tree and agree on every
state component except the dtype candidate list. -/
theorem rcC_dtEq (orig : Tree) : (t : Tree) → (s1 s2 : St) → scrubD s1 = scrubD s2 →
    (rcC ⟨false, false, false, false⟩ orig t s1).1 =
      (rcC ⟨false, true, false, false⟩ orig t s2).1 ∧
    scrubD (rcC ⟨false, false, false, false⟩ orig t s1).2 =
      scrubD (rcC ⟨false, true, false, false⟩ orig t s2).2
  | .nil, s1, s2, h => ⟨rfl, h⟩
  | .node i k d c sb sb2 nx, s1, s2, h => by
    cases k with
    | netlist =>
      simp only [rcC]
      rcases hA1 : rcC ⟨false, false, false, false⟩ orig sb s1 with ⟨sbA, sA1⟩
      rcases hB1 : rcC ⟨false, true, false, false⟩ orig sb s2 with ⟨sbB, sB1⟩
      have ih1 := rcC_dtEq orig sb s1 s2 h
      rw [hA1, hB1] at ih1
      try dsimp only at ih1
      rcases hA2 : rcC ⟨false, false, false, false⟩ orig sb2 sA1 with ⟨sb2A, sA2⟩
      rcases hB2 : rcC ⟨false, true, false, false⟩ orig sb2 sB1 with ⟨sb2B, sB2⟩
      have ih2 := rcC_dtEq orig sb2 sA1 sB1 ih1.2
      rw [hA2, hB2] at ih2
      try dsimp only at ih2
      rcases hA3 : rcC ⟨false, false, false, false⟩ orig nx
          { sA2 with uses := checkAll i d c sA2.uses } with ⟨nxA, sA3⟩
      rcases hB3 : rcC ⟨false, true, false, false⟩ orig nx
          { sB2 with uses := checkAll i d c sB2.uses } with ⟨nxB, sB3⟩
      have ih3 := rcC_dtEq orig nx { sA2 with uses := checkAll i d c sA2.uses }
          { sB2 with uses := checkAll i d c sB2.uses }
          (scrubD_upd_uses ih2.2 (by rw [scrubD_uses ih2.2]))
      rw [hA3, hB3] at ih3
      try dsimp only at ih3
      try dsimp only
      rw [ih1.1, ih2.1, ih3.1]
      exact ⟨rfl, ih3.2⟩
    | module lvl intl pkg =>
      simp only [rcC]
      rcases hA1 : rcC ⟨false, false, false, false⟩ orig sb
          { s1 with modp := some (i, pkg) } with ⟨sbA, sA1⟩
      rcases hB1 : rcC ⟨false, true, false, false⟩ orig sb
          { s2 with modp := some (i, pkg) } with ⟨sbB, sB1⟩
      have ih1 := rcC_dtEq orig sb { s1 with modp := some (i, pkg) }
          { s2 with modp := some (i, pkg) } (scrubD_upd_modp h rfl)
      rw [hA1, hB1] at ih1
      try dsimp only at ih1
      rcases hA2 : rcC ⟨false, false, false, false⟩ orig sb2 sA1 with ⟨sb2A, sA2⟩
      rcases hB2 : rcC ⟨false, true, false, false⟩ orig sb2 sB1 with ⟨sb2B, sB2⟩
      have ih2 := rcC_dtEq orig sb2 sA1 sB1 ih1.2
      rw [hA2, hB2] at ih2
      try dsimp only at ih2
      rcases hA3 : rcC ⟨false, false, false, false⟩ orig nx
          { sA2 with uses := checkAll i d c sA2.uses, modp := none } with ⟨nxA, sA3⟩
      rcases hB3 : rcC ⟨false, true, false, false⟩ orig nx
          { sB2 with uses := checkAll i d c sB2.uses, modp := none } with ⟨nxB, sB3⟩
      have ih3 := rcC_dtEq orig nx { sA2 with uses := checkAll i d c sA2.uses, modp := none }
          { sB2 with uses := checkAll i d c sB2.uses, modp := none }
          (scrubD_upd_usesModp ih2.2 (by rw [scrubD_uses ih2.2]) rfl)
      rw [hA3, hB3] at ih3
      try dsimp only at ih3
      try dsimp only
      rw [ih1.1, ih2.1, ih3.1]
      exact ⟨rfl, ih3.2⟩
    | cfunc scp =>
      simp only [rcC]
      rcases hA1 : rcC ⟨false, false, false, false⟩ orig sb s1 with ⟨sbA, sA1⟩
      rcases hB1 : rcC ⟨false, true, false, false⟩ orig sb s2 with ⟨sbB, sB1⟩
      have ih1 := rcC_dtEq orig sb s1 s2 h
      rw [hA1, hB1] at ih1
      try dsimp only at ih1
      rcases hA2 : rcC ⟨false, false, false, false⟩ orig sb2 sA1 with ⟨sb2A, sA2⟩
      rcases hB2 : rcC ⟨false, true, false, false⟩ orig sb2 sB1 with ⟨sb2B, sB2⟩
      have ih2 := rcC_dtEq orig sb2 sA1 sB1 ih1.2
      rw [hA2, hB2] at ih2
      try dsimp only at ih2
      rcases hA3 : rcC ⟨false, false, false, false⟩ orig nx
          { sA2 with uses := bumpO (checkAll i d c sA2.uses) scp 1 } with ⟨nxA, sA3⟩
      rcases hB3 : rcC ⟨false, true, false, false⟩ orig nx
          { sB2 with uses := bumpO (checkAll i d c sB2.uses) scp 1 } with ⟨nxB, sB3⟩
      have ih3 := rcC_dtEq orig nx { sA2 with uses := bumpO (checkAll i d c sA2.uses) scp 1 }
          { sB2 with uses := bumpO (checkAll i d c sB2.uses) scp 1 }
          (scrubD_upd_uses ih2.2 (by rw [scrubD_uses ih2.2]))
      rw [hA3, hB3] at ih3
      try dsimp only at ih3
      try dsimp only
      rw [ih1.1, ih2.1, ih3.1]
      exact ⟨rfl, ih3.2⟩
    | scope abv top hv hb hf =>
      simp only [rcC]
      rcases hA1 : rcC ⟨false, false, false, false⟩ orig sb s1 with ⟨sbA, sA1⟩
      rcases hB1 : rcC ⟨false, true, false, false⟩ orig sb s2 with ⟨sbB, sB1⟩
      have ih1 := rcC_dtEq orig sb s1 s2 h
      rw [hA1, hB1] at ih1
      try dsimp only at ih1
      rcases hA2 : rcC ⟨false, false, false, false⟩ orig sb2 sA1 with ⟨sb2A, sA2⟩
      rcases hB2 : rcC ⟨false, true, false, false⟩ orig sb2 sB1 with ⟨sb2B, sB2⟩
      have ih2 := rcC_dtEq orig sb2 sA1 sB1 ih1.2
      rw [hA2, hB2] at ih2
      try dsimp only at ih2
      by_cases hcc : (!top && !hv && !hb && !hf) = true
      · rw [if_pos hcc, if_pos hcc]
        rcases hA3 : rcC ⟨false, false, false, false⟩ orig nx
            { sA2 with uses := bumpO (checkAll i d c sA2.uses) abv 1,
                       scopesp := sA2.scopesp ++ [i] } with ⟨nxA, sA3⟩
        rcases hB3 : rcC ⟨false, true, false, false⟩ orig nx
            { sB2 with uses := bumpO (checkAll i d c sB2.uses) abv 1,
                       scopesp := sB2.scopesp ++ [i] } with ⟨nxB, sB3⟩
        have ih3 := rcC_dtEq orig nx
            { sA2 with uses := bumpO (checkAll i d c sA2.uses) abv 1,
                       scopesp := sA2.scopesp ++ [i] }
            { sB2 with uses := bumpO (checkAll i d c sB2.uses) abv 1,
                       scopesp := sB2.scopesp ++ [i] }
            (scrubD_upd_usesScopesp ih2.2 (by rw [scrubD_uses ih2.2])
              (by rw [scrubD_scopesp ih2.2]))
        rw [hA3, hB3] at ih3
        try dsimp only at ih3
        try dsimp only
        rw [ih1.1, ih2.1, ih3.1]
        exact ⟨rfl, ih3.2⟩
      · rw [if_neg hcc, if_neg hcc]
        rcases hA3 : rcC ⟨false, false, false, false⟩ orig nx
            { sA2 with uses := bumpO (checkAll i d c sA2.uses) abv 1 } with ⟨nxA, sA3⟩
        rcases hB3 : rcC ⟨false, true, false, false⟩ orig nx
            { sB2 with uses := bumpO (checkAll i d c sB2.uses) abv 1 } with ⟨nxB, sB3⟩
        have ih3 := rcC_dtEq orig nx
            { sA2 with uses := bumpO (checkAll i d c sA2.uses) abv 1 }
            { sB2 with uses := bumpO (checkAll i d c sB2.uses) abv 1 }
            (scrubD_upd_uses ih2.2 (by rw [scrubD_uses ih2.2]))
        rw [hA3, hB3] at ih3
        try dsimp only at ih3
        try dsimp only
        rw [ih1.1, ih2.1, ih3.1]
        exact ⟨rfl, ih3.2⟩
    | cell mt =>
      simp only [rcC]
      rcases hA1 : rcC ⟨false, false, false, false⟩ orig sb s1 with ⟨sbA, sA1⟩
      rcases hB1 : rcC ⟨false, true, false, false⟩ orig sb s2 with ⟨sbB, sB1⟩
      have ih1 := rcC_dtEq orig sb s1 s2 h
      rw [hA1, hB1] at ih1
      try dsimp only at ih1
      rcases hA2 : rcC ⟨false, false, false, false⟩ orig sb2 sA1 with ⟨sb2A, sA2⟩
      rcases hB2 : rcC ⟨false, true, false, false⟩ orig sb2 sB1 with ⟨sb2B, sB2⟩
      have ih2 := rcC_dtEq orig sb2 sA1 sB1 ih1.2
      rw [hA2, hB2] at ih2
      try dsimp only at ih2
      rcases hA3 : rcC ⟨false, false, false, false⟩ orig nx
          { sA2 with uses := bump (checkAll i d c sA2.uses) mt 1,
                     cellsp := sA2.cellsp ++ [i] } with ⟨nxA, sA3⟩
      rcases hB3 : rcC ⟨false, true, false, false⟩ orig nx
          { sB2 with uses := bump (checkAll i d c sB2.uses) mt 1,
                     cellsp := sB2.cellsp ++ [i] } with ⟨nxB, sB3⟩
      have ih3 := rcC_dtEq orig nx
          { sA2 with uses := bump (checkAll i d c sA2.uses) mt 1,
                     cellsp := sA2.cellsp ++ [i] }
          { sB2 with uses := bump (checkAll i d c sB2.uses) mt 1,
                     cellsp := sB2.cellsp ++ [i] }
          (scrubD_upd_usesCellsp ih2.2 (by rw [scrubD_uses ih2.2])
            (by rw [scrubD_cellsp ih2.2]))
      rw [hA3, hB3] at ih3
      try dsimp only at ih3
      try dsimp only
      rw [ih1.1, ih2.1, ih3.1]
      exact ⟨rfl, ih3.2⟩
    | varRef vp vsp pp =>
      simp only [rcC]
      rcases hA1 : rcC ⟨false, false, false, false⟩ orig sb s1 with ⟨sbA, sA1⟩
      rcases hB1 : rcC ⟨false, true, false, false⟩ orig sb s2 with ⟨sbB, sB1⟩
      have ih1 := rcC_dtEq orig sb s1 s2 h
      rw [hA1, hB1] at ih1
      try dsimp only at ih1
      rcases hA2 : rcC ⟨false, false, false, false⟩ orig sb2 sA1 with ⟨sb2A, sA2⟩
      rcases hB2 : rcC ⟨false, true, false, false⟩ orig sb2 sB1 with ⟨sb2B, sB2⟩
      have ih2 := rcC_dtEq orig sb2 sA1 sB1 ih1.2
      rw [hA2, hB2] at ih2
      try dsimp only at ih2
      rcases hPA : pkgHandle ⟨false, false, false, false⟩ pp
          { sA2 with uses := bumpO (vsUses orig vsp (checkAll i d c sA2.uses)) vp 1 }
          with ⟨ppA, sA3⟩
      rcases hPB : pkgHandle ⟨false, true, false, false⟩ pp
          { sB2 with uses := bumpO (vsUses orig vsp (checkAll i d c sB2.uses)) vp 1 }
          with ⟨ppB, sB3⟩
      have hpkg := pkgHandle_dtEq pp
          (scrubD_upd_uses ih2.2 (by rw [scrubD_uses ih2.2]) :
            scrubD { sA2 with uses := bumpO (vsUses orig vsp (checkAll i d c sA2.uses)) vp 1 } =
            scrubD { sB2 with uses := bumpO (vsUses orig vsp (checkAll i d c sB2.uses)) vp 1 })
      rw [hPA, hPB] at hpkg
      try dsimp only at hpkg
      rcases hA3 : rcC ⟨false, false, false, false⟩ orig nx sA3 with ⟨nxA, sA4⟩
      rcases hB3 : rcC ⟨false, true, false, false⟩ orig nx sB3 with ⟨nxB, sB4⟩
      have ih3 := rcC_dtEq orig nx sA3 sB3 hpkg.2
      rw [hA3, hB3] at ih3
      try dsimp only at ih3
      try dsimp only
      rw [ih1.1, ih2.1, ih3.1, hpkg.1]
      exact ⟨rfl, ih3.2⟩
    | ftaskRef pp =>
      simp only [rcC]
      rcases hA1 : rcC ⟨false, false, false, false⟩ orig sb s1 with ⟨sbA, sA1⟩
      rcases hB1 : rcC ⟨false, true, false, false⟩ orig sb s2 with ⟨sbB, sB1⟩
      have ih1 := rcC_dtEq orig sb s1 s2 h
      rw [hA1, hB1] at ih1
      try dsimp only at ih1
      rcases hA2 : rcC ⟨false, false, false, false⟩ orig sb2 sA1 with ⟨sb2A, sA2⟩
      rcases hB2 : rcC ⟨false, true, false, false⟩ orig sb2 sB1 with ⟨sb2B, sB2⟩
      have ih2 := rcC_dtEq orig sb2 sA1 sB1 ih1.2
      rw [hA2, hB2] at ih2
      try dsimp only at ih2
      rcases hPA : pkgHandle ⟨false, false, false, false⟩ pp
          { sA2 with uses := checkAll i d c sA2.uses } with ⟨ppA, sA3⟩
      rcases hPB : pkgHandle ⟨false, true, false, false⟩ pp
          { sB2 with uses := checkAll i d c sB2.uses } with ⟨ppB, sB3⟩
      have hpkg := pkgHandle_dtEq pp
          (scrubD_upd_uses ih2.2 (by rw [scrubD_uses ih2.2]) :
            scrubD { sA2 with uses := checkAll i d c sA2.uses } =
            scrubD { sB2 with uses := checkAll i d c sB2.uses })
      rw [hPA, hPB] at hpkg
      try dsimp only at hpkg
      rcases hA3 : rcC ⟨false, false, false, false⟩ orig nx sA3 with ⟨nxA, sA4⟩
      rcases hB3 : rcC ⟨false, true, false, false⟩ orig nx sB3 with ⟨nxB, sB4⟩
      have ih3 := rcC_dtEq orig nx sA3 sB3 hpkg.2
      rw [hA3, hB3] at ih3
      try dsimp only at ih3
      try dsimp only
      rw [ih1.1, ih2.1, ih3.1, hpkg.1]
      exact ⟨rfl, ih3.2⟩
    | refDType g vr pp =>
      simp only [rcC]
      rcases hA1 : rcC ⟨false, false, false, false⟩ orig sb s1 with ⟨sbA, sA1⟩
      rcases hB1 : rcC ⟨false, true, false, false⟩ orig sb s2 with ⟨sbB, sB1⟩
      have ih1 := rcC_dtEq orig sb s1 s2 h
      rw [hA1, hB1] at ih1
      try dsimp only at ih1
      rcases hA2 : rcC ⟨false, false, false, false⟩ orig sb2 sA1 with ⟨sb2A, sA2⟩
      rcases hB2 : rcC ⟨false, true, false, false⟩ orig sb2 sB1 with ⟨sb2B, sB2⟩
      have ih2 := rcC_dtEq orig sb2 sA1 sB1 ih1.2
      rw [hA2, hB2] at ih2
      try dsimp only at ih2
      have hcd := scrubD_checkDType ⟨false, false, false, false⟩ ⟨false, true, false, false⟩
          i i g false vr ih2.2
      rcases hPA : pkgHandle ⟨false, false, false, false⟩ pp
          { checkDType ⟨false, false, false, false⟩ i g false vr sA2 with
            uses := checkAll i d c
              (checkDType ⟨false, false, false, false⟩ i g false vr sA2).uses }
          with ⟨ppA, sA3⟩
      rcases hPB : pkgHandle ⟨false, true, false, false⟩ pp
          { checkDType ⟨false, true, false, false⟩ i g false vr sB2 with
            uses := checkAll i d c
              (checkDType ⟨false, true, false, false⟩ i g false vr sB2).uses }
          with ⟨ppB, sB3⟩
      have hpkg := pkgHandle_dtEq pp
          (scrubD_upd_uses hcd (by rw [scrubD_uses hcd]) :
            scrubD { checkDType ⟨false, false, false, false⟩ i g false vr sA2 with
              uses := checkAll i d c
                (checkDType ⟨false, false, false, false⟩ i g false vr sA2).uses } =
            scrubD { checkDType ⟨false, true, false, false⟩ i g false vr sB2 with
              uses := checkAll i d c
                (checkDType ⟨false, true, false, false⟩ i g false vr sB2).uses })
      rw [hPA, hPB] at hpkg
      try dsimp only at hpkg
      rcases hA3 : rcC ⟨false, false, false, false⟩ orig nx sA3 with ⟨nxA, sA4⟩
      rcases hB3 : rcC ⟨false, true, false, false⟩ orig nx sB3 with ⟨nxB, sB4⟩
      have ih3 := rcC_dtEq orig nx sA3 sB3 hpkg.2
      rw [hA3, hB3] at ih3
      try dsimp only at ih3
      try dsimp only
      rw [ih1.1, ih2.1, ih3.1, hpkg.1]
      exact ⟨rfl, ih3.2⟩
    | dtype g mem cl vr =>
      simp only [rcC]
      rcases hA1 : rcC ⟨false, false, false, false⟩ orig sb s1 with ⟨sbA, sA1⟩
      rcases hB1 : rcC ⟨false, true, false, false⟩ orig sb s2 with ⟨sbB, sB1⟩
      have ih1 := rcC_dtEq orig sb s1 s2 h
      rw [hA1, hB1] at ih1
      try dsimp only at ih1
      rcases hA2 : rcC ⟨false, false, false, false⟩ orig sb2 sA1 with ⟨sb2A, sA2⟩
      rcases hB2 : rcC ⟨false, true, false, false⟩ orig sb2 sB1 with ⟨sb2B, sB2⟩
      have ih2 := rcC_dtEq orig sb2 sA1 sB1 ih1.2
      rw [hA2, hB2] at ih2
      try dsimp only at ih2
      have hcd := scrubD_checkDType ⟨false, false, false, false⟩ ⟨false, true, false, false⟩
          i i g mem vr ih2.2
      rcases hA3 : rcC ⟨false, false, false, false⟩ orig nx
          { checkDType ⟨false, false, false, false⟩ i g mem vr sA2 with
            uses := checkAll i d c
              (checkDType ⟨false, false, false, false⟩ i g mem vr sA2).uses } with ⟨nxA, sA3⟩
      rcases hB3 : rcC ⟨false, true, false, false⟩ orig nx
          { checkDType ⟨false, true, false, false⟩ i g mem vr sB2 with
            uses := checkAll i d c
              (checkDType ⟨false, true, false, false⟩ i g mem vr sB2).uses } with ⟨nxB, sB3⟩
      have ih3 := rcC_dtEq orig nx
          { checkDType ⟨false, false, false, false⟩ i g mem vr sA2 with
            uses := checkAll i d c
              (checkDType ⟨false, false, false, false⟩ i g mem vr sA2).uses }
          { checkDType ⟨false, true, false, false⟩ i g mem vr sB2 with
            uses := checkAll i d c
              (checkDType ⟨false, true, false, false⟩ i g mem vr sB2).uses }
          (scrubD_upd_uses hcd (by rw [scrubD_uses hcd]))
      rw [hA3, hB3] at ih3
      try dsimp only at ih3
      try dsimp only
      rw [ih1.1, ih2.1, ih3.1]
      exact ⟨rfl, ih3.2⟩
    | enumItemRef pp =>
      simp only [rcC]
      rcases hA1 : rcC ⟨false, false, false, false⟩ orig sb s1 with ⟨sbA, sA1⟩
      rcases hB1 : rcC ⟨false, true, false, false⟩ orig sb s2 with ⟨sbB, sB1⟩
      have ih1 := rcC_dtEq orig sb s1 s2 h
      rw [hA1, hB1] at ih1
      try dsimp only at ih1
      rcases hA2 : rcC ⟨false, false, false, false⟩ orig sb2 sA1 with ⟨sb2A, sA2⟩
      rcases hB2 : rcC ⟨false, true, false, false⟩ orig sb2 sB1 with ⟨sb2B, sB2⟩
      have ih2 := rcC_dtEq orig sb2 sA1 sB1 ih1.2
      rw [hA2, hB2] at ih2
      try dsimp only at ih2
      rcases hPA : pkgHandle ⟨false, false, false, false⟩ pp
          { sA2 with uses := checkAll i d c sA2.uses } with ⟨ppA, sA3⟩
      rcases hPB : pkgHandle ⟨false, true, false, false⟩ pp
          { sB2 with uses := checkAll i d c sB2.uses } with ⟨ppB, sB3⟩
      have hpkg := pkgHandle_dtEq pp
          (scrubD_upd_uses ih2.2 (by rw [scrubD_uses ih2.2]) :
            scrubD { sA2 with uses := checkAll i d c sA2.uses } =
            scrubD { sB2 with uses := checkAll i d c sB2.uses })
      rw [hPA, hPB] at hpkg
      try dsimp only at hpkg
      rcases hA3 : rcC ⟨false, false, false, false⟩ orig nx
          { sA3 with uses := checkAll i d c sA3.uses } with ⟨nxA, sA4⟩
      rcases hB3 : rcC ⟨false, true, false, false⟩ orig nx
          { sB3 with uses := checkAll i d c sB3.uses } with ⟨nxB, sB4⟩
      have ih3 := rcC_dtEq orig nx { sA3 with uses := checkAll i d c sA3.uses }
          { sB3 with uses := checkAll i d c sB3.uses }
          (scrubD_upd_uses hpkg.2 (by rw [scrubD_uses hpkg.2]))
      rw [hA3, hB3] at ih3
      try dsimp only at ih3
      try dsimp only
      rw [ih1.1, ih2.1, ih3.1, hpkg.1]
      exact ⟨rfl, ih3.2⟩
    | modport hvv =>
      simp only [rcC]
      rcases hA1 : rcC ⟨false, false, false, false⟩ orig sb s1 with ⟨sbA, sA1⟩
      rcases hB1 : rcC ⟨false, true, false, false⟩ orig sb s2 with ⟨sbB, sB1⟩
      have ih1 := rcC_dtEq orig sb s1 s2 h
      rw [hA1, hB1] at ih1
      try dsimp only at ih1
      rcases hA2 : rcC ⟨false, false, false, false⟩ orig sb2 sA1 with ⟨sb2A, sA2⟩
      rcases hB2 : rcC ⟨false, true, false, false⟩ orig sb2 sB1 with ⟨sb2B, sB2⟩
      have ih2 := rcC_dtEq orig sb2 sA1 sB1 ih1.2
      rw [hA2, hB2] at ih2
      try dsimp only at ih2
      rw [if_neg (by simp), if_neg (by simp)]
      rcases hA3 : rcC ⟨false, false, false, false⟩ orig nx
          { sA2 with uses := checkAll i d c sA2.uses } with ⟨nxA, sA3⟩
      rcases hB3 : rcC ⟨false, true, false, false⟩ orig nx
          { sB2 with uses := checkAll i d c sB2.uses } with ⟨nxB, sB3⟩
      have ih3 := rcC_dtEq orig nx { sA2 with uses := checkAll i d c sA2.uses }
          { sB2 with uses := checkAll i d c sB2.uses }
          (scrubD_upd_uses ih2.2 (by rw [scrubD_uses ih2.2]))
      rw [hA3, hB3] at ih3
      try dsimp only at ih3
      try dsimp only
      rw [ih1.1, ih2.1, ih3.1]
      exact ⟨rfl, ih3.2⟩
    | typedefD pub =>
      simp only [rcC]
      rcases hA1 : rcC ⟨false, false, false, false⟩ orig sb s1 with ⟨sbA, sA1⟩
      rcases hB1 : rcC ⟨false, true, false, false⟩ orig sb s2 with ⟨sbB, sB1⟩
      have ih1 := rcC_dtEq orig sb s1 s2 h
      rw [hA1, hB1] at ih1
      try dsimp only at ih1
      rcases hA2 : rcC ⟨false, false, false, false⟩ orig sb2 sA1 with ⟨sb2A, sA2⟩
      rcases hB2 : rcC ⟨false, true, false, false⟩ orig sb2 sB1 with ⟨sb2B, sB2⟩
      have ih2 := rcC_dtEq orig sb2 sA1 sB1 ih1.2
      rw [hA2, hB2] at ih2
      try dsimp only at ih2
      rw [if_neg (by simp), if_neg (by simp)]
      rcases hA3 : rcC ⟨false, false, false, false⟩ orig nx
          { sA2 with uses := pinUses pub sA2.modp (checkAll i d c sA2.uses) } with ⟨nxA, sA3⟩
      rcases hB3 : rcC ⟨false, true, false, false⟩ orig nx
          { sB2 with uses := pinUses pub sB2.modp (checkAll i d c sB2.uses) } with ⟨nxB, sB3⟩
      have ih3 := rcC_dtEq orig nx
          { sA2 with uses := pinUses pub sA2.modp (checkAll i d c sA2.uses) }
          { sB2 with uses := pinUses pub sB2.modp (checkAll i d c sB2.uses) }
          (scrubD_upd_uses ih2.2 (by rw [scrubD_modp ih2.2, scrubD_uses ih2.2]))
      rw [hA3, hB3] at ih3
      try dsimp only at ih3
      try dsimp only
      rw [ih1.1, ih2.1, ih3.1]
      exact ⟨rfl, ih3.2⟩
    | varScope scp vvar =>
      simp only [rcC]
      rcases hA1 : rcC ⟨false, false, false, false⟩ orig sb s1 with ⟨sbA, sA1⟩
      rcases hB1 : rcC ⟨false, true, false, false⟩ orig sb s2 with ⟨sbB, sB1⟩
      have ih1 := rcC_dtEq orig sb s1 s2 h
      rw [hA1, hB1] at ih1
      try dsimp only at ih1
      rcases hA2 : rcC ⟨false, false, false, false⟩ orig sb2 sA1 with ⟨sb2A, sA2⟩
      rcases hB2 : rcC ⟨false, true, false, false⟩ orig sb2 sB1 with ⟨sb2B, sB2⟩
      have ih2 := rcC_dtEq orig sb2 sA1 sB1 ih1.2
      rw [hA2, hB2] at ih2
      try dsimp only at ih2
      by_cases hcc : mightElimVarAt ⟨false, false, false, false⟩ orig vvar = true
      · rw [if_pos hcc, if_pos (by rw [← mightElimVarAt_dt]; exact hcc)]
        rcases hA3 : rcC ⟨false, false, false, false⟩ orig nx
            { sA2 with uses := bumpO (checkAll i d c sA2.uses) scp 1,
                       vscsp := sA2.vscsp ++ [i] } with ⟨nxA, sA3⟩
        rcases hB3 : rcC ⟨false, true, false, false⟩ orig nx
            { sB2 with uses := bumpO (checkAll i d c sB2.uses) scp 1,
                       vscsp := sB2.vscsp ++ [i] } with ⟨nxB, sB3⟩
        have ih3 := rcC_dtEq orig nx
            { sA2 with uses := bumpO (checkAll i d c sA2.uses) scp 1,
                       vscsp := sA2.vscsp ++ [i] }
            { sB2 with uses := bumpO (checkAll i d c sB2.uses) scp 1,
                       vscsp := sB2.vscsp ++ [i] }
            (scrubD_upd_usesVscsp ih2.2 (by rw [scrubD_uses ih2.2])
              (by rw [scrubD_vscsp ih2.2]))
        rw [hA3, hB3] at ih3
        try dsimp only at ih3
        try dsimp only
        rw [ih1.1, ih2.1, ih3.1]
        exact ⟨rfl, ih3.2⟩
      · rw [if_neg hcc, if_neg (by rw [← mightElimVarAt_dt]; exact hcc)]
        rcases hA3 : rcC ⟨false, false, false, false⟩ orig nx
            { sA2 with uses := bumpO (checkAll i d c sA2.uses) scp 1 } with ⟨nxA, sA3⟩
        rcases hB3 : rcC ⟨false, true, false, false⟩ orig nx
            { sB2 with uses := bumpO (checkAll i d c sB2.uses) scp 1 } with ⟨nxB, sB3⟩
        have ih3 := rcC_dtEq orig nx
            { sA2 with uses := bumpO (checkAll i d c sA2.uses) scp 1 }
            { sB2 with uses := bumpO (checkAll i d c sB2.uses) scp 1 }
            (scrubD_upd_uses ih2.2 (by rw [scrubD_uses ih2.2]))
        rw [hA3, hB3] at ih3
        try dsimp only at ih3
        try dsimp only
        rw [ih1.1, ih2.1, ih3.1]
        exact ⟨rfl, ih3.2⟩
    | var sp io tm pa tr =>
      simp only [rcC]
      rcases hA1 : rcC ⟨false, false, false, false⟩ orig sb s1 with ⟨sbA, sA1⟩
      rcases hB1 : rcC ⟨false, true, false, false⟩ orig sb s2 with ⟨sbB, sB1⟩
      have ih1 := rcC_dtEq orig sb s1 s2 h
      rw [hA1, hB1] at ih1
      try dsimp only at ih1
      rcases hA2 : rcC ⟨false, false, false, false⟩ orig sb2 sA1 with ⟨sb2A, sA2⟩
      rcases hB2 : rcC ⟨false, true, false, false⟩ orig sb2 sB1 with ⟨sb2B, sB2⟩
      have ih2 := rcC_dtEq orig sb2 sA1 sB1 ih1.2
      rw [hA2, hB2] at ih2
      try dsimp only at ih2
      have hmev : mightElimVar ⟨false, true, false, false⟩ sp io tm pa tr =
          mightElimVar ⟨false, false, false, false⟩ sp io tm pa tr := rfl
      by_cases hcc : mightElimVar ⟨false, false, false, false⟩ sp io tm pa tr = true
      · rw [if_pos hcc, if_pos (by rw [hmev]; exact hcc)]
        rcases hA3 : rcC ⟨false, false, false, false⟩ orig nx
            { sA2 with uses := pinUses sp sA2.modp (checkAll i d c sA2.uses),
                       varsp := sA2.varsp ++ [i] } with ⟨nxA, sA3⟩
        rcases hB3 : rcC ⟨false, true, false, false⟩ orig nx
            { sB2 with uses := pinUses sp sB2.modp (checkAll i d c sB2.uses),
                       varsp := sB2.varsp ++ [i] } with ⟨nxB, sB3⟩
        have ih3 := rcC_dtEq orig nx
            { sA2 with uses := pinUses sp sA2.modp (checkAll i d c sA2.uses),
                       varsp := sA2.varsp ++ [i] }
            { sB2 with uses := pinUses sp sB2.modp (checkAll i d c sB2.uses),
                       varsp := sB2.varsp ++ [i] }
            (scrubD_upd_usesVarsp ih2.2
              (by rw [scrubD_modp ih2.2, scrubD_uses ih2.2])
              (by rw [scrubD_varsp ih2.2]))
        rw [hA3, hB3] at ih3
        try dsimp only at ih3
        try dsimp only
        rw [ih1.1, ih2.1, ih3.1]
        exact ⟨rfl, ih3.2⟩
      · rw [if_neg hcc, if_neg (by rw [hmev]; exact hcc)]
        rcases hA3 : rcC ⟨false, false, false, false⟩ orig nx
            { sA2 with uses := pinUses sp sA2.modp (checkAll i d c sA2.uses) } with ⟨nxA, sA3⟩
        rcases hB3 : rcC ⟨false, true, false, false⟩ orig nx
            { sB2 with uses := pinUses sp sB2.modp (checkAll i d c sB2.uses) } with ⟨nxB, sB3⟩
        have ih3 := rcC_dtEq orig nx
            { sA2 with uses := pinUses sp sA2.modp (checkAll i d c sA2.uses) }
            { sB2 with uses := pinUses sp sB2.modp (checkAll i d c sB2.uses) }
            (scrubD_upd_uses ih2.2 (by rw [scrubD_modp ih2.2, scrubD_uses ih2.2]))
        rw [hA3, hB3] at ih3
        try dsimp only at ih3
        try dsimp only
        rw [ih1.1, ih2.1, ih3.1]
        exact ⟨rfl, ih3.2⟩
    | assign =>
      simp only [rcC]
      rcases hA1 : rcC ⟨false, false, false, false⟩ orig sb
          { s1 with sideEffect := false } with ⟨sbA, sA1⟩
      rcases hB1 : rcC ⟨false, true, false, false⟩ orig sb
          { s2 with sideEffect := false } with ⟨sbB, sB1⟩
      have ih1 := rcC_dtEq orig sb { s1 with sideEffect := false }
          { s2 with sideEffect := false } (scrubD_upd_se h rfl)
      rw [hA1, hB1] at ih1
      try dsimp only at ih1
      rcases hL : lhsRec sb2 with _ | ⟨li, lvs, ld, lc⟩
      · try dsimp only
        rcases hA2 : rcC ⟨false, false, false, false⟩ orig sb2
            { sA1 with uses := checkAll i d c sA1.uses } with ⟨sb2A, sA2⟩
        rcases hB2 : rcC ⟨false, true, false, false⟩ orig sb2
            { sB1 with uses := checkAll i d c sB1.uses } with ⟨sb2B, sB2⟩
        have ih2 := rcC_dtEq orig sb2 { sA1 with uses := checkAll i d c sA1.uses }
            { sB1 with uses := checkAll i d c sB1.uses }
            (scrubD_upd_uses ih1.2 (by rw [scrubD_uses ih1.2]))
        rw [hA2, hB2] at ih2
        try dsimp only at ih2
        rcases hA3 : rcC ⟨false, false, false, false⟩ orig nx
            { sA2 with uses := checkAll i d c sA2.uses } with ⟨nxA, sA3⟩
        rcases hB3 : rcC ⟨false, true, false, false⟩ orig nx
            { sB2 with uses := checkAll i d c sB2.uses } with ⟨nxB, sB3⟩
        have ih3 := rcC_dtEq orig nx { sA2 with uses := checkAll i d c sA2.uses }
            { sB2 with uses := checkAll i d c sB2.uses }
            (scrubD_upd_uses ih2.2 (by rw [scrubD_uses ih2.2]))
        rw [hA3, hB3] at ih3
        try dsimp only at ih3
        try dsimp only
        rw [ih1.1, ih2.1, ih3.1]
        exact ⟨rfl, ih3.2⟩
      · try dsimp only
        have hse : sA1.sideEffect = sB1.sideEffect := scrubD_se ih1.2
        by_cases hsec : (!sA1.sideEffect) = true
        · rw [if_pos hsec, if_pos (by rw [← hse]; exact hsec)]
          rcases hA3 : rcC ⟨false, false, false, false⟩ orig nx
              { sA1 with uses := checkAll i d c (checkAll li ld lc (checkAll i d c sA1.uses)),
                         assignMap := sA1.assignMap ++ [(lvs, i)] } with ⟨nxA, sA3⟩
          rcases hB3 : rcC ⟨false, true, false, false⟩ orig nx
              { sB1 with uses := checkAll i d c (checkAll li ld lc (checkAll i d c sB1.uses)),
                         assignMap := sB1.assignMap ++ [(lvs, i)] } with ⟨nxB, sB3⟩
          have ih3 := rcC_dtEq orig nx
              { sA1 with uses := checkAll i d c (checkAll li ld lc (checkAll i d c sA1.uses)),
                         assignMap := sA1.assignMap ++ [(lvs, i)] }
              { sB1 with uses := checkAll i d c (checkAll li ld lc (checkAll i d c sB1.uses)),
                         assignMap := sB1.assignMap ++ [(lvs, i)] }
              (scrubD_upd_usesAm ih1.2 (by rw [scrubD_uses ih1.2])
                (by rw [scrubD_am ih1.2]))
          rw [hA3, hB3] at ih3
          try dsimp only at ih3
          try dsimp only
          rw [ih1.1, ih3.1]
          exact ⟨rfl, ih3.2⟩
        · rw [if_neg hsec, if_neg (by rw [← hse]; exact hsec)]
          rcases hA2 : rcC ⟨false, false, false, false⟩ orig sb2
              { sA1 with uses := checkAll i d c sA1.uses } with ⟨sb2A, sA2⟩
          rcases hB2 : rcC ⟨false, true, false, false⟩ orig sb2
              { sB1 with uses := checkAll i d c sB1.uses } with ⟨sb2B, sB2⟩
          have ih2 := rcC_dtEq orig sb2 { sA1 with uses := checkAll i d c sA1.uses }
              { sB1 with uses := checkAll i d c sB1.uses }
              (scrubD_upd_uses ih1.2 (by rw [scrubD_uses ih1.2]))
          rw [hA2, hB2] at ih2
          try dsimp only at ih2
          rcases hA3 : rcC ⟨false, false, false, false⟩ orig nx
              { sA2 with uses := checkAll i d c sA2.uses } with ⟨nxA, sA3⟩
          rcases hB3 : rcC ⟨false, true, false, false⟩ orig nx
              { sB2 with uses := checkAll i d c sB2.uses } with ⟨nxB, sB3⟩
          have ih3 := rcC_dtEq orig nx { sA2 with uses := checkAll i d c sA2.uses }
              { sB2 with uses := checkAll i d c sB2.uses }
              (scrubD_upd_uses ih2.2 (by rw [scrubD_uses ih2.2]))
          rw [hA3, hB3] at ih3
          try dsimp only at ih3
          try dsimp only
          rw [ih1.1, ih2.1, ih3.1]
          exact ⟨rfl, ih3.2⟩
    | other outp mth =>
      simp only [rcC]
      by_cases ho : outp = true
      · rw [if_pos ho, if_pos ho]
        rcases hA1 : rcC ⟨false, false, false, false⟩ orig sb
            { s1 with sideEffect := true } with ⟨sbA, sA1⟩
        rcases hB1 : rcC ⟨false, true, false, false⟩ orig sb
            { s2 with sideEffect := true } with ⟨sbB, sB1⟩
        have ih1 := rcC_dtEq orig sb { s1 with sideEffect := true }
            { s2 with sideEffect := true } (scrubD_upd_se h rfl)
        rw [hA1, hB1] at ih1
        try dsimp only at ih1
        rcases hA2 : rcC ⟨false, false, false, false⟩ orig sb2 sA1 with ⟨sb2A, sA2⟩
        rcases hB2 : rcC ⟨false, true, false, false⟩ orig sb2 sB1 with ⟨sb2B, sB2⟩
        have ih2 := rcC_dtEq orig sb2 sA1 sB1 ih1.2
        rw [hA2, hB2] at ih2
        try dsimp only at ih2
        rcases hA3 : rcC ⟨false, false, false, false⟩ orig nx
            { sA2 with uses := checkAll i d c sA2.uses } with ⟨nxA, sA3⟩
        rcases hB3 : rcC ⟨false, true, false, false⟩ orig nx
            { sB2 with uses := checkAll i d c sB2.uses } with ⟨nxB, sB3⟩
        have ih3 := rcC_dtEq orig nx { sA2 with uses := checkAll i d c sA2.uses }
            { sB2 with uses := checkAll i d c sB2.uses }
            (scrubD_upd_uses ih2.2 (by rw [scrubD_uses ih2.2]))
        rw [hA3, hB3] at ih3
        try dsimp only at ih3
        try dsimp only
        rw [ih1.1, ih2.1, ih3.1]
        exact ⟨rfl, ih3.2⟩
      · rw [if_neg ho, if_neg ho]
        rcases hA1 : rcC ⟨false, false, false, false⟩ orig sb s1 with ⟨sbA, sA1⟩
        rcases hB1 : rcC ⟨false, true, false, false⟩ orig sb s2 with ⟨sbB, sB1⟩
        have ih1 := rcC_dtEq orig sb s1 s2 h
        rw [hA1, hB1] at ih1
        try dsimp only at ih1
        rcases hA2 : rcC ⟨false, false, false, false⟩ orig sb2 sA1 with ⟨sb2A, sA2⟩
        rcases hB2 : rcC ⟨false, true, false, false⟩ orig sb2 sB1 with ⟨sb2B, sB2⟩
        have ih2 := rcC_dtEq orig sb2 sA1 sB1 ih1.2
        rw [hA2, hB2] at ih2
        try dsimp only at ih2
        rcases hA3 : rcC ⟨false, false, false, false⟩ orig nx
            { sA2 with uses := checkAll i d c sA2.uses } with ⟨nxA, sA3⟩
        rcases hB3 : rcC ⟨false, true, false, false⟩ orig nx
            { sB2 with uses := checkAll i d c sB2.uses } with ⟨nxB, sB3⟩
        have ih3 := rcC_dtEq orig nx { sA2 with uses := checkAll i d c sA2.uses }
            { sB2 with uses := checkAll i d c sB2.uses }
            (scrubD_upd_uses ih2.2 (by rw [scrubD_uses ih2.2]))
        rw [hA3, hB3] at ih3
        try dsimp only at ih3
        try dsimp only
        rw [ih1.1, ih2.1, ih3.1]
        exact ⟨rfl, ih3.2⟩

end V3Dead

namespace V3Dead

theorem eq_of_scrubD_eq {s1 s2 : St} (h : scrubD s1 = scrubD s2)
    (hd : s1.dtypesp = s2.dtypesp) : s1 = s2 := by
  obtain ⟨c1, c2, c3, c4, c5, c6, c7, c8, c9, c10⟩ := scrubD_iff.mp h
  cases s1
  cases s2
  simp only [St.mk.injEq]
  exact ⟨c1, c2, hd, c3, c4, c5, c6, c7, c8, c9, c10⟩

end V3Dead

namespace V3Dead

/-- Counterexample netlist for C5: module 2 (level 3, unreferenced)
holds an eligible dtype (id 3) whose subtree contains a cell (id 5)
instantiating module 4.  `dead_modules` keeps the dtype, so deleting
module 2 lets `DeadModVisitor` find the cell and decrement module 4
to zero, which the same sweep then deletes; `dead_dtypes` deletes the
dtype (and the cell inside it) first without any fix-up, so module 4
keeps the cell's count and survives. -/
def tC5 : Tree :=
  .node 1 .netlist none none
    (.node 2 (.module 3 false false) none none
      (.node 3 (.dtype false false false none) none none
        (.node 5 (.cell 4) none none .nil .nil .nil) .nil .nil)
      .nil
      (.node 4 (.module 3 false false) none none .nil .nil .nil))
    .nil .nil

theorem C5_counterexample :
    4 ∈ (deadifyModules tC5).2.deletedIds ∧
    4 ∉ (deadifyDTypes tC5).2.deletedIds := by
  constructor
  · decide
  · decide

/-- C5: the deleted-entity sets of the entry points are not ordered by
inclusion (`C5_counterexample`: `dead_modules` deletes module 4, while
the allegedly-superset `dead_dtypes` keeps it).  What does hold is
that the `dead_modules` and `dead_dtypes` traversals agree on the
rebuilt tree and on every state component except the dtype candidate
list (`rcC_dtEq`), so whenever the `dead_dtypes` invocation collects
no dtype candidate its dtype sweep is a no-op and the two invocations
return identical trees, states and deletion sets. -/
theorem C5_amended_modules_vs_dtypes (t : Tree)
    (hM : (rcRun ⟨false, false, false, false⟩ t).2.dtypesp = [])
    (hD : (rcRun ⟨false, true, false, false⟩ t).2.dtypesp = []) :
    deadifyModules t = deadifyDTypes t := by
  have hmain := rcC_dtEq t t initSt initSt rfl
  have h1 : (rcRun ⟨false, false, false, false⟩ t).1 =
      (rcRun ⟨false, true, false, false⟩ t).1 := hmain.1
  have h2 : scrubD (rcRun ⟨false, false, false, false⟩ t).2 =
      scrubD (rcRun ⟨false, true, false, false⟩ t).2 := hmain.2
  have hs : (rcRun ⟨false, false, false, false⟩ t).2 =
      (rcRun ⟨false, true, false, false⟩ t).2 :=
    eq_of_scrubD_eq h2 (hM.trans hD.symm)
  have hrun : rcRun ⟨false, false, false, false⟩ t =
      rcRun ⟨false, true, false, false⟩ t := Prod.ext_iff.mpr ⟨h1, hs⟩
  unfold deadifyModules deadifyDTypes runDead
  rw [hrun]

/-- Witness netlist for the amended C5: a netlist with one top module
and no data types at all. -/
def exC5w : Tree :=
  .node 1 .netlist none none
    (.node 2 (.module 2 false false) none none .nil .nil .nil)
    .nil .nil

theorem C5_witness :
    (rcRun ⟨false, false, false, false⟩ exC5w).2.dtypesp = [] ∧
    (rcRun ⟨false, true, false, false⟩ exC5w).2.dtypesp = [] ∧
    deadifyModules exC5w = deadifyDTypes exC5w :=
  ⟨by decide, by decide, C5_amended_modules_vs_dtypes exC5w (by decide) (by decide)⟩

end V3Dead

namespace V3Dead

/-- Counterexample netlist for C9's survival conclusion: the dead
VarScope (id 3) has one recorded Assign (id 5) whose right-hand side
holds a node (id 6) with a `getChildDTypep()` edge to the dtype
(id 7) owned by that subtree; the dtype's only counted reference is
that edge, so its counter is 1, yet deleting the assign removes it. -/
def tC9 : Tree :=
  .node 1 .netlist none none
    (.node 2 (.module 2 false false) none none
      (.node 3 (.varScope none 4) none none .nil .nil
        (.node 4 (.var false false true false false) none none .nil .nil
          (.node 5 .assign none none
            (.node 6 (.other false false) none (some 7)
              (.node 7 (.dtype false false false none) none none .nil .nil .nil)
              .nil .nil)
            (.node 8 (.varRef (some 4) (some 3) none) none none .nil .nil .nil)
            .nil)))
      .nil .nil)
    .nil .nil

theorem C9_counterexample :
    (rcRun ⟨false, false, false, false⟩ tC9).2.uses 7 = 1 ∧
    7 ∈ (deadifyModules tC9).2.deletedIds ∧
    (deadifyModules tC9).2.uses 7 = 1 := by
  refine ⟨?_, ?_, ?_⟩
  · decide
  · decide
  · decide

end V3Dead
